import Mathlib

/-!
# RISC-V vector kernels of libjpeg-turbo: shallow embedding

The kernels under `simd/rvv_andes` and `simd/rvv` are sequences of RVV
intrinsics.  A vector register group is modelled lane by lane: a lane holds
the mathematical value of its element, every operation wraps (or saturates) to
the width of its element type, and fixed-point rounding follows the `vxrm`
rounding mode, which the kernels take from the environment.

The IDCT kernels request a fixed `vl` (8, 16, 32, 64 lanes); the model assumes
VLEN >= 128 so that each request is granted and every lane read by a slide or a
gather exists.  The colour kernels stride over a row with the vector length
that `vsetvl` grants; their model takes the hardware maximum as a parameter.
-/

namespace RVV

/-- A vector register group: lane index to lane value. -/
abbrev Vec := Nat → Int

/-! ## Machine integers -/

/-- Signed value of the low 8 bits. -/
def wrap8 (x : Int) : Int := (x + 128) % 256 - 128

/-- Signed value of the low 16 bits. -/
def wrap16 (x : Int) : Int := (x + 32768) % 65536 - 32768

/-- Signed value of the low 32 bits. -/
def wrap32 (x : Int) : Int := (x + 2147483648) % 4294967296 - 2147483648

/-- Signed saturation to 8 bits. -/
def sat8 (x : Int) : Int := if x < -128 then -128 else if 127 < x then 127 else x

/-- Signed saturation to 16 bits. -/
def sat16 (x : Int) : Int := if x < -32768 then -32768 else if 32767 < x then 32767 else x

/-- Bit pattern of a signed 16-bit lane. -/
def toBits16 (x : Int) : Nat := (x % 65536).toNat

/-- Signed 16-bit lane with the given bit pattern. -/
def ofBits16 (n : Nat) : Int := wrap16 (n : Int)

/-- Fixed-point rounding mode register `vxrm`. -/
inductive Vxrm where
  | rnu
  | rne
  | rdn
  | rod
  deriving DecidableEq

/-- The `roundoff_signed(v, d)` function of the vector specification:
`(v >> d) + r`, the increment `r` chosen by the rounding mode. -/
def roundoff (m : Vxrm) (v : Int) (d : Nat) : Int :=
  if d = 0 then v
  else
    v / 2 ^ d +
      (match m with
        | Vxrm.rnu => (v / 2 ^ (d - 1)) % 2
        | Vxrm.rne =>
            if (v / 2 ^ (d - 1)) % 2 = 1 ∧ (v % 2 ^ (d - 1) ≠ 0 ∨ (v / 2 ^ d) % 2 = 1)
            then 1 else 0
        | Vxrm.rdn => 0
        | Vxrm.rod => if (v / 2 ^ d) % 2 = 0 ∧ v % 2 ^ d ≠ 0 then 1 else 0)

/-! ## Intrinsics

Lanes at or beyond `vl` are tail lanes; the model sets them to 0.  The LMUL
suffix of an intrinsic does not change its lane-wise meaning and is dropped
from the names. -/

/-- `vle16_v_i16`: unit-stride load of `vl` 16-bit elements from `base + off`. -/
def vle16_v_i16 (base : Nat → Int) (off vl : Nat) : Vec :=
  fun i => if i < vl then base (off + i) else 0

/-- `vle8_v_u8`: unit-stride load of `vl` bytes. -/
def vle8_v_u8 (base : Nat → Int) (vl : Nat) : Vec :=
  fun i => if i < vl then base i else 0

/-- `vmul_vv_i16`: 16-bit product, low half kept. -/
def vmul_vv_i16 (a b : Vec) (vl : Nat) : Vec :=
  fun i => if i < vl then wrap16 (a i * b i) else 0

/-- `vadd_vv_i16`. -/
def vadd_vv_i16 (a b : Vec) (vl : Nat) : Vec :=
  fun i => if i < vl then wrap16 (a i + b i) else 0

/-- `vsub_vv_i16`. -/
def vsub_vv_i16 (a b : Vec) (vl : Nat) : Vec :=
  fun i => if i < vl then wrap16 (a i - b i) else 0

/-- `vsll_vx_i16`: shift left, the amount taken modulo 16. -/
def vsll_vx_i16 (a : Vec) (sh vl : Nat) : Vec :=
  fun i => if i < vl then wrap16 (a i * 2 ^ (sh % 16)) else 0

/-- `vor_vv_i16`: bitwise OR of the 16-bit patterns. -/
def vor_vv_i16 (a b : Vec) (vl : Nat) : Vec :=
  fun i => if i < vl then ofBits16 (toBits16 (a i) ||| toBits16 (b i)) else 0

/-- `vmv_v_v_i16`: copy. -/
def vmv_v_v_i16 (a : Vec) (vl : Nat) : Vec :=
  fun i => if i < vl then a i else 0

/-- `vsmul_vx_i16`: signed saturating fractional multiply,
`sat16 (roundoff (a * x) 15)`. -/
def vsmul_vx_i16 (m : Vxrm) (a : Vec) (x : Int) (vl : Nat) : Vec :=
  fun i => if i < vl then sat16 (roundoff m (a i * x) 15) else 0

/-- `vwmul_vx_i32`: widening product of 16-bit lanes with a 16-bit scalar. -/
def vwmul_vx_i32 (a : Vec) (x : Int) (vl : Nat) : Vec :=
  fun i => if i < vl then wrap32 (a i * x) else 0

/-- `vwmacc_vx_i32`: widening multiply-accumulate, `acc + x * a`. -/
def vwmacc_vx_i32 (acc : Vec) (x : Int) (a : Vec) (vl : Nat) : Vec :=
  fun i => if i < vl then wrap32 (acc i + x * a i) else 0

/-- `vwadd_vv_i32`: widening sum of 16-bit lanes. -/
def vwadd_vv_i32 (a b : Vec) (vl : Nat) : Vec :=
  fun i => if i < vl then wrap32 (a i + b i) else 0

/-- `vwsub_vv_i32`: widening difference of 16-bit lanes. -/
def vwsub_vv_i32 (a b : Vec) (vl : Nat) : Vec :=
  fun i => if i < vl then wrap32 (a i - b i) else 0

/-- `vadd_vv_i32`. -/
def vadd_vv_i32 (a b : Vec) (vl : Nat) : Vec :=
  fun i => if i < vl then wrap32 (a i + b i) else 0

/-- `vsub_vv_i32`. -/
def vsub_vv_i32 (a b : Vec) (vl : Nat) : Vec :=
  fun i => if i < vl then wrap32 (a i - b i) else 0

/-- `vadd_vx_i32`. -/
def vadd_vx_i32 (a : Vec) (x : Int) (vl : Nat) : Vec :=
  fun i => if i < vl then wrap32 (a i + x) else 0

/-- `vsll_vx_i32`: shift left, the amount taken modulo 32. -/
def vsll_vx_i32 (a : Vec) (sh vl : Nat) : Vec :=
  fun i => if i < vl then wrap32 (a i * 2 ^ (sh % 32)) else 0

/-- `vnsra_wx_i16`: narrowing arithmetic shift right of 32-bit lanes, the low
16 bits of the shifted value kept (no rounding, no saturation). -/
def vnsra_wx_i16 (a : Vec) (sh vl : Nat) : Vec :=
  fun i => if i < vl then wrap16 (a i / 2 ^ (sh % 32)) else 0

/-- `vnsra_wx_i8`: narrowing arithmetic shift right of 16-bit lanes, the low
8 bits of the shifted value kept (no rounding, no saturation). -/
def vnsra_wx_i8 (a : Vec) (sh vl : Nat) : Vec :=
  fun i => if i < vl then wrap8 (a i / 2 ^ (sh % 16)) else 0

/-- `vnclip_wx_i8`: narrowing fixed-point clip of 16-bit lanes: rounding shift
right under `vxrm`, then signed saturation to 8 bits. -/
def vnclip_wx_i8 (m : Vxrm) (a : Vec) (sh vl : Nat) : Vec :=
  fun i => if i < vl then sat8 (roundoff m (a i) (sh % 16)) else 0

/-- `vreinterpret_v_i8_u8`: the same 8 bits read as unsigned. -/
def vreinterpret_v_i8_u8 (a : Vec) : Vec := fun i => a i % 256

/-- `vreinterpret_v_i16_u16`: the same 16 bits read as unsigned. -/
def vreinterpret_v_i16_u16 (a : Vec) : Vec := fun i => a i % 65536

/-- `vadd_vx_u8`: unsigned 8-bit add, wrapping. -/
def vadd_vx_u8 (a : Vec) (x : Int) (vl : Nat) : Vec :=
  fun i => if i < vl then (a i + x) % 256 else 0

/-- `vadd_vx_i8`: signed 8-bit add, wrapping. -/
def vadd_vx_i8 (a : Vec) (x : Int) (vl : Nat) : Vec :=
  fun i => if i < vl then wrap8 (a i + x) else 0

/-- `vzext_vf2`: zero extension of unsigned lanes. -/
def vzext_vf2 (a : Vec) (vl : Nat) : Vec := fun i => if i < vl then a i else 0

/-- `vlmul_ext`: the same lanes in a larger register group (the added lanes are
never read before they are written). -/
def vlmul_ext (a : Vec) : Vec := a

/-- `vlmul_trunc`: the low lanes of a register group. -/
def vlmul_trunc (a : Vec) : Vec := a

/-- `vget_v_i16m1` at VLEN = 128: register `index` of a group holds lanes
`8 * index .. 8 * index + 7`. -/
def vget_v_i16m1 (a : Vec) (index : Nat) : Vec := fun i => a (8 * index + i)

/-- `vslideup_vx`: lanes below `offset` keep `dest`, lanes `offset .. vl - 1`
take `src` shifted up by `offset`. -/
def vslideup_vx (dest src : Vec) (offset vl : Nat) : Vec :=
  fun i => if i < vl then (if i < offset then dest i else src (i - offset)) else 0

/-- `vslidedown_vx`: lane `i < vl` takes `src (i + offset)`. -/
def vslidedown_vx (src : Vec) (offset vl : Nat) : Vec :=
  fun i => if i < vl then src (i + offset) else 0

/-- `vrgather_vv`: lane `i < vl` takes `src (index i)`. -/
def vrgather_vv (src index : Vec) (vl : Nat) : Vec :=
  fun i => if i < vl then src (index i).toNat else 0

/-- `vmv_s_x_u16`: scalar into lane 0. -/
def vmv_s_x_u16 (x : Int) (_vl : Nat) : Vec := fun i => if i = 0 then x else 0

/-- `vmv_x_s_u16`: lane 0 as a scalar. -/
def vmv_x_s_u16 (a : Vec) : Int := a 0

/-- `vredor_vs_u16`: lane 0 of the result is the OR of lane 0 of `scalar` with
lanes `0 .. vl - 1` of `a`. -/
def vredor_vs_u16 (a scalar : Vec) (vl : Nat) : Vec :=
  fun i =>
    if i = 0 then
      (((List.range vl).foldl (fun acc k => acc ||| (a k).toNat) (scalar 0).toNat : Nat) : Int)
    else 0

/-- `vse8_v_u8` / `vse16_v_i16`: the `vl` lanes written to a row of memory. -/
def vse_v (a : Vec) (vl : Nat) : Vec := fun i => if i < vl then a i else 0

/-! ## Constants shared by the kernels -/

def DCTSIZE : Nat := 8
def DCTSIZE2 : Nat := 64
def CENTERJSAMPLE : Int := 128

/-! ## Accurate integer IDCT, Andes kernel (`simd/rvv_andes/jidctint-rvv.c`) -/

namespace AndesInt

def CONST_BITS : Nat := 13
def PASS1_BITS : Nat := 2
def DESCALE_P1 : Nat := CONST_BITS - PASS1_BITS
def DESCALE_P2 : Nat := CONST_BITS + PASS1_BITS + 3

def F_0_298 : Int := 2446
def F_0_390 : Int := 3196
def F_0_541 : Int := 4433
def F_0_765 : Int := 6270
def F_0_899 : Int := 7373
def F_1_175 : Int := 9633
def F_1_501 : Int := 12299
def F_1_847 : Int := 15137
def F_1_961 : Int := 16069
def F_2_053 : Int := 16819
def F_2_562 : Int := 20995
def F_3_072 : Int := 25172

def F_1_175_MINUS_1_961 : Int := F_1_175 - F_1_961
def F_1_175_MINUS_0_390 : Int := F_1_175 - F_0_390
def F_0_541_MINUS_1_847 : Int := F_0_541 - F_1_847
def F_3_072_MINUS_2_562 : Int := F_3_072 - F_2_562
def F_0_298_MINUS_0_899 : Int := F_0_298 - F_0_899
def F_1_501_MINUS_0_899 : Int := F_1_501 - F_0_899
def F_2_053_MINUS_2_562 : Int := F_2_053 - F_2_562
def F_0_541_PLUS_0_765 : Int := F_0_541 + F_0_765

/-- The table `idct_islow_consts[]`. -/
def idct_islow_consts : Nat → Int
  | 0 => F_0_899
  | 1 => F_0_541
  | 2 => F_2_562
  | 3 => F_0_298_MINUS_0_899
  | 4 => F_1_501_MINUS_0_899
  | 5 => F_2_053_MINUS_2_562
  | 6 => F_0_541_PLUS_0_765
  | 7 => F_1_175
  | 8 => F_1_175_MINUS_0_390
  | 9 => F_0_541_MINUS_1_847
  | 10 => F_3_072_MINUS_2_562
  | 11 => F_1_175_MINUS_1_961
  | _ => 0

def TRANS_TABLE_U8_SIZE : Nat := 64

/-- The gather table `trans_index8x8_u8[]` (rows 0 1 2 3 7 6 5 4 of the source
block become the columns of the result). -/
def trans_index8x8_u8_list : List Int :=
  [0,  8, 16, 24, 56, 48, 40, 32,
   1,  9, 17, 25, 57, 49, 41, 33,
   2, 10, 18, 26, 58, 50, 42, 34,
   3, 11, 19, 27, 59, 51, 43, 35,
   4, 12, 20, 28, 60, 52, 44, 36,
   5, 13, 21, 29, 61, 53, 45, 37,
   6, 14, 22, 30, 62, 54, 46, 38,
   7, 15, 23, 31, 63, 55, 47, 39]

def trans_index8x8_u8 : Nat → Int := fun i => trans_index8x8_u8_list.getD i 0

/-- The function `jsimd_idct_islow_pass1_regular`: column pass on the eight
coefficient rows, result in `cols_all_i16m8` (rows 0 1 2 3 7 6 5 4, eight
lanes each). -/
def jsimd_idct_islow_pass1_regular (row0 row1 row2 row3 row4 row5 row6 row7
    quant_row0 quant_row1 quant_row2 quant_row3 quant_row4 quant_row5 quant_row6
    quant_row7 : Vec) : Vec :=
  /- Even part -/
  let vl := 8
  let z2_s16 := vmul_vv_i16 row2 quant_row2 vl
  let z3_s16 := vmul_vv_i16 row6 quant_row6 vl
  let tmp2 := vwmul_vx_i32 z2_s16 (idct_islow_consts 1) vl
  let tmp3 := vwmul_vx_i32 z2_s16 (idct_islow_consts 6) vl
  let tmp2 := vwmacc_vx_i32 tmp2 (idct_islow_consts 9) z3_s16 vl
  let tmp3 := vwmacc_vx_i32 tmp3 (idct_islow_consts 1) z3_s16 vl

  let z2_s16 := vmul_vv_i16 row0 quant_row0 vl
  let z3_s16 := vmul_vv_i16 row4 quant_row4 vl
  let tmp0 := vwmul_vx_i32 (vadd_vv_i16 z2_s16 z3_s16 vl) 8192 vl
  let tmp1 := vwmul_vx_i32 (vsub_vv_i16 z2_s16 z3_s16 vl) 8192 vl

  let tmp10 := vadd_vv_i32 tmp0 tmp3 vl
  let tmp13 := vsub_vv_i32 tmp0 tmp3 vl
  let tmp11 := vadd_vv_i32 tmp1 tmp2 vl
  let tmp12 := vsub_vv_i32 tmp1 tmp2 vl

  /- Odd part -/
  let tmp0_s16 := vmul_vv_i16 row7 quant_row7 vl
  let tmp1_s16 := vmul_vv_i16 row5 quant_row5 vl
  let tmp2_s16 := vmul_vv_i16 row3 quant_row3 vl
  let tmp3_s16 := vmul_vv_i16 row1 quant_row1 vl
  let z3_s16 := vadd_vv_i16 tmp0_s16 tmp2_s16 vl
  let z4_s16 := vadd_vv_i16 tmp1_s16 tmp3_s16 vl

  let z3 := vwmul_vx_i32 z3_s16 (idct_islow_consts 11) vl
  let z4 := vwmul_vx_i32 z3_s16 (idct_islow_consts 7) vl
  let z3 := vwmacc_vx_i32 z3 (idct_islow_consts 7) z4_s16 vl
  let z4 := vwmacc_vx_i32 z4 (idct_islow_consts 8) z4_s16 vl

  let tmp0 := vwmul_vx_i32 tmp0_s16 (idct_islow_consts 3) vl
  let tmp1 := vwmul_vx_i32 tmp1_s16 (idct_islow_consts 5) vl
  let tmp2 := vwmul_vx_i32 tmp2_s16 (idct_islow_consts 10) vl
  let tmp3 := vwmul_vx_i32 tmp3_s16 (idct_islow_consts 4) vl

  let tmp0 := vwmacc_vx_i32 tmp0 (-idct_islow_consts 0) tmp3_s16 vl
  let tmp1 := vwmacc_vx_i32 tmp1 (-idct_islow_consts 2) tmp2_s16 vl
  let tmp2 := vwmacc_vx_i32 tmp2 (-idct_islow_consts 2) tmp1_s16 vl
  let tmp3 := vwmacc_vx_i32 tmp3 (-idct_islow_consts 0) tmp0_s16 vl

  let tmp0 := vadd_vv_i32 tmp0 z3 vl
  let tmp1 := vadd_vv_i32 tmp1 z4 vl
  let tmp2 := vadd_vv_i32 tmp2 z3 vl
  let tmp3 := vadd_vv_i32 tmp3 z4 vl

  /- Final output stage: descale and narrow to 16-bit. -/
  /- combine (tmp10, tmp11, tmp12, tmp13) -/
  let tmps_10_11 := vlmul_ext tmp10
  let tmps_10_11 := vslideup_vx tmps_10_11 (vlmul_ext tmp11) 8 16
  let tmps_12_13 := vlmul_ext tmp12
  let tmps_12_13 := vslideup_vx tmps_12_13 (vlmul_ext tmp13) 8 16

  let tmps_10_11_12_13 := vlmul_ext tmps_10_11
  let tmps_10_11_12_13 := vslideup_vx tmps_10_11_12_13 (vlmul_ext tmps_12_13) 16 32

  /- combine (tmp3, tmp2, tmp1, tmp0) -/
  let tmps_3_2 := vlmul_ext tmp3
  let tmps_3_2 := vslideup_vx tmps_3_2 (vlmul_ext tmp2) 8 16
  let tmps_1_0 := vlmul_ext tmp1
  let tmps_1_0 := vslideup_vx tmps_1_0 (vlmul_ext tmp0) 8 16

  let tmps_3_2_1_0 := vlmul_ext tmps_3_2
  let tmps_3_2_1_0 := vslideup_vx tmps_3_2_1_0 (vlmul_ext tmps_1_0) 16 32

  /- col 0, 1, 2, 3 -/
  let tmp_i32m8 := vadd_vv_i32 tmps_10_11_12_13 tmps_3_2_1_0 32
  let tmp_i32m8 := vadd_vx_i32 tmp_i32m8 (2 ^ (DESCALE_P1 - 1)) 32
  let cols_0123_i16m4 := vnsra_wx_i16 tmp_i32m8 DESCALE_P1 32

  /- col 7, 6, 5, 4 -/
  let tmp_i32m8 := vsub_vv_i32 tmps_10_11_12_13 tmps_3_2_1_0 32
  let tmp_i32m8 := vadd_vx_i32 tmp_i32m8 (2 ^ (DESCALE_P1 - 1)) 32
  let cols_7654_i16m4 := vnsra_wx_i16 tmp_i32m8 DESCALE_P1 32

  /- combine vectors -/
  let cols_all_i16m8 := vlmul_ext cols_0123_i16m4
  vslideup_vx cols_all_i16m8 (vlmul_ext cols_7654_i16m4) 32 64

/-- The function `jsimd_idct_islow_pass2_regular`: transpose, row pass, final
descale, level shift and the eight stored output rows (row index to the eight
samples written at `output_buf[row] + output_col`). -/
def jsimd_idct_islow_pass2_regular (vxrm : Vxrm) (cols_all_i16m8 : Vec) : Nat → Vec :=
  /- load transpose look-up table -/
  let vg_reg8 := vle8_v_u8 trans_index8x8_u8 TRANS_TABLE_U8_SIZE

  /- transpose -/
  let trans_all_i16m8 := vrgather_vv cols_all_i16m8
    (vzext_vf2 vg_reg8 TRANS_TABLE_U8_SIZE) TRANS_TABLE_U8_SIZE

  let workspace := vse_v trans_all_i16m8 DCTSIZE2

  /- Even part -/
  let vl := 8
  let z2_s16 := vle16_v_i16 workspace (2 * DCTSIZE) vl
  let z3_s16 := vle16_v_i16 workspace (6 * DCTSIZE) vl

  let tmp2 := vwmul_vx_i32 z2_s16 (idct_islow_consts 1) vl
  let tmp3 := vwmul_vx_i32 z2_s16 (idct_islow_consts 6) vl
  let tmp2 := vwmacc_vx_i32 tmp2 (idct_islow_consts 9) z3_s16 vl
  let tmp3 := vwmacc_vx_i32 tmp3 (idct_islow_consts 1) z3_s16 vl

  let z2_s16 := vle16_v_i16 workspace (0 * DCTSIZE) vl
  let z3_s16 := vle16_v_i16 workspace (4 * DCTSIZE) vl

  let tmp0 := vwmul_vx_i32 (vadd_vv_i16 z2_s16 z3_s16 vl) 8192 vl
  let tmp1 := vwmul_vx_i32 (vsub_vv_i16 z2_s16 z3_s16 vl) 8192 vl

  let tmp10 := vadd_vv_i32 tmp0 tmp3 vl
  let tmp13 := vsub_vv_i32 tmp0 tmp3 vl
  let tmp11 := vadd_vv_i32 tmp1 tmp2 vl
  let tmp12 := vsub_vv_i32 tmp1 tmp2 vl

  /- Odd part -/
  let tmp0_s16 := vle16_v_i16 workspace (7 * DCTSIZE) vl
  let tmp1_s16 := vle16_v_i16 workspace (5 * DCTSIZE) vl
  let tmp2_s16 := vle16_v_i16 workspace (3 * DCTSIZE) vl
  let tmp3_s16 := vle16_v_i16 workspace (1 * DCTSIZE) vl

  let z3_s16 := vadd_vv_i16 tmp0_s16 tmp2_s16 vl
  let z4_s16 := vadd_vv_i16 tmp1_s16 tmp3_s16 vl

  let z3 := vwmul_vx_i32 z3_s16 (idct_islow_consts 11) vl
  let z4 := vwmul_vx_i32 z3_s16 (idct_islow_consts 7) vl
  let z3 := vwmacc_vx_i32 z3 (idct_islow_consts 7) z4_s16 vl
  let z4 := vwmacc_vx_i32 z4 (idct_islow_consts 8) z4_s16 vl

  let tmp0 := vwmul_vx_i32 tmp0_s16 (idct_islow_consts 3) vl
  let tmp1 := vwmul_vx_i32 tmp1_s16 (idct_islow_consts 5) vl
  let tmp2 := vwmul_vx_i32 tmp2_s16 (idct_islow_consts 10) vl
  let tmp3 := vwmul_vx_i32 tmp3_s16 (idct_islow_consts 4) vl

  let tmp0 := vwmacc_vx_i32 tmp0 (-idct_islow_consts 0) tmp3_s16 vl
  let tmp1 := vwmacc_vx_i32 tmp1 (-idct_islow_consts 2) tmp2_s16 vl
  let tmp2 := vwmacc_vx_i32 tmp2 (-idct_islow_consts 2) tmp1_s16 vl
  let tmp3 := vwmacc_vx_i32 tmp3 (-idct_islow_consts 0) tmp0_s16 vl

  let tmp0 := vadd_vv_i32 tmp0 z3 vl
  let tmp1 := vadd_vv_i32 tmp1 z4 vl
  let tmp2 := vadd_vv_i32 tmp2 z3 vl
  let tmp3 := vadd_vv_i32 tmp3 z4 vl

  /- Final output stage: descale and narrow to 8-bit. Clamp to range [0-255]. -/
  /- combine (tmp10, tmp11, tmp12, tmp13) -/
  let tmps_10_11 := vlmul_ext tmp10
  let tmps_10_11 := vslideup_vx tmps_10_11 (vlmul_ext tmp11) 8 16
  let tmps_12_13 := vlmul_ext tmp12
  let tmps_12_13 := vslideup_vx tmps_12_13 (vlmul_ext tmp13) 8 16

  let tmps_10_11_12_13 := vlmul_ext tmps_10_11
  let tmps_10_11_12_13 := vslideup_vx tmps_10_11_12_13 (vlmul_ext tmps_12_13) 16 32

  /- combine (tmp3, tmp2, tmp1, tmp0) -/
  let tmps_3_2 := vlmul_ext tmp3
  let tmps_3_2 := vslideup_vx tmps_3_2 (vlmul_ext tmp2) 8 16
  let tmps_1_0 := vlmul_ext tmp1
  let tmps_1_0 := vslideup_vx tmps_1_0 (vlmul_ext tmp0) 8 16

  let tmps_3_2_1_0 := vlmul_ext tmps_3_2
  let tmps_3_2_1_0 := vslideup_vx tmps_3_2_1_0 (vlmul_ext tmps_1_0) 16 32

  /- col 0, 1, 2, 3 -/
  let tmp_i32m8 := vadd_vv_i32 tmps_10_11_12_13 tmps_3_2_1_0 32
  let tmp_i16m4 := vnsra_wx_i16 tmp_i32m8 16 32
  let tmp_i8m2 := vnclip_wx_i8 vxrm tmp_i16m4 (DESCALE_P2 - 16) 32
  let cols_0123_u8m2 := vreinterpret_v_i8_u8 tmp_i8m2
  let cols_0123_u8m2 := vadd_vx_u8 cols_0123_u8m2 CENTERJSAMPLE 32

  /- col 7, 6, 5, 4 -/
  let tmp_i32m8 := vsub_vv_i32 tmps_10_11_12_13 tmps_3_2_1_0 32
  let tmp_i16m4 := vnsra_wx_i16 tmp_i32m8 16 32
  let tmp_i8m2 := vnclip_wx_i8 vxrm tmp_i16m4 (DESCALE_P2 - 16) 32
  let cols_7654_u8m2 := vreinterpret_v_i8_u8 tmp_i8m2
  let cols_7654_u8m2 := vadd_vx_u8 cols_7654_u8m2 CENTERJSAMPLE 32

  /- combine vectors -/
  let cols_all_u8m4 := vlmul_ext cols_0123_u8m2
  let cols_all_u8m4 := vslideup_vx cols_all_u8m4 (vlmul_ext cols_7654_u8m2) 32 64

  /- transpose -/
  let trans_all_u8m4 := vrgather_vv cols_all_u8m4 vg_reg8 TRANS_TABLE_U8_SIZE

  /- extract columns and store to memory: row k takes lanes 8k .. 8k+7 -/
  fun k => vse_v (vlmul_trunc (vslidedown_vx trans_all_u8m4 (8 * k) vl)) vl

/-- Block order of `cols_all_i16m8` and of the pass-2 result: block `b` holds
row (or column) `order8 b`, that is 0 1 2 3 7 6 5 4. -/
def order8 (b : Nat) : Nat := if b < 4 then b else 11 - b

/-- The shortcut branch of `jsimd_idct_islow_rvv` (`0 == ac_bitmap`): the
dequantized row 0 shifted left by `PASS1_BITS`, eight copies in
`cols_all_i16m8`. -/
def islow_cols_shortcut (row0 quant_row0 : Vec) : Vec :=
  let vl := 8
  let dcval_i16m1 := vmul_vv_i16 row0 quant_row0 vl
  let dcval_i16m1 := vsll_vx_i16 dcval_i16m1 PASS1_BITS vl

  /- combine vectors -/
  let tmp_i16m4 := vlmul_ext dcval_i16m1
  let tmp_i16m4 := vslideup_vx tmp_i16m4 tmp_i16m4 (DCTSIZE2 / 8) (DCTSIZE2 / 4)
  let tmp_i16m4 := vslideup_vx tmp_i16m4 tmp_i16m4 (DCTSIZE2 / 4) (DCTSIZE2 / 2)
  let cols_all_i16m8 := vlmul_ext tmp_i16m4
  vslideup_vx cols_all_i16m8 cols_all_i16m8 (DCTSIZE2 / 2) DCTSIZE2

/-- The scalar `ac_bitmap` of `jsimd_idct_islow_rvv`: the OR of all lanes of
the coefficient rows 1..7. -/
def islow_ac_bitmap (coef_block : Nat → Int) : Int :=
  let vl := 8
  let row1 := vle16_v_i16 coef_block (1 * DCTSIZE) vl
  let row2 := vle16_v_i16 coef_block (2 * DCTSIZE) vl
  let row3 := vle16_v_i16 coef_block (3 * DCTSIZE) vl
  let row4 := vle16_v_i16 coef_block (4 * DCTSIZE) vl
  let row5 := vle16_v_i16 coef_block (5 * DCTSIZE) vl
  let row6 := vle16_v_i16 coef_block (6 * DCTSIZE) vl
  let row7 := vle16_v_i16 coef_block (7 * DCTSIZE) vl
  /- Construct bitmap to test if DCT coefficients are 0. -/
  let vec_zero := vmv_s_x_u16 0 vl
  let bitmap := vor_vv_i16 row7 row6 vl
  let bitmap := vor_vv_i16 bitmap row5 vl
  let bitmap := vor_vv_i16 bitmap row4 vl
  let bitmap := vor_vv_i16 bitmap row3 vl
  let bitmap := vor_vv_i16 bitmap row2 vl
  let bitmap := vor_vv_i16 bitmap row1 vl
  let tmp_u16m1 := vredor_vs_u16 (vreinterpret_v_i16_u16 bitmap) vec_zero vl
  vmv_x_s_u16 tmp_u16m1

/-- The 64-element vector `cols_all_i16m8` that `jsimd_idct_islow_rvv` hands to
the second pass: the rows and the quantization table are loaded and the branch
is chosen on `0 == ac_bitmap`. -/
def islow_cols_all (dct_table coef_block : Nat → Int) : Vec :=
  let quantptr := dct_table
  /- Load DCT coefficients. -/
  let vl := 8
  let row0 := vle16_v_i16 coef_block (0 * DCTSIZE) vl
  let row1 := vle16_v_i16 coef_block (1 * DCTSIZE) vl
  let row2 := vle16_v_i16 coef_block (2 * DCTSIZE) vl
  let row3 := vle16_v_i16 coef_block (3 * DCTSIZE) vl
  let row4 := vle16_v_i16 coef_block (4 * DCTSIZE) vl
  let row5 := vle16_v_i16 coef_block (5 * DCTSIZE) vl
  let row6 := vle16_v_i16 coef_block (6 * DCTSIZE) vl
  let row7 := vle16_v_i16 coef_block (7 * DCTSIZE) vl

  /- Load quantization table. -/
  let quant_row0 := vle16_v_i16 quantptr (0 * DCTSIZE) vl
  let quant_row1 := vle16_v_i16 quantptr (1 * DCTSIZE) vl
  let quant_row2 := vle16_v_i16 quantptr (2 * DCTSIZE) vl
  let quant_row3 := vle16_v_i16 quantptr (3 * DCTSIZE) vl
  let quant_row4 := vle16_v_i16 quantptr (4 * DCTSIZE) vl
  let quant_row5 := vle16_v_i16 quantptr (5 * DCTSIZE) vl
  let quant_row6 := vle16_v_i16 quantptr (6 * DCTSIZE) vl
  let quant_row7 := vle16_v_i16 quantptr (7 * DCTSIZE) vl

  let ac_bitmap := islow_ac_bitmap coef_block
  if 0 = ac_bitmap then
    islow_cols_shortcut row0 quant_row0
  else
    jsimd_idct_islow_pass1_regular row0 row1 row2 row3 row4 row5 row6 row7
      quant_row0 quant_row1 quant_row2 quant_row3 quant_row4 quant_row5
      quant_row6 quant_row7

/-- The block `jsimd_idct_islow_pass1_regular` produces for the given tables
(the else branch of `jsimd_idct_islow_rvv`, taken or not). -/
def islow_cols_regular (dct_table coef_block : Nat → Int) : Vec :=
  let vl := 8
  jsimd_idct_islow_pass1_regular
    (vle16_v_i16 coef_block (0 * DCTSIZE) vl) (vle16_v_i16 coef_block (1 * DCTSIZE) vl)
    (vle16_v_i16 coef_block (2 * DCTSIZE) vl) (vle16_v_i16 coef_block (3 * DCTSIZE) vl)
    (vle16_v_i16 coef_block (4 * DCTSIZE) vl) (vle16_v_i16 coef_block (5 * DCTSIZE) vl)
    (vle16_v_i16 coef_block (6 * DCTSIZE) vl) (vle16_v_i16 coef_block (7 * DCTSIZE) vl)
    (vle16_v_i16 dct_table (0 * DCTSIZE) vl) (vle16_v_i16 dct_table (1 * DCTSIZE) vl)
    (vle16_v_i16 dct_table (2 * DCTSIZE) vl) (vle16_v_i16 dct_table (3 * DCTSIZE) vl)
    (vle16_v_i16 dct_table (4 * DCTSIZE) vl) (vle16_v_i16 dct_table (5 * DCTSIZE) vl)
    (vle16_v_i16 dct_table (6 * DCTSIZE) vl) (vle16_v_i16 dct_table (7 * DCTSIZE) vl)

/-- The function `jsimd_idct_islow_rvv`: dequantization and accurate inverse
DCT of one block; `dct_table` and `coef_block` are the 64-entry tables in
natural order, the result maps an output row to its eight stored samples. -/
def jsimd_idct_islow_rvv (vxrm : Vxrm) (dct_table coef_block : Nat → Int) : Nat → Vec :=
  /- Second pass: compute IDCT on rows in workspace. -/
  jsimd_idct_islow_pass2_regular vxrm (islow_cols_all dct_table coef_block)

end AndesInt

/-! ## Fast integer IDCT, Andes kernel (`simd/rvv_andes/jidctfst-rvv.c`) -/

namespace AndesFst

def PASS1_BITS : Nat := 2

def F_0_082 : Int := 2688
def F_0_414 : Int := 13568
def F_0_847 : Int := 27776
def F_0_613 : Int := 20096

/-- The table `idct_ifast_consts[]`. -/
def idct_ifast_consts : Nat → Int
  | 0 => F_0_082
  | 1 => F_0_414
  | 2 => F_0_847
  | 3 => F_0_613
  | _ => 0

/-- The local gather table `trans_index8x8_u8[]` of `jsimd_idct_ifast_rvv`
(plain 8x8 transpose). -/
def trans_index8x8_u8_list : List Int :=
  [0,  8, 16, 24, 32, 40, 48, 56,
   1,  9, 17, 25, 33, 41, 49, 57,
   2, 10, 18, 26, 34, 42, 50, 58,
   3, 11, 19, 27, 35, 43, 51, 59,
   4, 12, 20, 28, 36, 44, 52, 60,
   5, 13, 21, 29, 37, 45, 53, 61,
   6, 14, 22, 30, 38, 46, 54, 62,
   7, 15, 23, 31, 39, 47, 55, 63]

def trans_index8x8_u8 : Nat → Int := fun i => trans_index8x8_u8_list.getD i 0

/-- The shortcut branch of `jsimd_idct_ifast_rvv` (all AC coefficients zero):
the dequantized row 0 duplicated into `rows_all_i16m8`. -/
def ifast_rows_all_shortcut (row0 : Vec) : Vec :=
  /- combine vectors -/
  let tmp_i16m4 := vlmul_ext row0
  let tmp_i16m4 := vslideup_vx tmp_i16m4 tmp_i16m4 (DCTSIZE2 / 8) (DCTSIZE2 / 4)
  let tmp_i16m4 := vslideup_vx tmp_i16m4 tmp_i16m4 (DCTSIZE2 / 4) (DCTSIZE2 / 2)
  let rows_all_i16m8 := vlmul_ext tmp_i16m4
  vslideup_vx rows_all_i16m8 rows_all_i16m8 (DCTSIZE2 / 2) DCTSIZE2

/-- The else branch of `jsimd_idct_ifast_rvv` (full IDCT calculation): pass 1
on the dequantized row 0 and the raw rows 1..7, result in `rows_all_i16m8`. -/
def ifast_rows_all_full (vxrm : Vxrm) (quantptr : Nat → Int)
    (row0 row1 row2 row3 row4 row5 row6 row7 : Vec) : Vec :=
  let vl := 8
  /- Load quantization table. -/
  let quant_row1 := vle16_v_i16 quantptr (1 * DCTSIZE) vl
  let quant_row2 := vle16_v_i16 quantptr (2 * DCTSIZE) vl
  let quant_row3 := vle16_v_i16 quantptr (3 * DCTSIZE) vl
  let quant_row4 := vle16_v_i16 quantptr (4 * DCTSIZE) vl
  let quant_row5 := vle16_v_i16 quantptr (5 * DCTSIZE) vl
  let quant_row6 := vle16_v_i16 quantptr (6 * DCTSIZE) vl
  let quant_row7 := vle16_v_i16 quantptr (7 * DCTSIZE) vl

  /- Even part: dequantize DCT coefficients. -/
  let tmp0 := vmv_v_v_i16 row0 vl
  let tmp1 := vmul_vv_i16 row2 quant_row2 vl
  let tmp2 := vmul_vv_i16 row4 quant_row4 vl
  let tmp3 := vmul_vv_i16 row6 quant_row6 vl

  let tmp10 := vadd_vv_i16 tmp0 tmp2 vl
  let tmp11 := vsub_vv_i16 tmp0 tmp2 vl
  let tmp13 := vadd_vv_i16 tmp1 tmp3 vl
  let tmp1_sub_tmp3 := vsub_vv_i16 tmp1 tmp3 vl
  let tmp12 := vsmul_vx_i16 vxrm tmp1_sub_tmp3 (idct_ifast_consts 1) vl
  let tmp12 := vadd_vv_i16 tmp12 tmp1_sub_tmp3 vl
  let tmp12 := vsub_vv_i16 tmp12 tmp13 vl

  let tmp0 := vadd_vv_i16 tmp10 tmp13 vl
  let tmp3 := vsub_vv_i16 tmp10 tmp13 vl
  let tmp1 := vadd_vv_i16 tmp11 tmp12 vl
  let tmp2 := vsub_vv_i16 tmp11 tmp12 vl

  /- Odd part: dequantize DCT coefficients. -/
  let tmp4 := vmul_vv_i16 (vmv_v_v_i16 row1 vl) quant_row1 vl
  let tmp5 := vmul_vv_i16 (vmv_v_v_i16 row3 vl) quant_row3 vl
  let tmp6 := vmul_vv_i16 (vmv_v_v_i16 row5 vl) quant_row5 vl
  let tmp7 := vmul_vv_i16 (vmv_v_v_i16 row7 vl) quant_row7 vl

  let z13 := vadd_vv_i16 tmp5 tmp6 vl
  let neg_z10 := vsub_vv_i16 tmp5 tmp6 vl
  let z11 := vadd_vv_i16 tmp4 tmp7 vl
  let z12 := vsub_vv_i16 tmp4 tmp7 vl

  let tmp7 := vadd_vv_i16 z11 z13 vl
  let z11_sub_z13 := vsub_vv_i16 z11 z13 vl
  let tmp11 := vsmul_vx_i16 vxrm z11_sub_z13 (idct_ifast_consts 1) vl
  let tmp11 := vadd_vv_i16 tmp11 z11_sub_z13 vl

  let z10_add_z12 := vsub_vv_i16 z12 neg_z10 vl
  let z5 := vsmul_vx_i16 vxrm z10_add_z12 (idct_ifast_consts 2) vl
  let z5 := vadd_vv_i16 z5 z10_add_z12 vl

  let tmp10 := vsmul_vx_i16 vxrm z12 (idct_ifast_consts 0) vl
  let tmp10 := vadd_vv_i16 tmp10 z12 vl
  let tmp10 := vsub_vv_i16 tmp10 z5 vl

  let tmp12 := vsmul_vx_i16 vxrm neg_z10 (idct_ifast_consts 3) vl
  let tmp_neg_z10_d := vadd_vv_i16 neg_z10 neg_z10 vl
  let tmp12 := vadd_vv_i16 tmp12 tmp_neg_z10_d vl
  let tmp12 := vadd_vv_i16 tmp12 z5 vl

  let tmp6 := vsub_vv_i16 tmp12 tmp7 vl
  let tmp5 := vsub_vv_i16 tmp11 tmp6 vl
  let tmp4 := vadd_vv_i16 tmp10 tmp5 vl

  let row0 := vadd_vv_i16 tmp0 tmp7 vl
  let row7 := vsub_vv_i16 tmp0 tmp7 vl
  let row1 := vadd_vv_i16 tmp1 tmp6 vl
  let row6 := vsub_vv_i16 tmp1 tmp6 vl
  let row2 := vadd_vv_i16 tmp2 tmp5 vl
  let row5 := vsub_vv_i16 tmp2 tmp5 vl
  let row4 := vadd_vv_i16 tmp3 tmp4 vl
  let row3 := vsub_vv_i16 tmp3 tmp4 vl
  /- the source never reads `row3` again: slot 3 below is filled from `row2` -/
  let _unread := row3

  /- combine vectors -/
  let rows_0123_i16m4 := vlmul_ext row0
  let rows_0123_i16m4 := vslideup_vx rows_0123_i16m4 (vlmul_ext row1) 8 32
  let rows_0123_i16m4 := vslideup_vx rows_0123_i16m4 (vlmul_ext row2) 16 32
  let rows_0123_i16m4 := vslideup_vx rows_0123_i16m4 (vlmul_ext row2) 24 32

  let rows_4567_i16m4 := vlmul_ext row4
  let rows_4567_i16m4 := vslideup_vx rows_4567_i16m4 (vlmul_ext row5) 8 32
  let rows_4567_i16m4 := vslideup_vx rows_4567_i16m4 (vlmul_ext row6) 16 32
  let rows_4567_i16m4 := vslideup_vx rows_4567_i16m4 (vlmul_ext row7) 24 32

  let rows_all_i16m8 := vlmul_ext rows_0123_i16m4
  vslideup_vx rows_all_i16m8 (vlmul_ext rows_4567_i16m4) 32 64

/-- The part of `jsimd_idct_ifast_rvv` after the branch: transpose, pass 2,
scale down by 8 with saturation, level shift, transpose back and the eight
stored rows. -/
def ifast_pass2 (vxrm : Vxrm) (rows_all_i16m8 : Vec) : Nat → Vec :=
  let vl := 8
  /- load transpose look-up table -/
  let vg_reg8 := vle8_v_u8 trans_index8x8_u8 DCTSIZE2

  /- interpret to u16 and transpose -/
  let vg_reg16 := vrgather_vv rows_all_i16m8 (vzext_vf2 vg_reg8 DCTSIZE2) DCTSIZE2
  let workspace := vse_v vg_reg16 DCTSIZE2
  let col0 := vle16_v_i16 workspace (8 * 0) vl
  let col1 := vle16_v_i16 workspace (8 * 1) vl
  let col2 := vle16_v_i16 workspace (8 * 2) vl
  let col3 := vle16_v_i16 workspace (8 * 3) vl
  let col4 := vle16_v_i16 workspace (8 * 4) vl
  let col5 := vle16_v_i16 workspace (8 * 5) vl
  let col6 := vle16_v_i16 workspace (8 * 6) vl
  let col7 := vle16_v_i16 workspace (8 * 7) vl

  /- 1-D IDCT, pass 2 -/

  /- Even part -/
  let tmp10 := vadd_vv_i16 col0 col4 vl
  let tmp11 := vsub_vv_i16 col0 col4 vl
  let tmp13 := vadd_vv_i16 col2 col6 vl
  let col2_sub_col6 := vsub_vv_i16 col2 col6 vl
  let tmp12 := vsmul_vx_i16 vxrm col2_sub_col6 (idct_ifast_consts 1) vl
  let tmp12 := vadd_vv_i16 tmp12 col2_sub_col6 vl
  let tmp12 := vsub_vv_i16 tmp12 tmp13 vl

  let tmp0 := vadd_vv_i16 tmp10 tmp13 vl
  let tmp3 := vsub_vv_i16 tmp10 tmp13 vl
  let tmp1 := vadd_vv_i16 tmp11 tmp12 vl
  let tmp2 := vsub_vv_i16 tmp11 tmp12 vl

  /- Odd part -/
  let z13 := vadd_vv_i16 col5 col3 vl
  let neg_z10 := vsub_vv_i16 col3 col5 vl
  let z11 := vadd_vv_i16 col1 col7 vl
  let z12 := vsub_vv_i16 col1 col7 vl

  let tmp7 := vadd_vv_i16 z11 z13 vl
  let z11_sub_z13 := vsub_vv_i16 z11 z13 vl
  let tmp11 := vsmul_vx_i16 vxrm z11_sub_z13 (idct_ifast_consts 1) vl
  let tmp11 := vadd_vv_i16 tmp11 z11_sub_z13 vl

  let z10_add_z12 := vsub_vv_i16 z12 neg_z10 vl
  let z5 := vsmul_vx_i16 vxrm z10_add_z12 (idct_ifast_consts 2) vl
  let z5 := vadd_vv_i16 z5 z10_add_z12 vl

  let tmp10 := vsmul_vx_i16 vxrm z12 (idct_ifast_consts 0) vl
  let tmp10 := vadd_vv_i16 tmp10 z12 vl
  let tmp10 := vsub_vv_i16 tmp10 z5 vl

  let tmp12 := vsmul_vx_i16 vxrm neg_z10 (idct_ifast_consts 3) vl
  let tmp_neg_z10_d := vadd_vv_i16 neg_z10 neg_z10 vl
  let tmp12 := vadd_vv_i16 tmp12 tmp_neg_z10_d vl
  let tmp12 := vadd_vv_i16 tmp12 z5 vl

  let tmp6 := vsub_vv_i16 tmp12 tmp7 vl
  let tmp5 := vsub_vv_i16 tmp11 tmp6 vl
  let tmp4 := vadd_vv_i16 tmp10 tmp5 vl

  let col0 := vadd_vv_i16 tmp0 tmp7 vl
  let col7 := vsub_vv_i16 tmp0 tmp7 vl
  let col1 := vadd_vv_i16 tmp1 tmp6 vl
  let col6 := vsub_vv_i16 tmp1 tmp6 vl
  let col2 := vadd_vv_i16 tmp2 tmp5 vl
  let col5 := vsub_vv_i16 tmp2 tmp5 vl
  let col4 := vadd_vv_i16 tmp3 tmp4 vl
  let col3 := vsub_vv_i16 tmp3 tmp4 vl

  /- Scale down by a factor of 8, narrowing to 8-bit. Clamp to range [0-255]. -/
  let i16m4_col0123 := vlmul_ext col0
  let i16m4_col0123 := vslideup_vx i16m4_col0123 (vlmul_ext col1) 8 16
  let i16m4_col0123 := vslideup_vx i16m4_col0123 (vlmul_ext col2) 16 24
  let i16m4_col0123 := vslideup_vx i16m4_col0123 (vlmul_ext col3) 24 32
  let tmp_i8m2 := vnclip_wx_i8 vxrm i16m4_col0123 (PASS1_BITS + 3) 32
  let u8m2_col0123 := vreinterpret_v_i8_u8 tmp_i8m2
  let u8m2_col0123 := vadd_vx_u8 u8m2_col0123 CENTERJSAMPLE 32

  let i16m4_col4567 := vlmul_ext col4
  let i16m4_col4567 := vslideup_vx i16m4_col4567 (vlmul_ext col5) 8 16
  let i16m4_col4567 := vslideup_vx i16m4_col4567 (vlmul_ext col6) 16 24
  let i16m4_col4567 := vslideup_vx i16m4_col4567 (vlmul_ext col7) 24 32
  let tmp_i8m2 := vnclip_wx_i8 vxrm i16m4_col4567 (PASS1_BITS + 3) 32
  let u8m2_col4567 := vreinterpret_v_i8_u8 tmp_i8m2
  let u8m2_col4567 := vadd_vx_u8 u8m2_col4567 CENTERJSAMPLE 32

  let u8m4_col_all := vlmul_ext u8m2_col0123
  let u8m4_col_all := vslideup_vx u8m4_col_all (vlmul_ext u8m2_col4567) 32 64

  /- Transpose block to prepare for store. -/
  let u8m4_trans_all := vrgather_vv u8m4_col_all vg_reg8 DCTSIZE2

  /- extract columns and store: row k takes lanes 8k .. 8k+7 -/
  fun k => vse_v (vlmul_trunc (vslidedown_vx u8m4_trans_all (8 * k) vl)) vl

/-- The 64-element vector `rows_all_i16m8` that `jsimd_idct_ifast_rvv` hands to
the transpose: row 0 is dequantized, the AC rows are OR-ed into `ac_bitmap`,
and the branch is chosen on `0 == ac_bitmap`. -/
def ifast_rows_all (vxrm : Vxrm) (dct_table coef_block : Nat → Int) : Vec :=
  let quantptr := dct_table
  /- Load DCT coefficients. -/
  let vl := 8
  let row0 := vle16_v_i16 coef_block (0 * DCTSIZE) vl
  let row1 := vle16_v_i16 coef_block (1 * DCTSIZE) vl
  let row2 := vle16_v_i16 coef_block (2 * DCTSIZE) vl
  let row3 := vle16_v_i16 coef_block (3 * DCTSIZE) vl
  let row4 := vle16_v_i16 coef_block (4 * DCTSIZE) vl
  let row5 := vle16_v_i16 coef_block (5 * DCTSIZE) vl
  let row6 := vle16_v_i16 coef_block (6 * DCTSIZE) vl
  let row7 := vle16_v_i16 coef_block (7 * DCTSIZE) vl

  /- Load quantization table values for DC coefficients. -/
  let quant_row0 := vle16_v_i16 quantptr (0 * DCTSIZE) vl

  /- Dequantize DC coefficients. -/
  let row0 := vmul_vv_i16 row0 quant_row0 vl

  /- Construct bitmap to test if all AC coefficients are 0. -/
  let bitmap := vor_vv_i16 row1 row2 vl
  let bitmap := vor_vv_i16 bitmap row3 vl
  let bitmap := vor_vv_i16 bitmap row4 vl
  let bitmap := vor_vv_i16 bitmap row5 vl
  let bitmap := vor_vv_i16 bitmap row6 vl
  let bitmap := vor_vv_i16 bitmap row7 vl

  let vec_zero := vmv_s_x_u16 0 vl
  let tmp_u16m1 := vreinterpret_v_i16_u16 bitmap
  let ac_bitmap := vmv_x_s_u16 (vredor_vs_u16 tmp_u16m1 vec_zero vl)

  if 0 = ac_bitmap then
    ifast_rows_all_shortcut row0
  else
    ifast_rows_all_full vxrm quantptr row0 row1 row2 row3 row4 row5 row6 row7

/-- The function `jsimd_idct_ifast_rvv`: the result maps an output row to its
eight stored samples. -/
def jsimd_idct_ifast_rvv (vxrm : Vxrm) (dct_table coef_block : Nat → Int) : Nat → Vec :=
  ifast_pass2 vxrm (ifast_rows_all vxrm dct_table coef_block)

end AndesFst

/-! ## Reduced-size IDCT, Andes kernels (`simd/rvv_andes/jidctred-rvv.c`) -/

namespace AndesRed

def CONST_BITS : Nat := 13
def PASS1_BITS : Nat := 2

def F_0_211 : Int := 1730
def F_0_509 : Int := 4176
def F_0_601 : Int := 4926
def F_0_720 : Int := 5906
def F_0_765 : Int := 6270
def F_0_850 : Int := 6967
def F_0_899 : Int := 7373
def F_1_061 : Int := 8697
def F_1_272 : Int := 10426
def F_1_451 : Int := 11893
def F_1_847 : Int := 15137
def F_2_172 : Int := 17799
def F_2_562 : Int := 20995
def F_3_624 : Int := 29692

/-- The table `jsimd_idct_2x2_consts[]`. -/
def jsimd_idct_2x2_consts : Nat → Int
  | 0 => -F_0_720
  | 1 => F_0_850
  | 2 => -F_1_272
  | 3 => F_3_624
  | _ => 0

/-- The local table `trans_index_tab_u8[16]` of `jsimd_idct_2x2_rvv`; entries
10..13 are the output transpose order. -/
def trans_index_tab_u8_list : List Int :=
  [0,  8,
   1,  9,
   3, 11,
   5, 13,
   7, 15,
   0,  2,
   1,  3,
   0,  0]

def trans_index_tab_u8 : Nat → Int := fun i => trans_index_tab_u8_list.getD i 0

/-- First half of `jsimd_idct_2x2_rvv`: loads, dequantization and pass 1 on
the columns; the result is the combined vector `m2_row0` (pass-1 row 0 in
lanes 0..7, pass-1 row 1 in lanes 8..15). -/
def idct_2x2_rows (dct_table coef_block : Nat → Int) : Vec :=
  let quantptr := dct_table

  /- Load DCT coefficients. -/
  let vl := 8
  let row0 := vle16_v_i16 coef_block (0 * DCTSIZE) vl
  let row1 := vle16_v_i16 coef_block (1 * DCTSIZE) vl
  let row3 := vle16_v_i16 coef_block (3 * DCTSIZE) vl
  let row5 := vle16_v_i16 coef_block (5 * DCTSIZE) vl
  let row7 := vle16_v_i16 coef_block (7 * DCTSIZE) vl

  /- Load quantization table values. -/
  let quant_row0 := vle16_v_i16 quantptr (0 * DCTSIZE) vl
  let quant_row1 := vle16_v_i16 quantptr (1 * DCTSIZE) vl
  let quant_row3 := vle16_v_i16 quantptr (3 * DCTSIZE) vl
  let quant_row5 := vle16_v_i16 quantptr (5 * DCTSIZE) vl
  let quant_row7 := vle16_v_i16 quantptr (7 * DCTSIZE) vl

  /- Dequantize DCT coefficients. -/
  let row0 := vmul_vv_i16 row0 quant_row0 vl
  let row1 := vmul_vv_i16 row1 quant_row1 vl
  let row3 := vmul_vv_i16 row3 quant_row3 vl
  let row5 := vmul_vv_i16 row5 quant_row5 vl
  let row7 := vmul_vv_i16 row7 quant_row7 vl

  /- Pass 1: process columns from input, put results in vectors row0 and row1. -/

  /- Even part -/
  let tmp10 := vwmul_vx_i32 row0 8192 vl
  let tmp10 := vsll_vx_i32 tmp10 2 vl

  /- Odd part -/
  let tmp0 := vwmul_vx_i32 row1 (jsimd_idct_2x2_consts 3) vl
  let tmp0 := vwmacc_vx_i32 tmp0 (jsimd_idct_2x2_consts 2) row3 vl
  let tmp0 := vwmacc_vx_i32 tmp0 (jsimd_idct_2x2_consts 1) row5 vl
  let tmp0 := vwmacc_vx_i32 tmp0 (jsimd_idct_2x2_consts 0) row7 vl

  /- Final output stage: descale and narrow to 16-bit. -/
  let tmp_tt := vadd_vv_i32 tmp10 tmp0 vl
  let tmp_tt := vadd_vx_i32 tmp_tt (2 ^ (CONST_BITS - 1)) vl
  let row0 := vnsra_wx_i16 tmp_tt CONST_BITS vl

  let tmp_tt := vsub_vv_i32 tmp10 tmp0 vl
  let tmp_tt := vadd_vx_i32 tmp_tt (2 ^ (CONST_BITS - 1)) vl
  let row1 := vnsra_wx_i16 tmp_tt CONST_BITS vl

  /- Transpose two rows, ready for second pass. -/

  /- extend m1 to m2 -/
  let m2_row0 := vlmul_ext row0

  /- combine -/
  let m2_row0 := vslideup_vx m2_row0 (vlmul_ext row1) 8 16
  m2_row0

/-- Second half of `jsimd_idct_2x2_rvv`: transpose of the two rows, pass 2,
descale, clamp, level shift and the two stored rows. -/
def idct_2x2_pass2 (vxrm : Vxrm) (m2_row0 : Vec) : Nat → Vec :=
  /- load transpose look-up table -/
  let vg_reg8 := vle8_v_u8 trans_index_tab_u8 16

  /- saved for output index -/
  let index_order_u8m1 := vslidedown_vx vg_reg8 10 4

  /- interpret to u16 and transpose -/
  let vg_reg16 := vrgather_vv m2_row0 (vzext_vf2 vg_reg8 10) 10

  /- extract columns -/
  let vl := 2
  let col0 := vget_v_i16m1 vg_reg16 0
  let col1 := vslidedown_vx col0 2 vl
  let col3 := vslidedown_vx col0 4 vl
  let col5 := vslidedown_vx col0 6 vl

  let slidedown_m2 := vslidedown_vx vg_reg16 8 vl
  let col7 := vlmul_trunc slidedown_m2

  /- Pass 2: process two rows, store to output array. -/

  /- Even part -/
  let tmp10 := vwmul_vx_i32 col0 8192 vl
  let tmp10 := vsll_vx_i32 tmp10 2 vl

  /- Odd part -/
  let tmp0 := vwmul_vx_i32 col1 (jsimd_idct_2x2_consts 3) vl
  let tmp0 := vwmacc_vx_i32 tmp0 (jsimd_idct_2x2_consts 2) col3 vl
  let tmp0 := vwmacc_vx_i32 tmp0 (jsimd_idct_2x2_consts 1) col5 vl
  let tmp0 := vwmacc_vx_i32 tmp0 (jsimd_idct_2x2_consts 0) col7 vl

  /- Final output stage: descale and clamp to range [0-255]. -/
  /- Narrow to 8-bit and convert to unsigned. -/
  let tmp_i32m2_0 := vadd_vv_i32 tmp10 tmp0 2
  let tmp_i32m2_1 := vsub_vv_i32 tmp10 tmp0 2
  let tmp_i32m2_0 := vslideup_vx tmp_i32m2_0 tmp_i32m2_1 2 4
  let tmp_i16m1 := vnsra_wx_i16 tmp_i32m2_0 16 4
  let tmp_i8mf2 := vnclip_wx_i8 vxrm tmp_i16m1 (CONST_BITS + PASS1_BITS + 3 + 2 - 16) 4
  let u8mf2_col0 := vreinterpret_v_i8_u8 tmp_i8mf2
  let u8mf2_col0 := vadd_vx_u8 u8mf2_col0 CENTERJSAMPLE 4

  /- Transpose -/
  let v0_out := vrgather_vv u8mf2_col0 (vlmul_trunc index_order_u8m1) 4
  let v1_out := vslidedown_vx v0_out 2 2

  /- Store 2x2 block to memory. -/
  fun k =>
    match k with
    | 0 => vse_v v0_out 2
    | 1 => vse_v v1_out 2
    | _ => fun _ => 0

/-- The function `jsimd_idct_2x2_rvv`: the result maps an output row (0 or 1)
to its two stored samples. -/
def jsimd_idct_2x2_rvv (vxrm : Vxrm) (dct_table coef_block : Nat → Int) : Nat → Vec :=
  idct_2x2_pass2 vxrm (idct_2x2_rows dct_table coef_block)

/-- The table `jsimd_idct_4x4_consts[]`. -/
def jsimd_idct_4x4_consts : Nat → Int
  | 0 => F_1_847
  | 1 => -F_0_765
  | 2 => -F_0_211
  | 3 => F_1_451
  | 4 => -F_2_172
  | 5 => F_1_061
  | 6 => -F_0_509
  | 7 => -F_0_601
  | 8 => F_0_899
  | 9 => F_2_562
  | _ => 0

def TRANS_TABLE_U8_SIZE : Nat := 32

/-- The local gather table `trans_index_4x4_u8[]` of `jsimd_idct_4x4_rvv`. -/
def trans_index_4x4_u8_list : List Int :=
  [0,  8, 24, 16,
   1,  9, 25, 17,
   2, 10, 26, 18,
   3, 11, 27, 19,
   5, 13, 29, 21,
   6, 14, 30, 22,
   7, 15, 31, 23,
   0,  0,  0,  0]

def trans_index_4x4_u8 : Nat → Int := fun i => trans_index_4x4_u8_list.getD i 0

/-- The local table `out_index_tab[16]` of `jsimd_idct_4x4_rvv`. -/
def out_index_tab_list : List Int :=
  [0,  4,  8, 12,
   1,  5,  9, 13,
   2,  6, 10, 14,
   3,  7, 11, 15]

def out_index_tab : Nat → Int := fun i => out_index_tab_list.getD i 0

/-- Block order of `rows_0132_i16m4`: block `b` holds pass-1 row `order4 b`,
that is 0 1 3 2. -/
def order4 (b : Nat) : Nat := if b = 2 then 3 else if b = 3 then 2 else b

/-- The shortcut branch of `jsimd_idct_4x4_rvv` (all AC coefficients zero):
the dequantized row 0 shifted left by `PASS1_BITS`, four copies in
`rows_0132_i16m4`. -/
def idct_4x4_rows_shortcut (row0 : Vec) : Vec :=
  let vl := 8
  /- All AC coefficients are zero. -/
  let dcval_i16m1 := vsll_vx_i16 row0 PASS1_BITS vl

  /- combine vectors -/
  let rows_0132_i16m4 := vlmul_ext dcval_i16m1
  let rows_0132_i16m4 := vslideup_vx rows_0132_i16m4 rows_0132_i16m4 (DCTSIZE2 / 8) (DCTSIZE2 / 4)
  vslideup_vx rows_0132_i16m4 rows_0132_i16m4 (DCTSIZE2 / 4) (DCTSIZE2 / 2)

/-- The else branch of `jsimd_idct_4x4_rvv`: full pass 1 on the dequantized
row 0 and the raw rows 1, 2, 3, 5, 6, 7; result rows 0, 1, 3, 2 in
`rows_0132_i16m4`. -/
def idct_4x4_rows_full (quantptr : Nat → Int) (row0 row1 row2 row3 row5 row6 row7 : Vec) : Vec :=
  let vl := 8
  /- Load quantization table. -/
  let quant_row1 := vle16_v_i16 quantptr (1 * DCTSIZE) vl
  let quant_row2 := vle16_v_i16 quantptr (2 * DCTSIZE) vl
  let quant_row3 := vle16_v_i16 quantptr (3 * DCTSIZE) vl
  let quant_row5 := vle16_v_i16 quantptr (5 * DCTSIZE) vl
  let quant_row6 := vle16_v_i16 quantptr (6 * DCTSIZE) vl
  let quant_row7 := vle16_v_i16 quantptr (7 * DCTSIZE) vl

  /- Even part -/
  let tmp0 := vwmul_vx_i32 row0 16384 vl
  let row2 := vmul_vv_i16 row2 quant_row2 vl
  let row6 := vmul_vv_i16 row6 quant_row6 vl
  let tmp2 := vwmul_vx_i32 row2 (jsimd_idct_4x4_consts 0) vl
  let tmp2 := vwmacc_vx_i32 tmp2 (jsimd_idct_4x4_consts 1) row6 vl
  let tmp10 := vadd_vv_i32 tmp0 tmp2 vl
  let tmp12 := vsub_vv_i32 tmp0 tmp2 vl

  /- Odd part -/
  let row7 := vmul_vv_i16 row7 quant_row7 vl
  let row5 := vmul_vv_i16 row5 quant_row5 vl
  let row3 := vmul_vv_i16 row3 quant_row3 vl
  let row1 := vmul_vv_i16 row1 quant_row1 vl

  let tmp0 := vwmul_vx_i32 row7 (jsimd_idct_4x4_consts 2) vl
  let tmp0 := vwmacc_vx_i32 tmp0 (jsimd_idct_4x4_consts 3) row5 vl
  let tmp0 := vwmacc_vx_i32 tmp0 (jsimd_idct_4x4_consts 4) row3 vl
  let tmp0 := vwmacc_vx_i32 tmp0 (jsimd_idct_4x4_consts 5) row1 vl

  let tmp2 := vwmul_vx_i32 row7 (jsimd_idct_4x4_consts 6) vl
  let tmp2 := vwmacc_vx_i32 tmp2 (jsimd_idct_4x4_consts 7) row5 vl
  let tmp2 := vwmacc_vx_i32 tmp2 (jsimd_idct_4x4_consts 8) row3 vl
  let tmp2 := vwmacc_vx_i32 tmp2 (jsimd_idct_4x4_consts 9) row1 vl

  /- Final output stage -/
  let tmp10_tmp12_i32m4 := vlmul_ext tmp10
  let tmp10_tmp12_i32m4 := vslideup_vx tmp10_tmp12_i32m4 (vlmul_ext tmp12) 8 16
  let tmp2_tmp0_i32m4 := vlmul_ext tmp2
  let tmp2_tmp0_i32m4 := vslideup_vx tmp2_tmp0_i32m4 (vlmul_ext tmp0) 8 16

  let tmp_add_i32m4 := vadd_vv_i32 tmp10_tmp12_i32m4 tmp2_tmp0_i32m4 16
  let tmp_sub_i32m4 := vsub_vv_i32 tmp10_tmp12_i32m4 tmp2_tmp0_i32m4 16
  let tmp_add_i32m4 := vadd_vx_i32 tmp_add_i32m4 (2 ^ (CONST_BITS - PASS1_BITS + 1 - 1)) 16
  let tmp_sub_i32m4 := vadd_vx_i32 tmp_sub_i32m4 (2 ^ (CONST_BITS - PASS1_BITS + 1 - 1)) 16
  let tmp_rows_01 := vnsra_wx_i16 tmp_add_i32m4 (CONST_BITS - PASS1_BITS + 1) 16
  let tmp_rows_32 := vnsra_wx_i16 tmp_sub_i32m4 (CONST_BITS - PASS1_BITS + 1) 16

  /- combine vectors -/
  let rows_0132_i16m4 := vlmul_ext tmp_rows_01
  vslideup_vx rows_0132_i16m4 (vlmul_ext tmp_rows_32) 16 32

/-- The 32-element vector `rows_0132_i16m4` that `jsimd_idct_4x4_rvv` hands to
the transpose: row 0 is dequantized, rows 1, 2, 3, 5, 6, 7 are OR-ed into
`ac_bitmap`, and the branch is chosen on `0 == ac_bitmap`. -/
def idct_4x4_rows (dct_table coef_block : Nat → Int) : Vec :=
  let quantptr := dct_table
  /- Load DCT coefficients. -/
  let vl := 8
  let row0 := vle16_v_i16 coef_block (0 * DCTSIZE) vl
  let row1 := vle16_v_i16 coef_block (1 * DCTSIZE) vl
  let row2 := vle16_v_i16 coef_block (2 * DCTSIZE) vl
  let row3 := vle16_v_i16 coef_block (3 * DCTSIZE) vl
  let row5 := vle16_v_i16 coef_block (5 * DCTSIZE) vl
  let row6 := vle16_v_i16 coef_block (6 * DCTSIZE) vl
  let row7 := vle16_v_i16 coef_block (7 * DCTSIZE) vl

  /- Load quantization table values for DC coefficients. -/
  /- Dequantize DC coefficients. -/
  let quant_row0 := vle16_v_i16 quantptr (0 * DCTSIZE) vl
  let row0 := vmul_vv_i16 row0 quant_row0 vl

  /- Construct bitmap to test if all AC coefficients are 0. -/
  let vec_zero := vmv_s_x_u16 0 vl
  let bitmap := vor_vv_i16 row7 row6 vl
  let bitmap := vor_vv_i16 bitmap row5 vl
  let bitmap := vor_vv_i16 bitmap row3 vl
  let bitmap := vor_vv_i16 bitmap row2 vl
  let bitmap := vor_vv_i16 bitmap row1 vl
  let tmp_u16m1 := vredor_vs_u16 (vreinterpret_v_i16_u16 bitmap) vec_zero vl
  let ac_bitmap := vmv_x_s_u16 tmp_u16m1
  if 0 = ac_bitmap then
    idct_4x4_rows_shortcut row0
  else
    idct_4x4_rows_full quantptr row0 row1 row2 row3 row5 row6 row7

/-- The part of `jsimd_idct_4x4_rvv` after the branch: transpose of the 8x4
block, second pass, descale, clamp, level shift and the four stored rows. -/
def idct_4x4_pass2 (vxrm : Vxrm) (rows_0132_i16m4 : Vec) : Nat → Vec :=
  /- load transpose look-up table -/
  let vg_reg8 := vle8_v_u8 trans_index_4x4_u8 TRANS_TABLE_U8_SIZE

  /- interpret to u16 and transpose -/
  let vg_reg16 := vrgather_vv rows_0132_i16m4 (vzext_vf2 vg_reg8 28) 28

  /- extract columns -/
  let vl := 4
  let col0 := vget_v_i16m1 vg_reg16 0
  let col1 := vslidedown_vx col0 4 vl

  let slidedown_m4 := vslidedown_vx vg_reg16 8 8
  let tmp_i16m2 := vlmul_trunc slidedown_m4
  let col2 := vlmul_trunc tmp_i16m2
  let tmp_i16m2 := vslidedown_vx tmp_i16m2 4 vl
  let col3 := vlmul_trunc tmp_i16m2

  let slidedown_m4 := vslidedown_vx vg_reg16 16 8
  let tmp_i16m2 := vlmul_trunc slidedown_m4
  let col5 := vlmul_trunc tmp_i16m2
  let tmp_i16m2 := vslidedown_vx tmp_i16m2 4 vl
  let col6 := vlmul_trunc tmp_i16m2

  let slidedown_m4 := vslidedown_vx vg_reg16 24 vl
  let col7 := vlmul_trunc slidedown_m4

  /- Commence second pass of IDCT. -/

  /- Even part -/
  let tmp0 := vwmul_vx_i32 col0 16384 vl
  let tmp2 := vwmul_vx_i32 col2 (jsimd_idct_4x4_consts 0) vl
  let tmp2 := vwmacc_vx_i32 tmp2 (jsimd_idct_4x4_consts 1) col6 vl
  let tmp10 := vadd_vv_i32 tmp0 tmp2 vl
  let tmp12 := vsub_vv_i32 tmp0 tmp2 vl

  /- Odd part -/
  let tmp0 := vwmul_vx_i32 col7 (jsimd_idct_4x4_consts 2) vl
  let tmp0 := vwmacc_vx_i32 tmp0 (jsimd_idct_4x4_consts 3) col5 vl
  let tmp0 := vwmacc_vx_i32 tmp0 (jsimd_idct_4x4_consts 4) col3 vl
  let tmp0 := vwmacc_vx_i32 tmp0 (jsimd_idct_4x4_consts 5) col1 vl

  let tmp2 := vwmul_vx_i32 col7 (jsimd_idct_4x4_consts 6) vl
  let tmp2 := vwmacc_vx_i32 tmp2 (jsimd_idct_4x4_consts 7) col5 vl
  let tmp2 := vwmacc_vx_i32 tmp2 (jsimd_idct_4x4_consts 8) col3 vl
  let tmp2 := vwmacc_vx_i32 tmp2 (jsimd_idct_4x4_consts 9) col1 vl

  /- Final output stage: descale and clamp to range [0-255]. -/
  let tmp_i32m2_0 := vadd_vv_i32 tmp10 tmp2 4
  let tmp_i32m2_1 := vadd_vv_i32 tmp12 tmp0 4
  let tmp_i32m2_0 := vslideup_vx tmp_i32m2_0 tmp_i32m2_1 4 8
  let tmp_i16m1 := vnsra_wx_i16 tmp_i32m2_0 16 8
  let tmp_i8mf2 := vnclip_wx_i8 vxrm tmp_i16m1 (CONST_BITS + PASS1_BITS + 3 + 1 - 16) 8
  let u8mf2_col01 := vreinterpret_v_i8_u8 tmp_i8mf2
  let u8mf2_col01 := vadd_vx_u8 u8mf2_col01 CENTERJSAMPLE 8

  let tmp_i32m2_0 := vsub_vv_i32 tmp12 tmp0 4
  let tmp_i32m2_1 := vsub_vv_i32 tmp10 tmp2 4
  let tmp_i32m2_0 := vslideup_vx tmp_i32m2_0 tmp_i32m2_1 4 8
  let tmp_i16m1 := vnsra_wx_i16 tmp_i32m2_0 16 8
  let tmp_i8mf2 := vnclip_wx_i8 vxrm tmp_i16m1 (CONST_BITS + PASS1_BITS + 3 + 1 - 16) 8
  let u8mf2_col23 := vreinterpret_v_i8_u8 tmp_i8mf2
  let u8mf2_col23 := vadd_vx_u8 u8mf2_col23 CENTERJSAMPLE 8

  let u8m1_col0123 := vslideup_vx (vlmul_ext u8mf2_col01) (vlmul_ext u8mf2_col23) 8 16

  /- Transpose -/
  let index_order_u8m1 := vle8_v_u8 out_index_tab 16
  let v0_out := vrgather_vv u8m1_col0123 index_order_u8m1 16
  let v1_out := vslidedown_vx v0_out 4 4
  let v2_out := vslidedown_vx v0_out 8 4
  let v3_out := vslidedown_vx v0_out 12 4

  /- Store 4x4 block to memory. -/
  fun k =>
    match k with
    | 0 => vse_v v0_out 4
    | 1 => vse_v v1_out 4
    | 2 => vse_v v2_out 4
    | 3 => vse_v v3_out 4
    | _ => fun _ => 0

/-- The function `jsimd_idct_4x4_rvv`: the result maps an output row (0..3) to
its four stored samples. -/
def jsimd_idct_4x4_rvv (vxrm : Vxrm) (dct_table coef_block : Nat → Int) : Nat → Vec :=
  idct_4x4_pass2 vxrm (idct_4x4_rows dct_table coef_block)

end AndesRed

/-! ## Accurate integer IDCT, generic kernel (`simd/rvv/jidctint-rvv.c`) -/

namespace RvvInt

def CONST_BITS : Nat := 13
def PASS1_BITS : Nat := 2

def F_0_298 : Int := 2446
def F_0_390 : Int := 3196
def F_0_541 : Int := 4433
def F_0_765 : Int := 6270
def F_0_899 : Int := 7373
def F_1_175 : Int := 9633
def F_1_501 : Int := 12299
def F_1_847 : Int := 15137
def F_1_961 : Int := 16069
def F_2_053 : Int := 16819
def F_2_562 : Int := 20995
def F_3_072 : Int := 25172

/-- The macro `ROUND_ADD(n)`, `(int32_t)1 << (n - 1)`. -/
def ROUND_ADD (n : Nat) : Int := 2 ^ (n - 1)

/-- `vsetvl_e16m2(avl)` at VLEN = 128 (VLMAX = 16). -/
def vsetvl_e16m2 (avl : Nat) : Nat := min avl 16

/-- `vlse16_v_i16`: strided load, lane `i` from element `off + i * stride`
(stride in elements). -/
def vlse16_v_i16 (base : Nat → Int) (off stride vl : Nat) : Vec :=
  fun i => if i < vl then base (off + i * stride) else 0

/-- `vse16_v_i16` into a buffer: elements `off .. off + vl - 1` are replaced. -/
def vse16_v_i16 (mem : Nat → Int) (off : Nat) (a : Vec) (vl : Nat) : Nat → Int :=
  fun p => if off ≤ p ∧ p < off + vl then a (p - off) else mem p

/-- `vsse16_v_i16` into a buffer: element `off + i * stride` is replaced by
lane `i`, for `i < vl` (stride in elements, positive). -/
def vsse16_v_i16 (mem : Nat → Int) (off stride : Nat) (a : Vec) (vl : Nat) : Nat → Int :=
  fun p =>
    if off ≤ p ∧ (p - off) % stride = 0 ∧ (p - off) / stride < vl then a ((p - off) / stride)
    else mem p

/-- The values left by the macro `DO_COMMON_IDCT`. -/
structure CommonIdct where
  tmp0 : Vec
  tmp1 : Vec
  tmp2 : Vec
  tmp3 : Vec
  tmp10 : Vec
  tmp11 : Vec
  tmp12 : Vec
  tmp13 : Vec

/-- The macro `DO_COMMON_IDCT(in)`. -/
def DO_COMMON_IDCT (in0 in1 in2 in3 in4 in5 in6 in7 : Vec) (vl : Nat) : CommonIdct :=
  /- Even part -/
  let z1 := vadd_vv_i16 in2 in6 vl
  let p1 := vwmul_vx_i32 z1 F_0_541 vl
  let tmp2 := vwmul_vx_i32 in6 (-F_1_847) vl
  let tmp2 := vadd_vv_i32 p1 tmp2 vl
  let tmp3 := vwmul_vx_i32 in2 F_0_765 vl
  let tmp3 := vadd_vv_i32 p1 tmp3 vl

  let tmp0 := vwadd_vv_i32 in0 in4 vl
  let tmp0 := vsll_vx_i32 tmp0 CONST_BITS vl
  let tmp1 := vwsub_vv_i32 in0 in4 vl
  let tmp1 := vsll_vx_i32 tmp1 CONST_BITS vl

  let tmp10 := vadd_vv_i32 tmp0 tmp3 vl
  let tmp13 := vsub_vv_i32 tmp0 tmp3 vl
  let tmp11 := vadd_vv_i32 tmp1 tmp2 vl
  let tmp12 := vsub_vv_i32 tmp1 tmp2 vl

  /- Odd Part -/
  let z1 := vadd_vv_i16 in7 in1 vl
  let z2 := vadd_vv_i16 in5 in3 vl
  let z3 := vadd_vv_i16 in7 in3 vl
  let z4 := vadd_vv_i16 in5 in1 vl
  let z5 := vadd_vv_i16 z3 z4 vl
  let p5 := vwmul_vx_i32 z5 F_1_175 vl

  let tmp0 := vwmul_vx_i32 in7 F_0_298 vl
  let tmp1 := vwmul_vx_i32 in5 F_2_053 vl
  let tmp2 := vwmul_vx_i32 in3 F_3_072 vl
  let tmp3 := vwmul_vx_i32 in1 F_1_501 vl
  let p1 := vwmul_vx_i32 z1 (-F_0_899) vl
  let p2 := vwmul_vx_i32 z2 (-F_2_562) vl
  let p3 := vwmul_vx_i32 z3 (-F_1_961) vl
  let p4 := vwmul_vx_i32 z4 (-F_0_390) vl

  let p3 := vadd_vv_i32 p3 p5 vl
  let p4 := vadd_vv_i32 p4 p5 vl

  let tmp0 := vadd_vv_i32 tmp0 p1 vl
  let tmp0 := vadd_vv_i32 tmp0 p3 vl
  let tmp1 := vadd_vv_i32 tmp1 p2 vl
  let tmp1 := vadd_vv_i32 tmp1 p4 vl
  let tmp2 := vadd_vv_i32 tmp2 p2 vl
  let tmp2 := vadd_vv_i32 tmp2 p3 vl
  let tmp3 := vadd_vv_i32 tmp3 p1 vl
  let tmp3 := vadd_vv_i32 tmp3 p4 vl
  { tmp0 := tmp0, tmp1 := tmp1, tmp2 := tmp2, tmp3 := tmp3,
    tmp10 := tmp10, tmp11 := tmp11, tmp12 := tmp12, tmp13 := tmp13 }

/-- The function `jsimd_idct_islow_rvv` of the generic kernel, built with
`BITS_IN_JSAMPLE == 8`: the result maps an output row to its eight stored
samples. -/
def jsimd_idct_islow_rvv (dct_table coef_block : Nat → Int) : Nat → Vec :=
  let quantptr := dct_table
  let workspace : Nat → Int := fun _ => 0
  let vl := vsetvl_e16m2 DCTSIZE
  /- DCTSIZE * sizeof(DCTELEM) bytes, that is DCTSIZE elements -/
  let col_stride := DCTSIZE

  /- Pass 1: process columns from input, store into work array. -/
  /- Load DCT coefficients. -/
  let row0 := vle16_v_i16 coef_block (DCTSIZE * 0) vl
  let row1 := vle16_v_i16 coef_block (DCTSIZE * 1) vl
  let row2 := vle16_v_i16 coef_block (DCTSIZE * 2) vl
  let row3 := vle16_v_i16 coef_block (DCTSIZE * 3) vl
  let row4 := vle16_v_i16 coef_block (DCTSIZE * 4) vl
  let row5 := vle16_v_i16 coef_block (DCTSIZE * 5) vl
  let row6 := vle16_v_i16 coef_block (DCTSIZE * 6) vl
  let row7 := vle16_v_i16 coef_block (DCTSIZE * 7) vl

  /- Load quantization table values for DC coefficients. -/
  let quant0 := vle16_v_i16 quantptr (0 * DCTSIZE) vl
  let quant1 := vle16_v_i16 quantptr (1 * DCTSIZE) vl
  let quant2 := vle16_v_i16 quantptr (2 * DCTSIZE) vl
  let quant3 := vle16_v_i16 quantptr (3 * DCTSIZE) vl
  let quant4 := vle16_v_i16 quantptr (4 * DCTSIZE) vl
  let quant5 := vle16_v_i16 quantptr (5 * DCTSIZE) vl
  let quant6 := vle16_v_i16 quantptr (6 * DCTSIZE) vl
  let quant7 := vle16_v_i16 quantptr (7 * DCTSIZE) vl

  let row0 := vmul_vv_i16 row0 quant0 vl
  let row1 := vmul_vv_i16 row1 quant1 vl
  let row2 := vmul_vv_i16 row2 quant2 vl
  let row3 := vmul_vv_i16 row3 quant3 vl
  let row4 := vmul_vv_i16 row4 quant4 vl
  let row5 := vmul_vv_i16 row5 quant5 vl
  let row6 := vmul_vv_i16 row6 quant6 vl
  let row7 := vmul_vv_i16 row7 quant7 vl

  let t := DO_COMMON_IDCT row0 row1 row2 row3 row4 row5 row6 row7 vl

  let out := vadd_vv_i32 t.tmp10 t.tmp3 vl
  let out := vadd_vx_i32 out (ROUND_ADD (CONST_BITS - PASS1_BITS)) vl
  let out0 := vnsra_wx_i16 out (CONST_BITS - PASS1_BITS) vl
  let out := vsub_vv_i32 t.tmp10 t.tmp3 vl
  let out := vadd_vx_i32 out (ROUND_ADD (CONST_BITS - PASS1_BITS)) vl
  let out7 := vnsra_wx_i16 out (CONST_BITS - PASS1_BITS) vl
  let out := vadd_vv_i32 t.tmp11 t.tmp2 vl
  let out := vadd_vx_i32 out (ROUND_ADD (CONST_BITS - PASS1_BITS)) vl
  let out1 := vnsra_wx_i16 out (CONST_BITS - PASS1_BITS) vl
  let out := vsub_vv_i32 t.tmp11 t.tmp2 vl
  let out := vadd_vx_i32 out (ROUND_ADD (CONST_BITS - PASS1_BITS)) vl
  let out6 := vnsra_wx_i16 out (CONST_BITS - PASS1_BITS) vl
  let out := vadd_vv_i32 t.tmp12 t.tmp1 vl
  let out := vadd_vx_i32 out (ROUND_ADD (CONST_BITS - PASS1_BITS)) vl
  let out2 := vnsra_wx_i16 out (CONST_BITS - PASS1_BITS) vl
  let out := vsub_vv_i32 t.tmp12 t.tmp1 vl
  let out := vadd_vx_i32 out (ROUND_ADD (CONST_BITS - PASS1_BITS)) vl
  let out5 := vnsra_wx_i16 out (CONST_BITS - PASS1_BITS) vl
  let out := vadd_vv_i32 t.tmp13 t.tmp0 vl
  let out := vadd_vx_i32 out (ROUND_ADD (CONST_BITS - PASS1_BITS)) vl
  let out3 := vnsra_wx_i16 out (CONST_BITS - PASS1_BITS) vl
  let out := vadd_vv_i32 t.tmp13 t.tmp0 vl
  let out := vadd_vx_i32 out (ROUND_ADD (CONST_BITS - PASS1_BITS)) vl
  let out4 := vnsra_wx_i16 out (CONST_BITS - PASS1_BITS) vl

  /- Store rows -/
  let workspace := vse16_v_i16 workspace (DCTSIZE * 0) out0 vl
  let workspace := vse16_v_i16 workspace (DCTSIZE * 1) out1 vl
  let workspace := vse16_v_i16 workspace (DCTSIZE * 2) out2 vl
  let workspace := vse16_v_i16 workspace (DCTSIZE * 3) out3 vl
  let workspace := vse16_v_i16 workspace (DCTSIZE * 4) out4 vl
  let workspace := vse16_v_i16 workspace (DCTSIZE * 5) out5 vl
  let workspace := vse16_v_i16 workspace (DCTSIZE * 6) out6 vl
  let workspace := vse16_v_i16 workspace (DCTSIZE * 7) out7 vl

  /- Pass 2: process rows from work array, store into output array. -/
  /- Load columns -/
  let col0 := vlse16_v_i16 workspace 0 col_stride vl
  let col1 := vlse16_v_i16 workspace 1 col_stride vl
  let col2 := vlse16_v_i16 workspace 2 col_stride vl
  let col3 := vlse16_v_i16 workspace 3 col_stride vl
  let col4 := vlse16_v_i16 workspace 4 col_stride vl
  let col5 := vlse16_v_i16 workspace 5 col_stride vl
  let col6 := vlse16_v_i16 workspace 6 col_stride vl
  let col7 := vlse16_v_i16 workspace 7 col_stride vl

  let t := DO_COMMON_IDCT col0 col1 col2 col3 col4 col5 col6 col7 vl

  let out := vadd_vv_i32 t.tmp10 t.tmp3 vl
  let out := vadd_vx_i32 out (ROUND_ADD (CONST_BITS + PASS1_BITS + 3)) vl
  let out0 := vnsra_wx_i16 out (CONST_BITS + PASS1_BITS + 3) vl
  let out := vsub_vv_i32 t.tmp10 t.tmp3 vl
  let out := vadd_vx_i32 out (ROUND_ADD (CONST_BITS + PASS1_BITS + 3)) vl
  let out7 := vnsra_wx_i16 out (CONST_BITS + PASS1_BITS + 3) vl
  let out := vadd_vv_i32 t.tmp11 t.tmp2 vl
  let out := vadd_vx_i32 out (ROUND_ADD (CONST_BITS + PASS1_BITS + 3)) vl
  let out1 := vnsra_wx_i16 out (CONST_BITS + PASS1_BITS + 3) vl
  let out := vsub_vv_i32 t.tmp11 t.tmp2 vl
  let out := vadd_vx_i32 out (ROUND_ADD (CONST_BITS + PASS1_BITS + 3)) vl
  let out6 := vnsra_wx_i16 out (CONST_BITS + PASS1_BITS + 3) vl
  let out := vadd_vv_i32 t.tmp12 t.tmp1 vl
  let out := vadd_vx_i32 out (ROUND_ADD (CONST_BITS + PASS1_BITS + 3)) vl
  let out2 := vnsra_wx_i16 out (CONST_BITS + PASS1_BITS + 3) vl
  let out := vsub_vv_i32 t.tmp12 t.tmp1 vl
  let out := vadd_vx_i32 out (ROUND_ADD (CONST_BITS + PASS1_BITS + 3)) vl
  let out5 := vnsra_wx_i16 out (CONST_BITS + PASS1_BITS + 3) vl
  let out := vadd_vv_i32 t.tmp13 t.tmp0 vl
  let out := vadd_vx_i32 out (ROUND_ADD (CONST_BITS + PASS1_BITS + 3)) vl
  let out3 := vnsra_wx_i16 out (CONST_BITS + PASS1_BITS + 3) vl
  let out := vadd_vv_i32 t.tmp13 t.tmp0 vl
  let out := vadd_vx_i32 out (ROUND_ADD (CONST_BITS + PASS1_BITS + 3)) vl
  let out4 := vnsra_wx_i16 out (CONST_BITS + PASS1_BITS + 3) vl

  /- Transpose matrix -/
  /- Store columns -/
  let workspace := vsse16_v_i16 workspace 0 col_stride out0 vl
  let workspace := vsse16_v_i16 workspace 1 col_stride out1 vl
  let workspace := vsse16_v_i16 workspace 2 col_stride out2 vl
  let workspace := vsse16_v_i16 workspace 3 col_stride out3 vl
  let workspace := vsse16_v_i16 workspace 4 col_stride out4 vl
  let workspace := vsse16_v_i16 workspace 5 col_stride out5 vl
  let workspace := vsse16_v_i16 workspace 6 col_stride out6 vl
  let workspace := vsse16_v_i16 workspace 7 col_stride out7 vl

  let out0 := vle16_v_i16 workspace (DCTSIZE * 0) vl
  let out1 := vle16_v_i16 workspace (DCTSIZE * 1) vl
  let out2 := vle16_v_i16 workspace (DCTSIZE * 2) vl
  let out3 := vle16_v_i16 workspace (DCTSIZE * 3) vl
  let out4 := vle16_v_i16 workspace (DCTSIZE * 4) vl
  let out5 := vle16_v_i16 workspace (DCTSIZE * 5) vl
  let out6 := vle16_v_i16 workspace (DCTSIZE * 6) vl
  let out7 := vle16_v_i16 workspace (DCTSIZE * 7) vl

  let nrr0 := vnsra_wx_i8 out0 0 vl
  let nrr1 := vnsra_wx_i8 out1 0 vl
  let nrr2 := vnsra_wx_i8 out2 0 vl
  let nrr3 := vnsra_wx_i8 out3 0 vl
  let nrr4 := vnsra_wx_i8 out4 0 vl
  let nrr5 := vnsra_wx_i8 out5 0 vl
  let nrr6 := vnsra_wx_i8 out6 0 vl
  let nrr7 := vnsra_wx_i8 out7 0 vl

  let nrr0 := vadd_vx_i8 nrr0 CENTERJSAMPLE vl
  let nrr1 := vadd_vx_i8 nrr1 CENTERJSAMPLE vl
  let nrr2 := vadd_vx_i8 nrr2 CENTERJSAMPLE vl
  let nrr3 := vadd_vx_i8 nrr3 CENTERJSAMPLE vl
  let nrr4 := vadd_vx_i8 nrr4 CENTERJSAMPLE vl
  let nrr5 := vadd_vx_i8 nrr5 CENTERJSAMPLE vl
  let nrr6 := vadd_vx_i8 nrr6 CENTERJSAMPLE vl
  let nrr7 := vadd_vx_i8 nrr7 CENTERJSAMPLE vl

  let dst0 := vreinterpret_v_i8_u8 nrr0
  let dst1 := vreinterpret_v_i8_u8 nrr1
  let dst2 := vreinterpret_v_i8_u8 nrr2
  let dst3 := vreinterpret_v_i8_u8 nrr3
  let dst4 := vreinterpret_v_i8_u8 nrr4
  let dst5 := vreinterpret_v_i8_u8 nrr5
  let dst6 := vreinterpret_v_i8_u8 nrr6
  let dst7 := vreinterpret_v_i8_u8 nrr7

  fun k =>
    match k with
    | 0 => vse_v dst0 vl
    | 1 => vse_v dst1 vl
    | 2 => vse_v dst2 vl
    | 3 => vse_v dst3 vl
    | 4 => vse_v dst4 vl
    | 5 => vse_v dst5 vl
    | 6 => vse_v dst6 vl
    | 7 => vse_v dst7 vl
    | _ => fun _ => 0

end RvvInt

/-! ## Scalar reference transforms

The scalar routines (`jidctint.c`, `jidctfst.c`, `jidctred.c`) are the oracle the
kernels are compared with.  They are stated here over the integers, without
any wrap-around, in the words of the specification: a column pass, a row pass,
a rounding descale after each, then level shift and clamp. -/

namespace Ref

/-- Rounding descale `DESCALE(x, n) = (x + 2^(n-1)) >> n`. -/
def DESCALE (x : Int) (n : Nat) : Int := (x + 2 ^ (n - 1)) / 2 ^ n

/-- Level shift by 128 and clamp to the sample range `[0, 255]`. -/
def range_limit (x : Int) : Int :=
  if x + 128 < 0 then 0 else if 255 < x + 128 then 255 else x + 128

/-- One-dimensional accurate inverse DCT on the eight inputs `inp 0 .. inp 7`
(12 constants scaled by `2^13`): output `k` before the descale.  Outputs `k`
and `7 - k` are the sum and the difference of even term `k` and odd term `k`. -/
def idct_islow_1d (inp : Nat → Int) (k : Nat) : Int :=
  /- Even part -/
  let z2 := inp 2
  let z3 := inp 6
  let z1 := (z2 + z3) * 4433
  let tmp2 := z1 + z3 * (-15137)
  let tmp3 := z1 + z2 * 6270
  let z2 := inp 0
  let z3 := inp 4
  let tmp0 := (z2 + z3) * 2 ^ 13
  let tmp1 := (z2 - z3) * 2 ^ 13
  let tmp10 := tmp0 + tmp3
  let tmp13 := tmp0 - tmp3
  let tmp11 := tmp1 + tmp2
  let tmp12 := tmp1 - tmp2
  /- Odd part -/
  let tmp0 := inp 7
  let tmp1 := inp 5
  let tmp2 := inp 3
  let tmp3 := inp 1
  let z1 := tmp0 + tmp3
  let z2 := tmp1 + tmp2
  let z3 := tmp0 + tmp2
  let z4 := tmp1 + tmp3
  let z5 := (z3 + z4) * 9633
  let tmp0 := tmp0 * 2446
  let tmp1 := tmp1 * 16819
  let tmp2 := tmp2 * 25172
  let tmp3 := tmp3 * 12299
  let z1 := z1 * (-7373)
  let z2 := z2 * (-20995)
  let z3 := z3 * (-16069)
  let z4 := z4 * (-3196)
  let z3 := z3 + z5
  let z4 := z4 + z5
  let tmp0 := tmp0 + z1 + z3
  let tmp1 := tmp1 + z2 + z4
  let tmp2 := tmp2 + z2 + z3
  let tmp3 := tmp3 + z1 + z4
  match k with
  | 0 => tmp10 + tmp3
  | 7 => tmp10 - tmp3
  | 1 => tmp11 + tmp2
  | 6 => tmp11 - tmp2
  | 2 => tmp12 + tmp1
  | 5 => tmp12 - tmp1
  | 3 => tmp13 + tmp0
  | 4 => tmp13 - tmp0
  | _ => 0

/-- Dequantized coefficient at row `r`, column `c`. -/
def dequant (dct_table coef_block : Nat → Int) (r c : Nat) : Int :=
  coef_block (8 * r + c) * dct_table (8 * r + c)

/-- Column pass of the accurate reference: workspace entry at row `r`,
column `c`, descaled by `CONST_BITS - PASS1_BITS = 11`. -/
def islow_workspace (dct_table coef_block : Nat → Int) (r c : Nat) : Int :=
  DESCALE (idct_islow_1d (fun k => dequant dct_table coef_block k c) r) 11

/-- The scalar reference `jpeg_idct_islow`: column pass, row pass descaled by
`CONST_BITS + PASS1_BITS + 3 = 18`, level shift and clamp; output sample at
row `r`, column `c`. -/
def jpeg_idct_islow (dct_table coef_block : Nat → Int) (r c : Nat) : Int :=
  range_limit (DESCALE (idct_islow_1d (fun k => islow_workspace dct_table coef_block r k) c) 18)

/-- Multiplication by an 8-bit-scaled constant of the fast transform,
`MULTIPLY(v, c) = (v * c) >> 8`. -/
def ifast_MULTIPLY (v c : Int) : Int := (v * c) / 2 ^ 8

/-- One-dimensional fast (AA&N) inverse DCT on the eight inputs `inp 0 .. inp 7`
with the four constants 1.082392200, 1.414213562, 1.847759065, 2.613125930
scaled by `2^8` (277, 362, 473, 669): output `k`. -/
def idct_ifast_1d (inp : Nat → Int) (k : Nat) : Int :=
  /- Even part -/
  let tmp0 := inp 0
  let tmp1 := inp 2
  let tmp2 := inp 4
  let tmp3 := inp 6
  let tmp10 := tmp0 + tmp2
  let tmp11 := tmp0 - tmp2
  let tmp13 := tmp1 + tmp3
  let tmp12 := ifast_MULTIPLY (tmp1 - tmp3) 362 - tmp13
  let tmp0 := tmp10 + tmp13
  let tmp3 := tmp10 - tmp13
  let tmp1 := tmp11 + tmp12
  let tmp2 := tmp11 - tmp12
  /- Odd part -/
  let tmp4 := inp 1
  let tmp5 := inp 3
  let tmp6 := inp 5
  let tmp7 := inp 7
  let z13 := tmp6 + tmp5
  let z10 := tmp6 - tmp5
  let z11 := tmp4 + tmp7
  let z12 := tmp4 - tmp7
  let tmp7 := z11 + z13
  let tmp11 := ifast_MULTIPLY (z11 - z13) 362
  let z5 := ifast_MULTIPLY (z10 + z12) 473
  let tmp10 := ifast_MULTIPLY z12 277 - z5
  let tmp12 := ifast_MULTIPLY z10 (-669) + z5
  let tmp6 := tmp12 - tmp7
  let tmp5 := tmp11 - tmp6
  let tmp4 := tmp10 + tmp5
  match k with
  | 0 => tmp0 + tmp7
  | 7 => tmp0 - tmp7
  | 1 => tmp1 + tmp6
  | 6 => tmp1 - tmp6
  | 2 => tmp2 + tmp5
  | 5 => tmp2 - tmp5
  | 4 => tmp3 + tmp4
  | 3 => tmp3 - tmp4
  | _ => 0

/-- Column pass of the fast reference: workspace entry at row `r`, column `c`. -/
def ifast_workspace (dct_table coef_block : Nat → Int) (r c : Nat) : Int :=
  idct_ifast_1d (fun k => dequant dct_table coef_block k c) r

/-- The scalar reference `jpeg_idct_ifast`: the butterfly on the 8 columns,
then on the 8 rows, a descale by `PASS1_BITS + 3 = 5`, level shift and clamp;
output sample at row `r`, column `c`. -/
def jpeg_idct_ifast (dct_table coef_block : Nat → Int) (r c : Nat) : Int :=
  range_limit (idct_ifast_1d (fun k => ifast_workspace dct_table coef_block r k) c / 2 ^ 5)

/-- One-dimensional 4-point reduced inverse DCT on inputs `inp 0 .. inp 7`
(input 4 is not used): output `k` in `0 .. 3` before the descale, with
`tmp0 = in0 << 14` and `tmp2 = 1.847759065 * in2 - 0.765366865 * in6`. -/
def idct_4x4_1d (inp : Nat → Int) (k : Nat) : Int :=
  /- Even part -/
  let tmp0 := inp 0 * 2 ^ 14
  let z2 := inp 2
  let z3 := inp 6
  let tmp2 := z2 * 15137 + z3 * (-6270)
  let tmp10 := tmp0 + tmp2
  let tmp12 := tmp0 - tmp2
  /- Odd part -/
  let z1 := inp 7
  let z2 := inp 5
  let z3 := inp 3
  let z4 := inp 1
  let tmp0 := z1 * (-1730) + z2 * 11893 + z3 * (-17799) + z4 * 8697
  let tmp2 := z1 * (-4176) + z2 * (-4926) + z3 * 7373 + z4 * 20995
  match k with
  | 0 => tmp10 + tmp2
  | 3 => tmp10 - tmp2
  | 1 => tmp12 + tmp0
  | 2 => tmp12 - tmp0
  | _ => 0

/-- Column pass of the 4x4 reference (columns 0, 1, 2, 3, 5, 6, 7): workspace
entry at row `r` in `0 .. 3`, column `c`, descaled by
`CONST_BITS - PASS1_BITS + 1 = 12`. -/
def idct_4x4_workspace (dct_table coef_block : Nat → Int) (r c : Nat) : Int :=
  DESCALE (idct_4x4_1d (fun k => dequant dct_table coef_block k c) r) 12

/-- The scalar reference `jpeg_idct_4x4`: output sample at row `r`, column `c`
(both in `0 .. 3`), descaled by `CONST_BITS + PASS1_BITS + 3 + 1 = 19`. -/
def jpeg_idct_4x4 (dct_table coef_block : Nat → Int) (r c : Nat) : Int :=
  range_limit (DESCALE (idct_4x4_1d (fun k => idct_4x4_workspace dct_table coef_block r k) c) 19)

/-- One-dimensional 2-point reduced inverse DCT on inputs `inp 0 .. inp 7`
(inputs 2, 4, 6 are not used): output `k` in `0 .. 1` before the descale, with
`tmp10 = in0 << 15` and
`tmp0 = 3.624509785 * in1 - 1.272758580 * in3 + 0.850430095 * in5 - 0.720959822 * in7`. -/
def idct_2x2_1d (inp : Nat → Int) (k : Nat) : Int :=
  let tmp10 := inp 0 * 2 ^ 15
  let tmp0 := inp 7 * (-5906) + inp 5 * 6967 + inp 3 * (-10426) + inp 1 * 29692
  match k with
  | 0 => tmp10 + tmp0
  | 1 => tmp10 - tmp0
  | _ => 0

/-- Column pass of the 2x2 reference (columns 0, 1, 3, 5, 7): workspace entry
at row `r` in `0 .. 1`, column `c`, descaled by 13. -/
def idct_2x2_workspace (dct_table coef_block : Nat → Int) (r c : Nat) : Int :=
  DESCALE (idct_2x2_1d (fun k => dequant dct_table coef_block k c) r) 13

/-- The scalar reference `jpeg_idct_2x2`: output sample at row `r`, column `c`
(both in `0 .. 1`), descaled by `CONST_BITS + PASS1_BITS + 3 + 2 = 20`. -/
def jpeg_idct_2x2 (dct_table coef_block : Nat → Int) (r c : Nat) : Int :=
  range_limit (DESCALE (idct_2x2_1d (fun k => idct_2x2_workspace dct_table coef_block r k) c) 20)

end Ref

/-! ## Input conditions -/

/-- A value representable as a signed 16-bit integer. -/
def in16 (x : Int) : Prop := -32768 ≤ x ∧ x ≤ 32767

instance (x : Int) : Decidable (in16 x) := by unfold in16; infer_instance

/-- A value representable as a signed 32-bit integer. -/
def in32 (x : Int) : Prop := -2147483648 ≤ x ∧ x ≤ 2147483647

instance (x : Int) : Decidable (in32 x) := by unfold in32; infer_instance

/-- A 64-entry table of signed 16-bit values (a coefficient block or a
quantization table). -/
def is_i16_table (t : Nat → Int) : Prop := ∀ i < 64, in16 (t i)

instance (t : Nat → Int) : Decidable (is_i16_table t) := by unfold is_i16_table; infer_instance

/-- Rows 1..7 of a coefficient block are entirely zero. -/
def ac_rows_zero (coef_block : Nat → Int) : Prop :=
  ∀ r c, 1 ≤ r → r < 8 → c < 8 → coef_block (8 * r + c) = 0

instance (b : Nat → Int) : Decidable (ac_rows_zero b) :=
  decidable_of_iff (∀ r < 8, ∀ c < 8, 1 ≤ r → b (8 * r + c) = 0)
    ⟨fun h r c h1 h8 hc => h r h8 c hc h1, fun h r h8 c hc h1 => h r c h1 h8 hc⟩

/-- Rows 1, 2, 3, 5, 6, 7 of a coefficient block are entirely zero (the rows the
4x4 kernel tests; row 4 is not read). -/
def ac_rows_zero_4x4 (coef_block : Nat → Int) : Prop :=
  ∀ r c, 1 ≤ r → r < 8 → r ≠ 4 → c < 8 → coef_block (8 * r + c) = 0

instance (b : Nat → Int) : Decidable (ac_rows_zero_4x4 b) :=
  decidable_of_iff (∀ r < 8, ∀ c < 8, 1 ≤ r → r ≠ 4 → b (8 * r + c) = 0)
    ⟨fun h r c h1 h8 h4 hc => h r h8 c hc h1 h4, fun h r h8 c hc h1 h4 => h r c h1 h8 h4 hc⟩

/-- The 16-bit sums an accurate butterfly forms before widening, on inputs
`x 0 .. x 7`: `x0 + x4`, `x0 - x4`, `x7 + x3`, `x5 + x1`. -/
def islow_sums_fit16 (x : Nat → Int) : Prop :=
  in16 (x 0 + x 4) ∧ in16 (x 0 - x 4) ∧ in16 (x 7 + x 3) ∧ in16 (x 5 + x 1)

instance (x : Nat → Int) : Decidable (islow_sums_fit16 x) := by
  unfold islow_sums_fit16; infer_instance

/-- No signed 16-bit intermediate of the accurate IDCT overflows: the
dequantized products, the 16-bit sums of the column pass, the column-pass
outputs, and the 16-bit sums of the row pass. -/
def islow_no_overflow16 (dct_table coef_block : Nat → Int) : Prop :=
  (∀ r < 8, ∀ c < 8, in16 (Ref.dequant dct_table coef_block r c)) ∧
  (∀ c < 8, islow_sums_fit16 (fun k => Ref.dequant dct_table coef_block k c)) ∧
  (∀ r < 8, ∀ c < 8, in16 (Ref.islow_workspace dct_table coef_block r c)) ∧
  (∀ r < 8, islow_sums_fit16 (fun k => Ref.islow_workspace dct_table coef_block r k))

instance (q b : Nat → Int) : Decidable (islow_no_overflow16 q b) := by
  unfold islow_no_overflow16; infer_instance

/-- The 16-bit sums the generic accurate kernel forms in `DO_COMMON_IDCT`, on
inputs `x 0 .. x 7`: `z1 = x2 + x6`, then `x7 + x1`, `x5 + x3`, `x7 + x3`,
`x5 + x1` and `z5 = z3 + z4`. -/
def rvv_islow_sums_fit16 (x : Nat → Int) : Prop :=
  in16 (x 2 + x 6) ∧ in16 (x 7 + x 1) ∧ in16 (x 5 + x 3) ∧ in16 (x 7 + x 3) ∧
    in16 (x 5 + x 1) ∧ in16 (x 7 + x 3 + (x 5 + x 1))

instance (x : Nat → Int) : Decidable (rvv_islow_sums_fit16 x) := by
  unfold rvv_islow_sums_fit16; infer_instance

/-- No signed 16-bit intermediate of the generic accurate kernel overflows on
the values of the reference: products, 16-bit sums of both passes, the pass-1
outputs and the descaled pass-2 outputs. -/
def rvv_islow_no_overflow16 (dct_table coef_block : Nat → Int) : Prop :=
  (∀ r < 8, ∀ c < 8, in16 (Ref.dequant dct_table coef_block r c)) ∧
  (∀ c < 8, rvv_islow_sums_fit16 (fun k => Ref.dequant dct_table coef_block k c)) ∧
  (∀ r < 8, ∀ c < 8, in16 (Ref.islow_workspace dct_table coef_block r c)) ∧
  (∀ r < 8, rvv_islow_sums_fit16 (fun k => Ref.islow_workspace dct_table coef_block r k)) ∧
  (∀ r < 8, ∀ c < 8, in16 (Ref.DESCALE
    (Ref.idct_islow_1d (fun k => Ref.islow_workspace dct_table coef_block r k) c) 18))

instance (q b : Nat → Int) : Decidable (rvv_islow_no_overflow16 q b) := by
  unfold rvv_islow_no_overflow16; infer_instance

/-- A single-coefficient impulse block: at most one of the 64 entries is
non-zero. -/
def single_coefficient (coef_block : Nat → Int) : Prop :=
  ∃ p, p < 64 ∧ ∀ i, i < 64 → i ≠ p → coef_block i = 0

/-- Rows and columns the 4x4 kernel uses: all but index 4. -/
def used_4x4 (k : Nat) : Prop := k ≠ 4

instance (k : Nat) : Decidable (used_4x4 k) := by unfold used_4x4; infer_instance

/-- No signed 16-bit intermediate of the 4x4 kernel overflows: the dequantized
products and the pass-1 outputs, on the rows and columns in use. -/
def idct_4x4_no_overflow16 (dct_table coef_block : Nat → Int) : Prop :=
  (∀ r < 8, ∀ c < 8, used_4x4 r → used_4x4 c → in16 (Ref.dequant dct_table coef_block r c)) ∧
  (∀ r < 4, ∀ c < 8, used_4x4 c → in16 (Ref.idct_4x4_workspace dct_table coef_block r c))

instance (q b : Nat → Int) : Decidable (idct_4x4_no_overflow16 q b) := by
  unfold idct_4x4_no_overflow16; infer_instance

/-- No signed 32-bit pass-2 sum of the 4x4 kernel overflows: the four values
fed to the final descale, for each of the four rows. -/
def idct_4x4_no_overflow32 (dct_table coef_block : Nat → Int) : Prop :=
  ∀ r < 4, ∀ c < 4,
    in32 (Ref.idct_4x4_1d (fun k => Ref.idct_4x4_workspace dct_table coef_block r k) c)

instance (q b : Nat → Int) : Decidable (idct_4x4_no_overflow32 q b) := by
  unfold idct_4x4_no_overflow32; infer_instance

/-- Rows and columns the 2x2 kernel uses: 0, 1, 3, 5, 7. -/
def used_2x2 (k : Nat) : Prop := k = 0 ∨ k % 2 = 1

instance (k : Nat) : Decidable (used_2x2 k) := by unfold used_2x2; infer_instance

/-- No signed 16-bit intermediate of the 2x2 kernel overflows: the dequantized
products and the pass-1 outputs, on the rows and columns in use. -/
def idct_2x2_no_overflow16 (dct_table coef_block : Nat → Int) : Prop :=
  (∀ r < 8, ∀ c < 8, used_2x2 r → used_2x2 c → in16 (Ref.dequant dct_table coef_block r c)) ∧
  (∀ r < 2, ∀ c < 8, used_2x2 c → in16 (Ref.idct_2x2_workspace dct_table coef_block r c))

instance (q b : Nat → Int) : Decidable (idct_2x2_no_overflow16 q b) := by
  unfold idct_2x2_no_overflow16; infer_instance

/-- No signed 32-bit pass-2 sum of the 2x2 kernel overflows: the two values
fed to the final descale, for each of the two rows. -/
def idct_2x2_no_overflow32 (dct_table coef_block : Nat → Int) : Prop :=
  ∀ r < 2, ∀ c < 2,
    in32 (Ref.idct_2x2_1d (fun k => Ref.idct_2x2_workspace dct_table coef_block r k) c)

instance (q b : Nat → Int) : Decidable (idct_2x2_no_overflow32 q b) := by
  unfold idct_2x2_no_overflow32; infer_instance

/-- No signed 16-bit intermediate of the fast transform overflows: every
dequantized value, every pass-1 output and every pass-2 output of the
reference has magnitude at most 2047, so that each sum and each scaled
product of the 16-bit network stays within 16 bits. -/
def ifast_small (dct_table coef_block : Nat → Int) : Prop :=
  (∀ r < 8, ∀ c < 8, -2047 ≤ Ref.dequant dct_table coef_block r c ∧
    Ref.dequant dct_table coef_block r c ≤ 2047) ∧
  (∀ r < 8, ∀ c < 8, -2047 ≤ Ref.ifast_workspace dct_table coef_block r c ∧
    Ref.ifast_workspace dct_table coef_block r c ≤ 2047) ∧
  (∀ r < 8, ∀ c < 8,
    -2047 ≤ Ref.idct_ifast_1d (fun k => Ref.ifast_workspace dct_table coef_block r k) c ∧
    Ref.idct_ifast_1d (fun k => Ref.ifast_workspace dct_table coef_block r k) c ≤ 2047)

instance (q b : Nat → Int) : Decidable (ifast_small q b) := by
  unfold ifast_small; infer_instance

/-! ## Concrete inputs -/

/-- A test block: a DC term and a few AC terms. -/
def sample_block : Nat → Int := fun i =>
  if i = 0 then 20 else if i = 9 then 10 else if i = 18 then -7 else if i = 3 then 5
  else if i = 60 then 3 else if i = 33 then -4 else if i = 7 then 2 else 0

/-- A flat quantization table, every entry 16. -/
def flat_table_16 : Nat → Int := fun _ => 16

/-- A flat quantization table, every entry 1. -/
def flat_table_1 : Nat → Int := fun _ => 1

/-- A block whose only non-zero coefficient is the DC term 10. -/
def dc_block_10 : Nat → Int := fun i => if i = 0 then 10 else 0

/-- A block whose only non-zero coefficient is the DC term 100. -/
def dc_block_100 : Nat → Int := fun i => if i = 0 then 100 else 0

/-- A block whose only non-zero coefficient is 100 at row 3, column 5. -/
def impulse_r3c5_100 : Nat → Int := fun i => if i = 29 then 100 else 0

/-- A block whose only non-zero coefficient is 64 at row 1, column 0. -/
def impulse_row1_64 : Nat → Int := fun i => if i = 8 then 64 else 0

/-- A block whose only non-zero coefficient is 128 at row 2, column 0. -/
def impulse_row2_128 : Nat → Int := fun i => if i = 16 then 128 else 0

/-- A block with large row-0 coefficients (8191 and -8192 after dequantization
by 1) and zeros elsewhere: every 16-bit value of the 4x4 kernel fits, the
32-bit pass-2 sums do not. -/
def wide_row0_block_4x4 : Nat → Int := fun i =>
  if i = 0 then 8191 else if i = 1 then 8191 else if i = 2 then -8192 else if i = 3 then -8192
  else if i = 5 then 8191 else if i = 6 then 8191 else if i = 7 then -8192 else 0

/-- A block with large row-0 coefficients and zeros elsewhere: every 16-bit
value of the 2x2 kernel fits, the 32-bit pass-2 sums do not. -/
def wide_row0_block_2x2 : Nat → Int := fun i =>
  if i = 0 then 8191 else if i = 1 then 8191 else if i = 3 then -8192 else 0

/-- A block whose only non-zero coefficient is the DC term 512. -/
def dc_block_512 : Nat → Int := fun i => if i = 0 then 512 else 0

/-! ## Generic accurate IDCT by stages

The same source lines as `RvvInt.jsimd_idct_islow_rvv`, cut at the points where
the kernel keeps a named intermediate result: the dequantized rows, the eight
outputs of a pass, the work array after pass 1 and the 16-bit values that the
last stage narrows to samples. -/

namespace RvvInt

/-- Row `k` of the coefficient block times row `k` of the quantization table
(lines 113-133). -/
def islow_dequant (dct_table coef_block : Nat → Int) (k : Nat) : Vec :=
  let vl := vsetvl_e16m2 DCTSIZE
  vmul_vv_i16 (vle16_v_i16 coef_block (DCTSIZE * k) vl) (vle16_v_i16 dct_table (k * DCTSIZE) vl) vl

/-- The eight outputs of a pass from the values left by `DO_COMMON_IDCT`, with
the descale by `n` bits: lines 139-169 of pass 1 (`n = CONST_BITS - PASS1_BITS`)
and lines 197-220 of pass 2 (`n = CONST_BITS + PASS1_BITS + 3`). -/
def islow_outputs (t : CommonIdct) (n vl : Nat) : Nat → Vec :=
  let out := vadd_vv_i32 t.tmp10 t.tmp3 vl
  let out := vadd_vx_i32 out (ROUND_ADD n) vl
  let out0 := vnsra_wx_i16 out n vl
  let out := vsub_vv_i32 t.tmp10 t.tmp3 vl
  let out := vadd_vx_i32 out (ROUND_ADD n) vl
  let out7 := vnsra_wx_i16 out n vl
  let out := vadd_vv_i32 t.tmp11 t.tmp2 vl
  let out := vadd_vx_i32 out (ROUND_ADD n) vl
  let out1 := vnsra_wx_i16 out n vl
  let out := vsub_vv_i32 t.tmp11 t.tmp2 vl
  let out := vadd_vx_i32 out (ROUND_ADD n) vl
  let out6 := vnsra_wx_i16 out n vl
  let out := vadd_vv_i32 t.tmp12 t.tmp1 vl
  let out := vadd_vx_i32 out (ROUND_ADD n) vl
  let out2 := vnsra_wx_i16 out n vl
  let out := vsub_vv_i32 t.tmp12 t.tmp1 vl
  let out := vadd_vx_i32 out (ROUND_ADD n) vl
  let out5 := vnsra_wx_i16 out n vl
  let out := vadd_vv_i32 t.tmp13 t.tmp0 vl
  let out := vadd_vx_i32 out (ROUND_ADD n) vl
  let out3 := vnsra_wx_i16 out n vl
  let out := vadd_vv_i32 t.tmp13 t.tmp0 vl
  let out := vadd_vx_i32 out (ROUND_ADD n) vl
  let out4 := vnsra_wx_i16 out n vl
  fun k =>
    match k with
    | 0 => out0
    | 1 => out1
    | 2 => out2
    | 3 => out3
    | 4 => out4
    | 5 => out5
    | 6 => out6
    | 7 => out7
    | _ => fun _ => 0

/-- The work array after pass 1: output `k` of the column pass stored at
elements `8 k .. 8 k + 7` (lines 135-178). -/
def islow_pass1_workspace (dct_table coef_block : Nat → Int) : Nat → Int :=
  let workspace : Nat → Int := fun _ => 0
  let vl := vsetvl_e16m2 DCTSIZE
  let row := islow_dequant dct_table coef_block
  let t := DO_COMMON_IDCT (row 0) (row 1) (row 2) (row 3) (row 4) (row 5) (row 6) (row 7) vl
  let out := islow_outputs t (CONST_BITS - PASS1_BITS) vl
  let workspace := vse16_v_i16 workspace (DCTSIZE * 0) (out 0) vl
  let workspace := vse16_v_i16 workspace (DCTSIZE * 1) (out 1) vl
  let workspace := vse16_v_i16 workspace (DCTSIZE * 2) (out 2) vl
  let workspace := vse16_v_i16 workspace (DCTSIZE * 3) (out 3) vl
  let workspace := vse16_v_i16 workspace (DCTSIZE * 4) (out 4) vl
  let workspace := vse16_v_i16 workspace (DCTSIZE * 5) (out 5) vl
  let workspace := vse16_v_i16 workspace (DCTSIZE * 6) (out 6) vl
  let workspace := vse16_v_i16 workspace (DCTSIZE * 7) (out 7) vl
  workspace

/-- The signed 16-bit values after the pass-2 descale by
`CONST_BITS + PASS1_BITS + 3`, transposed back through the work array: row `k`
is the vector `out_k` that line 232 and following load, just before the
narrowing to samples (lines 180-239). -/
def islow_pass2_descaled (dct_table coef_block : Nat → Int) : Nat → Vec :=
  let workspace := islow_pass1_workspace dct_table coef_block
  let vl := vsetvl_e16m2 DCTSIZE
  let col_stride := DCTSIZE
  let col0 := vlse16_v_i16 workspace 0 col_stride vl
  let col1 := vlse16_v_i16 workspace 1 col_stride vl
  let col2 := vlse16_v_i16 workspace 2 col_stride vl
  let col3 := vlse16_v_i16 workspace 3 col_stride vl
  let col4 := vlse16_v_i16 workspace 4 col_stride vl
  let col5 := vlse16_v_i16 workspace 5 col_stride vl
  let col6 := vlse16_v_i16 workspace 6 col_stride vl
  let col7 := vlse16_v_i16 workspace 7 col_stride vl
  let t := DO_COMMON_IDCT col0 col1 col2 col3 col4 col5 col6 col7 vl
  let out := islow_outputs t (CONST_BITS + PASS1_BITS + 3) vl
  let workspace := vsse16_v_i16 workspace 0 col_stride (out 0) vl
  let workspace := vsse16_v_i16 workspace 1 col_stride (out 1) vl
  let workspace := vsse16_v_i16 workspace 2 col_stride (out 2) vl
  let workspace := vsse16_v_i16 workspace 3 col_stride (out 3) vl
  let workspace := vsse16_v_i16 workspace 4 col_stride (out 4) vl
  let workspace := vsse16_v_i16 workspace 5 col_stride (out 5) vl
  let workspace := vsse16_v_i16 workspace 6 col_stride (out 6) vl
  let workspace := vsse16_v_i16 workspace 7 col_stride (out 7) vl
  fun k => vle16_v_i16 workspace (DCTSIZE * k) vl

/-- The last stage of the 8-bit build (lines 241-276): narrowing of a row of
16-bit values by `vnsra` with shift 0, addition of `CENTERJSAMPLE` in 8 bits,
reinterpretation as unsigned, store. -/
def islow_store_row (out : Vec) : Vec :=
  let vl := vsetvl_e16m2 DCTSIZE
  let nrr := vnsra_wx_i8 out 0 vl
  let nrr := vadd_vx_i8 nrr CENTERJSAMPLE vl
  let dst := vreinterpret_v_i8_u8 nrr
  vse_v dst vl

end RvvInt

/-! ## Colour conversion kernels: build parameters and unsigned intrinsics

The files `jccolext-rvv.c`, `jdcolext-rvv.c` and `jdmrgext-rvv.c` are included
by `jccolor-rvv.c`, `jdcolor-rvv.c` and `jdmerge-rvv.c`, which define the pixel
layout macros and the constants `F_x`; the kernels below take both as
parameters.  The model is the build with `BITS_IN_JSAMPLE == 8`, where
`sizeof(JSAMPLE)` is 1 and offsets count samples.

A row of samples is a function from the sample offset to the sample value; a
pointer into a row is the row together with an offset.  The hardware grants
`min(avl, VLMAX)` lanes to a request for `avl`, with `VLMAX` a parameter.  A
column loop takes a bound on the number of iterations (fuel) and yields `none`
when the bound is reached before the loop condition fails. -/

/-- The pixel layout macros: sample offsets of the channels in a pixel and the
number of samples per pixel. -/
structure Layout where
  RGB_RED : Nat
  RGB_GREEN : Nat
  RGB_BLUE : Nat
  RGB_ALPHA : Nat
  RGB_PIXELSIZE : Nat

/-- Pointer arithmetic `p + n` on a pointer into a row of samples. -/
def ptr_add (p : Nat → Int) (n : Nat) : Nat → Int := fun j => p (n + j)

/-- `vsetvl_e16m4(avl)`: the granted vector length. -/
def vsetvl_e16m4 (VLMAX avl : Nat) : Nat := min avl VLMAX

/-- High half of the 32-bit product of an unsigned 16-bit value and an unsigned
16-bit scalar. -/
def mulhu16 (a x : Int) : Int := a * (x % 65536) / 65536

/-- Unsigned 16-bit sum. -/
def addu16 (a b : Int) : Int := (a + b) % 65536

/-- Unsigned 16-bit difference. -/
def subu16 (a b : Int) : Int := (a - b) % 65536

/-- Low 8 bits of an unsigned 16-bit value shifted right by `sh`. -/
def nsrl8 (a : Int) (sh : Nat) : Int := a / 2 ^ (sh % 16) % 256

/-- `vlse8_v_u8`: strided load, lane `i` from sample `i * bstride` of `base`. -/
def vlse8_v_u8 (base : Nat → Int) (bstride vl : Nat) : Vec :=
  fun i => if i < vl then base (i * bstride) else 0

/-- `vwaddu_vx_u16`: widening unsigned sum of 8-bit lanes and an 8-bit scalar. -/
def vwaddu_vx_u16 (a : Vec) (x : Int) (vl : Nat) : Vec :=
  fun i => if i < vl then addu16 (a i) (x % 256) else 0

/-- `vmulhu_vx_u16`: high half of the unsigned product with a scalar. -/
def vmulhu_vx_u16 (a : Vec) (x : Int) (vl : Nat) : Vec :=
  fun i => if i < vl then mulhu16 (a i) x else 0

/-- `vadd_vv_u16`. -/
def vadd_vv_u16 (a b : Vec) (vl : Nat) : Vec :=
  fun i => if i < vl then addu16 (a i) (b i) else 0

/-- `vadd_vx_u16`. -/
def vadd_vx_u16 (a : Vec) (x : Int) (vl : Nat) : Vec :=
  fun i => if i < vl then addu16 (a i) x else 0

/-- `vsub_vv_u16`. -/
def vsub_vv_u16 (a b : Vec) (vl : Nat) : Vec :=
  fun i => if i < vl then subu16 (a i) (b i) else 0

/-- `vsub_vx_u16`. -/
def vsub_vx_u16 (a : Vec) (x : Int) (vl : Nat) : Vec :=
  fun i => if i < vl then subu16 (a i) x else 0

/-- `vnsrl_wx_u8`: narrowing logical shift right of 16-bit lanes, the low 8 bits
of the shifted value kept (no saturation). -/
def vnsrl_wx_u8 (a : Vec) (sh vl : Nat) : Vec :=
  fun i => if i < vl then nsrl8 (a i) sh else 0

/-- `vse8_v_u8` into a row: samples `off .. off + vl - 1` are replaced. -/
def vse8_v_u8 (mem : Nat → Int) (off : Nat) (a : Vec) (vl : Nat) : Nat → Int :=
  fun p => if off ≤ p ∧ p < off + vl then a (p - off) else mem p

/-- `vsse8_v_u8` into a row: sample `off + i * bstride` is replaced by lane `i`,
for `i < vl` (positive stride). -/
def vsse8_v_u8 (mem : Nat → Int) (off bstride : Nat) (a : Vec) (vl : Nat) : Nat → Int :=
  fun p =>
    if off ≤ p ∧ (p - off) % bstride = 0 ∧ (p - off) / bstride < vl then a ((p - off) / bstride)
    else mem p

/-! ## Forward colour conversion (`simd/rvv/jccolext-rvv.c`) -/

namespace CColExt

/-- The multiplier constants of the including file. -/
structure Consts where
  F_0_299 : Int
  F_0_587 : Int
  F_0_114 : Int
  F_0_168 : Int
  F_0_331 : Int
  F_0_500 : Int
  F_0_418 : Int
  F_0_081 : Int

/-- The variables that live across iterations of the column loop, and the
three output rows the loop writes. -/
structure ColState where
  inptr : Nat
  outptr0 : Nat
  outptr1 : Nat
  outptr2 : Nat
  num_cols : Nat
  row0 : Nat → Int
  row1 : Nat → Int
  row2 : Nat → Int

/-- One iteration of `while (num_cols > 0)` (lines 50-125); `inrow` is the
input row that `inptr` points into. -/
def rgb_ycc_cols_body (lay : Layout) (c : Consts) (VLMAX : Nat) (inrow : Nat → Int)
    (s : ColState) : ColState :=
  /- Set vl for each iteration. -/
  let vl := vsetvl_e16m4 VLMAX (s.num_cols / lay.RGB_PIXELSIZE)
  let cols := vl * lay.RGB_PIXELSIZE
  let bstride := lay.RGB_PIXELSIZE * 1

  /- Load R, G, B channels as vectors from inptr. -/
  let src := vlse8_v_u8 (ptr_add inrow (s.inptr + lay.RGB_RED)) bstride vl
  let r := vwaddu_vx_u16 src 0 vl
  let src := vlse8_v_u8 (ptr_add inrow (s.inptr + lay.RGB_GREEN)) bstride vl
  let g := vwaddu_vx_u16 src 0 vl
  let src := vlse8_v_u8 (ptr_add inrow (s.inptr + lay.RGB_BLUE)) bstride vl
  let b := vwaddu_vx_u16 src 0 vl

  /- Calculate Y values -/
  let y := vmulhu_vx_u16 r c.F_0_299 vl
  let tmp := vmulhu_vx_u16 g c.F_0_587 vl
  let y := vadd_vv_u16 y tmp vl
  let tmp := vmulhu_vx_u16 b c.F_0_114 vl
  let y := vadd_vv_u16 y tmp vl
  let dest := vnsrl_wx_u8 y 0 vl
  let row0 := vse8_v_u8 s.row0 s.outptr0 dest vl

  /- Calculate Cb values -/
  let y := vmulhu_vx_u16 b c.F_0_500 vl
  let y := vadd_vx_u16 y CENTERJSAMPLE vl
  let tmp := vmulhu_vx_u16 g c.F_0_331 vl
  let y := vsub_vv_u16 y tmp vl
  let tmp := vmulhu_vx_u16 r c.F_0_168 vl
  let y := vsub_vv_u16 y tmp vl
  let dest := vnsrl_wx_u8 y 0 vl
  let row1 := vse8_v_u8 s.row1 s.outptr1 dest vl

  /- Calculate Cr values -/
  let y := vmulhu_vx_u16 r c.F_0_500 vl
  let y := vadd_vx_u16 y CENTERJSAMPLE vl
  let tmp := vmulhu_vx_u16 g c.F_0_418 vl
  let y := vsub_vv_u16 y tmp vl
  let tmp := vmulhu_vx_u16 b c.F_0_081 vl
  let y := vsub_vv_u16 y tmp vl
  let dest := vnsrl_wx_u8 y 0 vl
  let row2 := vse8_v_u8 s.row2 s.outptr2 dest vl

  /- Move the pointer to the right place. -/
  { inptr := s.inptr + cols,
    outptr0 := s.outptr0 + vl, outptr1 := s.outptr1 + vl, outptr2 := s.outptr2 + vl,
    num_cols := s.num_cols - cols,
    row0 := row0, row1 := row1, row2 := row2 }

/-- The loop `while (num_cols > 0)`, at most `fuel` tests of the condition. -/
def rgb_ycc_cols (lay : Layout) (c : Consts) (VLMAX : Nat) (inrow : Nat → Int) :
    Nat → ColState → Option ColState
  | 0, _ => none
  | fuel + 1, s =>
      if s.num_cols > 0 then rgb_ycc_cols lay c VLMAX inrow fuel (rgb_ycc_cols_body lay c VLMAX inrow s)
      else some s

/-- The loop `while (--num_rows >= 0)` with `n` iterations left (lines 39-127).
`k` counts the increments of `input_buf`; `num_cols` is the variable declared
before the loop, carried from one row to the next. -/
def rgb_ycc_rows (lay : Layout) (c : Consts) (VLMAX fuel : Nat) (input_buf : Nat → Nat → Int) :
    Nat → Nat → Nat → Nat → (Nat → Nat → Nat → Int) → Option (Nat → Nat → Nat → Int)
  | 0, _, _, _, output_buf => some output_buf
  | n + 1, k, output_row, num_cols, output_buf =>
      let inptr := input_buf k
      let s : ColState :=
        { inptr := 0, outptr0 := 0, outptr1 := 0, outptr2 := 0, num_cols := num_cols,
          row0 := output_buf 0 output_row,
          row1 := output_buf 1 output_row,
          row2 := output_buf 2 output_row }
      match rgb_ycc_cols lay c VLMAX inptr fuel s with
      | none => none
      | some s =>
          let output_buf : Nat → Nat → Nat → Int := fun ci row =>
            if row = output_row then
              (if ci = 0 then s.row0 else if ci = 1 then s.row1 else if ci = 2 then s.row2
               else output_buf ci row)
            else output_buf ci row
          rgb_ycc_rows lay c VLMAX fuel input_buf n (k + 1) ((output_row + 1) % 2 ^ 32)
            s.num_cols output_buf

/-- The function `jsimd_rgb_ycc_convert_rvv`: the contents of `output_buf`
(component, row, column) after the call.  `img_width` and `output_row` are
`JDIMENSION` values (32 bits, unsigned), `num_rows` is an `int`. -/
def jsimd_rgb_ycc_convert_rvv (lay : Layout) (c : Consts) (VLMAX fuel : Nat)
    (img_width : Nat) (input_buf : Nat → Nat → Int) (output_buf : Nat → Nat → Nat → Int)
    (output_row : Nat) (num_rows : Int) : Option (Nat → Nat → Nat → Int) :=
  let pitch := img_width * lay.RGB_PIXELSIZE % 2 ^ 32
  let num_cols := pitch
  rgb_ycc_rows lay c VLMAX fuel input_buf num_rows.toNat 0 output_row num_cols output_buf

/-- The Y sample the kernel computes from the samples `r`, `g`, `b`
(lines 59-63 and 77-84 on one lane). -/
def y_sample (c : Consts) (r g b : Int) : Int :=
  let r := addu16 r (0 % 256)
  let g := addu16 g (0 % 256)
  let b := addu16 b (0 % 256)
  nsrl8 (addu16 (addu16 (mulhu16 r c.F_0_299) (mulhu16 g c.F_0_587)) (mulhu16 b c.F_0_114)) 0

/-- The Cb sample the kernel computes (lines 91-99 on one lane). -/
def cb_sample (c : Consts) (r g b : Int) : Int :=
  let r := addu16 r (0 % 256)
  let g := addu16 g (0 % 256)
  let b := addu16 b (0 % 256)
  nsrl8 (subu16 (subu16 (addu16 (mulhu16 b c.F_0_500) CENTERJSAMPLE) (mulhu16 g c.F_0_331))
    (mulhu16 r c.F_0_168)) 0

/-- The Cr sample the kernel computes (lines 106-115 on one lane). -/
def cr_sample (c : Consts) (r g b : Int) : Int :=
  let r := addu16 r (0 % 256)
  let g := addu16 g (0 % 256)
  let b := addu16 b (0 % 256)
  nsrl8 (subu16 (subu16 (addu16 (mulhu16 r c.F_0_500) CENTERJSAMPLE) (mulhu16 g c.F_0_418))
    (mulhu16 b c.F_0_081)) 0

end CColExt

/-! ## Inverse colour conversion (`simd/rvv/jdcolext-rvv.c`) -/

namespace DColExt

/-- The multiplier constants of the including file. -/
structure Consts where
  F_0_402 : Int
  F_0_344 : Int
  F_0_714 : Int
  F_0_772 : Int

/-- The variables that live across iterations of the column loop, and the
output row the loop writes. -/
structure ColState where
  outptr : Nat
  inptr0 : Nat
  inptr1 : Nat
  inptr2 : Nat
  num_cols : Nat
  row : Nat → Int

/-- One iteration of `while (num_cols > 0)` (lines 63-145); `in0`, `in1`, `in2`
are the input rows that `inptr0`, `inptr1`, `inptr2` point into, `alpha_v` the
vector set up before the loops. -/
def ycc_rgb_cols_body (lay : Layout) (c : Consts) (VLMAX : Nat) (in0 in1 in2 : Nat → Int)
    (alpha_v : Vec) (s : ColState) : ColState :=
  /- Set vl for each iteration. -/
  let vl := vsetvl_e16m4 VLMAX (s.num_cols / lay.RGB_PIXELSIZE)
  let cols := vl * lay.RGB_PIXELSIZE
  let bstride := lay.RGB_PIXELSIZE * 1

  /- Load R, G, B channels as vectors from inptr. -/
  let src := vle8_v_u8 (ptr_add in0 s.inptr0) vl
  let y := vwaddu_vx_u16 src 0 vl
  let src := vle8_v_u8 (ptr_add in1 s.inptr1) vl
  let cb := vwaddu_vx_u16 src 0 vl
  let src := vle8_v_u8 (ptr_add in2 s.inptr2) vl
  let cr := vwaddu_vx_u16 src 0 vl

  let cb := vsub_vx_u16 cb CENTERJSAMPLE vl
  let cr := vsub_vx_u16 cr CENTERJSAMPLE vl
  /- Calculate R values -/
  let r := vadd_vv_u16 y cr vl
  let tmp := vmulhu_vx_u16 cr c.F_0_402 vl
  let r := vadd_vv_u16 r tmp vl
  let dest := vnsrl_wx_u8 r 0 vl
  let row := vsse8_v_u8 s.row (s.outptr + lay.RGB_RED) bstride dest vl

  /- Calculate G values -/
  let tmp := vmulhu_vx_u16 cb c.F_0_344 vl
  let r := vsub_vv_u16 y tmp vl
  let tmp := vmulhu_vx_u16 cr c.F_0_714 vl
  let r := vsub_vv_u16 r tmp vl
  let dest := vnsrl_wx_u8 r 0 vl
  let row := vsse8_v_u8 row (s.outptr + lay.RGB_GREEN) bstride dest vl

  /- Calculate B values -/
  let r := vadd_vv_u16 y cb vl
  let tmp := vmulhu_vx_u16 cb c.F_0_772 vl
  let r := vadd_vv_u16 r tmp vl
  let dest := vnsrl_wx_u8 r 0 vl
  let row := vsse8_v_u8 row (s.outptr + lay.RGB_BLUE) bstride dest vl

  /- Store alpha channel values. -/
  let row :=
    if lay.RGB_PIXELSIZE = 4 then vsse8_v_u8 row (s.outptr + lay.RGB_ALPHA) bstride alpha_v vl
    else row

  /- Move the pointer to the right place. -/
  { outptr := s.outptr + cols,
    inptr0 := s.inptr0 + vl, inptr1 := s.inptr1 + vl, inptr2 := s.inptr2 + vl,
    num_cols := s.num_cols - cols,
    row := row }

/-- The loop `while (num_cols > 0)`, at most `fuel` tests of the condition. -/
def ycc_rgb_cols (lay : Layout) (c : Consts) (VLMAX : Nat) (in0 in1 in2 : Nat → Int)
    (alpha_v : Vec) : Nat → ColState → Option ColState
  | 0, _ => none
  | fuel + 1, s =>
      if s.num_cols > 0 then
        ycc_rgb_cols lay c VLMAX in0 in1 in2 alpha_v fuel
          (ycc_rgb_cols_body lay c VLMAX in0 in1 in2 alpha_v s)
      else some s

/-- The loop `while (--num_rows >= 0)` with `n` iterations left (lines 53-147).
`k` counts the increments of `output_buf`; `num_cols` is the variable declared
before the loop, carried from one row to the next. -/
def ycc_rgb_rows (lay : Layout) (c : Consts) (VLMAX fuel : Nat)
    (input_buf : Nat → Nat → Nat → Int) (alpha_v : Vec) :
    Nat → Nat → Nat → Nat → (Nat → Nat → Int) → Option (Nat → Nat → Int)
  | 0, _, _, _, output_buf => some output_buf
  | n + 1, k, input_row, num_cols, output_buf =>
      let inptr0 := input_buf 0 input_row
      let inptr1 := input_buf 1 input_row
      let inptr2 := input_buf 2 input_row
      let s : ColState :=
        { outptr := 0, inptr0 := 0, inptr1 := 0, inptr2 := 0, num_cols := num_cols,
          row := output_buf k }
      match ycc_rgb_cols lay c VLMAX inptr0 inptr1 inptr2 alpha_v fuel s with
      | none => none
      | some s =>
          let output_buf : Nat → Nat → Int := fun row => if row = k then s.row else output_buf row
          ycc_rgb_rows lay c VLMAX fuel input_buf alpha_v n (k + 1) ((input_row + 1) % 2 ^ 32)
            s.num_cols output_buf

/-- The function `jsimd_ycc_rgb_convert_rvv`: the rows of `output_buf` (row,
sample offset) after the call.  `out_width` and `input_row` are `JDIMENSION`
values (32 bits, unsigned), `num_rows` is an `int`. -/
def jsimd_ycc_rgb_convert_rvv (lay : Layout) (c : Consts) (VLMAX fuel : Nat)
    (out_width : Nat) (input_buf : Nat → Nat → Nat → Int) (input_row : Nat)
    (output_buf : Nat → Nat → Int) (num_rows : Int) : Option (Nat → Nat → Int) :=
  let pitch := out_width * lay.RGB_PIXELSIZE % 2 ^ 32
  let num_cols := pitch
  let vl := vsetvl_e16m4 VLMAX num_cols
  /- Constants. -/
  let alpha : Nat → Int := fun _ => 0xFF
  let alpha_v := vlse8_v_u8 alpha 0 vl
  ycc_rgb_rows lay c VLMAX fuel input_buf alpha_v num_rows.toNat 0 input_row num_cols output_buf

/-- The R sample the kernel computes from the samples `y`, `cb`, `cr`
(lines 71-76 and 94-102 on one lane). -/
def r_sample (c : Consts) (y cr : Int) : Int :=
  let y := addu16 y (0 % 256)
  let cr := addu16 cr (0 % 256)
  let cr := subu16 cr CENTERJSAMPLE
  nsrl8 (addu16 (addu16 y cr) (mulhu16 cr c.F_0_402)) 0

/-- The G sample the kernel computes (lines 109-115 on one lane). -/
def g_sample (c : Consts) (y cb cr : Int) : Int :=
  let y := addu16 y (0 % 256)
  let cb := addu16 cb (0 % 256)
  let cr := addu16 cr (0 % 256)
  let cb := subu16 cb CENTERJSAMPLE
  let cr := subu16 cr CENTERJSAMPLE
  nsrl8 (subu16 (subu16 y (mulhu16 cb c.F_0_344)) (mulhu16 cr c.F_0_714)) 0

/-- The B sample the kernel computes (lines 122-127 on one lane). -/
def b_sample (c : Consts) (y cb : Int) : Int :=
  let y := addu16 y (0 % 256)
  let cb := addu16 cb (0 % 256)
  let cb := subu16 cb CENTERJSAMPLE
  nsrl8 (addu16 (addu16 y cb) (mulhu16 cb c.F_0_772)) 0

/-- A state of the column loop `d` pixels into a row of `n` pixels. -/
def at_pixel (lay : Layout) (n d : Nat) (s : ColState) : Prop :=
  s.outptr = d * lay.RGB_PIXELSIZE ∧ s.inptr0 = d ∧ s.inptr1 = d ∧ s.inptr2 = d ∧
    s.num_cols = (n - d) * lay.RGB_PIXELSIZE

end DColExt

/-! ## Merged upsampling and colour conversion (`simd/rvv/jdmrgext-rvv.c`) -/

namespace DMrgExt

/-- `vsetvl_e16m2(avl)`: the granted vector length. -/
def vsetvl_e16m2 (VLMAX avl : Nat) : Nat := min avl VLMAX

/-- The variables that live across iterations of the column loop, and the
output row the loop writes.  `num_cols` is an `int`. -/
structure ColState where
  outptr : Nat
  inptr0 : Nat
  inptr1 : Nat
  inptr2 : Nat
  num_cols : Int
  row : Nat → Int

/-- One iteration of the `for` loop of `jsimd_h2v1_merged_upsample_rvv`: the
body (lines 83-186) followed by the increment expression (lines 81-82). -/
def h2v1_cols_body (lay : Layout) (c : DColExt.Consts) (VLMAX : Nat) (in0 in1 in2 : Nat → Int)
    (alpha_v : Vec) (s : ColState) : ColState :=
  /- Set vl for each iteration. -/
  let vl := vsetvl_e16m2 VLMAX (s.num_cols / lay.RGB_PIXELSIZE / 2).toNat
  let cols := vl * lay.RGB_PIXELSIZE
  let bstride := lay.RGB_PIXELSIZE * 1

  /- Y component values with even-numbered indices. -/
  let src := vlse8_v_u8 (ptr_add in0 s.inptr0) (2 * 1) vl
  let y0 := vwaddu_vx_u16 src 0 vl
  /- Y component values with odd-numbered indices. -/
  let src := vlse8_v_u8 (ptr_add in0 (s.inptr0 + 1)) (2 * 1) vl
  let y1 := vwaddu_vx_u16 src 0 vl
  let src := vle8_v_u8 (ptr_add in1 s.inptr1) vl
  let cb := vwaddu_vx_u16 src 0 vl
  let src := vle8_v_u8 (ptr_add in2 s.inptr2) vl
  let cr := vwaddu_vx_u16 src 0 vl

  let cb := vsub_vx_u16 cb CENTERJSAMPLE vl
  let cr := vsub_vx_u16 cr CENTERJSAMPLE vl

  /- Calculate R-Y values -/
  let r_sub_y := vmulhu_vx_u16 cr c.F_0_402 vl
  let r_sub_y := vadd_vv_u16 r_sub_y cr vl

  /- Calculate Y-G values -/
  let y_sub_g := vmulhu_vx_u16 cb c.F_0_344 vl
  let tmp := vmulhu_vx_u16 cr c.F_0_714 vl
  let y_sub_g := vadd_vv_u16 y_sub_g tmp vl

  /- Calculate B-Y values -/
  let b_sub_y := vmulhu_vx_u16 cb c.F_0_772 vl
  let b_sub_y := vadd_vv_u16 b_sub_y cb vl

  /- Compute R, G, B values with even-numbered indices. -/
  let r := vadd_vv_u16 r_sub_y y0 vl
  let g := vsub_vv_u16 y0 y_sub_g vl
  let b := vadd_vv_u16 b_sub_y y0 vl
  /- Narrow to 8-bit and store to memory. -/
  let dest := vnsrl_wx_u8 r 0 vl
  let row := vsse8_v_u8 s.row (s.outptr + lay.RGB_RED) (2 * bstride) dest vl
  let dest := vnsrl_wx_u8 g 0 vl
  let row := vsse8_v_u8 row (s.outptr + lay.RGB_GREEN) (2 * bstride) dest vl
  let dest := vnsrl_wx_u8 b 0 vl
  let row := vsse8_v_u8 row (s.outptr + lay.RGB_BLUE) (2 * bstride) dest vl
  /- Deal with alpha channel. -/
  let row :=
    if lay.RGB_PIXELSIZE = 4 then
      vsse8_v_u8 row (s.outptr + lay.RGB_ALPHA) (2 * bstride) alpha_v vl
    else row

  /- Compute R, G, B values with odd-numbered indices. -/
  let r := vadd_vv_u16 r_sub_y y1 vl
  let g := vsub_vv_u16 y1 y_sub_g vl
  let b := vadd_vv_u16 b_sub_y y1 vl
  /- Narrow to 8-bit and store to memory. -/
  let dest := vnsrl_wx_u8 r 0 vl
  let row := vsse8_v_u8 row (s.outptr + lay.RGB_PIXELSIZE + lay.RGB_RED) (2 * bstride) dest vl
  let dest := vnsrl_wx_u8 g 0 vl
  let row := vsse8_v_u8 row (s.outptr + lay.RGB_PIXELSIZE + lay.RGB_GREEN) (2 * bstride) dest vl
  let dest := vnsrl_wx_u8 b 0 vl
  let row := vsse8_v_u8 row (s.outptr + lay.RGB_PIXELSIZE + lay.RGB_BLUE) (2 * bstride) dest vl
  /- Deal with alpha channel. -/
  let row :=
    if lay.RGB_PIXELSIZE = 4 then
      vsse8_v_u8 row (s.outptr + lay.RGB_PIXELSIZE + lay.RGB_ALPHA) (2 * bstride) alpha_v vl
    else row

  /- inptr0 += 2 * vl, inptr1 += vl, inptr2 += vl, outptr += 2 * cols, num_cols -= 2 * cols -/
  { outptr := s.outptr + 2 * cols,
    inptr0 := s.inptr0 + 2 * vl, inptr1 := s.inptr1 + vl, inptr2 := s.inptr2 + vl,
    num_cols := wrap32 (s.num_cols - 2 * cols),
    row := row }

/-- The `for` loop over the columns, at most `fuel` tests of the condition
`num_cols > 0`. -/
def h2v1_cols (lay : Layout) (c : DColExt.Consts) (VLMAX : Nat) (in0 in1 in2 : Nat → Int)
    (alpha_v : Vec) : Nat → ColState → Option ColState
  | 0, _ => none
  | fuel + 1, s =>
      if s.num_cols > 0 then
        h2v1_cols lay c VLMAX in0 in1 in2 alpha_v fuel
          (h2v1_cols_body lay c VLMAX in0 in1 in2 alpha_v s)
      else some s

/-- The function `jsimd_h2v1_merged_upsample_rvv`: the row `output_buf[0]`
after the call.  `output_width` and `in_row_group_ctr` are `JDIMENSION` values;
`pitch` is the 32-bit product read as an `int`. -/
def jsimd_h2v1_merged_upsample_rvv (lay : Layout) (c : DColExt.Consts) (VLMAX fuel : Nat)
    (output_width : Nat) (input_buf : Nat → Nat → Nat → Int) (in_row_group_ctr : Nat)
    (output_buf : Nat → Nat → Int) : Option (Nat → Int) :=
  let pitch := wrap32 ((output_width * lay.RGB_PIXELSIZE % 2 ^ 32 : Nat) : Int)
  let vl := vsetvl_e16m2 VLMAX (output_width / 2)
  /- Constants. -/
  let alpha : Nat → Int := fun _ => 0xFF
  let alpha_v := vlse8_v_u8 alpha 0 vl
  let inptr0 := input_buf 0 in_row_group_ctr
  let inptr1 := input_buf 1 in_row_group_ctr
  let inptr2 := input_buf 2 in_row_group_ctr
  let s : ColState :=
    { outptr := 0, inptr0 := 0, inptr1 := 0, inptr2 := 0, num_cols := pitch,
      row := output_buf 0 }
  (h2v1_cols lay c VLMAX inptr0 inptr1 inptr2 alpha_v fuel s).map fun s => s.row

/-- A state of the column loop `d` pixel pairs into a row of `n` pairs. -/
def at_pair (lay : Layout) (n d : Nat) (s : ColState) : Prop :=
  s.outptr = d * (2 * lay.RGB_PIXELSIZE) ∧ s.inptr0 = 2 * d ∧ s.inptr1 = d ∧ s.inptr2 = d ∧
    s.num_cols = (((n - d) * (2 * lay.RGB_PIXELSIZE) : Nat) : Int)

end DMrgExt

/-- A block whose only non-zero coefficient is the DC term -100. -/
def dc_block_neg100 : Nat → Int := fun i => if i = 0 then -100 else 0

/-! ## Scalar colour conversion

The scalar routine `rgb_ycc_convert` (`jccolor.c`) is the oracle of the forward
kernel; it is stated here in the words of the specification, with the
constants scaled by `2^16`. -/

namespace Ref

/-- Scalar luma: `(19595 R + 38470 G + 7471 B + 32768) >> 16`. -/
def rgb_ycc_y (r g b : Int) : Int := (19595 * r + 38470 * g + 7471 * b + 32768) / 65536

/-- Scalar Cb: `(-11059 R - 21709 G + 32768 B + (128 << 16) + 32767) >> 16`. -/
def rgb_ycc_cb (r g b : Int) : Int :=
  (-11059 * r - 21709 * g + 32768 * b + 128 * 65536 + 32767) / 65536

/-- Scalar Cr: `(32768 R - 27439 G - 5329 B + (128 << 16) + 32767) >> 16`. -/
def rgb_ycc_cr (r g b : Int) : Int :=
  (32768 * r - 27439 * g - 5329 * b + 128 * 65536 + 32767) / 65536

end Ref

/-! ## Concrete inputs of the colour kernels -/

/-- The forward constants `round(x * 2^16)` of the specification. -/
def bt601_forward : CColExt.Consts :=
  { F_0_299 := 19595, F_0_587 := 38470, F_0_114 := 7471, F_0_168 := 11059,
    F_0_331 := 21709, F_0_500 := 32768, F_0_418 := 27439, F_0_081 := 5329 }

/-- The inverse constants of the specification: 0.402, 0.34414, 0.71414 and
0.772 times `2^16`, rounded to the nearest integer. -/
def bt601_inverse : DColExt.Consts :=
  { F_0_402 := 26345, F_0_344 := 22554, F_0_714 := 46802, F_0_772 := 50594 }

/-- The layout of three samples per pixel in the order R, G, B (the alpha
offset is not used). -/
def ext_rgb : Layout :=
  { RGB_RED := 0, RGB_GREEN := 1, RGB_BLUE := 2, RGB_ALPHA := 3, RGB_PIXELSIZE := 3 }

/-- The layout of four samples per pixel in the order R, G, B, alpha. -/
def ext_rgbx : Layout :=
  { RGB_RED := 0, RGB_GREEN := 1, RGB_BLUE := 2, RGB_ALPHA := 3, RGB_PIXELSIZE := 4 }

/-- Interleaved input rows in which every pixel is `(r, g, b)`. -/
def solid_rows (lay : Layout) (r g b : Int) : Nat → Nat → Int := fun _ j =>
  if j % lay.RGB_PIXELSIZE = lay.RGB_RED then r
  else if j % lay.RGB_PIXELSIZE = lay.RGB_GREEN then g
  else if j % lay.RGB_PIXELSIZE = lay.RGB_BLUE then b else 0

/-- Planar input in which every sample triple is `(y, cb, cr)`. -/
def solid_planes (y cb cr : Int) : Nat → Nat → Nat → Int := fun ci _ _ =>
  if ci = 0 then y else if ci = 1 then cb else cr

/-- Planar output memory holding 0 everywhere. -/
def blank_planes : Nat → Nat → Nat → Int := fun _ _ _ => 0

/-- Interleaved output memory holding 0 everywhere. -/
def blank_rows : Nat → Nat → Int := fun _ _ => 0

/-- Forward conversion of the one-pixel image `(r, g, b)` followed by the
inverse conversion of the resulting sample triple: the pixel read back. -/
def round_trip_pixel (lay : Layout) (fc : CColExt.Consts) (ic : DColExt.Consts) (VLMAX : Nat)
    (r g b : Int) : Option (Int × Int × Int) :=
  match CColExt.jsimd_rgb_ycc_convert_rvv lay fc VLMAX 2 1 (solid_rows lay r g b) blank_planes 0 1
  with
  | none => none
  | some ycc =>
      match DColExt.jsimd_ycc_rgb_convert_rvv lay ic VLMAX 2 1 ycc 0 blank_rows 1 with
      | none => none
      | some rgb => some (rgb 0 lay.RGB_RED, rgb 0 lay.RGB_GREEN, rgb 0 lay.RGB_BLUE)

/-! ## Fast IDCT by stages

The same source lines as `AndesFst.ifast_rows_all_full`, cut where the source
combines the eight pass-1 result vectors into `rows_all_i16m8`. -/

namespace AndesFst

/-- The eight pass-1 result vectors `row0 .. row7` of the full-calculation
branch, as they stand before `// combine vectors` (lines 119-197). -/
def ifast_pass1_rows (vxrm : Vxrm) (quantptr : Nat → Int)
    (row0 row1 row2 row3 row4 row5 row6 row7 : Vec) : Nat → Vec :=
  let vl := 8
  /- Load quantization table. -/
  let quant_row1 := vle16_v_i16 quantptr (1 * DCTSIZE) vl
  let quant_row2 := vle16_v_i16 quantptr (2 * DCTSIZE) vl
  let quant_row3 := vle16_v_i16 quantptr (3 * DCTSIZE) vl
  let quant_row4 := vle16_v_i16 quantptr (4 * DCTSIZE) vl
  let quant_row5 := vle16_v_i16 quantptr (5 * DCTSIZE) vl
  let quant_row6 := vle16_v_i16 quantptr (6 * DCTSIZE) vl
  let quant_row7 := vle16_v_i16 quantptr (7 * DCTSIZE) vl

  /- Even part: dequantize DCT coefficients. -/
  let tmp0 := vmv_v_v_i16 row0 vl
  let tmp1 := vmul_vv_i16 row2 quant_row2 vl
  let tmp2 := vmul_vv_i16 row4 quant_row4 vl
  let tmp3 := vmul_vv_i16 row6 quant_row6 vl

  let tmp10 := vadd_vv_i16 tmp0 tmp2 vl
  let tmp11 := vsub_vv_i16 tmp0 tmp2 vl
  let tmp13 := vadd_vv_i16 tmp1 tmp3 vl
  let tmp1_sub_tmp3 := vsub_vv_i16 tmp1 tmp3 vl
  let tmp12 := vsmul_vx_i16 vxrm tmp1_sub_tmp3 (idct_ifast_consts 1) vl
  let tmp12 := vadd_vv_i16 tmp12 tmp1_sub_tmp3 vl
  let tmp12 := vsub_vv_i16 tmp12 tmp13 vl

  let tmp0 := vadd_vv_i16 tmp10 tmp13 vl
  let tmp3 := vsub_vv_i16 tmp10 tmp13 vl
  let tmp1 := vadd_vv_i16 tmp11 tmp12 vl
  let tmp2 := vsub_vv_i16 tmp11 tmp12 vl

  /- Odd part: dequantize DCT coefficients. -/
  let tmp4 := vmul_vv_i16 (vmv_v_v_i16 row1 vl) quant_row1 vl
  let tmp5 := vmul_vv_i16 (vmv_v_v_i16 row3 vl) quant_row3 vl
  let tmp6 := vmul_vv_i16 (vmv_v_v_i16 row5 vl) quant_row5 vl
  let tmp7 := vmul_vv_i16 (vmv_v_v_i16 row7 vl) quant_row7 vl

  let z13 := vadd_vv_i16 tmp5 tmp6 vl
  let neg_z10 := vsub_vv_i16 tmp5 tmp6 vl
  let z11 := vadd_vv_i16 tmp4 tmp7 vl
  let z12 := vsub_vv_i16 tmp4 tmp7 vl

  let tmp7 := vadd_vv_i16 z11 z13 vl
  let z11_sub_z13 := vsub_vv_i16 z11 z13 vl
  let tmp11 := vsmul_vx_i16 vxrm z11_sub_z13 (idct_ifast_consts 1) vl
  let tmp11 := vadd_vv_i16 tmp11 z11_sub_z13 vl

  let z10_add_z12 := vsub_vv_i16 z12 neg_z10 vl
  let z5 := vsmul_vx_i16 vxrm z10_add_z12 (idct_ifast_consts 2) vl
  let z5 := vadd_vv_i16 z5 z10_add_z12 vl

  let tmp10 := vsmul_vx_i16 vxrm z12 (idct_ifast_consts 0) vl
  let tmp10 := vadd_vv_i16 tmp10 z12 vl
  let tmp10 := vsub_vv_i16 tmp10 z5 vl

  let tmp12 := vsmul_vx_i16 vxrm neg_z10 (idct_ifast_consts 3) vl
  let tmp_neg_z10_d := vadd_vv_i16 neg_z10 neg_z10 vl
  let tmp12 := vadd_vv_i16 tmp12 tmp_neg_z10_d vl
  let tmp12 := vadd_vv_i16 tmp12 z5 vl

  let tmp6 := vsub_vv_i16 tmp12 tmp7 vl
  let tmp5 := vsub_vv_i16 tmp11 tmp6 vl
  let tmp4 := vadd_vv_i16 tmp10 tmp5 vl

  let row0 := vadd_vv_i16 tmp0 tmp7 vl
  let row7 := vsub_vv_i16 tmp0 tmp7 vl
  let row1 := vadd_vv_i16 tmp1 tmp6 vl
  let row6 := vsub_vv_i16 tmp1 tmp6 vl
  let row2 := vadd_vv_i16 tmp2 tmp5 vl
  let row5 := vsub_vv_i16 tmp2 tmp5 vl
  let row4 := vadd_vv_i16 tmp3 tmp4 vl
  let row3 := vsub_vv_i16 tmp3 tmp4 vl
  fun k =>
    match k with
    | 0 => row0
    | 1 => row1
    | 2 => row2
    | 3 => row3
    | 4 => row4
    | 5 => row5
    | 6 => row6
    | 7 => row7
    | _ => fun _ => 0

/-- The lines under `// combine vectors` of the full-calculation branch
(lines 199-211), on the eight pass-1 result vectors. -/
def ifast_combine (row : Nat → Vec) : Vec :=
  let rows_0123_i16m4 := vlmul_ext (row 0)
  let rows_0123_i16m4 := vslideup_vx rows_0123_i16m4 (vlmul_ext (row 1)) 8 32
  let rows_0123_i16m4 := vslideup_vx rows_0123_i16m4 (vlmul_ext (row 2)) 16 32
  let rows_0123_i16m4 := vslideup_vx rows_0123_i16m4 (vlmul_ext (row 2)) 24 32

  let rows_4567_i16m4 := vlmul_ext (row 4)
  let rows_4567_i16m4 := vslideup_vx rows_4567_i16m4 (vlmul_ext (row 5)) 8 32
  let rows_4567_i16m4 := vslideup_vx rows_4567_i16m4 (vlmul_ext (row 6)) 16 32
  let rows_4567_i16m4 := vslideup_vx rows_4567_i16m4 (vlmul_ext (row 7)) 24 32

  let rows_all_i16m8 := vlmul_ext rows_0123_i16m4
  vslideup_vx rows_all_i16m8 (vlmul_ext rows_4567_i16m4) 32 64

/-- The coefficient rows as `jsimd_idct_ifast_rvv` holds them when it enters
the full-calculation branch: row 0 dequantized, rows 1..7 as loaded. -/
def ifast_loaded_row (dct_table coef_block : Nat → Int) (k : Nat) : Vec :=
  if k = 0 then
    vmul_vv_i16 (vle16_v_i16 coef_block (0 * DCTSIZE) 8) (vle16_v_i16 dct_table (0 * DCTSIZE) 8) 8
  else vle16_v_i16 coef_block (k * DCTSIZE) 8

/-- The pass-1 result vectors of the full-calculation branch for an input. -/
def ifast_pass1_rows_of (vxrm : Vxrm) (dct_table coef_block : Nat → Int) : Nat → Vec :=
  let row := ifast_loaded_row dct_table coef_block
  ifast_pass1_rows vxrm dct_table (row 0) (row 1) (row 2) (row 3) (row 4) (row 5) (row 6) (row 7)

/-- The work array after the transpose (lines 227-232). -/
def ifast_workspace (rows_all_i16m8 : Vec) : Vec :=
  let vg_reg8 := vle8_v_u8 trans_index8x8_u8 DCTSIZE2
  let vg_reg16 := vrgather_vv rows_all_i16m8 (vzext_vf2 vg_reg8 DCTSIZE2) DCTSIZE2
  vse_v vg_reg16 DCTSIZE2

end AndesFst

/-! ## Outputs of the generic accurate kernel, pass by pass -/

namespace RvvInt

/-- The terms left by `DO_COMMON_IDCT(row)` in pass 1 (line 144). -/
def islow_pass1_terms (dct_table coef_block : Nat → Int) : CommonIdct :=
  let vl := vsetvl_e16m2 DCTSIZE
  let row := islow_dequant dct_table coef_block
  DO_COMMON_IDCT (row 0) (row 1) (row 2) (row 3) (row 4) (row 5) (row 6) (row 7) vl

/-- The terms left by `DO_COMMON_IDCT(col)` in pass 2 (line 193). -/
def islow_pass2_terms (dct_table coef_block : Nat → Int) : CommonIdct :=
  let workspace := islow_pass1_workspace dct_table coef_block
  let vl := vsetvl_e16m2 DCTSIZE
  let col_stride := DCTSIZE
  let col0 := vlse16_v_i16 workspace 0 col_stride vl
  let col1 := vlse16_v_i16 workspace 1 col_stride vl
  let col2 := vlse16_v_i16 workspace 2 col_stride vl
  let col3 := vlse16_v_i16 workspace 3 col_stride vl
  let col4 := vlse16_v_i16 workspace 4 col_stride vl
  let col5 := vlse16_v_i16 workspace 5 col_stride vl
  let col6 := vlse16_v_i16 workspace 6 col_stride vl
  let col7 := vlse16_v_i16 workspace 7 col_stride vl
  DO_COMMON_IDCT col0 col1 col2 col3 col4 col5 col6 col7 vl

/-- The descale of the kernel: add `ROUND_ADD(n)`, narrowing shift by `n`. -/
def islow_descale (x : Vec) (n vl : Nat) : Vec :=
  vnsra_wx_i16 (vadd_vx_i32 x (ROUND_ADD n) vl) n vl

/-- The mirrored pairing in the words of the specification: with
`E = (tmp10, tmp11, tmp12, tmp13)` and `O = (tmp3, tmp2, tmp1, tmp0)`, output
`k` is the descale of `E_k + O_k` and output `7 - k` the descale of
`E_k - O_k`, for `k` in `0 .. 3`. -/
def mirrored_outputs (t : CommonIdct) (n vl : Nat) : Nat → Vec :=
  fun k =>
    match k with
    | 0 => islow_descale (vadd_vv_i32 t.tmp10 t.tmp3 vl) n vl
    | 1 => islow_descale (vadd_vv_i32 t.tmp11 t.tmp2 vl) n vl
    | 2 => islow_descale (vadd_vv_i32 t.tmp12 t.tmp1 vl) n vl
    | 3 => islow_descale (vadd_vv_i32 t.tmp13 t.tmp0 vl) n vl
    | 4 => islow_descale (vsub_vv_i32 t.tmp13 t.tmp0 vl) n vl
    | 5 => islow_descale (vsub_vv_i32 t.tmp12 t.tmp1 vl) n vl
    | 6 => islow_descale (vsub_vv_i32 t.tmp11 t.tmp2 vl) n vl
    | 7 => islow_descale (vsub_vv_i32 t.tmp10 t.tmp3 vl) n vl
    | _ => fun _ => 0

end RvvInt

/-- Coefficient 64 at row 1, column 1 and zeros elsewhere. -/
def impulse_r1c1_64 : Nat → Int := fun i => if i = 9 then 64 else 0

/-! ## Input footprints of the reduced-size kernels -/

/-- Two 8x8 tables agree at every position whose row and column are both among
0, 1, 3, 5, 7. -/
def agree_on_2x2 (a b : Nat → Int) : Prop :=
  ∀ r < 8, ∀ c < 8, used_2x2 r → used_2x2 c → a (8 * r + c) = b (8 * r + c)

instance (a b : Nat → Int) : Decidable (agree_on_2x2 a b) := by
  unfold agree_on_2x2; infer_instance

/-- Two 8x8 tables agree at every position whose row and column both differ
from 4. -/
def agree_on_4x4 (a b : Nat → Int) : Prop :=
  ∀ r < 8, ∀ c < 8, used_4x4 r → used_4x4 c → a (8 * r + c) = b (8 * r + c)

instance (a b : Nat → Int) : Decidable (agree_on_4x4 a b) := by
  unfold agree_on_4x4; infer_instance

/-- The 16-bit patterns of rows 1, 2, 3, 5, 6, 7 of a coefficient block are all
zero: the condition `0 == ac_bitmap` of the 4x4 kernel. -/
def ac_bits_zero_4x4 (coef_block : Nat → Int) : Prop :=
  ∀ r < 8, ∀ c < 8, 1 ≤ r → r ≠ 4 → toBits16 (coef_block (8 * r + c)) = 0

instance (b : Nat → Int) : Decidable (ac_bits_zero_4x4 b) := by
  unfold ac_bits_zero_4x4; infer_instance

/-- The test block with every entry of rows 2, 4, 6 and columns 2, 4, 6
replaced: by 9 in the coefficient block. -/
def sample_block_off_2x2 : Nat → Int := fun i =>
  if used_2x2 (i / 8) ∧ used_2x2 (i % 8) then sample_block i else 9

/-- The flat table of 16 with every entry of rows 2, 4, 6 and columns 2, 4, 6
replaced by 3. -/
def flat_table_16_off_2x2 : Nat → Int := fun i =>
  if used_2x2 (i / 8) ∧ used_2x2 (i % 8) then 16 else 3

/-- DC term 100 and, in column 4 of row 1, the coefficient 7: the AC test of
the 4x4 kernel fails on it, on `dc_block_100` it succeeds. -/
def dc_block_100_col4 : Nat → Int := fun i => if i = 0 then 100 else if i = 12 then 7 else 0

/-- The flat table of 16 with row 4 and column 4 replaced by 3. -/
def flat_table_16_off_4x4 : Nat → Int := fun i =>
  if used_4x4 (i / 8) ∧ used_4x4 (i % 8) then 16 else 3

/-! ## Access counts of the forward colour conversion -/

/-- The samples a `vlse8_v_u8` of `vl` lanes from offset `off` with stride
`bstride` touches, added to the counts `n`: offset `off + i * bstride` for
`i < vl`. -/
def count_vlse8 (n : Nat → Nat) (off bstride vl : Nat) : Nat → Nat :=
  fun p =>
    if off ≤ p ∧ (p - off) % bstride = 0 ∧ (p - off) / bstride < vl then n p + 1 else n p

/-- The samples a `vse8_v_u8` of `vl` lanes at offset `off` touches, added to
the counts `n`: offsets `off .. off + vl - 1`. -/
def count_vse8 (n : Nat → Nat) (off vl : Nat) : Nat → Nat :=
  fun p => if off ≤ p ∧ p < off + vl then n p + 1 else n p

namespace CColExt

/-- How often the column loop has read each sample of the input row and has
written each sample of the Y, Cb and Cr rows. -/
structure Footprint where
  reads : Nat → Nat
  writes0 : Nat → Nat
  writes1 : Nat → Nat
  writes2 : Nat → Nat

/-- The loads and stores of one iteration of `while (num_cols > 0)`, on the
state the iteration starts from: the three strided loads (lines 59-63) and the
three unit-stride stores (lines 84, 99, 115). -/
def rgb_ycc_cols_accesses (lay : Layout) (VLMAX : Nat) (s : ColState) (f : Footprint) :
    Footprint :=
  let vl := vsetvl_e16m4 VLMAX (s.num_cols / lay.RGB_PIXELSIZE)
  let bstride := lay.RGB_PIXELSIZE * 1
  let reads := count_vlse8 f.reads (s.inptr + lay.RGB_RED) bstride vl
  let reads := count_vlse8 reads (s.inptr + lay.RGB_GREEN) bstride vl
  let reads := count_vlse8 reads (s.inptr + lay.RGB_BLUE) bstride vl
  { reads := reads,
    writes0 := count_vse8 f.writes0 s.outptr0 vl,
    writes1 := count_vse8 f.writes1 s.outptr1 vl,
    writes2 := count_vse8 f.writes2 s.outptr2 vl }

/-- The loop `while (num_cols > 0)` with its accesses recorded: the state moves
by `rgb_ycc_cols_body` as in `rgb_ycc_cols`. -/
def rgb_ycc_cols_traced (lay : Layout) (c : Consts) (VLMAX : Nat) (inrow : Nat → Int) :
    Nat → ColState → Footprint → Option (ColState × Footprint)
  | 0, _, _ => none
  | fuel + 1, s, f =>
      if s.num_cols > 0 then
        rgb_ycc_cols_traced lay c VLMAX inrow fuel (rgb_ycc_cols_body lay c VLMAX inrow s)
          (rgb_ycc_cols_accesses lay VLMAX s f)
      else some (s, f)

/-- The accesses of `jsimd_rgb_ycc_convert_rvv` in its first row (the only one
when `num_rows = 1`): the column loop entered with `num_cols = pitch`. -/
def rgb_ycc_convert_footprint (lay : Layout) (c : Consts) (VLMAX fuel : Nat)
    (img_width : Nat) (input_buf : Nat → Nat → Int) (output_buf : Nat → Nat → Nat → Int)
    (output_row : Nat) : Option Footprint :=
  let pitch := img_width * lay.RGB_PIXELSIZE % 2 ^ 32
  let num_cols := pitch
  let inptr := input_buf 0
  let s : ColState :=
    { inptr := 0, outptr0 := 0, outptr1 := 0, outptr2 := 0, num_cols := num_cols,
      row0 := output_buf 0 output_row,
      row1 := output_buf 1 output_row,
      row2 := output_buf 2 output_row }
  let f : Footprint :=
    { reads := fun _ => 0, writes0 := fun _ => 0, writes1 := fun _ => 0, writes2 := fun _ => 0 }
  (rgb_ycc_cols_traced lay c VLMAX inptr fuel s f).map Prod.snd

end CColExt

/-! ## Output rows of the inverse conversions, sample by sample -/

/-- The colour offsets of a layout lie inside the pixel, and so does the alpha
offset in a build with four samples per pixel. -/
def Layout.inside (lay : Layout) : Prop :=
  0 < lay.RGB_PIXELSIZE ∧ lay.RGB_RED < lay.RGB_PIXELSIZE ∧
    lay.RGB_GREEN < lay.RGB_PIXELSIZE ∧ lay.RGB_BLUE < lay.RGB_PIXELSIZE ∧
    (lay.RGB_PIXELSIZE = 4 → lay.RGB_ALPHA < lay.RGB_PIXELSIZE)

instance (lay : Layout) : Decidable lay.inside := by unfold Layout.inside; infer_instance

/-- The colour offsets of a layout are pairwise different, and different from
the alpha offset in a build with four samples per pixel. -/
def Layout.distinct (lay : Layout) : Prop :=
  lay.RGB_RED ≠ lay.RGB_GREEN ∧ lay.RGB_RED ≠ lay.RGB_BLUE ∧ lay.RGB_GREEN ≠ lay.RGB_BLUE ∧
    (lay.RGB_PIXELSIZE = 4 →
      lay.RGB_ALPHA ≠ lay.RGB_RED ∧ lay.RGB_ALPHA ≠ lay.RGB_GREEN ∧ lay.RGB_ALPHA ≠ lay.RGB_BLUE)

instance (lay : Layout) : Decidable lay.distinct := by unfold Layout.distinct; infer_instance

namespace DColExt

/-- The sample the stores of one iteration of `jsimd_ycc_rgb_convert_rvv` leave
at offset `r` of a pixel converted from `(y, cb, cr)`: the stores come in the
order red, green, blue, alpha (lines 103, 116, 128, 136), so the last one that
addresses the offset decides; `old` is the sample before the iteration. -/
def stored_sample (lay : Layout) (c : Consts) (y cb cr alpha old : Int) (r : Nat) : Int :=
  if lay.RGB_PIXELSIZE = 4 ∧ r = lay.RGB_ALPHA then alpha
  else if r = lay.RGB_BLUE then b_sample c y cb
  else if r = lay.RGB_GREEN then g_sample c y cb cr
  else if r = lay.RGB_RED then r_sample c y cr
  else old

/-- The output row after the conversion of pixels `0 .. n - 1`, sample by
sample. -/
def converted_row (lay : Layout) (c : Consts) (in0 in1 in2 : Nat → Int) (old : Nat → Int)
    (n : Nat) : Nat → Int :=
  fun p =>
    if p < n * lay.RGB_PIXELSIZE then
      stored_sample lay c (in0 (p / lay.RGB_PIXELSIZE)) (in1 (p / lay.RGB_PIXELSIZE))
        (in2 (p / lay.RGB_PIXELSIZE)) 0xFF (old p) (p % lay.RGB_PIXELSIZE)
    else old p

end DColExt

namespace DMrgExt

/-- The R sample the merged kernel computes from `y`, `cr` (lines 120, 123-124
and 136, 162 on one lane). -/
def r_sample (c : DColExt.Consts) (y cr : Int) : Int :=
  let y := addu16 y (0 % 256)
  let cr := addu16 cr (0 % 256)
  let cr := subu16 cr CENTERJSAMPLE
  let r_sub_y := addu16 (mulhu16 cr c.F_0_402) cr
  nsrl8 (addu16 r_sub_y y) 0

/-- The G sample the merged kernel computes (lines 119-120, 127-129 and 137,
163 on one lane). -/
def g_sample (c : DColExt.Consts) (y cb cr : Int) : Int :=
  let y := addu16 y (0 % 256)
  let cb := addu16 cb (0 % 256)
  let cr := addu16 cr (0 % 256)
  let cb := subu16 cb CENTERJSAMPLE
  let cr := subu16 cr CENTERJSAMPLE
  let y_sub_g := addu16 (mulhu16 cb c.F_0_344) (mulhu16 cr c.F_0_714)
  nsrl8 (subu16 y y_sub_g) 0

/-- The B sample the merged kernel computes (lines 119, 132-133 and 138, 164
on one lane). -/
def b_sample (c : DColExt.Consts) (y cb : Int) : Int :=
  let y := addu16 y (0 % 256)
  let cb := addu16 cb (0 % 256)
  let cb := subu16 cb CENTERJSAMPLE
  let b_sub_y := addu16 (mulhu16 cb c.F_0_772) cb
  nsrl8 (addu16 b_sub_y y) 0

/-- The sample the stores of one iteration of `jsimd_h2v1_merged_upsample_rvv`
leave at offset `r` of a pixel computed from `(y, cb, cr)`: red, green, blue,
alpha in source order, the last store that addresses the offset decides. -/
def stored_sample (lay : Layout) (c : DColExt.Consts) (y cb cr alpha old : Int) (r : Nat) : Int :=
  if lay.RGB_PIXELSIZE = 4 ∧ r = lay.RGB_ALPHA then alpha
  else if r = lay.RGB_BLUE then b_sample c y cb
  else if r = lay.RGB_GREEN then g_sample c y cb cr
  else if r = lay.RGB_RED then r_sample c y cr
  else old

/-- The output row after the merged kernel has produced pixels
`0 .. 2 n - 1`, sample by sample: pixel `k` from luma sample `k` and chroma
samples `k / 2`. -/
def merged_row (lay : Layout) (c : DColExt.Consts) (in0 in1 in2 : Nat → Int) (old : Nat → Int)
    (n : Nat) : Nat → Int :=
  fun p =>
    if p < n * (2 * lay.RGB_PIXELSIZE) then
      stored_sample lay c (in0 (p / lay.RGB_PIXELSIZE)) (in1 (p / lay.RGB_PIXELSIZE / 2))
        (in2 (p / lay.RGB_PIXELSIZE / 2)) 0xFF (old p) (p % lay.RGB_PIXELSIZE)
    else old p

end DMrgExt

/-- The planes after 2:1 horizontal replication of the chroma samples of row
`in_row_group_ctr`: luma sample `j` stays, chroma sample `j` is the chroma
sample `j / 2` of the input; every row of the result is this row. -/
def upsampled_planes (input_buf : Nat → Nat → Nat → Int) (in_row_group_ctr : Nat) :
    Nat → Nat → Nat → Int :=
  fun ci _ j =>
    if ci = 0 then input_buf 0 in_row_group_ctr j else input_buf ci in_row_group_ctr (j / 2)

/-- Output rows whose row 0 holds the samples of `row` from offset `off` on. -/
def rows_from (row : Nat → Int) (off : Nat) : Nat → Nat → Int := fun _ x => row (off + x)

/-- Planar input with a luma ramp and two chroma ramps. -/
def ramp_planes : Nat → Nat → Nat → Int := fun ci _ j =>
  if ci = 0 then (16 + 20 * (j : Int)) % 256 else if ci = 1 then (100 + 7 * (j : Int)) % 256
  else (140 + 9 * (j : Int)) % 256

/-! ## Vertical merged upsampling (`jsimd_h2v2_merged_upsample_rvv`) -/

namespace DMrgExt

/-- The memory the merged kernels work on: the row-pointer tables `input_buf`
(component, row index) and `output_buf` (row index), whose entries are row
addresses, and the sample rows at those addresses. -/
structure Mem where
  input_buf : Nat → Nat → Nat
  output_buf : Nat → Nat
  rows : Nat → Nat → Int

/-- A call of `jsimd_h2v1_merged_upsample_rvv` on a memory: the rows are those
the pointer tables name at the call, and the row at `output_buf[0]` is replaced
by the row the kernel leaves.  The output row is taken to be none of the three
rows the call reads. -/
def h2v1_merged_upsample_call (lay : Layout) (c : DColExt.Consts) (VLMAX fuel : Nat)
    (output_width : Nat) (m : Mem) (in_row_group_ctr : Nat) : Option Mem :=
  (jsimd_h2v1_merged_upsample_rvv lay c VLMAX fuel output_width
      (fun ci row => m.rows (m.input_buf ci row)) in_row_group_ctr
      (fun row => m.rows (m.output_buf row))).map
    fun row =>
      { m with rows := fun q => if q = m.output_buf 0 then row else m.rows q }

/-- The function `jsimd_h2v2_merged_upsample_rvv` (lines 191-212): the memory
after the call.  `in_row_group_ctr * 2` and `in_row_group_ctr * 2 + 1` are
`JDIMENSION` values (32 bits, unsigned). -/
def jsimd_h2v2_merged_upsample_rvv (lay : Layout) (c : DColExt.Consts) (VLMAX fuel : Nat)
    (output_width : Nat) (m : Mem) (in_row_group_ctr : Nat) : Option Mem :=
  let inptr := m.input_buf 0 in_row_group_ctr
  let outptr := m.output_buf 0

  /- input_buf[0][in_row_group_ctr] = input_buf[0][in_row_group_ctr * 2] -/
  let v := m.input_buf 0 (in_row_group_ctr * 2 % 2 ^ 32)
  let m : Mem :=
    { m with input_buf := fun ci row =>
        if ci = 0 ∧ row = in_row_group_ctr then v else m.input_buf ci row }
  match h2v1_merged_upsample_call lay c VLMAX fuel output_width m in_row_group_ctr with
  | none => none
  | some m =>
      /- input_buf[0][in_row_group_ctr] = input_buf[0][in_row_group_ctr * 2 + 1] -/
      let v := m.input_buf 0 ((in_row_group_ctr * 2 + 1) % 2 ^ 32)
      let m : Mem :=
        { m with input_buf := fun ci row =>
            if ci = 0 ∧ row = in_row_group_ctr then v else m.input_buf ci row }
      /- output_buf[0] = output_buf[1] -/
      let v := m.output_buf 1
      let m : Mem :=
        { m with output_buf := fun row => if row = 0 then v else m.output_buf row }
      match h2v1_merged_upsample_call lay c VLMAX fuel output_width m in_row_group_ctr with
      | none => none
      | some m =>
          /- input_buf[0][in_row_group_ctr] = inptr -/
          let m : Mem :=
            { m with input_buf := fun ci row =>
                if ci = 0 ∧ row = in_row_group_ctr then inptr else m.input_buf ci row }
          /- output_buf[0] = outptr -/
          let m : Mem :=
            { m with output_buf := fun row => if row = 0 then outptr else m.output_buf row }
          some m

/-- Planes whose luma rows are all `luma` and whose chroma rows are all `cb`,
`cr`. -/
def planes_of (luma cb cr : Nat → Int) : Nat → Nat → Nat → Int := fun ci _ =>
  if ci = 0 then luma else if ci = 1 then cb else cr

/-- The two output rows of a row group differ from each other and from the
four input rows the group uses (luma rows `2 c` and `2 c + 1`, chroma rows
`c`). -/
def Mem.separate (m : Mem) (c : Nat) : Prop :=
  m.output_buf 0 ≠ m.output_buf 1 ∧
  (m.output_buf 0 ≠ m.input_buf 0 (2 * c) ∧ m.output_buf 0 ≠ m.input_buf 0 (2 * c + 1) ∧
    m.output_buf 0 ≠ m.input_buf 1 c ∧ m.output_buf 0 ≠ m.input_buf 2 c) ∧
  (m.output_buf 1 ≠ m.input_buf 0 (2 * c) ∧ m.output_buf 1 ≠ m.input_buf 0 (2 * c + 1) ∧
    m.output_buf 1 ≠ m.input_buf 1 c ∧ m.output_buf 1 ≠ m.input_buf 2 c)

instance (m : Mem) (c : Nat) : Decidable (m.separate c) := by
  unfold Mem.separate; infer_instance

/-- A memory for the examples: luma row `r` at address `r`, Cb row `r` at
`100 + r`, Cr row `r` at `200 + r`, output row `r` at `300 + r`; the row at
address `q` is a ramp that starts at `q`. -/
def ramp_mem : Mem :=
  { input_buf := fun ci row => 100 * ci + row,
    output_buf := fun row => 300 + row,
    rows := fun q j => ((q : Int) + 7 * (j : Int)) % 256 }

end DMrgExt

/-! ## Running values of the forward conversion, lane by lane -/

namespace CColExt

/-- The unsigned 16-bit values of the Y computation on one lane, in source
order (lines 77-81): product, product, sum, product, sum. -/
def y_running (c : Consts) (r g b : Int) : List Int :=
  let r := addu16 r (0 % 256)
  let g := addu16 g (0 % 256)
  let b := addu16 b (0 % 256)
  let y1 := mulhu16 r c.F_0_299
  let tmp1 := mulhu16 g c.F_0_587
  let y2 := addu16 y1 tmp1
  let tmp2 := mulhu16 b c.F_0_114
  let y3 := addu16 y2 tmp2
  [y1, tmp1, y2, tmp2, y3]

/-- The unsigned 16-bit values of the Cb computation on one lane, in source
order (lines 91-96): product, sum with `CENTERJSAMPLE`, product, difference,
product, difference. -/
def cb_running (c : Consts) (r g b : Int) : List Int :=
  let r := addu16 r (0 % 256)
  let g := addu16 g (0 % 256)
  let b := addu16 b (0 % 256)
  let y1 := mulhu16 b c.F_0_500
  let y2 := addu16 y1 CENTERJSAMPLE
  let tmp1 := mulhu16 g c.F_0_331
  let y3 := subu16 y2 tmp1
  let tmp2 := mulhu16 r c.F_0_168
  let y4 := subu16 y3 tmp2
  [y1, y2, tmp1, y3, tmp2, y4]

/-- The unsigned 16-bit values of the Cr computation on one lane, in source
order (lines 106-112). -/
def cr_running (c : Consts) (r g b : Int) : List Int :=
  let r := addu16 r (0 % 256)
  let g := addu16 g (0 % 256)
  let b := addu16 b (0 % 256)
  let y1 := mulhu16 r c.F_0_500
  let y2 := addu16 y1 CENTERJSAMPLE
  let tmp1 := mulhu16 g c.F_0_418
  let y3 := subu16 y2 tmp1
  let tmp2 := mulhu16 b c.F_0_081
  let y4 := subu16 y3 tmp2
  [y1, y2, tmp1, y3, tmp2, y4]

end CColExt


/-! ## Inverse conversion in the words of the specification

The documented formulas with the centred chroma as a signed integer, and the
rounded descale of a product. -/

namespace Ref

/-- Documented R: `(Y + cr + floor(F_0_402 * cr / 2^16)) mod 256` with
`cr = Cr - 128` signed. -/
def ycc_rgb_r (c : DColExt.Consts) (y cr : Int) : Int :=
  (y + (cr - 128) + c.F_0_402 * (cr - 128) / 2 ^ 16) % 256

/-- Documented G: `(Y - floor(F_0_344 * cb / 2^16) - floor(F_0_714 * cr / 2^16))
mod 256` with `cb = Cb - 128`, `cr = Cr - 128` signed. -/
def ycc_rgb_g (c : DColExt.Consts) (y cb cr : Int) : Int :=
  (y - c.F_0_344 * (cb - 128) / 2 ^ 16 - c.F_0_714 * (cr - 128) / 2 ^ 16) % 256

/-- Documented B: `(Y + cb + floor(F_0_772 * cb / 2^16)) mod 256` with
`cb = Cb - 128` signed. -/
def ycc_rgb_b (c : DColExt.Consts) (y cb : Int) : Int :=
  (y + (cb - 128) + c.F_0_772 * (cb - 128) / 2 ^ 16) % 256

/-- Round-to-nearest descale of a product: `floor((x * F + 2^15) / 2^16)`. -/
def descale_rounded (x f : Int) : Int := (x * f + 2 ^ 15) / 2 ^ 16

end Ref

namespace DMrgExt

/-- The four constant products of `jsimd_h2v1_merged_upsample_rvv` on one lane
(lines 119-120, 123, 127, 128, 132): the centred Cr with `F_0_402`, the centred
Cb with `F_0_344`, the centred Cr with `F_0_714`, the centred Cb with
`F_0_772`. -/
def products (c : DColExt.Consts) (cb cr : Int) : Int × Int × Int × Int :=
  let cb := addu16 cb (0 % 256)
  let cr := addu16 cr (0 % 256)
  let cb := subu16 cb CENTERJSAMPLE
  let cr := subu16 cr CENTERJSAMPLE
  (mulhu16 cr c.F_0_402, mulhu16 cb c.F_0_344, mulhu16 cr c.F_0_714, mulhu16 cb c.F_0_772)

end DMrgExt


/-! ## Andes accurate kernel, stage by stage

The two passes of `simd/rvv_andes/jidctint-rvv.c` share the butterfly and the
combination of its eight results into two 32-lane vectors; they differ in the
source of the eight inputs and in the final output stage. -/

namespace AndesInt

/-- The eight 32-bit vectors the butterfly leaves. -/
structure Butterfly where
  tmp0 : Vec
  tmp1 : Vec
  tmp2 : Vec
  tmp3 : Vec
  tmp10 : Vec
  tmp11 : Vec
  tmp12 : Vec
  tmp13 : Vec

/-- The butterfly of `jsimd_idct_islow_pass1_regular` (lines 230-275) and of
`jsimd_idct_islow_pass2_regular` on its eight 16-bit inputs: `in0 .. in7` stand
for the products `vmul(row_k, quant_row_k)` of the first pass and for the rows
loaded from the workspace in the second. -/
def islow_butterfly (in0 in1 in2 in3 in4 in5 in6 in7 : Vec) : Butterfly :=
  /- Even part -/
  let vl := 8
  let z2_s16 := in2
  let z3_s16 := in6
  let tmp2 := vwmul_vx_i32 z2_s16 (idct_islow_consts 1) vl
  let tmp3 := vwmul_vx_i32 z2_s16 (idct_islow_consts 6) vl
  let tmp2 := vwmacc_vx_i32 tmp2 (idct_islow_consts 9) z3_s16 vl
  let tmp3 := vwmacc_vx_i32 tmp3 (idct_islow_consts 1) z3_s16 vl

  let z2_s16 := in0
  let z3_s16 := in4
  let tmp0 := vwmul_vx_i32 (vadd_vv_i16 z2_s16 z3_s16 vl) 8192 vl
  let tmp1 := vwmul_vx_i32 (vsub_vv_i16 z2_s16 z3_s16 vl) 8192 vl

  let tmp10 := vadd_vv_i32 tmp0 tmp3 vl
  let tmp13 := vsub_vv_i32 tmp0 tmp3 vl
  let tmp11 := vadd_vv_i32 tmp1 tmp2 vl
  let tmp12 := vsub_vv_i32 tmp1 tmp2 vl

  /- Odd part -/
  let tmp0_s16 := in7
  let tmp1_s16 := in5
  let tmp2_s16 := in3
  let tmp3_s16 := in1
  let z3_s16 := vadd_vv_i16 tmp0_s16 tmp2_s16 vl
  let z4_s16 := vadd_vv_i16 tmp1_s16 tmp3_s16 vl

  let z3 := vwmul_vx_i32 z3_s16 (idct_islow_consts 11) vl
  let z4 := vwmul_vx_i32 z3_s16 (idct_islow_consts 7) vl
  let z3 := vwmacc_vx_i32 z3 (idct_islow_consts 7) z4_s16 vl
  let z4 := vwmacc_vx_i32 z4 (idct_islow_consts 8) z4_s16 vl

  let tmp0 := vwmul_vx_i32 tmp0_s16 (idct_islow_consts 3) vl
  let tmp1 := vwmul_vx_i32 tmp1_s16 (idct_islow_consts 5) vl
  let tmp2 := vwmul_vx_i32 tmp2_s16 (idct_islow_consts 10) vl
  let tmp3 := vwmul_vx_i32 tmp3_s16 (idct_islow_consts 4) vl

  let tmp0 := vwmacc_vx_i32 tmp0 (-idct_islow_consts 0) tmp3_s16 vl
  let tmp1 := vwmacc_vx_i32 tmp1 (-idct_islow_consts 2) tmp2_s16 vl
  let tmp2 := vwmacc_vx_i32 tmp2 (-idct_islow_consts 2) tmp1_s16 vl
  let tmp3 := vwmacc_vx_i32 tmp3 (-idct_islow_consts 0) tmp0_s16 vl

  let tmp0 := vadd_vv_i32 tmp0 z3 vl
  let tmp1 := vadd_vv_i32 tmp1 z4 vl
  let tmp2 := vadd_vv_i32 tmp2 z3 vl
  let tmp3 := vadd_vv_i32 tmp3 z4 vl
  { tmp0 := tmp0, tmp1 := tmp1, tmp2 := tmp2, tmp3 := tmp3,
    tmp10 := tmp10, tmp11 := tmp11, tmp12 := tmp12, tmp13 := tmp13 }

/-- The vector `tmps_10_11_12_13` (lines 283-290): `tmp10`, `tmp11`, `tmp12`,
`tmp13`, eight lanes each. -/
def islow_tmps_10_11_12_13 (t : Butterfly) : Vec :=
  /- combine (tmp10, tmp11, tmp12, tmp13) -/
  let tmps_10_11 := vlmul_ext t.tmp10
  let tmps_10_11 := vslideup_vx tmps_10_11 (vlmul_ext t.tmp11) 8 16
  let tmps_12_13 := vlmul_ext t.tmp12
  let tmps_12_13 := vslideup_vx tmps_12_13 (vlmul_ext t.tmp13) 8 16

  let tmps_10_11_12_13 := vlmul_ext tmps_10_11
  vslideup_vx tmps_10_11_12_13 (vlmul_ext tmps_12_13) 16 32

/-- The vector `tmps_3_2_1_0` (lines 292-299): `tmp3`, `tmp2`, `tmp1`, `tmp0`,
eight lanes each. -/
def islow_tmps_3_2_1_0 (t : Butterfly) : Vec :=
  /- combine (tmp3, tmp2, tmp1, tmp0) -/
  let tmps_3_2 := vlmul_ext t.tmp3
  let tmps_3_2 := vslideup_vx tmps_3_2 (vlmul_ext t.tmp2) 8 16
  let tmps_1_0 := vlmul_ext t.tmp1
  let tmps_1_0 := vslideup_vx tmps_1_0 (vlmul_ext t.tmp0) 8 16

  let tmps_3_2_1_0 := vlmul_ext tmps_3_2
  vslideup_vx tmps_3_2_1_0 (vlmul_ext tmps_1_0) 16 32

/-- The 32 sums `tmps_10_11_12_13 + tmps_3_2_1_0` (line 302): outputs 0, 1, 2,
3 before the descale. -/
def islow_sums (t : Butterfly) : Vec :=
  vadd_vv_i32 (islow_tmps_10_11_12_13 t) (islow_tmps_3_2_1_0 t) 32

/-- The 32 differences `tmps_10_11_12_13 - tmps_3_2_1_0` (line 307): outputs
7, 6, 5, 4 before the descale. -/
def islow_diffs (t : Butterfly) : Vec :=
  vsub_vv_i32 (islow_tmps_10_11_12_13 t) (islow_tmps_3_2_1_0 t) 32

/-- The descale of the first pass on one 32-lane vector (lines 303-304 and
308-309): rounding term, arithmetic shift right by `DESCALE_P1`, low 16 bits. -/
def islow_pass1_descale (tmp_i32m8 : Vec) : Vec :=
  let tmp_i32m8 := vadd_vx_i32 tmp_i32m8 (2 ^ (DESCALE_P1 - 1)) 32
  vnsra_wx_i16 tmp_i32m8 DESCALE_P1 32

/-- The final output stage of the second pass on one 32-lane vector
(lines 423-426 and 430-433): shift right by 16, rounding saturating narrow by
`DESCALE_P2 - 16`, reinterpretation as unsigned, wrapping addition of
`CENTERJSAMPLE`. -/
def islow_final_stage (vxrm : Vxrm) (tmp_i32m8 : Vec) : Vec :=
  let tmp_i16m4 := vnsra_wx_i16 tmp_i32m8 16 32
  let tmp_i8m2 := vnclip_wx_i8 vxrm tmp_i16m4 (DESCALE_P2 - 16) 32
  let cols_u8m2 := vreinterpret_v_i8_u8 tmp_i8m2
  vadd_vx_u8 cols_u8m2 CENTERJSAMPLE 32

/-- A 64-element block that stores the 8-lane vectors `v 0`, `v 1`, `v 2`,
`v 3`, `v 7`, `v 6`, `v 5`, `v 4` in that order. -/
def block_0123_7654 (v : Nat → Vec) : Vec :=
  fun p => if p < 64 then v (order8 (p / 8)) (p % 8) else 0


/-- Output vector `k` of a pass, eight lanes: block `k` of the 32-lane result
for outputs 0, 1, 2, 3 when `k < 4`, block `7 - k` of the 32-lane result for
outputs 7, 6, 5, 4 otherwise. -/
def islow_output_vector (cols_0123 cols_7654 : Vec) (k : Nat) : Vec :=
  fun j => if j < 8 then (if k < 4 then cols_0123 (j + 8 * k) else cols_7654 (j + 8 * (7 - k)))
    else 0

end AndesInt


/-- Eight input vectors of a butterfly, `in_k[j] = 1000 k + j`. -/
def ramp_inputs : Nat → Vec := fun k j => 1000 * (k : Int) + (j : Int)


/-- A DC-only coefficient block with DC term 1000. -/
def dc_block_1000 : Nat → Int := fun i => if i = 0 then 1000 else 0

/-- Quantization table with every entry 33: the DC product `1000 * 33` does
not fit 16 bits. -/
def flat_table_33 : Nat → Int := fun _ => 33


/-! ## Andes accurate kernel: every intermediate of the first-pass butterfly -/

namespace AndesInt

/-- The dequantized row `k` of the first pass: the product
`vmul(row_k, quant_row_k)` (lines 232-233, 239-240, 250-253). -/
def islow_dequant (dct_table coef_block : Nat → Int) (k : Nat) : Vec :=
  vmul_vv_i16 (vle16_v_i16 coef_block (k * DCTSIZE) 8) (vle16_v_i16 dct_table (k * DCTSIZE) 8) 8

/-- The 16-bit sums and differences the butterfly forms before widening
(lines 241, 242, 254, 255), in source order. -/
def islow_butterfly_sums16 (in0 in1 in3 in4 in5 in7 : Vec) : List Vec :=
  let vl := 8
  [vadd_vv_i16 in0 in4 vl, vsub_vv_i16 in0 in4 vl, vadd_vv_i16 in7 in3 vl,
    vadd_vv_i16 in5 in1 vl]

/-- Every 32-bit vector the butterfly computes (lines 234-275), in the order
of computation; a variable that is assigned more than once appears once per
assignment. -/
def islow_butterfly_trace (in0 in1 in2 in3 in4 in5 in6 in7 : Vec) : List Vec :=
  /- Even part -/
  let vl := 8
  let z2_s16 := in2
  let z3_s16 := in6
  let tmp2_mul := vwmul_vx_i32 z2_s16 (idct_islow_consts 1) vl
  let tmp3_mul := vwmul_vx_i32 z2_s16 (idct_islow_consts 6) vl
  let tmp2_even := vwmacc_vx_i32 tmp2_mul (idct_islow_consts 9) z3_s16 vl
  let tmp3_even := vwmacc_vx_i32 tmp3_mul (idct_islow_consts 1) z3_s16 vl

  let z2_s16 := in0
  let z3_s16 := in4
  let tmp0_even := vwmul_vx_i32 (vadd_vv_i16 z2_s16 z3_s16 vl) 8192 vl
  let tmp1_even := vwmul_vx_i32 (vsub_vv_i16 z2_s16 z3_s16 vl) 8192 vl

  let tmp10 := vadd_vv_i32 tmp0_even tmp3_even vl
  let tmp13 := vsub_vv_i32 tmp0_even tmp3_even vl
  let tmp11 := vadd_vv_i32 tmp1_even tmp2_even vl
  let tmp12 := vsub_vv_i32 tmp1_even tmp2_even vl

  /- Odd part -/
  let tmp0_s16 := in7
  let tmp1_s16 := in5
  let tmp2_s16 := in3
  let tmp3_s16 := in1
  let z3_s16 := vadd_vv_i16 tmp0_s16 tmp2_s16 vl
  let z4_s16 := vadd_vv_i16 tmp1_s16 tmp3_s16 vl

  let z3_mul := vwmul_vx_i32 z3_s16 (idct_islow_consts 11) vl
  let z4_mul := vwmul_vx_i32 z3_s16 (idct_islow_consts 7) vl
  let z3 := vwmacc_vx_i32 z3_mul (idct_islow_consts 7) z4_s16 vl
  let z4 := vwmacc_vx_i32 z4_mul (idct_islow_consts 8) z4_s16 vl

  let tmp0_mul := vwmul_vx_i32 tmp0_s16 (idct_islow_consts 3) vl
  let tmp1_mul := vwmul_vx_i32 tmp1_s16 (idct_islow_consts 5) vl
  let tmp2_mul1 := vwmul_vx_i32 tmp2_s16 (idct_islow_consts 10) vl
  let tmp3_mul1 := vwmul_vx_i32 tmp3_s16 (idct_islow_consts 4) vl

  let tmp0_acc := vwmacc_vx_i32 tmp0_mul (-idct_islow_consts 0) tmp3_s16 vl
  let tmp1_acc := vwmacc_vx_i32 tmp1_mul (-idct_islow_consts 2) tmp2_s16 vl
  let tmp2_acc := vwmacc_vx_i32 tmp2_mul1 (-idct_islow_consts 2) tmp1_s16 vl
  let tmp3_acc := vwmacc_vx_i32 tmp3_mul1 (-idct_islow_consts 0) tmp0_s16 vl

  let tmp0 := vadd_vv_i32 tmp0_acc z3 vl
  let tmp1 := vadd_vv_i32 tmp1_acc z4 vl
  let tmp2 := vadd_vv_i32 tmp2_acc z3 vl
  let tmp3 := vadd_vv_i32 tmp3_acc z4 vl
  [tmp2_mul, tmp3_mul, tmp2_even, tmp3_even, tmp0_even, tmp1_even, tmp10, tmp13, tmp11, tmp12,
    z3_mul, z4_mul, z3, z4, tmp0_mul, tmp1_mul, tmp2_mul1, tmp3_mul1,
    tmp0_acc, tmp1_acc, tmp2_acc, tmp3_acc, tmp0, tmp1, tmp2, tmp3]

/-- The values of `islow_butterfly_trace` on one lane in unbounded integer
arithmetic, on the inputs `x 0 .. x 7` of that lane: the same operations with
no reduction to 16 or 32 bits. -/
def islow_butterfly_exact (x : Nat → Int) : List Int :=
  /- Even part -/
  let z2_s16 := x 2
  let z3_s16 := x 6
  let tmp2_mul := z2_s16 * idct_islow_consts 1
  let tmp3_mul := z2_s16 * idct_islow_consts 6
  let tmp2_even := tmp2_mul + idct_islow_consts 9 * z3_s16
  let tmp3_even := tmp3_mul + idct_islow_consts 1 * z3_s16

  let z2_s16 := x 0
  let z3_s16 := x 4
  let tmp0_even := (z2_s16 + z3_s16) * 8192
  let tmp1_even := (z2_s16 - z3_s16) * 8192

  let tmp10 := tmp0_even + tmp3_even
  let tmp13 := tmp0_even - tmp3_even
  let tmp11 := tmp1_even + tmp2_even
  let tmp12 := tmp1_even - tmp2_even

  /- Odd part -/
  let tmp0_s16 := x 7
  let tmp1_s16 := x 5
  let tmp2_s16 := x 3
  let tmp3_s16 := x 1
  let z3_s16 := tmp0_s16 + tmp2_s16
  let z4_s16 := tmp1_s16 + tmp3_s16

  let z3_mul := z3_s16 * idct_islow_consts 11
  let z4_mul := z3_s16 * idct_islow_consts 7
  let z3 := z3_mul + idct_islow_consts 7 * z4_s16
  let z4 := z4_mul + idct_islow_consts 8 * z4_s16

  let tmp0_mul := tmp0_s16 * idct_islow_consts 3
  let tmp1_mul := tmp1_s16 * idct_islow_consts 5
  let tmp2_mul1 := tmp2_s16 * idct_islow_consts 10
  let tmp3_mul1 := tmp3_s16 * idct_islow_consts 4

  let tmp0_acc := tmp0_mul + (-idct_islow_consts 0) * tmp3_s16
  let tmp1_acc := tmp1_mul + (-idct_islow_consts 2) * tmp2_s16
  let tmp2_acc := tmp2_mul1 + (-idct_islow_consts 2) * tmp1_s16
  let tmp3_acc := tmp3_mul1 + (-idct_islow_consts 0) * tmp0_s16

  let tmp0 := tmp0_acc + z3
  let tmp1 := tmp1_acc + z4
  let tmp2 := tmp2_acc + z3
  let tmp3 := tmp3_acc + z4
  [tmp2_mul, tmp3_mul, tmp2_even, tmp3_even, tmp0_even, tmp1_even, tmp10, tmp13, tmp11, tmp12,
    z3_mul, z4_mul, z3, z4, tmp0_mul, tmp1_mul, tmp2_mul1, tmp3_mul1,
    tmp0_acc, tmp1_acc, tmp2_acc, tmp3_acc, tmp0, tmp1, tmp2, tmp3]

end AndesInt


/-- A coefficient block with entries 64 and -64 in alternation; with the
quantizer 16 every dequantized coefficient is 1024 or -1024. -/
def alternating_block_64 : Nat → Int := fun i => if i % 2 = 0 then 64 else -64

/-! ## Arithmetic of the machine integers -/

theorem wrap16_in16 (x : Int) : in16 (wrap16 x) := by
  unfold in16 wrap16; omega

theorem wrap16_of_in16 {x : Int} (h : in16 x) : wrap16 x = x := by
  unfold in16 at h; unfold wrap16; omega

theorem wrap32_of_in32 {x : Int} (h : in32 x) : wrap32 x = x := by
  unfold in32 at h; unfold wrap32; omega

theorem wrap32_add_left (a b : Int) : wrap32 (wrap32 a + b) = wrap32 (a + b) := by
  unfold wrap32; omega

theorem wrap32_add_right (a b : Int) : wrap32 (a + wrap32 b) = wrap32 (a + b) := by
  unfold wrap32; omega

theorem wrap32_sub_left (a b : Int) : wrap32 (wrap32 a - b) = wrap32 (a - b) := by
  unfold wrap32; omega

theorem wrap32_sub_right (a b : Int) : wrap32 (a - wrap32 b) = wrap32 (a - b) := by
  unfold wrap32; omega

theorem wrap32_wrap32 (a : Int) : wrap32 (wrap32 a) = wrap32 a := by
  unfold wrap32; omega

/-! ## Lanes of the intrinsics -/

theorem vslideup_vx_lo {d s : Vec} {off vl i : Nat} (h1 : i < vl) (h2 : i < off) :
    vslideup_vx d s off vl i = d i := by
  simp [vslideup_vx, h1, h2]

theorem vslideup_vx_hi {d s : Vec} {off vl i : Nat} (h1 : i < vl) (h2 : off ≤ i) :
    vslideup_vx d s off vl i = s (i - off) := by
  have h3 : ¬ i < off := by omega
  simp [vslideup_vx, h1, h3]

theorem lane_of_lt {vl i : Nat} {x : Int} (h : i < vl) : (if i < vl then x else 0) = x := by
  simp [h]

theorem lane_of_ge {vl i : Nat} {x : Int} (h : vl ≤ i) : (if i < vl then x else 0) = 0 := by
  have h3 : ¬ i < vl := by omega
  simp [h3]


/-! Lane equations: the value of an intrinsic at an active lane. -/

theorem vle16_v_i16_lane (base : Nat → Int) (off vl : Nat) {i : Nat} (h : i < vl) :
    vle16_v_i16 base off vl i = base (off + i) := by
  simp only [vle16_v_i16, h, ↓reduceIte]

theorem vle8_v_u8_lane (base : Nat → Int) (vl : Nat) {i : Nat} (h : i < vl) :
    vle8_v_u8 base vl i = base i := by
  simp only [vle8_v_u8, h, ↓reduceIte]

theorem vmul_vv_i16_lane (a b : Vec) (vl : Nat) {i : Nat} (h : i < vl) :
    vmul_vv_i16 a b vl i = wrap16 (a i * b i) := by
  simp only [vmul_vv_i16, h, ↓reduceIte]

theorem vadd_vv_i16_lane (a b : Vec) (vl : Nat) {i : Nat} (h : i < vl) :
    vadd_vv_i16 a b vl i = wrap16 (a i + b i) := by
  simp only [vadd_vv_i16, h, ↓reduceIte]

theorem vsub_vv_i16_lane (a b : Vec) (vl : Nat) {i : Nat} (h : i < vl) :
    vsub_vv_i16 a b vl i = wrap16 (a i - b i) := by
  simp only [vsub_vv_i16, h, ↓reduceIte]

theorem vsll_vx_i16_lane (a : Vec) (sh vl : Nat) {i : Nat} (h : i < vl) :
    vsll_vx_i16 a sh vl i = wrap16 (a i * 2 ^ (sh % 16)) := by
  simp only [vsll_vx_i16, h, ↓reduceIte]

theorem vmv_v_v_i16_lane (a : Vec) (vl : Nat) {i : Nat} (h : i < vl) :
    vmv_v_v_i16 a vl i = a i := by
  simp only [vmv_v_v_i16, h, ↓reduceIte]

theorem vsmul_vx_i16_lane (m : Vxrm) (a : Vec) (x : Int) (vl : Nat) {i : Nat} (h : i < vl) :
    vsmul_vx_i16 m a x vl i = sat16 (roundoff m (a i * x) 15) := by
  simp only [vsmul_vx_i16, h, ↓reduceIte]

theorem vwmul_vx_i32_lane (a : Vec) (x : Int) (vl : Nat) {i : Nat} (h : i < vl) :
    vwmul_vx_i32 a x vl i = wrap32 (a i * x) := by
  simp only [vwmul_vx_i32, h, ↓reduceIte]

theorem vwmacc_vx_i32_lane (acc : Vec) (x : Int) (a : Vec) (vl : Nat) {i : Nat} (h : i < vl) :
    vwmacc_vx_i32 acc x a vl i = wrap32 (acc i + x * a i) := by
  simp only [vwmacc_vx_i32, h, ↓reduceIte]

theorem vwadd_vv_i32_lane (a b : Vec) (vl : Nat) {i : Nat} (h : i < vl) :
    vwadd_vv_i32 a b vl i = wrap32 (a i + b i) := by
  simp only [vwadd_vv_i32, h, ↓reduceIte]

theorem vwsub_vv_i32_lane (a b : Vec) (vl : Nat) {i : Nat} (h : i < vl) :
    vwsub_vv_i32 a b vl i = wrap32 (a i - b i) := by
  simp only [vwsub_vv_i32, h, ↓reduceIte]

theorem vadd_vv_i32_lane (a b : Vec) (vl : Nat) {i : Nat} (h : i < vl) :
    vadd_vv_i32 a b vl i = wrap32 (a i + b i) := by
  simp only [vadd_vv_i32, h, ↓reduceIte]

theorem vsub_vv_i32_lane (a b : Vec) (vl : Nat) {i : Nat} (h : i < vl) :
    vsub_vv_i32 a b vl i = wrap32 (a i - b i) := by
  simp only [vsub_vv_i32, h, ↓reduceIte]

theorem vadd_vx_i32_lane (a : Vec) (x : Int) (vl : Nat) {i : Nat} (h : i < vl) :
    vadd_vx_i32 a x vl i = wrap32 (a i + x) := by
  simp only [vadd_vx_i32, h, ↓reduceIte]

theorem vsll_vx_i32_lane (a : Vec) (sh vl : Nat) {i : Nat} (h : i < vl) :
    vsll_vx_i32 a sh vl i = wrap32 (a i * 2 ^ (sh % 32)) := by
  simp only [vsll_vx_i32, h, ↓reduceIte]

theorem vnsra_wx_i16_lane (a : Vec) (sh vl : Nat) {i : Nat} (h : i < vl) :
    vnsra_wx_i16 a sh vl i = wrap16 (a i / 2 ^ (sh % 32)) := by
  simp only [vnsra_wx_i16, h, ↓reduceIte]

theorem vnsra_wx_i8_lane (a : Vec) (sh vl : Nat) {i : Nat} (h : i < vl) :
    vnsra_wx_i8 a sh vl i = wrap8 (a i / 2 ^ (sh % 16)) := by
  simp only [vnsra_wx_i8, h, ↓reduceIte]

theorem vnclip_wx_i8_lane (m : Vxrm) (a : Vec) (sh vl : Nat) {i : Nat} (h : i < vl) :
    vnclip_wx_i8 m a sh vl i = sat8 (roundoff m (a i) (sh % 16)) := by
  simp only [vnclip_wx_i8, h, ↓reduceIte]

theorem vadd_vx_u8_lane (a : Vec) (x : Int) (vl : Nat) {i : Nat} (h : i < vl) :
    vadd_vx_u8 a x vl i = (a i + x) % 256 := by
  simp only [vadd_vx_u8, h, ↓reduceIte]

theorem vadd_vx_i8_lane (a : Vec) (x : Int) (vl : Nat) {i : Nat} (h : i < vl) :
    vadd_vx_i8 a x vl i = wrap8 (a i + x) := by
  simp only [vadd_vx_i8, h, ↓reduceIte]

theorem vzext_vf2_lane (a : Vec) (vl : Nat) {i : Nat} (h : i < vl) :
    vzext_vf2 a vl i = a i := by
  simp only [vzext_vf2, h, ↓reduceIte]

theorem vslidedown_vx_lane (src : Vec) (offset vl : Nat) {i : Nat} (h : i < vl) :
    vslidedown_vx src offset vl i = src (i + offset) := by
  simp only [vslidedown_vx, h, ↓reduceIte]

theorem vrgather_vv_lane (src index : Vec) (vl : Nat) {i : Nat} (h : i < vl) :
    vrgather_vv src index vl i = src (index i).toNat := by
  simp only [vrgather_vv, h, ↓reduceIte]

theorem vse_v_lane (a : Vec) (vl : Nat) {i : Nat} (h : i < vl) :
    vse_v a vl i = a i := by
  simp only [vse_v, h, ↓reduceIte]

theorem vreinterpret_v_i8_u8_lane (a : Vec) (i : Nat) : vreinterpret_v_i8_u8 a i = a i % 256 := rfl

theorem vlmul_ext_lane (a : Vec) (i : Nat) : vlmul_ext a i = a i := rfl

theorem vlmul_trunc_lane (a : Vec) (i : Nat) : vlmul_trunc a i = a i := rfl

theorem vget_v_i16m1_lane (a : Vec) (index i : Nat) : vget_v_i16m1 a index i = a (8 * index + i) := rfl

theorem wrap16_zero : wrap16 0 = 0 := rfl

/-- Every index below 64 is lane `j` of block `b` of an 8 x 8 vector. -/
theorem lane_split {i : Nat} (h : i < 64) : ∃ b j, b < 8 ∧ j < 8 ∧ i = j + 8 * b :=
  ⟨i / 8, i % 8, by omega, by omega, by omega⟩

namespace AndesInt

/-- Lane `j` of every block of the shortcut vector is the shifted DC product. -/
theorem islow_cols_shortcut_lane (row0 quant_row0 : Vec) {b j : Nat} (hb : b < 8) (hj : j < 8) :
    islow_cols_shortcut row0 quant_row0 (j + 8 * b) = wrap16 (wrap16 (row0 j * quant_row0 j) * 4) := by
  interval_cases b <;>
  simp (disch := omega) only [islow_cols_shortcut, vslideup_vx_lo, vslideup_vx_hi, vlmul_ext,
    vsll_vx_i16, vmul_vv_i16, lane_of_lt, DCTSIZE2, PASS1_BITS, Nat.reduceSubDiff,
    Nat.add_sub_cancel, Nat.reduceMul, Nat.reduceDiv, Nat.reduceMod, Nat.add_zero] <;> norm_num

end AndesInt

/-! ## Andes accurate kernel: lanes of pass 1 -/

namespace AndesInt


theorem order8_0 : order8 0 = 0 := rfl
theorem order8_1 : order8 1 = 1 := rfl
theorem order8_2 : order8 2 = 2 := rfl
theorem order8_3 : order8 3 = 3 := rfl
theorem order8_4 : order8 4 = 7 := rfl
theorem order8_5 : order8 5 = 6 := rfl
theorem order8_6 : order8 6 = 5 := rfl
theorem order8_7 : order8 7 = 4 := rfl

theorem islow_cols_regular_lane (q coef : Nat → Int) {b j : Nat} (hb : b < 8) (hj : j < 8)
    (hprod : ∀ r < 8, in16 (Ref.dequant q coef r j))
    (hsum : islow_sums_fit16 (fun k => Ref.dequant q coef k j)) :
    islow_cols_regular q coef (j + 8 * b) = wrap16 (Ref.islow_workspace q coef (order8 b) j) := by
  have h0 := hprod 0 (by omega)
  have h1 := hprod 1 (by omega)
  have h2 := hprod 2 (by omega)
  have h3 := hprod 3 (by omega)
  have h4 := hprod 4 (by omega)
  have h5 := hprod 5 (by omega)
  have h6 := hprod 6 (by omega)
  have h7 := hprod 7 (by omega)
  obtain ⟨s1, s2, s3, s4⟩ := hsum
  simp only [Ref.dequant, Nat.reduceMul, Nat.zero_add, Nat.mul_zero] at h0 h1 h2 h3 h4 h5 h6 h7 s1 s2 s3 s4
  interval_cases b <;>
  simp (disch := omega) only [islow_cols_regular, jsimd_idct_islow_pass1_regular, vslideup_vx_lo,
    vslideup_vx_hi, vlmul_ext, vnsra_wx_i16, vadd_vx_i32, vadd_vv_i32, vsub_vv_i32,
    vwmacc_vx_i32, vwmul_vx_i32, vadd_vv_i16, vsub_vv_i16, vmul_vv_i16, vle16_v_i16, lane_of_lt,
    Nat.reduceSubDiff, Nat.add_sub_cancel, Nat.reduceMul, Nat.reduceDiv, Nat.reduceMod,
    Nat.add_zero, Nat.zero_add, Nat.mul_zero, DCTSIZE, DESCALE_P1, CONST_BITS, PASS1_BITS, Nat.reduceSub,
    wrap16_of_in16 h0, wrap16_of_in16 h1, wrap16_of_in16 h2, wrap16_of_in16 h3,
    wrap16_of_in16 h4, wrap16_of_in16 h5, wrap16_of_in16 h6, wrap16_of_in16 h7,
    wrap16_of_in16 s1, wrap16_of_in16 s2, wrap16_of_in16 s3, wrap16_of_in16 s4,
    wrap32_add_left, wrap32_add_right, wrap32_sub_left, wrap32_sub_right,
    Ref.islow_workspace, Ref.DESCALE, Ref.idct_islow_1d, Ref.dequant, order8_0, order8_1, order8_2, order8_3, order8_4, order8_5, order8_6, order8_7, idct_islow_consts,
    F_0_298, F_0_390, F_0_541, F_0_765, F_0_899, F_1_175, F_1_501, F_1_847, F_1_961, F_2_053,
    F_2_562, F_3_072, F_1_175_MINUS_1_961, F_1_175_MINUS_0_390, F_0_541_MINUS_1_847,
    F_3_072_MINUS_2_562, F_0_298_MINUS_0_899, F_1_501_MINUS_0_899, F_2_053_MINUS_2_562,
    F_0_541_PLUS_0_765, Nat.reduceLT, ↓reduceIte, Int.reducePow, Int.reduceAdd, Int.reduceSub] <;>
  (congr 2; rw [wrap32_of_in32]; ring; unfold in16 at *; unfold in32; omega)

end AndesInt

/-! ## Andes accurate kernel: pass 2 -/


/-- The two-step final descale under round-to-nearest-up: shift right by 16,
rounding clip by 2, reinterpret, add 128 modulo 256 is the rounding descale by
18 followed by level shift and clamp. -/
theorem final_descale_18 {p e : Int} (hpe : p = e) (he : in32 e) :
    (sat8 (roundoff Vxrm.rnu (wrap16 (wrap32 p / 65536)) 2) % 256 + 128) % 256 =
      Ref.range_limit (Ref.DESCALE e 18) := by
  subst hpe
  rw [wrap32_of_in32 he]
  unfold in32 at he
  unfold sat8 roundoff wrap16 Ref.range_limit Ref.DESCALE
  simp only [Nat.reduceSub, Int.reducePow, OfNat.ofNat_ne_zero, ↓reduceIte, pow_one]
  split_ifs <;> omega

namespace AndesInt

theorem order8_lt {m : Nat} (hm : m < 8) : order8 m < 8 := by
  unfold order8; split_ifs <;> omega

theorem order8_order8 {m : Nat} (hm : m < 8) : order8 (order8 m) = m := by
  unfold order8; split_ifs <;> omega

/-- Gathering through `trans_index8x8_u8`: lane `m` of block `k` of the result
is lane `k` of block `order8 m` of the source. -/
theorem gather_trans_lane (w : Vec) {k m : Nat} (hk : k < 8) (hm : m < 8) :
    vrgather_vv w (vle8_v_u8 trans_index8x8_u8 TRANS_TABLE_U8_SIZE) TRANS_TABLE_U8_SIZE (m + 8 * k)
      = w (k + 8 * order8 m) := by
  interval_cases k <;> interval_cases m <;> rfl

theorem gather_trans_lane16 (w : Vec) {k m : Nat} (hk : k < 8) (hm : m < 8) :
    vrgather_vv w (vzext_vf2 (vle8_v_u8 trans_index8x8_u8 TRANS_TABLE_U8_SIZE) TRANS_TABLE_U8_SIZE)
      TRANS_TABLE_U8_SIZE (k * 8 + m) = w (k + 8 * order8 m) := by
  interval_cases k <;> interval_cases m <;> rfl

theorem islow_pass2_sample (w : Vec) {r c : Nat} (hr : r < 8) (hc : c < 8)
    (hw : ∀ k < 8, in16 (w (k + 8 * order8 r)))
    (hsum : islow_sums_fit16 (fun k => w (k + 8 * order8 r))) :
    jsimd_idct_islow_pass2_regular Vxrm.rnu w r c =
      Ref.range_limit (Ref.DESCALE (Ref.idct_islow_1d (fun k => w (k + 8 * order8 r)) c) 18) := by
  have h0 := hw 0 (by omega)
  have h1 := hw 1 (by omega)
  have h2 := hw 2 (by omega)
  have h3 := hw 3 (by omega)
  have h4 := hw 4 (by omega)
  have h5 := hw 5 (by omega)
  have h6 := hw 6 (by omega)
  have h7 := hw 7 (by omega)
  obtain ⟨s1, s2, s3, s4⟩ := hsum
  simp only [Nat.zero_add] at h0 s1 s2 s3 s4
  have g0 := gather_trans_lane16 w (k := 0) (m := r) (by omega) hr
  have g1 := gather_trans_lane16 w (k := 1) (m := r) (by omega) hr
  have g2 := gather_trans_lane16 w (k := 2) (m := r) (by omega) hr
  have g3 := gather_trans_lane16 w (k := 3) (m := r) (by omega) hr
  have g4 := gather_trans_lane16 w (k := 4) (m := r) (by omega) hr
  have g5 := gather_trans_lane16 w (k := 5) (m := r) (by omega) hr
  have g6 := gather_trans_lane16 w (k := 6) (m := r) (by omega) hr
  have g7 := gather_trans_lane16 w (k := 7) (m := r) (by omega) hr
  simp only [Nat.reduceMul, Nat.zero_add] at g0 g1 g2 g3 g4 g5 g6 g7
  simp (disch := omega) only [jsimd_idct_islow_pass2_regular, vse_v, vslidedown_vx, vlmul_trunc,
    lane_of_lt, gather_trans_lane]
  interval_cases c <;>
  simp (disch := omega) only [vslideup_vx_lo,
    vslideup_vx_hi, vlmul_ext, vnsra_wx_i16, vadd_vx_i32, vadd_vv_i32, vsub_vv_i32,
    vwmacc_vx_i32, vwmul_vx_i32, vadd_vv_i16, vsub_vv_i16, vle16_v_i16, lane_of_lt,
    vse_v, vnclip_wx_i8, vreinterpret_v_i8_u8, vadd_vx_u8, CENTERJSAMPLE,
    DCTSIZE, DCTSIZE2, DESCALE_P2, CONST_BITS, PASS1_BITS,
    Nat.reduceSubDiff, Nat.add_sub_cancel, Nat.reduceAdd, Nat.reduceSub, Nat.reduceMod, order8_0, order8_1, order8_2, order8_3, order8_4, order8_5, order8_6, order8_7,
    Nat.reduceLT, ↓reduceIte, Nat.reduceMul, Nat.add_zero, Nat.zero_add,
    g0, g1, g2, g3, g4, g5, g6, g7,
    wrap16_of_in16 h0, wrap16_of_in16 h1, wrap16_of_in16 h2, wrap16_of_in16 h3,
    wrap16_of_in16 h4, wrap16_of_in16 h5, wrap16_of_in16 h6, wrap16_of_in16 h7,
    wrap16_of_in16 s1, wrap16_of_in16 s2, wrap16_of_in16 s3, wrap16_of_in16 s4,
    wrap32_add_left, wrap32_add_right, wrap32_sub_left, wrap32_sub_right,
    Ref.idct_islow_1d, idct_islow_consts,
    F_0_298, F_0_390, F_0_541, F_0_765, F_0_899, F_1_175, F_1_501, F_1_847, F_1_961, F_2_053,
    F_2_562, F_3_072, F_1_175_MINUS_1_961, F_1_175_MINUS_0_390, F_0_541_MINUS_1_847,
    F_3_072_MINUS_2_562, F_0_298_MINUS_0_899, F_1_501_MINUS_0_899, F_2_053_MINUS_2_562,
    F_0_541_PLUS_0_765, Int.reducePow, Int.reduceAdd, Int.reduceSub]
  all_goals
    refine final_descale_18 (by ring) (by unfold in16 at *; unfold in32; omega)

end AndesInt

/-! ## The all-AC-zero test -/

theorem nat_or_eq_zero {a b : Nat} : a ||| b = 0 ↔ a = 0 ∧ b = 0 := by
  constructor
  · intro h
    have hbit : ∀ i, a.testBit i = false ∧ b.testBit i = false := by
      intro i
      have hi : (a ||| b).testBit i = false := by rw [h]; exact Nat.zero_testBit i
      rw [Nat.testBit_or] at hi
      exact Bool.or_eq_false_iff.mp hi
    constructor
    · apply Nat.eq_of_testBit_eq
      intro i
      rw [(hbit i).1, Nat.zero_testBit]
    · apply Nat.eq_of_testBit_eq
      intro i
      rw [(hbit i).2, Nat.zero_testBit]
  · rintro ⟨rfl, rfl⟩
    rfl

theorem toBits16_lt (x : Int) : toBits16 x < 65536 := by
  unfold toBits16; omega

theorem toBits16_ofBits16 {n : Nat} (h : n < 65536) : toBits16 (ofBits16 n) = n := by
  unfold toBits16 ofBits16 wrap16; omega

theorem toBits16_eq_zero {x : Int} (h : in16 x) : toBits16 x = 0 ↔ x = 0 := by
  unfold in16 at h; unfold toBits16; omega

theorem toBits16_vor {a b : Vec} {vl k : Nat} (h : k < vl) :
    toBits16 (vor_vv_i16 a b vl k) = toBits16 (a k) ||| toBits16 (b k) := by
  simp only [vor_vv_i16, h, ↓reduceIte]
  apply toBits16_ofBits16
  exact Nat.or_lt_two_pow (n := 16) (toBits16_lt _) (toBits16_lt _)

theorem foldl_or_eq_zero (f : Nat → Nat) (n : Nat) :
    (List.range n).foldl (fun acc k => acc ||| f k) 0 = 0 ↔ ∀ k < n, f k = 0 := by
  induction n with
  | zero => simp
  | succ n ih =>
    rw [List.range_succ, List.foldl_append]
    simp only [List.foldl_cons, List.foldl_nil, nat_or_eq_zero, ih]
    constructor
    · rintro ⟨h1, h2⟩ k hk
      rcases Nat.lt_succ_iff_lt_or_eq.mp hk with h | h
      · exact h1 k h
      · rw [h]; exact h2
    · intro h
      exact ⟨fun k hk => h k (by omega), h n (by omega)⟩


namespace AndesInt

theorem islow_ac_bitmap_eq (coef : Nat → Int) :
    islow_ac_bitmap coef =
      (((List.range 8).foldl (fun acc k => acc |||
        (toBits16 (coef (8 * 7 + k)) ||| toBits16 (coef (8 * 6 + k)) ||| toBits16 (coef (8 * 5 + k)) |||
         toBits16 (coef (8 * 4 + k)) ||| toBits16 (coef (8 * 3 + k)) ||| toBits16 (coef (8 * 2 + k)) |||
         toBits16 (coef (8 * 1 + k)))) 0 : Nat) : Int) := by
  have hr : List.range 8 = [0, 1, 2, 3, 4, 5, 6, 7] := by decide
  unfold islow_ac_bitmap
  simp only [vmv_x_s_u16, vredor_vs_u16, vmv_s_x_u16, ↓reduceIte, Int.toNat_zero, hr, List.foldl_cons,
    List.foldl_nil, DCTSIZE]
  have key : ∀ (a : Vec) (k : Nat), (vreinterpret_v_i16_u16 a k).toNat = toBits16 (a k) := fun _ _ => rfl
  simp (disch := omega) only [key, toBits16_vor, vle16_v_i16, lane_of_lt, Nat.reduceMul, Nat.reduceAdd]

theorem islow_ac_bitmap_zero_iff {coef : Nat → Int} (hcoef : is_i16_table coef) :
    0 = islow_ac_bitmap coef ↔ ac_rows_zero coef := by
  rw [islow_ac_bitmap_eq, eq_comm, Int.natCast_eq_zero, foldl_or_eq_zero]
  simp only [nat_or_eq_zero]
  constructor
  · intro h r c hr1 hr8 hc
    obtain ⟨⟨⟨⟨⟨⟨h7, h6⟩, h5⟩, h4⟩, h3⟩, h2⟩, h1⟩ := h c hc
    interval_cases r
    · exact (toBits16_eq_zero (hcoef _ (by omega))).mp h1
    · exact (toBits16_eq_zero (hcoef _ (by omega))).mp h2
    · exact (toBits16_eq_zero (hcoef _ (by omega))).mp h3
    · exact (toBits16_eq_zero (hcoef _ (by omega))).mp h4
    · exact (toBits16_eq_zero (hcoef _ (by omega))).mp h5
    · exact (toBits16_eq_zero (hcoef _ (by omega))).mp h6
    · exact (toBits16_eq_zero (hcoef _ (by omega))).mp h7
  · intro h k hk
    have e := fun r h1 h8 => h r k h1 h8 hk
    rw [e 7 (by omega) (by omega), e 6 (by omega) (by omega), e 5 (by omega) (by omega),
      e 4 (by omega) (by omega), e 3 (by omega) (by omega), e 2 (by omega) (by omega),
      e 1 (by omega) (by omega)]
    decide

/-- Zero AC rows select the shortcut, whatever the values in row 0. -/
theorem islow_ac_bitmap_of_zero {coef : Nat → Int} (h : ac_rows_zero coef) :
    0 = islow_ac_bitmap coef := by
  rw [islow_ac_bitmap_eq, eq_comm, Int.natCast_eq_zero, foldl_or_eq_zero]
  intro k hk
  have e := fun r h1 h8 => h r k h1 h8 hk
  rw [e 7 (by omega) (by omega), e 6 (by omega) (by omega), e 5 (by omega) (by omega),
    e 4 (by omega) (by omega), e 3 (by omega) (by omega), e 2 (by omega) (by omega),
    e 1 (by omega) (by omega)]
  decide

end AndesInt

/-! ## Andes accurate kernel: shortcut against regular pass 1 -/

namespace AndesInt

/-- On a block with zero AC rows the shortcut vector and the vector of
`jsimd_idct_islow_pass1_regular` agree lane by lane. -/
theorem islow_shortcut_eq_regular_lane (q coef : Nat → Int) (hz : ac_rows_zero coef)
    {b j : Nat} (hb : b < 8) (hj : j < 8) :
    islow_cols_shortcut (vle16_v_i16 coef (0 * DCTSIZE) 8) (vle16_v_i16 q (0 * DCTSIZE) 8) (j + 8 * b)
      = islow_cols_regular q coef (j + 8 * b) := by
  have z1 : coef (8 + j) = 0 := hz 1 j (by omega) (by omega) hj
  have z2 : coef (16 + j) = 0 := hz 2 j (by omega) (by omega) hj
  have z3 : coef (24 + j) = 0 := hz 3 j (by omega) (by omega) hj
  have z4 : coef (32 + j) = 0 := hz 4 j (by omega) (by omega) hj
  have z5 : coef (40 + j) = 0 := hz 5 j (by omega) (by omega) hj
  have z6 : coef (48 + j) = 0 := hz 6 j (by omega) (by omega) hj
  have z7 : coef (56 + j) = 0 := hz 7 j (by omega) (by omega) hj
  rw [islow_cols_shortcut_lane _ _ hb hj]
  have hd := wrap16_in16 (coef j * q j)
  interval_cases b <;>
  simp (disch := omega) only [islow_cols_regular, jsimd_idct_islow_pass1_regular, vslideup_vx_lo,
    vslideup_vx_hi, vlmul_ext, vnsra_wx_i16, vadd_vx_i32, vadd_vv_i32, vsub_vv_i32,
    vwmacc_vx_i32, vwmul_vx_i32, vadd_vv_i16, vsub_vv_i16, vmul_vv_i16, vle16_v_i16, lane_of_lt,
    Nat.reduceSubDiff, Nat.add_sub_cancel, Nat.reduceMul, Nat.reduceDiv, Nat.reduceMod,
    Nat.add_zero, Nat.zero_add, Nat.mul_zero, DCTSIZE, DESCALE_P1, CONST_BITS, PASS1_BITS,
    Nat.reduceSub, z1, z2, z3, z4, z5, z6, z7, zero_mul, mul_zero, wrap16_zero, add_zero, sub_zero,
    wrap32_add_left, wrap32_add_right, wrap32_sub_left, wrap32_sub_right,
    Int.reducePow] <;>
  (generalize wrap16 (coef j * q j) = d at hd ⊢
   unfold in16 at hd
   unfold wrap16 wrap32
   omega)

end AndesInt

/-! ## Andes accurate kernel against the reference -/


theorem idct_islow_1d_congr {f g : Nat → Int} (h : ∀ k < 8, f k = g k) (c : Nat) :
    Ref.idct_islow_1d f c = Ref.idct_islow_1d g c := by
  unfold Ref.idct_islow_1d
  rw [h 0 (by omega), h 1 (by omega), h 2 (by omega), h 3 (by omega), h 4 (by omega),
    h 5 (by omega), h 6 (by omega), h 7 (by omega)]

namespace AndesInt

/-- Without 16-bit overflow, lane `j` of block `b` of the vector handed to the
second pass is the reference workspace entry at row `order8 b`, column `j`,
whichever branch produced it. -/
theorem islow_cols_all_lane (q coef : Nat → Int) (hcoef : is_i16_table coef)
    (hsafe : islow_no_overflow16 q coef) {b j : Nat} (hb : b < 8) (hj : j < 8) :
    islow_cols_all q coef (j + 8 * b) = Ref.islow_workspace q coef (order8 b) j := by
  obtain ⟨hp, hs, hw, _⟩ := hsafe
  have hreg := islow_cols_regular_lane q coef hb hj (fun r hr => hp r hr j hj) (hs j hj)
  rw [wrap16_of_in16 (hw _ (order8_lt hb) j hj)] at hreg
  unfold islow_cols_all
  split_ifs with hbm
  · have hz := (islow_ac_bitmap_zero_iff hcoef).mp hbm
    rw [islow_shortcut_eq_regular_lane q coef hz hb hj]
    exact hreg
  · exact hreg

end AndesInt

/-- The Andes accurate kernel agrees with the reference sample by sample when
no 16-bit intermediate overflows. -/
theorem andes_islow_eq_reference (dct_table coef_block : Nat → Int)
    (hcoef : is_i16_table coef_block) (hsafe : islow_no_overflow16 dct_table coef_block)
    {r c : Nat} (hr : r < 8) (hc : c < 8) :
    AndesInt.jsimd_idct_islow_rvv Vxrm.rnu dct_table coef_block r c =
      Ref.jpeg_idct_islow dct_table coef_block r c := by
  have hlane : ∀ k < 8, AndesInt.islow_cols_all dct_table coef_block (k + 8 * AndesInt.order8 r) =
      Ref.islow_workspace dct_table coef_block r k := by
    intro k hk
    rw [AndesInt.islow_cols_all_lane dct_table coef_block hcoef hsafe (AndesInt.order8_lt hr) hk,
      AndesInt.order8_order8 hr]
  obtain ⟨_, _, hw, hs2⟩ := hsafe
  unfold AndesInt.jsimd_idct_islow_rvv Ref.jpeg_idct_islow
  rw [AndesInt.islow_pass2_sample _ hr hc]
  · rw [idct_islow_1d_congr hlane c]
  · intro k hk
    rw [hlane k hk]
    exact hw r hr k hk
  · have h := hs2 r hr
    unfold islow_sums_fit16 at h ⊢
    simp only [hlane 0 (by omega), hlane 4 (by omega), hlane 7 (by omega), hlane 3 (by omega),
      hlane 5 (by omega), hlane 1 (by omega)]
    exact h

/-- C1. Andes accurate IDCT under round-to-nearest-up: for every coefficient
block of signed 16-bit values and every quantization table for which no signed
16-bit intermediate overflows (dequantized products, 16-bit sums formed before
widening, pass-1 outputs), each of the 64 output samples equals the scalar
reference `jpeg_idct_islow`. -/
theorem C1_andes_islow_matches_reference (dct_table coef_block : Nat → Int)
    (hcoef : is_i16_table coef_block) (hsafe : islow_no_overflow16 dct_table coef_block) :
    ∀ r < 8, ∀ c < 8,
      AndesInt.jsimd_idct_islow_rvv Vxrm.rnu dct_table coef_block r c =
        Ref.jpeg_idct_islow dct_table coef_block r c :=
  fun _ hr _ hc => andes_islow_eq_reference dct_table coef_block hcoef hsafe hr hc

/-- Witness: the theorem above on a block with seven non-zero coefficients and
quantizer 16. -/
theorem C1_andes_islow_matches_reference_witness :
    is_i16_table sample_block ∧ islow_no_overflow16 flat_table_16 sample_block ∧
      ∀ r < 8, ∀ c < 8,
        AndesInt.jsimd_idct_islow_rvv Vxrm.rnu flat_table_16 sample_block r c =
          Ref.jpeg_idct_islow flat_table_16 sample_block r c :=
  ⟨by decide!, by decide!,
    C1_andes_islow_matches_reference flat_table_16 sample_block (by decide!) (by decide!)⟩

/-! ## Value transparency of the accurate shortcut -/


theorem vslideup_vx_tail {d s : Vec} {off vl i : Nat} (h : vl ≤ i) :
    vslideup_vx d s off vl i = 0 := by
  have h3 : ¬ i < vl := by omega
  simp [vslideup_vx, h3]

namespace AndesInt

/-- On a block with zero AC rows the shortcut vector is the vector of
`jsimd_idct_islow_pass1_regular`, and it is the one handed to pass 2. -/
theorem islow_cols_all_eq_regular (q coef : Nat → Int) (hz : ac_rows_zero coef) :
    islow_cols_all q coef = islow_cols_regular q coef := by
  funext i
  unfold islow_cols_all
  rw [if_pos (islow_ac_bitmap_of_zero hz)]
  by_cases hi : i < 64
  · obtain ⟨b, j, hb, hj, rfl⟩ := lane_split hi
    exact islow_shortcut_eq_regular_lane q coef hz hb hj
  · have h64 : 64 ≤ i := by omega
    simp only [islow_cols_shortcut, islow_cols_regular, jsimd_idct_islow_pass1_regular, DCTSIZE2]
    rw [vslideup_vx_tail h64, vslideup_vx_tail h64]

end AndesInt

/-- C6. Value transparency of the accurate-IDCT shortcut: for every block whose
rows 1..7 are zero and every quantization table (no range condition, products
may wrap), the shortcut block equals the block of
`jsimd_idct_islow_pass1_regular` element for element, the shortcut is the branch
taken, and the final output equals pass 2 applied to the regular block. -/
theorem C6_islow_shortcut_value_transparent (dct_table coef_block : Nat → Int)
    (hz : ac_rows_zero coef_block) :
    (∀ i < 64,
      AndesInt.islow_cols_shortcut (vle16_v_i16 coef_block (0 * DCTSIZE) 8)
        (vle16_v_i16 dct_table (0 * DCTSIZE) 8) i =
        AndesInt.islow_cols_regular dct_table coef_block i) ∧
    0 = AndesInt.islow_ac_bitmap coef_block ∧
    ∀ vxrm r c,
      AndesInt.jsimd_idct_islow_rvv vxrm dct_table coef_block r c =
        AndesInt.jsimd_idct_islow_pass2_regular vxrm
          (AndesInt.islow_cols_regular dct_table coef_block) r c := by
  refine ⟨?_, AndesInt.islow_ac_bitmap_of_zero hz, ?_⟩
  · intro i hi
    obtain ⟨b, j, hb, hj, rfl⟩ := lane_split hi
    exact AndesInt.islow_shortcut_eq_regular_lane dct_table coef_block hz hb hj
  · intro vxrm r c
    unfold AndesInt.jsimd_idct_islow_rvv
    rw [AndesInt.islow_cols_all_eq_regular dct_table coef_block hz]

/-- Witness: the theorem above at a concrete block and table. -/
theorem C6_islow_shortcut_value_transparent_witness :
    ac_rows_zero dc_block_512 ∧
    ((∀ i < 64,
      AndesInt.islow_cols_shortcut (vle16_v_i16 dc_block_512 (0 * DCTSIZE) 8)
        (vle16_v_i16 flat_table_16 (0 * DCTSIZE) 8) i =
        AndesInt.islow_cols_regular flat_table_16 dc_block_512 i) ∧
    0 = AndesInt.islow_ac_bitmap dc_block_512 ∧
    ∀ vxrm r c,
      AndesInt.jsimd_idct_islow_rvv vxrm flat_table_16 dc_block_512 r c =
        AndesInt.jsimd_idct_islow_pass2_regular vxrm
          (AndesInt.islow_cols_regular flat_table_16 dc_block_512) r c) :=
  ⟨by decide, C6_islow_shortcut_value_transparent flat_table_16 dc_block_512 (by decide)⟩

/-! ## DC-only blocks in the Andes accurate kernel -/

namespace AndesInt

/-- Lanes of the vector handed to pass 2 on a block with zero AC rows: lane `j`
of every block is the dequantized row-0 entry `j`, shifted left by 2, in 16
bits. -/
theorem islow_cols_all_zero_ac_lane (q coef : Nat → Int) (hz : ac_rows_zero coef)
    {b j : Nat} (hb : b < 8) (hj : j < 8) :
    islow_cols_all q coef (j + 8 * b) = wrap16 (wrap16 (coef j * q j) * 4) := by
  unfold islow_cols_all
  rw [if_pos (islow_ac_bitmap_of_zero hz), islow_cols_shortcut_lane _ _ hb hj]
  simp only [vle16_v_i16, hj, ↓reduceIte, DCTSIZE, Nat.zero_mul, Nat.zero_add]

theorem islow_cols_all_tail (q coef : Nat → Int) {i : Nat} (hi : 64 ≤ i) :
    islow_cols_all q coef i = 0 := by
  unfold islow_cols_all
  split_ifs
  · simp only [islow_cols_shortcut, DCTSIZE2]
    rw [vslideup_vx_tail hi]
  · simp only [jsimd_idct_islow_pass1_regular]
    rw [vslideup_vx_tail hi]

/-- The accurate butterfly on a DC-only input: every output is `x0 << 13`. -/
theorem idct_islow_1d_dc (x : Int) {c : Nat} (hc : c < 8) :
    Ref.idct_islow_1d (fun k => if k = 0 then x else 0) c = x * 8192 := by
  interval_cases c <;> simp [Ref.idct_islow_1d]

/-- DC-only blocks through the Andes accurate kernel, for a dequantized DC
value `d` with `4 * d` representable in 16 bits. -/
theorem andes_islow_dc_only (q coef : Nat → Int)
    (hdc : ∀ i, 1 ≤ i → i < 64 → coef i = 0)
    (hd : -8192 ≤ coef 0 * q 0 ∧ coef 0 * q 0 ≤ 8191) {r c : Nat} (hr : r < 8) (hc : c < 8) :
    jsimd_idct_islow_rvv Vxrm.rnu q coef r c = Ref.range_limit ((coef 0 * q 0 + 4) / 8) := by
  have hz : ac_rows_zero coef := fun r' c' h1 h8 hc' => hdc _ (by omega) (by omega)
  have hlane : ∀ k < 8, islow_cols_all q coef (k + 8 * order8 r) =
      (fun k => if k = 0 then 4 * (coef 0 * q 0) else 0) k := by
    intro k hk
    rw [islow_cols_all_zero_ac_lane q coef hz (order8_lt hr) hk]
    by_cases h0 : k = 0
    · subst h0
      simp only [↓reduceIte]
      unfold wrap16; omega
    · rw [hdc k (by omega) (by omega)]
      simp only [h0, ↓reduceIte, zero_mul]
      rfl
  unfold jsimd_idct_islow_rvv
  rw [islow_pass2_sample _ hr hc]
  · rw [idct_islow_1d_congr hlane c, idct_islow_1d_dc _ hc]
    congr 1
    unfold Ref.DESCALE
    simp only [Nat.reduceSub, Int.reducePow]
    omega
  · intro k hk
    rw [hlane k hk]
    unfold in16
    by_cases h0 : k = 0
    · simp only [h0, ↓reduceIte]; omega
    · simp only [h0, ↓reduceIte]; omega
  · unfold islow_sums_fit16 in16
    simp only [hlane 0 (by omega), hlane 4 (by omega), hlane 7 (by omega), hlane 3 (by omega),
      hlane 5 (by omega), hlane 1 (by omega)]
    simp only [↓reduceIte, OfNat.ofNat_ne_zero, OfNat.zero_ne_ofNat]
    omega

/-- The vector handed to pass 2 depends on a zero-AC block only through the
products of row 0. -/
theorem islow_cols_all_congr_row0 (q q2 coef : Nat → Int) (hz : ac_rows_zero coef)
    (h : ∀ j < 8, coef j * q j = coef j * q2 j) :
    islow_cols_all q coef = islow_cols_all q2 coef := by
  funext i
  by_cases hi : i < 64
  · obtain ⟨b, j, hb, hj, rfl⟩ := lane_split hi
    rw [islow_cols_all_zero_ac_lane q coef hz hb hj, islow_cols_all_zero_ac_lane q2 coef hz hb hj,
      h j hj]
  · rw [islow_cols_all_tail q coef (by omega), islow_cols_all_tail q2 coef (by omega)]

end AndesInt

/-- C9. DC-only blocks in the Andes accurate IDCT (round-to-nearest-up): when
the DC term is the only non-zero coefficient and `d = DC * quant[0]` satisfies
`-8192 <= d <= 8191`, all 64 output samples equal
`clamp(((d + 4) >> 3) + 128, 0, 255)`. -/
theorem C9_andes_islow_dc_only_constant (dct_table coef_block : Nat → Int)
    (hdc : ∀ i, 1 ≤ i → i < 64 → coef_block i = 0)
    (hd : -8192 ≤ coef_block 0 * dct_table 0 ∧ coef_block 0 * dct_table 0 ≤ 8191) :
    ∀ r < 8, ∀ c < 8,
      AndesInt.jsimd_idct_islow_rvv Vxrm.rnu dct_table coef_block r c =
        Ref.range_limit ((coef_block 0 * dct_table 0 + 4) / 8) :=
  fun _ hr _ hc => AndesInt.andes_islow_dc_only dct_table coef_block hdc hd hr hc

/-- Witness: the theorem above at a concrete block and table. -/
theorem C9_andes_islow_dc_only_constant_witness :
    (∀ i, 1 ≤ i → i < 64 → dc_block_10 i = 0) ∧
    (-8192 ≤ dc_block_10 0 * flat_table_16 0 ∧ dc_block_10 0 * flat_table_16 0 ≤ 8191) ∧
    ∀ r < 8, ∀ c < 8,
      AndesInt.jsimd_idct_islow_rvv Vxrm.rnu flat_table_16 dc_block_10 r c =
        Ref.range_limit ((dc_block_10 0 * flat_table_16 0 + 4) / 8) :=
  ⟨by intro i h1 h2; simp [dc_block_10]; omega, by decide,
    C9_andes_islow_dc_only_constant flat_table_16 dc_block_10
      (by intro i h1 h2; simp [dc_block_10]; omega) (by decide)⟩

/-- C10, as stated, fails: for DC = 512 with quantizer 16 and all AC zero the
Andes accurate kernel stores 0, not 128, in every sample. -/
theorem C10_scenario_dc512_not_128 :
    AndesInt.jsimd_idct_islow_rvv Vxrm.rnu flat_table_16 dc_block_512 0 0 = 0 ∧
    ¬ (∀ r < 8, ∀ c < 8,
        AndesInt.jsimd_idct_islow_rvv Vxrm.rnu flat_table_16 dc_block_512 r c = 128) := by
  refine ⟨by decide!, fun h => ?_⟩
  have h00 := h 0 (by decide) 0 (by decide)
  revert h00
  decide!

/-- C10, amended: for the block with DC coefficient 512, DC quantizer 16 and
all AC coefficients zero, every one of the 64 output samples of the Andes
`jsimd_idct_islow_rvv` is 0, under every rounding mode: the shifted DC value
`8192 << 2` wraps to `-32768` in its 16-bit lane. -/
theorem C10_scenario_dc512_all_zero (dct_table : Nat → Int) (hq : dct_table 0 = 16) :
    ∀ vxrm, ∀ r < 8, ∀ c < 8,
      AndesInt.jsimd_idct_islow_rvv vxrm dct_table dc_block_512 r c = 0 := by
  intro vxrm
  have hz : ac_rows_zero dc_block_512 := by decide
  have hcongr : AndesInt.islow_cols_all dct_table dc_block_512 =
      AndesInt.islow_cols_all flat_table_16 dc_block_512 := by
    apply AndesInt.islow_cols_all_congr_row0 _ _ _ hz
    intro j hj
    by_cases h0 : j = 0
    · subst h0; rw [hq]; rfl
    · simp [dc_block_512, h0]
  unfold AndesInt.jsimd_idct_islow_rvv
  rw [hcongr]
  cases vxrm <;> decide!

/-- Witness: the theorem above at a concrete block and table. -/
theorem C10_scenario_dc512_all_zero_witness :
    flat_table_16 0 = 16 ∧
    ∀ vxrm, ∀ r < 8, ∀ c < 8,
      AndesInt.jsimd_idct_islow_rvv vxrm flat_table_16 dc_block_512 r c = 0 :=
  ⟨rfl, C10_scenario_dc512_all_zero flat_table_16 rfl⟩

/-! ## Fast kernel: value transparency of the shortcut -/


theorem wrap16_wrap16 (x : Int) : wrap16 (wrap16 x) = wrap16 x := by
  unfold wrap16; omega

theorem roundoff_zero (m : Vxrm) (d : Nat) : roundoff m 0 d = 0 := by
  unfold roundoff
  cases m <;> simp

theorem sat16_zero : sat16 0 = 0 := rfl

/-- The OR-reduction test `0 == ac_bitmap` holds exactly when every lane of the
bitmap vector has the all-zero bit pattern. -/
theorem vredor_zero_iff (a : Vec) :
    0 = vmv_x_s_u16 (vredor_vs_u16 (vreinterpret_v_i16_u16 a) (vmv_s_x_u16 0 8) 8) ↔
      ∀ k < 8, toBits16 (a k) = 0 := by
  have key : ∀ k : Nat, (vreinterpret_v_i16_u16 a k).toNat = toBits16 (a k) := fun _ => rfl
  simp only [vmv_x_s_u16, vredor_vs_u16, vmv_s_x_u16, ↓reduceIte, Int.toNat_zero, key]
  rw [eq_comm, Int.natCast_eq_zero]
  exact foldl_or_eq_zero (fun k => toBits16 (a k)) 8

namespace AndesFst

theorem ifast_rows_all_shortcut_lane (row0 : Vec) {b j : Nat} (hb : b < 8) (hj : j < 8) :
    ifast_rows_all_shortcut row0 (j + 8 * b) = row0 j := by
  interval_cases b <;>
  simp (disch := omega) only [ifast_rows_all_shortcut, vslideup_vx_lo, vslideup_vx_hi, vlmul_ext,
    DCTSIZE2, Nat.reduceSubDiff, Nat.add_sub_cancel, Nat.reduceMul, Nat.reduceDiv, Nat.add_zero]

/-- On a block with zero AC rows the full-calculation branch produces the
dequantized row 0 in every block, under every rounding mode. -/
theorem ifast_rows_all_full_zero_ac_lane (vxrm : Vxrm) (q coef : Nat → Int)
    (hz : ac_rows_zero coef) (row0 : Vec) {b j : Nat} (hb : b < 8) (hj : j < 8) :
    ifast_rows_all_full vxrm q row0 (vle16_v_i16 coef (1 * DCTSIZE) 8)
      (vle16_v_i16 coef (2 * DCTSIZE) 8) (vle16_v_i16 coef (3 * DCTSIZE) 8)
      (vle16_v_i16 coef (4 * DCTSIZE) 8) (vle16_v_i16 coef (5 * DCTSIZE) 8)
      (vle16_v_i16 coef (6 * DCTSIZE) 8) (vle16_v_i16 coef (7 * DCTSIZE) 8) (j + 8 * b)
      = wrap16 (row0 j) := by
  have z1 : coef (8 + j) = 0 := hz 1 j (by omega) (by omega) hj
  have z2 : coef (16 + j) = 0 := hz 2 j (by omega) (by omega) hj
  have z3 : coef (24 + j) = 0 := hz 3 j (by omega) (by omega) hj
  have z4 : coef (32 + j) = 0 := hz 4 j (by omega) (by omega) hj
  have z5 : coef (40 + j) = 0 := hz 5 j (by omega) (by omega) hj
  have z6 : coef (48 + j) = 0 := hz 6 j (by omega) (by omega) hj
  have z7 : coef (56 + j) = 0 := hz 7 j (by omega) (by omega) hj
  interval_cases b <;>
  simp (disch := omega) only [ifast_rows_all_full, vslideup_vx_lo, vslideup_vx_hi, vlmul_ext_lane,
    vadd_vv_i16_lane, vsub_vv_i16_lane, vmul_vv_i16_lane, vsmul_vx_i16_lane, vmv_v_v_i16_lane,
    vle16_v_i16_lane,
    Nat.reduceSubDiff, Nat.add_sub_cancel, Nat.reduceMul, Nat.add_zero, Nat.zero_add, DCTSIZE,
    z1, z2, z3, z4, z5, z6, z7, zero_mul, mul_zero, wrap16_zero, add_zero, sub_zero, zero_add,
    sub_self, roundoff_zero, sat16_zero, wrap16_wrap16]

theorem ifast_ac_bitmap_of_zero (vxrm : Vxrm) (q coef : Nat → Int) (hz : ac_rows_zero coef) :
    ifast_rows_all vxrm q coef =
      ifast_rows_all_shortcut
        (vmul_vv_i16 (vle16_v_i16 coef (0 * DCTSIZE) 8) (vle16_v_i16 q (0 * DCTSIZE) 8) 8) := by
  unfold ifast_rows_all
  simp only []
  rw [if_pos]
  rw [vredor_zero_iff]
  intro k hk
  have e := fun r h1 h8 => hz r k h1 h8 hk
  simp only [Nat.reduceMul] at e
  simp (disch := omega) only [toBits16_vor, vle16_v_i16_lane, DCTSIZE, Nat.reduceMul,
    e 1 (by omega) (by omega), e 2 (by omega) (by omega), e 3 (by omega) (by omega),
    e 4 (by omega) (by omega), e 5 (by omega) (by omega), e 6 (by omega) (by omega),
    e 7 (by omega) (by omega)]
  decide

end AndesFst

/-- C7. Value transparency of the fast-IDCT shortcut: for every block whose
rows 1..7 are zero, every quantization table and every rounding mode, the block
`rows_all` of the shortcut branch (dequantized row 0, eight copies) equals the
block the full-calculation branch produces for the same input, element for
element, and the shortcut is the branch taken. -/
theorem C7_ifast_shortcut_value_transparent (vxrm : Vxrm) (dct_table coef_block : Nat → Int)
    (hz : ac_rows_zero coef_block) :
    (∀ i < 64,
      AndesFst.ifast_rows_all_shortcut
        (vmul_vv_i16 (vle16_v_i16 coef_block (0 * DCTSIZE) 8)
          (vle16_v_i16 dct_table (0 * DCTSIZE) 8) 8) i =
      AndesFst.ifast_rows_all_full vxrm dct_table
        (vmul_vv_i16 (vle16_v_i16 coef_block (0 * DCTSIZE) 8)
          (vle16_v_i16 dct_table (0 * DCTSIZE) 8) 8)
        (vle16_v_i16 coef_block (1 * DCTSIZE) 8) (vle16_v_i16 coef_block (2 * DCTSIZE) 8)
        (vle16_v_i16 coef_block (3 * DCTSIZE) 8) (vle16_v_i16 coef_block (4 * DCTSIZE) 8)
        (vle16_v_i16 coef_block (5 * DCTSIZE) 8) (vle16_v_i16 coef_block (6 * DCTSIZE) 8)
        (vle16_v_i16 coef_block (7 * DCTSIZE) 8) i) ∧
    AndesFst.ifast_rows_all vxrm dct_table coef_block =
      AndesFst.ifast_rows_all_shortcut
        (vmul_vv_i16 (vle16_v_i16 coef_block (0 * DCTSIZE) 8)
          (vle16_v_i16 dct_table (0 * DCTSIZE) 8) 8) := by
  refine ⟨?_, AndesFst.ifast_ac_bitmap_of_zero vxrm dct_table coef_block hz⟩
  intro i hi
  obtain ⟨b, j, hb, hj, rfl⟩ := lane_split hi
  rw [AndesFst.ifast_rows_all_shortcut_lane _ hb hj,
    AndesFst.ifast_rows_all_full_zero_ac_lane vxrm dct_table coef_block hz _ hb hj]
  simp only [vmul_vv_i16_lane _ _ _ hj, wrap16_wrap16]

/-! ## 4x4 kernel: value transparency of the shortcut -/


/-- Witness: the theorem above at a concrete block and table. -/
theorem C7_ifast_shortcut_value_transparent_witness :
    ac_rows_zero dc_block_512 ∧
    ((∀ i < 64,
      AndesFst.ifast_rows_all_shortcut
        (vmul_vv_i16 (vle16_v_i16 dc_block_512 (0 * DCTSIZE) 8)
          (vle16_v_i16 flat_table_16 (0 * DCTSIZE) 8) 8) i =
      AndesFst.ifast_rows_all_full Vxrm.rnu flat_table_16
        (vmul_vv_i16 (vle16_v_i16 dc_block_512 (0 * DCTSIZE) 8)
          (vle16_v_i16 flat_table_16 (0 * DCTSIZE) 8) 8)
        (vle16_v_i16 dc_block_512 (1 * DCTSIZE) 8) (vle16_v_i16 dc_block_512 (2 * DCTSIZE) 8)
        (vle16_v_i16 dc_block_512 (3 * DCTSIZE) 8) (vle16_v_i16 dc_block_512 (4 * DCTSIZE) 8)
        (vle16_v_i16 dc_block_512 (5 * DCTSIZE) 8) (vle16_v_i16 dc_block_512 (6 * DCTSIZE) 8)
        (vle16_v_i16 dc_block_512 (7 * DCTSIZE) 8) i) ∧
    AndesFst.ifast_rows_all Vxrm.rnu flat_table_16 dc_block_512 =
      AndesFst.ifast_rows_all_shortcut
        (vmul_vv_i16 (vle16_v_i16 dc_block_512 (0 * DCTSIZE) 8)
          (vle16_v_i16 flat_table_16 (0 * DCTSIZE) 8) 8)) :=
  ⟨by decide,
    C7_ifast_shortcut_value_transparent Vxrm.rnu flat_table_16 dc_block_512 (by decide)⟩

namespace AndesRed

theorem idct_4x4_rows_shortcut_lane (row0 : Vec) {b j : Nat} (hb : b < 4) (hj : j < 8) :
    idct_4x4_rows_shortcut row0 (j + 8 * b) = wrap16 (row0 j * 4) := by
  interval_cases b <;>
  simp (disch := omega) only [idct_4x4_rows_shortcut, vslideup_vx_lo, vslideup_vx_hi, vlmul_ext,
    vsll_vx_i16_lane, DCTSIZE2, PASS1_BITS, Nat.reduceSubDiff, Nat.add_sub_cancel, Nat.reduceMul,
    Nat.reduceDiv, Nat.reduceMod, Nat.add_zero, Int.reducePow]

/-- On a block whose rows 1, 2, 3, 5, 6, 7 are zero the full pass-1 branch of
the 4x4 kernel produces the shifted row 0 in each of its four blocks. -/
theorem idct_4x4_rows_full_zero_ac_lane (q coef : Nat → Int) (hz : ac_rows_zero_4x4 coef)
    (row0 : Vec) {b j : Nat} (hb : b < 4) (hj : j < 8) :
    idct_4x4_rows_full q row0 (vle16_v_i16 coef (1 * DCTSIZE) 8)
      (vle16_v_i16 coef (2 * DCTSIZE) 8) (vle16_v_i16 coef (3 * DCTSIZE) 8)
      (vle16_v_i16 coef (5 * DCTSIZE) 8) (vle16_v_i16 coef (6 * DCTSIZE) 8)
      (vle16_v_i16 coef (7 * DCTSIZE) 8) (j + 8 * b) = wrap16 (row0 j * 4) := by
  have z1 : coef (8 + j) = 0 := hz 1 j (by omega) (by omega) (by omega) hj
  have z2 : coef (16 + j) = 0 := hz 2 j (by omega) (by omega) (by omega) hj
  have z3 : coef (24 + j) = 0 := hz 3 j (by omega) (by omega) (by omega) hj
  have z5 : coef (40 + j) = 0 := hz 5 j (by omega) (by omega) (by omega) hj
  have z6 : coef (48 + j) = 0 := hz 6 j (by omega) (by omega) (by omega) hj
  have z7 : coef (56 + j) = 0 := hz 7 j (by omega) (by omega) (by omega) hj
  interval_cases b <;>
  simp (disch := omega) only [idct_4x4_rows_full, vslideup_vx_lo, vslideup_vx_hi, vlmul_ext_lane,
    vnsra_wx_i16_lane, vadd_vx_i32_lane, vadd_vv_i32_lane, vsub_vv_i32_lane, vwmacc_vx_i32_lane,
    vwmul_vx_i32_lane, vmul_vv_i16_lane, vle16_v_i16_lane,
    Nat.reduceSubDiff, Nat.add_sub_cancel, Nat.reduceMul, Nat.add_zero, Nat.zero_add, DCTSIZE,
    CONST_BITS, PASS1_BITS, Nat.reduceSub, Nat.reduceAdd, Nat.reduceMod,
    z1, z2, z3, z5, z6, z7, zero_mul, mul_zero, wrap16_zero, add_zero, sub_zero,
    wrap32_add_left, wrap32_add_right, wrap32_sub_left, wrap32_sub_right, Int.reducePow] <;>
  (generalize row0 j = d
   unfold wrap16 wrap32
   omega)

theorem idct_4x4_ac_bitmap_of_zero (q coef : Nat → Int) (hz : ac_rows_zero_4x4 coef) :
    idct_4x4_rows q coef =
      idct_4x4_rows_shortcut
        (vmul_vv_i16 (vle16_v_i16 coef (0 * DCTSIZE) 8) (vle16_v_i16 q (0 * DCTSIZE) 8) 8) := by
  unfold idct_4x4_rows
  simp only []
  rw [if_pos]
  rw [vredor_zero_iff]
  intro k hk
  have e := fun r h1 h8 h4 => hz r k h1 h8 h4 hk
  simp only [Nat.reduceMul] at e
  simp (disch := omega) only [toBits16_vor, vle16_v_i16_lane, DCTSIZE, Nat.reduceMul,
    e 1 (by omega) (by omega) (by omega), e 2 (by omega) (by omega) (by omega),
    e 3 (by omega) (by omega) (by omega), e 5 (by omega) (by omega) (by omega),
    e 6 (by omega) (by omega) (by omega), e 7 (by omega) (by omega) (by omega)]
  decide

end AndesRed

/-- C8. Value transparency of the 4x4 shortcut: for every block whose rows
1, 2, 3, 5, 6, 7 are zero and every quantization table, the 32-element block
`rows_0132` of the shortcut branch (`row0 * quant0 << PASS1_BITS`, four
copies) equals the block the full pass-1 branch produces for the same input,
element for element, and the shortcut is the branch taken. -/
theorem C8_idct_4x4_shortcut_value_transparent (dct_table coef_block : Nat → Int)
    (hz : ac_rows_zero_4x4 coef_block) :
    (∀ i < 32,
      AndesRed.idct_4x4_rows_shortcut
        (vmul_vv_i16 (vle16_v_i16 coef_block (0 * DCTSIZE) 8)
          (vle16_v_i16 dct_table (0 * DCTSIZE) 8) 8) i =
      AndesRed.idct_4x4_rows_full dct_table
        (vmul_vv_i16 (vle16_v_i16 coef_block (0 * DCTSIZE) 8)
          (vle16_v_i16 dct_table (0 * DCTSIZE) 8) 8)
        (vle16_v_i16 coef_block (1 * DCTSIZE) 8) (vle16_v_i16 coef_block (2 * DCTSIZE) 8)
        (vle16_v_i16 coef_block (3 * DCTSIZE) 8) (vle16_v_i16 coef_block (5 * DCTSIZE) 8)
        (vle16_v_i16 coef_block (6 * DCTSIZE) 8) (vle16_v_i16 coef_block (7 * DCTSIZE) 8) i) ∧
    AndesRed.idct_4x4_rows dct_table coef_block =
      AndesRed.idct_4x4_rows_shortcut
        (vmul_vv_i16 (vle16_v_i16 coef_block (0 * DCTSIZE) 8)
          (vle16_v_i16 dct_table (0 * DCTSIZE) 8) 8) := by
  refine ⟨?_, AndesRed.idct_4x4_ac_bitmap_of_zero dct_table coef_block hz⟩
  intro i hi
  obtain ⟨b, j, hb, hj, rfl⟩ : ∃ b j, b < 4 ∧ j < 8 ∧ i = j + 8 * b :=
    ⟨i / 8, i % 8, by omega, by omega, by omega⟩
  rw [AndesRed.idct_4x4_rows_shortcut_lane _ hb hj,
    AndesRed.idct_4x4_rows_full_zero_ac_lane dct_table coef_block hz _ hb hj]

/-- Witness: the theorem above at a concrete block and table. -/
theorem C8_idct_4x4_shortcut_value_transparent_witness :
    ac_rows_zero_4x4 dc_block_512 ∧
    ((∀ i < 32,
      AndesRed.idct_4x4_rows_shortcut
        (vmul_vv_i16 (vle16_v_i16 dc_block_512 (0 * DCTSIZE) 8)
          (vle16_v_i16 flat_table_16 (0 * DCTSIZE) 8) 8) i =
      AndesRed.idct_4x4_rows_full flat_table_16
        (vmul_vv_i16 (vle16_v_i16 dc_block_512 (0 * DCTSIZE) 8)
          (vle16_v_i16 flat_table_16 (0 * DCTSIZE) 8) 8)
        (vle16_v_i16 dc_block_512 (1 * DCTSIZE) 8) (vle16_v_i16 dc_block_512 (2 * DCTSIZE) 8)
        (vle16_v_i16 dc_block_512 (3 * DCTSIZE) 8) (vle16_v_i16 dc_block_512 (5 * DCTSIZE) 8)
        (vle16_v_i16 dc_block_512 (6 * DCTSIZE) 8) (vle16_v_i16 dc_block_512 (7 * DCTSIZE) 8) i) ∧
    AndesRed.idct_4x4_rows flat_table_16 dc_block_512 =
      AndesRed.idct_4x4_rows_shortcut
        (vmul_vv_i16 (vle16_v_i16 dc_block_512 (0 * DCTSIZE) 8)
          (vle16_v_i16 flat_table_16 (0 * DCTSIZE) 8) 8)) :=
  ⟨by decide, C8_idct_4x4_shortcut_value_transparent flat_table_16 dc_block_512 (by decide)⟩

/-! ## Defects of the generic accurate kernel and of the fast kernel -/


/-- C2, code defect at a concrete input. Block: 64 at row 1, column 0, all
quantizers 1; no 16-bit intermediate overflows. The generic kernel forms output
4 of each pass as `tmp13 + tmp0` (the same sum as output 3) instead of
`tmp13 - tmp0`: it stores 130 at row 4, column 0 where the reference
`jpeg_idct_islow` has 126, and its row 4 repeats its row 3. -/
theorem C2_generic_islow_row4_diverges :
    is_i16_table impulse_row1_64 ∧
    rvv_islow_no_overflow16 flat_table_1 impulse_row1_64 ∧
    RvvInt.jsimd_idct_islow_rvv flat_table_1 impulse_row1_64 4 0 = 130 ∧
    Ref.jpeg_idct_islow flat_table_1 impulse_row1_64 4 0 = 126 ∧
    RvvInt.jsimd_idct_islow_rvv flat_table_1 impulse_row1_64 3 0 = 130 ∧
    Ref.jpeg_idct_islow flat_table_1 impulse_row1_64 3 0 = 130 := by
  refine ⟨by decide!, by decide!, by decide!, by decide!, by decide!, by decide!⟩

/-- C2, second defect at a concrete input. Block: DC 100 with quantizer 16
(dequantized 1600, descaled value 200): the generic kernel narrows to 8 bits
by truncation and adds 128 modulo 256, storing 72 where the reference clamps
to 255. -/
theorem C2_generic_islow_no_clamp :
    RvvInt.jsimd_idct_islow_rvv flat_table_16 dc_block_100 0 0 = 72 ∧
    Ref.jpeg_idct_islow flat_table_16 dc_block_100 0 0 = 255 := by
  refine ⟨by decide!, by decide!⟩

/-- C3, code defect at a concrete input. Block: 128 at row 2, column 0, all
quantizers 1 (every intermediate has magnitude at most 2047). Under every
rounding mode the fast kernel stores at row 3, column 0 the sample of row 2,
which differs from the 124 of the reference `jpeg_idct_ifast`: slot 3 of
`rows_all` is filled from `row2` again. Under round-down, the mode that matches
the truncating shifts of the reference, the stored value is 126. -/
theorem C3_ifast_row3_diverges :
    ifast_small flat_table_1 impulse_row2_128 ∧
    (∀ vxrm,
      AndesFst.jsimd_idct_ifast_rvv vxrm flat_table_1 impulse_row2_128 3 0 =
        AndesFst.jsimd_idct_ifast_rvv vxrm flat_table_1 impulse_row2_128 2 0 ∧
      AndesFst.jsimd_idct_ifast_rvv vxrm flat_table_1 impulse_row2_128 3 0 ≠
        Ref.jpeg_idct_ifast flat_table_1 impulse_row2_128 3 0) ∧
    AndesFst.jsimd_idct_ifast_rvv Vxrm.rdn flat_table_1 impulse_row2_128 3 0 = 126 ∧
    Ref.jpeg_idct_ifast flat_table_1 impulse_row2_128 3 0 = 124 ∧
    Ref.jpeg_idct_ifast flat_table_1 impulse_row2_128 2 0 = 126 := by
  refine ⟨by decide!, ?_, by decide!, by decide!, by decide!⟩
  intro m
  cases m <;> decide!

/-! ## Reduced-size kernels: pass 1 of the 2x2 kernel -/


theorem wrap32_mul4_left (a : Int) : wrap32 (wrap32 a * 4) = wrap32 (a * 4) := by
  unfold wrap32; omega

/-- Pass-1 narrowing of the 2x2 kernel: when the rounded, descaled value fits
16 bits, the wrapped 32-bit sum shifted right by 13 is that value. -/
theorem narrow_descale_13 {p e : Int} (hpe : p = e + 4096) (h : in16 (Ref.DESCALE e 13)) :
    wrap16 (wrap32 p / 8192) = Ref.DESCALE e 13 := by
  subst hpe
  unfold in16 Ref.DESCALE at h
  unfold wrap16 wrap32 Ref.DESCALE
  simp only [Nat.reduceSub, Int.reducePow] at h ⊢
  omega

/-- Pass-1 narrowing of the 4x4 kernel, shift 12. -/
theorem narrow_descale_12 {p e : Int} (hpe : p = e + 2048) (h : in16 (Ref.DESCALE e 12)) :
    wrap16 (wrap32 p / 4096) = Ref.DESCALE e 12 := by
  subst hpe
  unfold in16 Ref.DESCALE at h
  unfold wrap16 wrap32 Ref.DESCALE
  simp only [Nat.reduceSub, Int.reducePow] at h ⊢
  omega

/-- The two-step final descale of the 2x2 kernel under round-to-nearest-up:
shift right by 16, rounding clip by 4, add 128 modulo 256. -/
theorem final_descale_20 {p e : Int} (hpe : p = e) (he : in32 e) :
    (sat8 (roundoff Vxrm.rnu (wrap16 (wrap32 p / 65536)) 4) % 256 + 128) % 256 =
      Ref.range_limit (Ref.DESCALE e 20) := by
  subst hpe
  rw [wrap32_of_in32 he]
  unfold in32 at he
  unfold sat8 roundoff wrap16 Ref.range_limit Ref.DESCALE
  simp only [Nat.reduceSub, Int.reducePow, OfNat.ofNat_ne_zero, ↓reduceIte]
  split_ifs <;> omega

/-- The two-step final descale of the 4x4 kernel under round-to-nearest-up:
shift right by 16, rounding clip by 3, add 128 modulo 256. -/
theorem final_descale_19 {p e : Int} (hpe : p = e) (he : in32 e) :
    (sat8 (roundoff Vxrm.rnu (wrap16 (wrap32 p / 65536)) 3) % 256 + 128) % 256 =
      Ref.range_limit (Ref.DESCALE e 19) := by
  subst hpe
  rw [wrap32_of_in32 he]
  unfold in32 at he
  unfold sat8 roundoff wrap16 Ref.range_limit Ref.DESCALE
  simp only [Nat.reduceSub, Int.reducePow, OfNat.ofNat_ne_zero, ↓reduceIte]
  split_ifs <;> omega

namespace AndesRed

/-- Lane `j` of block `b` of the pass-1 vector of the 2x2 kernel is the
reference workspace entry at row `b`, column `j`, when the products of column
`j` and that entry fit 16 bits. -/
theorem idct_2x2_rows_lane (q coef : Nat → Int) {b j : Nat} (hb : b < 2) (hj : j < 8)
    (hprod : ∀ r < 8, used_2x2 r → in16 (Ref.dequant q coef r j))
    (hws : in16 (Ref.idct_2x2_workspace q coef b j)) :
    idct_2x2_rows q coef (j + 8 * b) = Ref.idct_2x2_workspace q coef b j := by
  have h0 := hprod 0 (by omega) (by decide)
  have h1 := hprod 1 (by omega) (by decide)
  have h3 := hprod 3 (by omega) (by decide)
  have h5 := hprod 5 (by omega) (by decide)
  have h7 := hprod 7 (by omega) (by decide)
  simp only [Ref.dequant, Nat.reduceMul, Nat.zero_add, Nat.mul_zero] at h0 h1 h3 h5 h7
  interval_cases b <;>
  simp only [Ref.idct_2x2_workspace, Ref.idct_2x2_1d, Ref.dequant, Nat.reduceMul, Nat.zero_add,
    Nat.mul_zero, Int.reducePow] at hws ⊢ <;>
  simp (disch := omega) only [idct_2x2_rows, vslideup_vx_lo, vslideup_vx_hi, vlmul_ext_lane,
    vnsra_wx_i16_lane, vadd_vx_i32_lane, vadd_vv_i32_lane, vsub_vv_i32_lane, vwmacc_vx_i32_lane,
    vwmul_vx_i32_lane, vsll_vx_i32_lane, vmul_vv_i16_lane, vle16_v_i16_lane,
    Nat.reduceSubDiff, Nat.add_sub_cancel, Nat.reduceMul, Nat.add_zero, Nat.zero_add, DCTSIZE,
    CONST_BITS, PASS1_BITS, Nat.reduceSub, Nat.reduceAdd, Nat.reduceMod,
    wrap16_of_in16 h0, wrap16_of_in16 h1, wrap16_of_in16 h3, wrap16_of_in16 h5, wrap16_of_in16 h7,
    wrap32_add_left, wrap32_add_right, wrap32_sub_left, wrap32_sub_right, wrap32_mul4_left,
    Int.reducePow, jsimd_idct_2x2_consts, F_0_720, F_0_850, F_1_272, F_3_624] <;>
  exact narrow_descale_13 (by ring) hws

end AndesRed

/-! ## Reduced-size kernels: pass 2 of the 2x2 kernel -/

namespace AndesRed

theorem trans_index_tab_u8_0 : (trans_index_tab_u8 0).toNat = 0 := rfl
theorem trans_index_tab_u8_1 : (trans_index_tab_u8 1).toNat = 8 := rfl
theorem trans_index_tab_u8_2 : (trans_index_tab_u8 2).toNat = 1 := rfl
theorem trans_index_tab_u8_3 : (trans_index_tab_u8 3).toNat = 9 := rfl
theorem trans_index_tab_u8_4 : (trans_index_tab_u8 4).toNat = 3 := rfl
theorem trans_index_tab_u8_5 : (trans_index_tab_u8 5).toNat = 11 := rfl
theorem trans_index_tab_u8_6 : (trans_index_tab_u8 6).toNat = 5 := rfl
theorem trans_index_tab_u8_7 : (trans_index_tab_u8 7).toNat = 13 := rfl
theorem trans_index_tab_u8_8 : (trans_index_tab_u8 8).toNat = 7 := rfl
theorem trans_index_tab_u8_9 : (trans_index_tab_u8 9).toNat = 15 := rfl
theorem trans_index_tab_u8_10 : (trans_index_tab_u8 10).toNat = 0 := rfl
theorem trans_index_tab_u8_11 : (trans_index_tab_u8 11).toNat = 2 := rfl
theorem trans_index_tab_u8_12 : (trans_index_tab_u8 12).toNat = 1 := rfl
theorem trans_index_tab_u8_13 : (trans_index_tab_u8 13).toNat = 3 := rfl

/-- Output sample of the second half of the 2x2 kernel on a pass-1 vector `w`:
row `r` uses lanes `k + 8 * r` of `w` for `k` in 0, 1, 3, 5, 7. -/
theorem idct_2x2_pass2_sample (w : Vec) {r c : Nat} (hr : r < 2) (hc : c < 2)
    (h32 : in32 (Ref.idct_2x2_1d (fun k => w (k + 8 * r)) c)) :
    idct_2x2_pass2 Vxrm.rnu w r c =
      Ref.range_limit (Ref.DESCALE (Ref.idct_2x2_1d (fun k => w (k + 8 * r)) c) 20) := by
  interval_cases r <;> interval_cases c <;>
  simp only [Ref.idct_2x2_1d, Nat.reduceMul, Nat.zero_add, Nat.add_zero, Nat.reduceAdd,
    Int.reducePow] at h32 ⊢ <;>
  simp (disch := omega) only [idct_2x2_pass2, vslideup_vx_lo, vslideup_vx_hi, vlmul_ext_lane,
    vlmul_trunc_lane, vget_v_i16m1_lane, vslidedown_vx_lane, vrgather_vv_lane, vzext_vf2_lane,
    vle8_v_u8_lane, vse_v_lane, vnclip_wx_i8_lane, vreinterpret_v_i8_u8_lane, vadd_vx_u8_lane,
    vnsra_wx_i16_lane, vadd_vv_i32_lane, vsub_vv_i32_lane, vwmacc_vx_i32_lane,
    vwmul_vx_i32_lane, vsll_vx_i32_lane,
    trans_index_tab_u8_0, trans_index_tab_u8_1, trans_index_tab_u8_2, trans_index_tab_u8_3,
    trans_index_tab_u8_4, trans_index_tab_u8_5, trans_index_tab_u8_6, trans_index_tab_u8_7,
    trans_index_tab_u8_8, trans_index_tab_u8_9, trans_index_tab_u8_10, trans_index_tab_u8_11,
    trans_index_tab_u8_12, trans_index_tab_u8_13,
    Nat.reduceSubDiff, Nat.add_sub_cancel, Nat.reduceMul, Nat.add_zero, Nat.zero_add,
    CONST_BITS, PASS1_BITS, CENTERJSAMPLE, Nat.reduceSub, Nat.reduceAdd, Nat.reduceMod,
    wrap32_add_left, wrap32_add_right, wrap32_sub_left, wrap32_sub_right, wrap32_mul4_left,
    Int.reducePow, jsimd_idct_2x2_consts, F_0_720, F_0_850, F_1_272, F_3_624] <;>
  exact final_descale_20 (by ring) h32

theorem idct_2x2_1d_congr {f g : Nat → Int} (h : ∀ k < 8, used_2x2 k → f k = g k) (c : Nat) :
    Ref.idct_2x2_1d f c = Ref.idct_2x2_1d g c := by
  unfold Ref.idct_2x2_1d
  rw [h 0 (by omega) (by decide), h 1 (by omega) (by decide), h 3 (by omega) (by decide),
    h 5 (by omega) (by decide), h 7 (by omega) (by decide)]

/-- The 2x2 kernel agrees with the reference sample by sample when no 16-bit
intermediate and no 32-bit pass-2 sum overflows. -/
theorem andes_idct_2x2_eq_reference (q coef : Nat → Int)
    (h16 : idct_2x2_no_overflow16 q coef) (h32 : idct_2x2_no_overflow32 q coef)
    {r c : Nat} (hr : r < 2) (hc : c < 2) :
    jsimd_idct_2x2_rvv Vxrm.rnu q coef r c = Ref.jpeg_idct_2x2 q coef r c := by
  obtain ⟨hp, hw⟩ := h16
  have hlane : ∀ k < 8, used_2x2 k →
      idct_2x2_rows q coef (k + 8 * r) = Ref.idct_2x2_workspace q coef r k := by
    intro k hk hu
    exact idct_2x2_rows_lane q coef hr hk (fun r' hr' hu' => hp r' hr' k hk hu' hu) (hw r hr k hk hu)
  unfold jsimd_idct_2x2_rvv Ref.jpeg_idct_2x2
  rw [idct_2x2_pass2_sample _ hr hc]
  · rw [idct_2x2_1d_congr hlane c]
  · rw [idct_2x2_1d_congr hlane c]
    exact h32 r hr c hc

end AndesRed

/-! ## Reduced-size kernels: the 4x4 kernel -/

namespace AndesRed

theorem trans_index_4x4_u8_0 : (trans_index_4x4_u8 0).toNat = 0 := rfl
theorem trans_index_4x4_u8_1 : (trans_index_4x4_u8 1).toNat = 8 := rfl
theorem trans_index_4x4_u8_2 : (trans_index_4x4_u8 2).toNat = 24 := rfl
theorem trans_index_4x4_u8_3 : (trans_index_4x4_u8 3).toNat = 16 := rfl
theorem trans_index_4x4_u8_4 : (trans_index_4x4_u8 4).toNat = 1 := rfl
theorem trans_index_4x4_u8_5 : (trans_index_4x4_u8 5).toNat = 9 := rfl
theorem trans_index_4x4_u8_6 : (trans_index_4x4_u8 6).toNat = 25 := rfl
theorem trans_index_4x4_u8_7 : (trans_index_4x4_u8 7).toNat = 17 := rfl
theorem trans_index_4x4_u8_8 : (trans_index_4x4_u8 8).toNat = 2 := rfl
theorem trans_index_4x4_u8_9 : (trans_index_4x4_u8 9).toNat = 10 := rfl
theorem trans_index_4x4_u8_10 : (trans_index_4x4_u8 10).toNat = 26 := rfl
theorem trans_index_4x4_u8_11 : (trans_index_4x4_u8 11).toNat = 18 := rfl
theorem trans_index_4x4_u8_12 : (trans_index_4x4_u8 12).toNat = 3 := rfl
theorem trans_index_4x4_u8_13 : (trans_index_4x4_u8 13).toNat = 11 := rfl
theorem trans_index_4x4_u8_14 : (trans_index_4x4_u8 14).toNat = 27 := rfl
theorem trans_index_4x4_u8_15 : (trans_index_4x4_u8 15).toNat = 19 := rfl
theorem trans_index_4x4_u8_16 : (trans_index_4x4_u8 16).toNat = 5 := rfl
theorem trans_index_4x4_u8_17 : (trans_index_4x4_u8 17).toNat = 13 := rfl
theorem trans_index_4x4_u8_18 : (trans_index_4x4_u8 18).toNat = 29 := rfl
theorem trans_index_4x4_u8_19 : (trans_index_4x4_u8 19).toNat = 21 := rfl
theorem trans_index_4x4_u8_20 : (trans_index_4x4_u8 20).toNat = 6 := rfl
theorem trans_index_4x4_u8_21 : (trans_index_4x4_u8 21).toNat = 14 := rfl
theorem trans_index_4x4_u8_22 : (trans_index_4x4_u8 22).toNat = 30 := rfl
theorem trans_index_4x4_u8_23 : (trans_index_4x4_u8 23).toNat = 22 := rfl
theorem trans_index_4x4_u8_24 : (trans_index_4x4_u8 24).toNat = 7 := rfl
theorem trans_index_4x4_u8_25 : (trans_index_4x4_u8 25).toNat = 15 := rfl
theorem trans_index_4x4_u8_26 : (trans_index_4x4_u8 26).toNat = 31 := rfl
theorem trans_index_4x4_u8_27 : (trans_index_4x4_u8 27).toNat = 23 := rfl
theorem out_index_tab_0 : (out_index_tab 0).toNat = 0 := rfl
theorem out_index_tab_1 : (out_index_tab 1).toNat = 4 := rfl
theorem out_index_tab_2 : (out_index_tab 2).toNat = 8 := rfl
theorem out_index_tab_3 : (out_index_tab 3).toNat = 12 := rfl
theorem out_index_tab_4 : (out_index_tab 4).toNat = 1 := rfl
theorem out_index_tab_5 : (out_index_tab 5).toNat = 5 := rfl
theorem out_index_tab_6 : (out_index_tab 6).toNat = 9 := rfl
theorem out_index_tab_7 : (out_index_tab 7).toNat = 13 := rfl
theorem out_index_tab_8 : (out_index_tab 8).toNat = 2 := rfl
theorem out_index_tab_9 : (out_index_tab 9).toNat = 6 := rfl
theorem out_index_tab_10 : (out_index_tab 10).toNat = 10 := rfl
theorem out_index_tab_11 : (out_index_tab 11).toNat = 14 := rfl
theorem out_index_tab_12 : (out_index_tab 12).toNat = 3 := rfl
theorem out_index_tab_13 : (out_index_tab 13).toNat = 7 := rfl
theorem out_index_tab_14 : (out_index_tab 14).toNat = 11 := rfl
theorem out_index_tab_15 : (out_index_tab 15).toNat = 15 := rfl

theorem order4_0 : order4 0 = 0 := rfl
theorem order4_1 : order4 1 = 1 := rfl
theorem order4_2 : order4 2 = 3 := rfl
theorem order4_3 : order4 3 = 2 := rfl

theorem order4_lt {b : Nat} (h : b < 4) : order4 b < 4 := by
  unfold order4; split_ifs <;> omega

theorem order4_order4 (b : Nat) : order4 (order4 b) = b := by
  unfold order4; split_ifs <;> omega

/-- Lane `j` of block `b` of the full pass-1 branch of the 4x4 kernel is the
reference workspace entry at row `order4 b`, column `j`, when the products of
column `j` and that entry fit 16 bits. -/
theorem idct_4x4_rows_full_lane (q coef : Nat → Int) {b j : Nat} (hb : b < 4) (hj : j < 8)
    (hprod : ∀ r < 8, used_4x4 r → in16 (Ref.dequant q coef r j))
    (hws : in16 (Ref.idct_4x4_workspace q coef (order4 b) j)) :
    idct_4x4_rows_full q
      (vmul_vv_i16 (vle16_v_i16 coef (0 * DCTSIZE) 8) (vle16_v_i16 q (0 * DCTSIZE) 8) 8)
      (vle16_v_i16 coef (1 * DCTSIZE) 8) (vle16_v_i16 coef (2 * DCTSIZE) 8)
      (vle16_v_i16 coef (3 * DCTSIZE) 8) (vle16_v_i16 coef (5 * DCTSIZE) 8)
      (vle16_v_i16 coef (6 * DCTSIZE) 8) (vle16_v_i16 coef (7 * DCTSIZE) 8) (j + 8 * b) =
      Ref.idct_4x4_workspace q coef (order4 b) j := by
  have h0 := hprod 0 (by omega) (by decide)
  have h1 := hprod 1 (by omega) (by decide)
  have h2 := hprod 2 (by omega) (by decide)
  have h3 := hprod 3 (by omega) (by decide)
  have h5 := hprod 5 (by omega) (by decide)
  have h6 := hprod 6 (by omega) (by decide)
  have h7 := hprod 7 (by omega) (by decide)
  simp only [Ref.dequant, Nat.reduceMul, Nat.zero_add, Nat.mul_zero] at h0 h1 h2 h3 h5 h6 h7
  interval_cases b <;>
  simp only [Ref.idct_4x4_workspace, Ref.idct_4x4_1d, Ref.dequant, Nat.reduceMul, Nat.zero_add,
    Nat.mul_zero, Int.reducePow, order4_0, order4_1, order4_2, order4_3] at hws ⊢ <;>
  simp (disch := omega) only [idct_4x4_rows_full, vslideup_vx_lo, vslideup_vx_hi, vlmul_ext_lane,
    vnsra_wx_i16_lane, vadd_vx_i32_lane, vadd_vv_i32_lane, vsub_vv_i32_lane, vwmacc_vx_i32_lane,
    vwmul_vx_i32_lane, vmul_vv_i16_lane, vle16_v_i16_lane,
    Nat.reduceSubDiff, Nat.add_sub_cancel, Nat.reduceMul, Nat.add_zero, Nat.zero_add, DCTSIZE,
    CONST_BITS, PASS1_BITS, Nat.reduceSub, Nat.reduceAdd, Nat.reduceMod,
    wrap16_of_in16 h0, wrap16_of_in16 h1, wrap16_of_in16 h2, wrap16_of_in16 h3,
    wrap16_of_in16 h5, wrap16_of_in16 h6, wrap16_of_in16 h7,
    wrap32_add_left, wrap32_add_right, wrap32_sub_left, wrap32_sub_right,
    Int.reducePow, jsimd_idct_4x4_consts, F_0_211, F_0_509, F_0_601, F_0_765, F_0_899, F_1_061,
    F_1_451, F_1_847, F_2_172, F_2_562] <;>
  exact narrow_descale_12 (by ring) hws

/-- When the all-AC-zero test of the 4x4 kernel fails, the full branch is the
one taken. -/
theorem idct_4x4_rows_of_nonzero (q coef : Nat → Int) (hcoef : is_i16_table coef)
    (hnz : ¬ ac_rows_zero_4x4 coef) :
    idct_4x4_rows q coef =
      idct_4x4_rows_full q
        (vmul_vv_i16 (vle16_v_i16 coef (0 * DCTSIZE) 8) (vle16_v_i16 q (0 * DCTSIZE) 8) 8)
        (vle16_v_i16 coef (1 * DCTSIZE) 8) (vle16_v_i16 coef (2 * DCTSIZE) 8)
        (vle16_v_i16 coef (3 * DCTSIZE) 8) (vle16_v_i16 coef (5 * DCTSIZE) 8)
        (vle16_v_i16 coef (6 * DCTSIZE) 8) (vle16_v_i16 coef (7 * DCTSIZE) 8) := by
  unfold idct_4x4_rows
  simp only []
  rw [if_neg]
  intro hcond
  apply hnz
  rw [vredor_zero_iff] at hcond
  intro r c hr1 hr8 hr4 hc
  have h := hcond c hc
  simp (disch := omega) only [toBits16_vor, vle16_v_i16_lane, DCTSIZE, Nat.reduceMul,
    nat_or_eq_zero] at h
  obtain ⟨⟨⟨⟨⟨h7, h6⟩, h5⟩, h3⟩, h2⟩, h1⟩ := h
  have hr : r = 1 ∨ r = 2 ∨ r = 3 ∨ r = 5 ∨ r = 6 ∨ r = 7 := by omega
  rcases hr with rfl | rfl | rfl | rfl | rfl | rfl
  · exact (toBits16_eq_zero (hcoef _ (by omega))).mp h1
  · exact (toBits16_eq_zero (hcoef _ (by omega))).mp h2
  · exact (toBits16_eq_zero (hcoef _ (by omega))).mp h3
  · exact (toBits16_eq_zero (hcoef _ (by omega))).mp h5
  · exact (toBits16_eq_zero (hcoef _ (by omega))).mp h6
  · exact (toBits16_eq_zero (hcoef _ (by omega))).mp h7

/-- Without 16-bit overflow, lane `j` of block `b` of the vector handed to the
second pass of the 4x4 kernel is the reference workspace entry at row
`order4 b`, column `j`, whichever branch produced it. -/
theorem idct_4x4_rows_lane (q coef : Nat → Int) (hcoef : is_i16_table coef)
    {b j : Nat} (hb : b < 4) (hj : j < 8)
    (hprod : ∀ r < 8, used_4x4 r → in16 (Ref.dequant q coef r j))
    (hws : in16 (Ref.idct_4x4_workspace q coef (order4 b) j)) :
    idct_4x4_rows q coef (j + 8 * b) = Ref.idct_4x4_workspace q coef (order4 b) j := by
  have hfull := idct_4x4_rows_full_lane q coef hb hj hprod hws
  by_cases hz : ac_rows_zero_4x4 coef
  · rw [idct_4x4_ac_bitmap_of_zero q coef hz, idct_4x4_rows_shortcut_lane _ hb hj,
      ← idct_4x4_rows_full_zero_ac_lane q coef hz _ hb hj]
    exact hfull
  · rw [idct_4x4_rows_of_nonzero q coef hcoef hz]
    exact hfull

/-- Output sample of the second half of the 4x4 kernel on a pass-1 vector `w`:
row `r` uses lanes `k + 8 * order4 r` of `w` for `k` other than 4. -/
theorem idct_4x4_pass2_sample (w : Vec) {r c : Nat} (hr : r < 4) (hc : c < 4)
    (h32 : in32 (Ref.idct_4x4_1d (fun k => w (k + 8 * order4 r)) c)) :
    idct_4x4_pass2 Vxrm.rnu w r c =
      Ref.range_limit (Ref.DESCALE (Ref.idct_4x4_1d (fun k => w (k + 8 * order4 r)) c) 19) := by
  interval_cases r <;> interval_cases c <;>
  simp only [Ref.idct_4x4_1d, Nat.reduceMul, Nat.zero_add, Nat.add_zero, Nat.reduceAdd,
    Int.reducePow, order4_0, order4_1, order4_2, order4_3] at h32 ⊢ <;>
  simp (disch := omega) only [idct_4x4_pass2, vslideup_vx_lo, vslideup_vx_hi, vlmul_ext_lane,
    vlmul_trunc_lane, vget_v_i16m1_lane, vslidedown_vx_lane, vrgather_vv_lane, vzext_vf2_lane,
    vle8_v_u8_lane, vse_v_lane, vnclip_wx_i8_lane, vreinterpret_v_i8_u8_lane, vadd_vx_u8_lane,
    vnsra_wx_i16_lane, vadd_vv_i32_lane, vsub_vv_i32_lane, vwmacc_vx_i32_lane,
    vwmul_vx_i32_lane, TRANS_TABLE_U8_SIZE,
    trans_index_4x4_u8_0, trans_index_4x4_u8_1, trans_index_4x4_u8_2, trans_index_4x4_u8_3, trans_index_4x4_u8_4, trans_index_4x4_u8_5, trans_index_4x4_u8_6, trans_index_4x4_u8_7, trans_index_4x4_u8_8, trans_index_4x4_u8_9, trans_index_4x4_u8_10, trans_index_4x4_u8_11, trans_index_4x4_u8_12, trans_index_4x4_u8_13, trans_index_4x4_u8_14, trans_index_4x4_u8_15, trans_index_4x4_u8_16, trans_index_4x4_u8_17, trans_index_4x4_u8_18, trans_index_4x4_u8_19, trans_index_4x4_u8_20, trans_index_4x4_u8_21, trans_index_4x4_u8_22, trans_index_4x4_u8_23, trans_index_4x4_u8_24, trans_index_4x4_u8_25, trans_index_4x4_u8_26, trans_index_4x4_u8_27, out_index_tab_0, out_index_tab_1, out_index_tab_2, out_index_tab_3, out_index_tab_4, out_index_tab_5, out_index_tab_6, out_index_tab_7, out_index_tab_8, out_index_tab_9, out_index_tab_10, out_index_tab_11, out_index_tab_12, out_index_tab_13, out_index_tab_14, out_index_tab_15,
    Nat.reduceSubDiff, Nat.add_sub_cancel, Nat.reduceMul, Nat.add_zero, Nat.zero_add,
    CONST_BITS, PASS1_BITS, CENTERJSAMPLE, Nat.reduceSub, Nat.reduceAdd, Nat.reduceMod,
    wrap32_add_left, wrap32_add_right, wrap32_sub_left, wrap32_sub_right,
    Int.reducePow, jsimd_idct_4x4_consts, F_0_211, F_0_509, F_0_601, F_0_765, F_0_899, F_1_061,
    F_1_451, F_1_847, F_2_172, F_2_562] <;>
  exact final_descale_19 (by ring) h32

theorem idct_4x4_1d_congr {f g : Nat → Int} (h : ∀ k < 8, used_4x4 k → f k = g k) (c : Nat) :
    Ref.idct_4x4_1d f c = Ref.idct_4x4_1d g c := by
  unfold Ref.idct_4x4_1d
  rw [h 0 (by omega) (by decide), h 1 (by omega) (by decide), h 2 (by omega) (by decide),
    h 3 (by omega) (by decide), h 5 (by omega) (by decide), h 6 (by omega) (by decide),
    h 7 (by omega) (by decide)]

/-- The 4x4 kernel agrees with the reference sample by sample when no 16-bit
intermediate and no 32-bit pass-2 sum overflows. -/
theorem andes_idct_4x4_eq_reference (q coef : Nat → Int) (hcoef : is_i16_table coef)
    (h16 : idct_4x4_no_overflow16 q coef) (h32 : idct_4x4_no_overflow32 q coef)
    {r c : Nat} (hr : r < 4) (hc : c < 4) :
    jsimd_idct_4x4_rvv Vxrm.rnu q coef r c = Ref.jpeg_idct_4x4 q coef r c := by
  obtain ⟨hp, hw⟩ := h16
  have hlane : ∀ k < 8, used_4x4 k →
      idct_4x4_rows q coef (k + 8 * order4 r) = Ref.idct_4x4_workspace q coef r k := by
    intro k hk hu
    have h := idct_4x4_rows_lane q coef hcoef (order4_lt hr) hk
      (fun r' hr' hu' => hp r' hr' k hk hu' hu)
      (by rw [order4_order4 r]; exact hw r hr k hk hu)
    rw [order4_order4 r] at h
    exact h
  unfold jsimd_idct_4x4_rvv Ref.jpeg_idct_4x4
  rw [idct_4x4_pass2_sample _ hr hc]
  · rw [idct_4x4_1d_congr hlane c]
  · rw [idct_4x4_1d_congr hlane c]
    exact h32 r hr c hc

end AndesRed

/-! ## Single-coefficient blocks -/

namespace AndesRed

/-- In a single-coefficient block every column but the one of the impulse
dequantizes to zero. -/
theorem dequant_zero_of_single {q coef : Nat → Int} {p : Nat}
    (hz : ∀ i, i < 64 → i ≠ p → coef i = 0) {r k : Nat} (hr : r < 8) (hk : k < 8)
    (hne : k ≠ p % 8) : Ref.dequant q coef r k = 0 := by
  unfold Ref.dequant
  rw [hz (8 * r + k) (by omega) (by omega), zero_mul]

theorem idct_4x4_workspace_zero {q coef : Nat → Int} {r k : Nat} (hr : r < 4)
    (h : ∀ r' < 8, Ref.dequant q coef r' k = 0) : Ref.idct_4x4_workspace q coef r k = 0 := by
  unfold Ref.idct_4x4_workspace Ref.idct_4x4_1d
  simp only [h 0 (by omega), h 1 (by omega), h 2 (by omega), h 3 (by omega), h 5 (by omega),
    h 6 (by omega), h 7 (by omega)]
  interval_cases r <;> simp [Ref.DESCALE]

theorem idct_2x2_workspace_zero {q coef : Nat → Int} {r k : Nat} (hr : r < 2)
    (h : ∀ r' < 8, Ref.dequant q coef r' k = 0) : Ref.idct_2x2_workspace q coef r k = 0 := by
  unfold Ref.idct_2x2_workspace Ref.idct_2x2_1d
  simp only [h 0 (by omega), h 1 (by omega), h 3 (by omega), h 5 (by omega), h 7 (by omega)]
  interval_cases r <;> simp [Ref.DESCALE]

/-- For a single-coefficient block the 32-bit pass-2 sums of the 4x4 kernel
cannot overflow once the pass-1 outputs fit 16 bits: each sum has one term. -/
theorem idct_4x4_no_overflow32_of_single (q coef : Nat → Int)
    (h16 : idct_4x4_no_overflow16 q coef) (hs : single_coefficient coef) :
    idct_4x4_no_overflow32 q coef := by
  obtain ⟨p, _, hz⟩ := hs
  intro r hr c hc
  have hzero : ∀ k < 8, Ref.idct_4x4_workspace q coef r k = 0 ∨ k = p % 8 := by
    intro k hk
    by_cases hne : k = p % 8
    · exact Or.inr hne
    · exact Or.inl (idct_4x4_workspace_zero hr
        (fun r' hr' => dequant_zero_of_single hz hr' hk hne))
  have hin : ∀ k < 8, used_4x4 k → in16 (Ref.idct_4x4_workspace q coef r k) :=
    fun k hk hu => h16.2 r hr k hk hu
  have b0 := hin 0 (by omega) (by decide)
  have b1 := hin 1 (by omega) (by decide)
  have b2 := hin 2 (by omega) (by decide)
  have b3 := hin 3 (by omega) (by decide)
  have b5 := hin 5 (by omega) (by decide)
  have b6 := hin 6 (by omega) (by decide)
  have b7 := hin 7 (by omega) (by decide)
  have z0 := hzero 0 (by omega)
  have z1 := hzero 1 (by omega)
  have z2 := hzero 2 (by omega)
  have z3 := hzero 3 (by omega)
  have z5 := hzero 5 (by omega)
  have z6 := hzero 6 (by omega)
  have z7 := hzero 7 (by omega)
  unfold in16 at b0 b1 b2 b3 b5 b6 b7
  unfold in32
  interval_cases c <;> simp only [Ref.idct_4x4_1d, Int.reducePow] <;> omega

/-- For a single-coefficient block the 32-bit pass-2 sums of the 2x2 kernel
cannot overflow once the pass-1 outputs fit 16 bits. -/
theorem idct_2x2_no_overflow32_of_single (q coef : Nat → Int)
    (h16 : idct_2x2_no_overflow16 q coef) (hs : single_coefficient coef) :
    idct_2x2_no_overflow32 q coef := by
  obtain ⟨p, _, hz⟩ := hs
  intro r hr c hc
  have hzero : ∀ k < 8, Ref.idct_2x2_workspace q coef r k = 0 ∨ k = p % 8 := by
    intro k hk
    by_cases hne : k = p % 8
    · exact Or.inr hne
    · exact Or.inl (idct_2x2_workspace_zero hr
        (fun r' hr' => dequant_zero_of_single hz hr' hk hne))
  have hin : ∀ k < 8, used_2x2 k → in16 (Ref.idct_2x2_workspace q coef r k) :=
    fun k hk hu => h16.2 r hr k hk hu
  have b0 := hin 0 (by omega) (by decide)
  have b1 := hin 1 (by omega) (by decide)
  have b3 := hin 3 (by omega) (by decide)
  have b5 := hin 5 (by omega) (by decide)
  have b7 := hin 7 (by omega) (by decide)
  have z0 := hzero 0 (by omega)
  have z1 := hzero 1 (by omega)
  have z3 := hzero 3 (by omega)
  have z5 := hzero 5 (by omega)
  have z7 := hzero 7 (by omega)
  unfold in16 at b0 b1 b3 b5 b7
  unfold in32
  interval_cases c <;> simp only [Ref.idct_2x2_1d, Int.reducePow] <;> omega

end AndesRed

/-! ## Reduced-size kernels against their references -/

/-- C4, as stated, fails: the block with dequantized row 0 equal to
(8191, 8191, -8192, -8192, 0, 8191, 8191, -8192) has no 16-bit overflow
anywhere, yet the kernel stores 0 at row 0, column 1 where the reference
`jpeg_idct_4x4` has 255: the 32-bit pass-2 sum `tmp12 + tmp0` exceeds
`2^31 - 1` and wraps. -/
theorem C4_idct_4x4_pass2_sum_wraps :
    is_i16_table wide_row0_block_4x4 ∧
    idct_4x4_no_overflow16 flat_table_1 wide_row0_block_4x4 ∧
    AndesRed.jsimd_idct_4x4_rvv Vxrm.rnu flat_table_1 wide_row0_block_4x4 0 1 = 0 ∧
    Ref.jpeg_idct_4x4 flat_table_1 wide_row0_block_4x4 0 1 = 255 ∧
    ¬ (∀ r < 4, ∀ c < 4,
        AndesRed.jsimd_idct_4x4_rvv Vxrm.rnu flat_table_1 wide_row0_block_4x4 r c =
          Ref.jpeg_idct_4x4 flat_table_1 wide_row0_block_4x4 r c) := by
  refine ⟨by decide!, by decide!, by decide!, by decide!, by decide!⟩

/-- C4, amended. Reduced 4x4 IDCT under round-to-nearest-up: for every
coefficient block of signed 16-bit values and every quantization table for
which no signed 16-bit intermediate overflows (dequantized products and pass-1
outputs on rows and columns 0, 1, 2, 3, 5, 6, 7) and no signed 32-bit pass-2
sum overflows, the 16 output samples equal the scalar reference
`jpeg_idct_4x4`; for a single-coefficient impulse block the condition on the
32-bit sums holds by itself. -/
theorem C4_idct_4x4_matches_reference (dct_table coef_block : Nat → Int)
    (hcoef : is_i16_table coef_block)
    (h16 : idct_4x4_no_overflow16 dct_table coef_block)
    (h32 : idct_4x4_no_overflow32 dct_table coef_block ∨ single_coefficient coef_block) :
    ∀ r < 4, ∀ c < 4,
      AndesRed.jsimd_idct_4x4_rvv Vxrm.rnu dct_table coef_block r c =
        Ref.jpeg_idct_4x4 dct_table coef_block r c :=
  fun _ hr _ hc =>
    AndesRed.andes_idct_4x4_eq_reference dct_table coef_block hcoef h16
      (h32.elim id (AndesRed.idct_4x4_no_overflow32_of_single dct_table coef_block h16)) hr hc

/-- Witness: the theorem above at a concrete block and table. -/
theorem C4_idct_4x4_matches_reference_witness :
    is_i16_table sample_block ∧
    idct_4x4_no_overflow16 flat_table_16 sample_block ∧
    (idct_4x4_no_overflow32 flat_table_16 sample_block ∨ single_coefficient sample_block) ∧
    ∀ r < 4, ∀ c < 4,
      AndesRed.jsimd_idct_4x4_rvv Vxrm.rnu flat_table_16 sample_block r c =
        Ref.jpeg_idct_4x4 flat_table_16 sample_block r c :=
  ⟨by decide!, by decide!, Or.inl (by decide!),
    C4_idct_4x4_matches_reference flat_table_16 sample_block (by decide!) (by decide!)
      (Or.inl (by decide!))⟩

/-- The 4x4 kernel on a single-coefficient impulse (100 at row 3, column 5,
quantizer 16): all 16 samples equal the reference. -/
theorem idct_4x4_impulse_example :
    ∀ r < 4, ∀ c < 4,
      AndesRed.jsimd_idct_4x4_rvv Vxrm.rnu flat_table_16 impulse_r3c5_100 r c =
        Ref.jpeg_idct_4x4 flat_table_16 impulse_r3c5_100 r c :=
  fun _ hr _ hc =>
    AndesRed.andes_idct_4x4_eq_reference flat_table_16 impulse_r3c5_100 (by decide!) (by decide!)
      (AndesRed.idct_4x4_no_overflow32_of_single flat_table_16 impulse_r3c5_100 (by decide!)
        ⟨29, by decide, fun i _ hi => by simp [impulse_r3c5_100, hi]⟩) hr hc

/-- C5, as stated, fails: the block with dequantized row 0 equal to
(8191, 8191, 0, -8192, 0, ...) has no 16-bit overflow anywhere, yet the kernel
stores 0 at row 0, column 0 where the reference `jpeg_idct_2x2` has 255: the
32-bit pass-2 sum `tmp10 + tmp0` exceeds `2^31 - 1` and wraps. -/
theorem C5_idct_2x2_pass2_sum_wraps :
    is_i16_table wide_row0_block_2x2 ∧
    idct_2x2_no_overflow16 flat_table_1 wide_row0_block_2x2 ∧
    AndesRed.jsimd_idct_2x2_rvv Vxrm.rnu flat_table_1 wide_row0_block_2x2 0 0 = 0 ∧
    Ref.jpeg_idct_2x2 flat_table_1 wide_row0_block_2x2 0 0 = 255 ∧
    ¬ (∀ r < 2, ∀ c < 2,
        AndesRed.jsimd_idct_2x2_rvv Vxrm.rnu flat_table_1 wide_row0_block_2x2 r c =
          Ref.jpeg_idct_2x2 flat_table_1 wide_row0_block_2x2 r c) := by
  refine ⟨by decide!, by decide!, by decide!, by decide!, by decide!⟩

/-- C5, amended. Reduced 2x2 IDCT under round-to-nearest-up: for every
coefficient block and quantization table for which no signed 16-bit
intermediate overflows (dequantized products and pass-1 outputs on rows and
columns 0, 1, 3, 5, 7) and no signed 32-bit pass-2 sum `tmp10 + tmp0`,
`tmp10 - tmp0` overflows, the 4 output samples equal the scalar reference
`jpeg_idct_2x2`; for a single-coefficient impulse block the condition on the
32-bit sums holds by itself. -/
theorem C5_idct_2x2_matches_reference (dct_table coef_block : Nat → Int)
    (h16 : idct_2x2_no_overflow16 dct_table coef_block)
    (h32 : idct_2x2_no_overflow32 dct_table coef_block ∨ single_coefficient coef_block) :
    ∀ r < 2, ∀ c < 2,
      AndesRed.jsimd_idct_2x2_rvv Vxrm.rnu dct_table coef_block r c =
        Ref.jpeg_idct_2x2 dct_table coef_block r c :=
  fun _ hr _ hc =>
    AndesRed.andes_idct_2x2_eq_reference dct_table coef_block h16
      (h32.elim id (AndesRed.idct_2x2_no_overflow32_of_single dct_table coef_block h16)) hr hc

/-- Witness: the theorem above at a concrete block and table. -/
theorem C5_idct_2x2_matches_reference_witness :
    idct_2x2_no_overflow16 flat_table_16 sample_block ∧
    (idct_2x2_no_overflow32 flat_table_16 sample_block ∨ single_coefficient sample_block) ∧
    ∀ r < 2, ∀ c < 2,
      AndesRed.jsimd_idct_2x2_rvv Vxrm.rnu flat_table_16 sample_block r c =
        Ref.jpeg_idct_2x2 flat_table_16 sample_block r c :=
  ⟨by decide!, Or.inl (by decide!),
    C5_idct_2x2_matches_reference flat_table_16 sample_block (by decide!)
      (Or.inl (by decide!))⟩

/-! ## Generic accurate kernel: stages, DC scenario and the narrowing to samples -/

namespace RvvInt

/-- The generic kernel is the composition of its stages: output row `k` is the
last stage applied to row `k` of the pass-2 values. -/
theorem jsimd_idct_islow_rvv_by_stages (dct_table coef_block : Nat → Int) {k : Nat} (hk : k < 8) :
    jsimd_idct_islow_rvv dct_table coef_block k =
      islow_store_row (islow_pass2_descaled dct_table coef_block k) := by
  interval_cases k <;> rfl

/-- The last stage on one lane: the low 8 bits of `v + 128`, no saturation. -/
theorem islow_store_row_lane (out : Vec) {i : Nat} (hi : i < 8) :
    islow_store_row out i = (out i + 128) % 256 := by
  have h8 : i < vsetvl_e16m2 DCTSIZE := by
    simpa [vsetvl_e16m2, DCTSIZE] using hi
  simp only [islow_store_row, vse_v_lane _ _ h8, vreinterpret_v_i8_u8_lane,
    vadd_vx_i8_lane _ _ _ h8, vnsra_wx_i8_lane _ _ _ h8, CENTERJSAMPLE]
  simp only [wrap8, Nat.zero_mod, pow_zero, Int.ediv_one]
  omega

/-- The dequantized rows of a DC-only block depend on the DC product only. -/
theorem islow_dequant_dc_congr (q q2 b b2 : Nat → Int)
    (hz : ∀ i, 1 ≤ i → i < 64 → b i = 0) (hz2 : ∀ i, 1 ≤ i → i < 64 → b2 i = 0)
    (h0 : b 0 * q 0 = b2 0 * q2 0) {k : Nat} (hk : k < 8) :
    islow_dequant q b k = islow_dequant q2 b2 k := by
  funext i
  simp only [islow_dequant, vmul_vv_i16, vle16_v_i16, vsetvl_e16m2, DCTSIZE]
  by_cases hi : i < min 8 16
  · simp only [hi, ↓reduceIte]
    have hi8 : i < 8 := by simpa using hi
    by_cases h00 : 8 * k + i = 0
    · have hk0 : k = 0 := by omega
      have hi0 : i = 0 := by omega
      subst hk0; subst hi0
      simp only [Nat.mul_zero, Nat.zero_mul, Nat.add_zero, h0]
    · have e1 : b (8 * k + i) = 0 := hz _ (by omega) (by omega)
      have e2 : b2 (8 * k + i) = 0 := hz2 _ (by omega) (by omega)
      rw [e1, e2]; simp
  · simp only [hi, ↓reduceIte]

/-- The pass-2 values of a DC-only block depend on the DC product only. -/
theorem islow_pass2_descaled_dc_congr (q q2 b b2 : Nat → Int)
    (hz : ∀ i, 1 ≤ i → i < 64 → b i = 0) (hz2 : ∀ i, 1 ≤ i → i < 64 → b2 i = 0)
    (h0 : b 0 * q 0 = b2 0 * q2 0) :
    islow_pass2_descaled q b = islow_pass2_descaled q2 b2 := by
  have e := fun k (hk : k < 8) => islow_dequant_dc_congr q q2 b b2 hz hz2 h0 hk
  have hw : islow_pass1_workspace q b = islow_pass1_workspace q2 b2 := by
    simp only [islow_pass1_workspace]
    rw [e 0 (by decide), e 1 (by decide), e 2 (by decide), e 3 (by decide), e 4 (by decide),
      e 5 (by decide), e 6 (by decide), e 7 (by decide)]
  simp only [islow_pass2_descaled, hw]

/-- The generic kernel on the block with DC 512 and DC quantizer 16: every
sample is 128, whatever the other quantizers. -/
theorem rvv_islow_dc512 (dct_table : Nat → Int) (hq : dct_table 0 = 16) {r c : Nat}
    (hr : r < 8) (hc : c < 8) :
    jsimd_idct_islow_rvv dct_table dc_block_512 r c = 128 := by
  have hz : ∀ i, 1 ≤ i → i < 64 → dc_block_512 i = 0 := by
    intro i h1 _
    have : i ≠ 0 := by omega
    simp [dc_block_512, this]
  have h := islow_pass2_descaled_dc_congr dct_table flat_table_16 dc_block_512 dc_block_512 hz hz
    (by rw [hq]; rfl)
  rw [jsimd_idct_islow_rvv_by_stages _ _ hr, h, ← jsimd_idct_islow_rvv_by_stages _ _ hr]
  have hall : ∀ r < 8, ∀ c < 8, jsimd_idct_islow_rvv flat_table_16 dc_block_512 r c = 128 := by
    decide!
  exact hall r hr c hc

end RvvInt

/-- C11. Spec scenario on the generic accurate kernel: for the block with DC
coefficient 512, DC quantizer 16 (dequantized 8192) and all AC coefficients
zero, every one of the 64 output samples of `jsimd_idct_islow_rvv` of
`simd/rvv/jidctint-rvv.c` is 128, whatever the other quantizers. -/
theorem C11_generic_scenario_dc512_is_128 (dct_table : Nat → Int) (hq : dct_table 0 = 16) :
    ∀ r < 8, ∀ c < 8, RvvInt.jsimd_idct_islow_rvv dct_table dc_block_512 r c = 128 :=
  fun _ hr _ hc => RvvInt.rvv_islow_dc512 dct_table hq hr hc

/-- Witness: the theorem above at the flat table of quantizers 16. -/
theorem C11_generic_scenario_dc512_is_128_witness :
    flat_table_16 0 = 16 ∧
    ∀ r < 8, ∀ c < 8, RvvInt.jsimd_idct_islow_rvv flat_table_16 dc_block_512 r c = 128 :=
  ⟨rfl, C11_generic_scenario_dc512_is_128 flat_table_16 rfl⟩

/-- C12, code defect at concrete inputs. The generic kernel narrows the pass-2
value `v` by truncation and adds 128 modulo 256. For DC 100 with quantizer 16
the value at row 0, column 0 is `v = 200 > 127` and the stored sample is 72,
not `clamp(v + 128) = 255`; for DC -100 it is `v = -200 < -128` and the
stored sample is 184, not 0. -/
theorem C12_generic_islow_store_wraps :
    RvvInt.islow_pass2_descaled flat_table_16 dc_block_100 0 0 = 200 ∧
    RvvInt.jsimd_idct_islow_rvv flat_table_16 dc_block_100 0 0 = 72 ∧
    Ref.range_limit 200 = 255 ∧
    RvvInt.islow_pass2_descaled flat_table_16 dc_block_neg100 0 0 = -200 ∧
    RvvInt.jsimd_idct_islow_rvv flat_table_16 dc_block_neg100 0 0 = 184 ∧
    Ref.range_limit (-200) = 0 := by
  refine ⟨by decide!, by decide!, by decide!, by decide!, by decide!, by decide!⟩

/-- Every stored sample of the generic kernel is the low 8 bits of `v + 128`,
with `v` the pass-2 value of its position. -/
theorem rvv_islow_sample_eq (dct_table coef_block : Nat → Int) {r c : Nat}
    (hr : r < 8) (hc : c < 8) :
    RvvInt.jsimd_idct_islow_rvv dct_table coef_block r c =
      (RvvInt.islow_pass2_descaled dct_table coef_block r c + 128) % 256 := by
  rw [RvvInt.jsimd_idct_islow_rvv_by_stages _ _ hr, RvvInt.islow_store_row_lane _ hc]

/-- The low 8 bits of `v + 128` are `clamp(v + 128)` when `-128 <= v <= 127`. -/
theorem wrap_eq_range_limit (v : Int) (h1 : -128 ≤ v) (h2 : v ≤ 127) :
    (v + 128) % 256 = Ref.range_limit v := by
  unfold Ref.range_limit
  split_ifs <;> omega

/-! ## Lanes of the unsigned intrinsics -/

theorem vlse8_v_u8_lane (base : Nat → Int) (bstride vl : Nat) {i : Nat} (h : i < vl) :
    vlse8_v_u8 base bstride vl i = base (i * bstride) := by
  simp only [vlse8_v_u8, h, ↓reduceIte]

theorem vwaddu_vx_u16_lane (a : Vec) (x : Int) (vl : Nat) {i : Nat} (h : i < vl) :
    vwaddu_vx_u16 a x vl i = addu16 (a i) (x % 256) := by
  simp only [vwaddu_vx_u16, h, ↓reduceIte]

theorem vmulhu_vx_u16_lane (a : Vec) (x : Int) (vl : Nat) {i : Nat} (h : i < vl) :
    vmulhu_vx_u16 a x vl i = mulhu16 (a i) x := by
  simp only [vmulhu_vx_u16, h, ↓reduceIte]

theorem vadd_vv_u16_lane (a b : Vec) (vl : Nat) {i : Nat} (h : i < vl) :
    vadd_vv_u16 a b vl i = addu16 (a i) (b i) := by
  simp only [vadd_vv_u16, h, ↓reduceIte]

theorem vadd_vx_u16_lane (a : Vec) (x : Int) (vl : Nat) {i : Nat} (h : i < vl) :
    vadd_vx_u16 a x vl i = addu16 (a i) x := by
  simp only [vadd_vx_u16, h, ↓reduceIte]

theorem vsub_vv_u16_lane (a b : Vec) (vl : Nat) {i : Nat} (h : i < vl) :
    vsub_vv_u16 a b vl i = subu16 (a i) (b i) := by
  simp only [vsub_vv_u16, h, ↓reduceIte]

theorem vsub_vx_u16_lane (a : Vec) (x : Int) (vl : Nat) {i : Nat} (h : i < vl) :
    vsub_vx_u16 a x vl i = subu16 (a i) x := by
  simp only [vsub_vx_u16, h, ↓reduceIte]

theorem vnsrl_wx_u8_lane (a : Vec) (sh vl : Nat) {i : Nat} (h : i < vl) :
    vnsrl_wx_u8 a sh vl i = nsrl8 (a i) sh := by
  simp only [vnsrl_wx_u8, h, ↓reduceIte]

/-- A unit-stride store at a sample it covers. -/
theorem vse8_v_u8_at (mem : Nat → Int) (off : Nat) (a : Vec) (vl : Nat) {j : Nat} (h : j < vl) :
    vse8_v_u8 mem off a vl (off + j) = a j := by
  have h1 : off ≤ off + j ∧ off + j < off + vl := by omega
  simp only [vse8_v_u8, h1, and_self, ↓reduceIte, Nat.add_sub_cancel_left]

/-- A unit-stride store at a sample it does not cover. -/
theorem vse8_v_u8_off (mem : Nat → Int) (off : Nat) (a : Vec) (vl : Nat) {p : Nat}
    (h : p < off ∨ off + vl ≤ p) : vse8_v_u8 mem off a vl p = mem p := by
  have h1 : ¬ (off ≤ p ∧ p < off + vl) := by omega
  simp only [vse8_v_u8, h1, ↓reduceIte]

/-- A strided store at a sample it covers. -/
theorem vsse8_v_u8_at (mem : Nat → Int) (off bstride : Nat) (a : Vec) (vl : Nat) {j : Nat}
    (hs : 0 < bstride) (h : j < vl) :
    vsse8_v_u8 mem off bstride a vl (off + j * bstride) = a j := by
  have e : off + j * bstride - off = j * bstride := by omega
  have h1 : off ≤ off + j * bstride := by omega
  simp only [vsse8_v_u8, e, h1, Nat.mul_mod_left, Nat.mul_div_left _ hs, h, and_self, ↓reduceIte]

/-- A strided store below its base leaves the sample. -/
theorem vsse8_v_u8_below (mem : Nat → Int) (off bstride : Nat) (a : Vec) (vl : Nat) {p : Nat}
    (h : p < off) : vsse8_v_u8 mem off bstride a vl p = mem p := by
  have h1 : ¬ off ≤ p := by omega
  simp only [vsse8_v_u8, h1, false_and, ↓reduceIte]

/-- A strided store leaves every sample whose offset from the base is not a
multiple of the stride. -/
theorem vsse8_v_u8_skip (mem : Nat → Int) (off bstride : Nat) (a : Vec) (vl : Nat) {p : Nat}
    (h : (p - off) % bstride ≠ 0) : vsse8_v_u8 mem off bstride a vl p = mem p := by
  simp only [vsse8_v_u8, h, false_and, and_false, ↓reduceIte]

/-- A strided store leaves every sample at or beyond `off + vl * bstride`. -/
theorem vsse8_v_u8_beyond (mem : Nat → Int) (off bstride : Nat) (a : Vec) (vl : Nat) {p : Nat}
    (hs : 0 < bstride) (h : off + vl * bstride ≤ p) : vsse8_v_u8 mem off bstride a vl p = mem p := by
  have h1 : ¬ (p - off) / bstride < vl := by
    rw [Nat.div_lt_iff_lt_mul hs]
    omega
  simp only [vsse8_v_u8, h1, and_false, ↓reduceIte]

theorem vsetvl_e16m4_le_avl (VLMAX avl : Nat) : vsetvl_e16m4 VLMAX avl ≤ avl := by
  unfold vsetvl_e16m4; omega

theorem vsetvl_e16m4_le_max (VLMAX avl : Nat) : vsetvl_e16m4 VLMAX avl ≤ VLMAX := by
  unfold vsetvl_e16m4; omega

theorem vsetvl_e16m4_pos {VLMAX avl : Nat} (h1 : 0 < VLMAX) (h2 : 0 < avl) :
    0 < vsetvl_e16m4 VLMAX avl := by
  unfold vsetvl_e16m4; omega

/-! ## Forward colour conversion: the column loop -/

namespace CColExt

/-- The three output rows after one iteration, at a column of the chunk. -/
theorem rgb_ycc_cols_body_at (lay : Layout) (c : Consts) (VLMAX : Nat) (inrow : Nat → Int)
    (s : ColState) {j : Nat} (hj : j < vsetvl_e16m4 VLMAX (s.num_cols / lay.RGB_PIXELSIZE)) :
    (rgb_ycc_cols_body lay c VLMAX inrow s).row0 (s.outptr0 + j) =
        y_sample c (inrow (s.inptr + lay.RGB_RED + j * lay.RGB_PIXELSIZE))
          (inrow (s.inptr + lay.RGB_GREEN + j * lay.RGB_PIXELSIZE))
          (inrow (s.inptr + lay.RGB_BLUE + j * lay.RGB_PIXELSIZE)) ∧
    (rgb_ycc_cols_body lay c VLMAX inrow s).row1 (s.outptr1 + j) =
        cb_sample c (inrow (s.inptr + lay.RGB_RED + j * lay.RGB_PIXELSIZE))
          (inrow (s.inptr + lay.RGB_GREEN + j * lay.RGB_PIXELSIZE))
          (inrow (s.inptr + lay.RGB_BLUE + j * lay.RGB_PIXELSIZE)) ∧
    (rgb_ycc_cols_body lay c VLMAX inrow s).row2 (s.outptr2 + j) =
        cr_sample c (inrow (s.inptr + lay.RGB_RED + j * lay.RGB_PIXELSIZE))
          (inrow (s.inptr + lay.RGB_GREEN + j * lay.RGB_PIXELSIZE))
          (inrow (s.inptr + lay.RGB_BLUE + j * lay.RGB_PIXELSIZE)) := by
  simp only [rgb_ycc_cols_body, vse8_v_u8_at _ _ _ _ hj, vnsrl_wx_u8_lane _ _ _ hj,
    vadd_vv_u16_lane _ _ _ hj, vadd_vx_u16_lane _ _ _ hj, vsub_vv_u16_lane _ _ _ hj,
    vmulhu_vx_u16_lane _ _ _ hj, vwaddu_vx_u16_lane _ _ _ hj, vlse8_v_u8_lane _ _ _ hj,
    ptr_add, Nat.mul_one, y_sample, cb_sample, cr_sample, and_self]

/-- The three output rows after one iteration, outside the chunk. -/
theorem rgb_ycc_cols_body_off (lay : Layout) (c : Consts) (VLMAX : Nat) (inrow : Nat → Int)
    (s : ColState) :
    (∀ p, p < s.outptr0 ∨
        s.outptr0 + vsetvl_e16m4 VLMAX (s.num_cols / lay.RGB_PIXELSIZE) ≤ p →
      (rgb_ycc_cols_body lay c VLMAX inrow s).row0 p = s.row0 p) ∧
    (∀ p, p < s.outptr1 ∨
        s.outptr1 + vsetvl_e16m4 VLMAX (s.num_cols / lay.RGB_PIXELSIZE) ≤ p →
      (rgb_ycc_cols_body lay c VLMAX inrow s).row1 p = s.row1 p) ∧
    (∀ p, p < s.outptr2 ∨
        s.outptr2 + vsetvl_e16m4 VLMAX (s.num_cols / lay.RGB_PIXELSIZE) ≤ p →
      (rgb_ycc_cols_body lay c VLMAX inrow s).row2 p = s.row2 p) := by
  refine ⟨fun p hp => ?_, fun p hp => ?_, fun p hp => ?_⟩ <;>
    simp only [rgb_ycc_cols_body, vse8_v_u8_off _ _ _ _ hp]


/-- The body of the column loop on a state with `m` whole pixels left: the
granted vector length and the updated variables. -/
theorem rgb_ycc_cols_body_vars (lay : Layout) (c : Consts) (VLMAX : Nat) (inrow : Nat → Int)
    (s : ColState) :
    (rgb_ycc_cols_body lay c VLMAX inrow s).inptr =
        s.inptr + vsetvl_e16m4 VLMAX (s.num_cols / lay.RGB_PIXELSIZE) * lay.RGB_PIXELSIZE ∧
    (rgb_ycc_cols_body lay c VLMAX inrow s).outptr0 =
        s.outptr0 + vsetvl_e16m4 VLMAX (s.num_cols / lay.RGB_PIXELSIZE) ∧
    (rgb_ycc_cols_body lay c VLMAX inrow s).outptr1 =
        s.outptr1 + vsetvl_e16m4 VLMAX (s.num_cols / lay.RGB_PIXELSIZE) ∧
    (rgb_ycc_cols_body lay c VLMAX inrow s).outptr2 =
        s.outptr2 + vsetvl_e16m4 VLMAX (s.num_cols / lay.RGB_PIXELSIZE) ∧
    (rgb_ycc_cols_body lay c VLMAX inrow s).num_cols =
        s.num_cols - vsetvl_e16m4 VLMAX (s.num_cols / lay.RGB_PIXELSIZE) * lay.RGB_PIXELSIZE :=
  ⟨rfl, rfl, rfl, rfl, rfl⟩

/-- The column loop from a state `d` pixels into the row with `m` whole pixels
left: with more fuel than pixels it ends with `num_cols = 0`, columns
`d .. d + m - 1` of the three rows hold the conversions of pixels
`d .. d + m - 1` of the input row, and every other column is unchanged. -/
theorem rgb_ycc_cols_spec (lay : Layout) (c : Consts) (VLMAX : Nat) (inrow : Nat → Int)
    (hps : 0 < lay.RGB_PIXELSIZE) (hv : 0 < VLMAX) :
    ∀ (fuel m d : Nat) (s : ColState), m < fuel →
      s.inptr = d * lay.RGB_PIXELSIZE → s.outptr0 = d → s.outptr1 = d → s.outptr2 = d →
      s.num_cols = m * lay.RGB_PIXELSIZE →
      ∃ s2, rgb_ycc_cols lay c VLMAX inrow fuel s = some s2 ∧ s2.num_cols = 0 ∧
        (∀ p, d ≤ p → p < d + m →
          s2.row0 p = y_sample c (inrow (p * lay.RGB_PIXELSIZE + lay.RGB_RED))
            (inrow (p * lay.RGB_PIXELSIZE + lay.RGB_GREEN))
            (inrow (p * lay.RGB_PIXELSIZE + lay.RGB_BLUE)) ∧
          s2.row1 p = cb_sample c (inrow (p * lay.RGB_PIXELSIZE + lay.RGB_RED))
            (inrow (p * lay.RGB_PIXELSIZE + lay.RGB_GREEN))
            (inrow (p * lay.RGB_PIXELSIZE + lay.RGB_BLUE)) ∧
          s2.row2 p = cr_sample c (inrow (p * lay.RGB_PIXELSIZE + lay.RGB_RED))
            (inrow (p * lay.RGB_PIXELSIZE + lay.RGB_GREEN))
            (inrow (p * lay.RGB_PIXELSIZE + lay.RGB_BLUE))) ∧
        (∀ p, p < d ∨ d + m ≤ p →
          s2.row0 p = s.row0 p ∧ s2.row1 p = s.row1 p ∧ s2.row2 p = s.row2 p) := by
  intro fuel
  induction fuel with
  | zero => intro m d s h; omega
  | succ fuel ih =>
    intro m d s hm hin h0 h1 h2 hnc
    rcases Nat.eq_zero_or_pos m with hm0 | hmpos
    · subst hm0
      have hz : s.num_cols = 0 := by rw [hnc]; simp
      refine ⟨s, ?_, hz, ?_, ?_⟩
      · simp only [rgb_ycc_cols, hz, gt_iff_lt, Nat.lt_irrefl, ↓reduceIte]
      · intro p hp1 hp2; omega
      · intro p _; exact ⟨rfl, rfl, rfl⟩
    · have hpos : 0 < s.num_cols := by rw [hnc]; exact Nat.mul_pos hmpos hps
      have hdiv : s.num_cols / lay.RGB_PIXELSIZE = m := by
        rw [hnc]; exact Nat.mul_div_cancel _ hps
      obtain ⟨e1, e2, e3, e4, e5⟩ := rgb_ycc_cols_body_vars lay c VLMAX inrow s
      have hat := fun j hj => rgb_ycc_cols_body_at lay c VLMAX inrow s (j := j) hj
      obtain ⟨o0, o1, o2⟩ := rgb_ycc_cols_body_off lay c VLMAX inrow s
      rw [hdiv] at e1 e2 e3 e4 e5 hat o0 o1 o2
      generalize hvl : vsetvl_e16m4 VLMAX m = vl at e1 e2 e3 e4 e5 hat o0 o1 o2
      have hvl1 : 0 < vl := by rw [← hvl]; exact vsetvl_e16m4_pos hv hmpos
      have hvl2 : vl ≤ m := by rw [← hvl]; exact vsetvl_e16m4_le_avl _ _
      generalize hs1 : rgb_ycc_cols_body lay c VLMAX inrow s = s1 at e1 e2 e3 e4 e5 hat o0 o1 o2
      obtain ⟨s2, hs2, hz2, hin2, hout2⟩ := ih (m - vl) (d + vl) s1 (by omega)
        (by rw [e1, hin, Nat.add_mul]) (by rw [e2, h0]) (by rw [e3, h1]) (by rw [e4, h2])
        (by rw [e5, hnc, Nat.sub_mul])
      refine ⟨s2, ?_, hz2, ?_, ?_⟩
      · simp only [rgb_ycc_cols, gt_iff_lt, hpos, ↓reduceIte, hs1]
        exact hs2
      · intro p hp1 hp2
        by_cases hp : p < d + vl
        · obtain ⟨j, rfl⟩ : ∃ j, p = d + j := ⟨p - d, by omega⟩
          have hj : j < vl := by omega
          obtain ⟨q0, q1, q2⟩ := hout2 (d + j) (Or.inl (by omega))
          obtain ⟨a0, a1, a2⟩ := hat j hj
          rw [h0] at a0; rw [h1] at a1; rw [h2] at a2
          rw [q0, q1, q2, a0, a1, a2, hin]
          have e : ∀ x, d * lay.RGB_PIXELSIZE + x + j * lay.RGB_PIXELSIZE =
              (d + j) * lay.RGB_PIXELSIZE + x := by intro x; rw [Nat.add_mul]; omega
          simp only [e, and_self]
        · exact hin2 p (by omega) (by omega)
      · intro p hp
        obtain ⟨q0, q1, q2⟩ := hout2 p (by omega)
        rw [q0, q1, q2, o0 p (by omega), o1 p (by omega), o2 p (by omega)]
        exact ⟨rfl, rfl, rfl⟩

/-- The column loop on a state with `num_cols = 0` returns the state. -/
theorem rgb_ycc_cols_idle (lay : Layout) (c : Consts) (VLMAX : Nat) (inrow : Nat → Int)
    (fuel : Nat) (s : ColState) (hz : s.num_cols = 0) :
    rgb_ycc_cols lay c VLMAX inrow (fuel + 1) s = some s := by
  simp only [rgb_ycc_cols, hz, gt_iff_lt, Nat.lt_irrefl, ↓reduceIte]

/-- The row loop entered with `num_cols = 0` leaves `output_buf` as it is. -/
theorem rgb_ycc_rows_idle (lay : Layout) (c : Consts) (VLMAX fuel : Nat)
    (input_buf : Nat → Nat → Int) :
    ∀ (n k output_row : Nat) (output_buf : Nat → Nat → Nat → Int),
      rgb_ycc_rows lay c VLMAX (fuel + 1) input_buf n k output_row 0 output_buf =
        some output_buf := by
  intro n
  induction n with
  | zero => intro k r ob; rfl
  | succ n ih =>
    intro k r ob
    simp only [rgb_ycc_rows]
    rw [rgb_ycc_cols_idle _ _ _ _ _ _ rfl]
    simp only []
    have e : (fun ci row =>
        if row = r then
          (if ci = 0 then ob 0 r else if ci = 1 then ob 1 r else if ci = 2 then ob 2 r
           else ob ci row)
        else ob ci row) = ob := by
      funext ci row
      by_cases hr : row = r
      · subst hr
        by_cases h0 : ci = 0
        · subst h0; simp
        · by_cases h1 : ci = 1
          · subst h1; simp
          · by_cases h2 : ci = 2
            · subst h2; simp
            · simp [h0, h1, h2]
      · simp [hr]
    rw [e]
    exact ih _ _ _


/-- The forward kernel called for at least one row, on an image whose pitch
`img_width * RGB_PIXELSIZE` fits the 32-bit `JDIMENSION`: the call returns; in
row `output_row` of the three planes, columns `0 .. img_width - 1` hold the
conversions of the pixels of input row 0; every other sample of `output_buf`
is as before the call, rows `output_row + 1` and beyond included. -/
theorem rgb_ycc_convert_spec (lay : Layout) (c : Consts) (VLMAX fuel img_width : Nat)
    (input_buf : Nat → Nat → Int) (output_buf : Nat → Nat → Nat → Int) (output_row : Nat)
    (num_rows : Int) (hps : 0 < lay.RGB_PIXELSIZE) (hv : 0 < VLMAX)
    (hw : img_width * lay.RGB_PIXELSIZE < 2 ^ 32) (hf : img_width < fuel) (hn : 1 ≤ num_rows) :
    ∃ out, jsimd_rgb_ycc_convert_rvv lay c VLMAX fuel img_width input_buf output_buf output_row
        num_rows = some out ∧
      (∀ i, i < img_width →
        out 0 output_row i = y_sample c (input_buf 0 (i * lay.RGB_PIXELSIZE + lay.RGB_RED))
          (input_buf 0 (i * lay.RGB_PIXELSIZE + lay.RGB_GREEN))
          (input_buf 0 (i * lay.RGB_PIXELSIZE + lay.RGB_BLUE)) ∧
        out 1 output_row i = cb_sample c (input_buf 0 (i * lay.RGB_PIXELSIZE + lay.RGB_RED))
          (input_buf 0 (i * lay.RGB_PIXELSIZE + lay.RGB_GREEN))
          (input_buf 0 (i * lay.RGB_PIXELSIZE + lay.RGB_BLUE)) ∧
        out 2 output_row i = cr_sample c (input_buf 0 (i * lay.RGB_PIXELSIZE + lay.RGB_RED))
          (input_buf 0 (i * lay.RGB_PIXELSIZE + lay.RGB_GREEN))
          (input_buf 0 (i * lay.RGB_PIXELSIZE + lay.RGB_BLUE))) ∧
      (∀ ci row i, row ≠ output_row ∨ 3 ≤ ci ∨ img_width ≤ i →
        out ci row i = output_buf ci row i) := by
  obtain ⟨n, hn1⟩ : ∃ n, num_rows.toNat = n + 1 := ⟨num_rows.toNat - 1, by omega⟩
  obtain ⟨f, rfl⟩ : ∃ f, fuel = f + 1 := ⟨fuel - 1, by omega⟩
  have hp : img_width * lay.RGB_PIXELSIZE % 2 ^ 32 = img_width * lay.RGB_PIXELSIZE :=
    Nat.mod_eq_of_lt hw
  obtain ⟨s2, hs2, hz2, hin2, hout2⟩ := rgb_ycc_cols_spec lay c VLMAX (input_buf 0) hps hv (f + 1)
    img_width 0
    { inptr := 0, outptr0 := 0, outptr1 := 0, outptr2 := 0,
      num_cols := img_width * lay.RGB_PIXELSIZE,
      row0 := output_buf 0 output_row, row1 := output_buf 1 output_row,
      row2 := output_buf 2 output_row }
    hf (by simp) rfl rfl rfl rfl
  refine ⟨fun ci row =>
      if row = output_row then
        (if ci = 0 then s2.row0 else if ci = 1 then s2.row1 else if ci = 2 then s2.row2
         else output_buf ci row)
      else output_buf ci row, ?_, ?_, ?_⟩
  · simp only [jsimd_rgb_ycc_convert_rvv, hn1, hp, rgb_ycc_rows, hs2, hz2]
    exact rgb_ycc_rows_idle _ _ _ _ _ _ _ _ _
  · intro i hi
    obtain ⟨a0, a1, a2⟩ := hin2 i (Nat.zero_le _) (by omega)
    simp only [↓reduceIte, a0, a1, a2, and_self, Nat.one_ne_zero, (by decide : (2 : Nat) ≠ 0),
      (by decide : (2 : Nat) ≠ 1)]
  · intro ci row i h
    by_cases hr : row = output_row
    · subst hr
      simp only [↓reduceIte]
      by_cases h0 : ci = 0
      · subst h0
        have : img_width ≤ i := by omega
        simp only [↓reduceIte, (hout2 i (Or.inr (by omega))).1]
      · by_cases h1 : ci = 1
        · subst h1
          have : img_width ≤ i := by omega
          simp only [↓reduceIte, Nat.one_ne_zero, (hout2 i (Or.inr (by omega))).2.1]
        · by_cases h2 : ci = 2
          · subst h2
            have : img_width ≤ i := by omega
            simp only [↓reduceIte, (by decide : (2 : Nat) ≠ 0), (by decide : (2 : Nat) ≠ 1),
              (hout2 i (Or.inr (by omega))).2.2]
          · simp only [h0, h1, h2, ↓reduceIte]
    · simp only [hr, ↓reduceIte]

end CColExt

/-! ## Inverse colour conversion: the column loop -/

namespace DColExt

/-- The updated variables after one iteration of the column loop. -/
theorem ycc_rgb_cols_body_vars (lay : Layout) (c : Consts) (VLMAX : Nat) (in0 in1 in2 : Nat → Int)
    (alpha_v : Vec) (s : ColState) :
    (ycc_rgb_cols_body lay c VLMAX in0 in1 in2 alpha_v s).outptr =
        s.outptr + vsetvl_e16m4 VLMAX (s.num_cols / lay.RGB_PIXELSIZE) * lay.RGB_PIXELSIZE ∧
    (ycc_rgb_cols_body lay c VLMAX in0 in1 in2 alpha_v s).inptr0 =
        s.inptr0 + vsetvl_e16m4 VLMAX (s.num_cols / lay.RGB_PIXELSIZE) ∧
    (ycc_rgb_cols_body lay c VLMAX in0 in1 in2 alpha_v s).inptr1 =
        s.inptr1 + vsetvl_e16m4 VLMAX (s.num_cols / lay.RGB_PIXELSIZE) ∧
    (ycc_rgb_cols_body lay c VLMAX in0 in1 in2 alpha_v s).inptr2 =
        s.inptr2 + vsetvl_e16m4 VLMAX (s.num_cols / lay.RGB_PIXELSIZE) ∧
    (ycc_rgb_cols_body lay c VLMAX in0 in1 in2 alpha_v s).num_cols =
        s.num_cols - vsetvl_e16m4 VLMAX (s.num_cols / lay.RGB_PIXELSIZE) * lay.RGB_PIXELSIZE :=
  ⟨rfl, rfl, rfl, rfl, rfl⟩

/-- Induction over the column loop of a row of `n` pixels: a property of the
output row that every iteration carries from pixel `d` to pixel `d + vl` holds
at pixel `n` when the loop ends, and the loop ends with `num_cols = 0` within
`n + 1` tests of its condition. -/
theorem ycc_rgb_cols_induct (lay : Layout) (c : Consts) (VLMAX : Nat) (in0 in1 in2 : Nat → Int)
    (alpha_v : Vec) (hps : 0 < lay.RGB_PIXELSIZE) (hv : 0 < VLMAX) (n : Nat)
    (P : Nat → (Nat → Int) → Prop)
    (hstep : ∀ (s : ColState) (d : Nat), d < n → at_pixel lay n d s → P d s.row →
      P (d + vsetvl_e16m4 VLMAX (n - d)) (ycc_rgb_cols_body lay c VLMAX in0 in1 in2 alpha_v s).row) :
    ∀ (fuel d : Nat) (s : ColState), n - d < fuel → d ≤ n → at_pixel lay n d s → P d s.row →
      ∃ s2, ycc_rgb_cols lay c VLMAX in0 in1 in2 alpha_v fuel s = some s2 ∧ s2.num_cols = 0 ∧
        P n s2.row := by
  intro fuel
  induction fuel with
  | zero => intro d s h; omega
  | succ fuel ih =>
    intro d s hf hd hs hP
    obtain ⟨h0, h1, h2, h3, hnc⟩ := hs
    rcases Nat.eq_or_lt_of_le hd with hdn | hdn
    · subst hdn
      have hz : s.num_cols = 0 := by rw [hnc]; simp
      refine ⟨s, ?_, hz, hP⟩
      simp only [ycc_rgb_cols, hz, gt_iff_lt, Nat.lt_irrefl, ↓reduceIte]
    · have hmpos : 0 < n - d := by omega
      have hpos : 0 < s.num_cols := by rw [hnc]; exact Nat.mul_pos hmpos hps
      have hdiv : s.num_cols / lay.RGB_PIXELSIZE = n - d := by
        rw [hnc]; exact Nat.mul_div_cancel _ hps
      obtain ⟨e1, e2, e3, e4, e5⟩ := ycc_rgb_cols_body_vars lay c VLMAX in0 in1 in2 alpha_v s
      have hP1 := hstep s d hdn ⟨h0, h1, h2, h3, hnc⟩ hP
      rw [hdiv] at e1 e2 e3 e4 e5
      generalize hvl : vsetvl_e16m4 VLMAX (n - d) = vl at e1 e2 e3 e4 e5 hP1
      have hvl1 : 0 < vl := by rw [← hvl]; exact vsetvl_e16m4_pos hv hmpos
      have hvl2 : vl ≤ n - d := by rw [← hvl]; exact vsetvl_e16m4_le_avl _ _
      generalize hs1 : ycc_rgb_cols_body lay c VLMAX in0 in1 in2 alpha_v s = s1
        at e1 e2 e3 e4 e5 hP1
      have hsub : n - (d + vl) = n - d - vl := by omega
      obtain ⟨s2, hs2, hz2, hP2⟩ := ih (d + vl) s1 (by omega) (by omega)
        ⟨by rw [e1, h0, Nat.add_mul], by rw [e2, h1], by rw [e3, h2], by rw [e4, h3],
          by rw [e5, hnc, hsub, Nat.sub_mul (n - d) vl]⟩ hP1
      refine ⟨s2, ?_, hz2, hP2⟩
      simp only [ycc_rgb_cols, gt_iff_lt, hpos, ↓reduceIte, hs1]
      exact hs2

/-- One iteration of the column loop leaves every sample below `outptr`. -/
theorem ycc_rgb_cols_body_below (lay : Layout) (c : Consts) (VLMAX : Nat)
    (in0 in1 in2 : Nat → Int) (alpha_v : Vec) (s : ColState) {p : Nat} (hp : p < s.outptr) :
    (ycc_rgb_cols_body lay c VLMAX in0 in1 in2 alpha_v s).row p = s.row p := by
  have hr : p < s.outptr + lay.RGB_RED := by omega
  have hg : p < s.outptr + lay.RGB_GREEN := by omega
  have hb : p < s.outptr + lay.RGB_BLUE := by omega
  have ha : p < s.outptr + lay.RGB_ALPHA := by omega
  simp only [ycc_rgb_cols_body]
  split_ifs <;>
    simp only [vsse8_v_u8_below _ _ _ _ _ hr, vsse8_v_u8_below _ _ _ _ _ hg,
      vsse8_v_u8_below _ _ _ _ _ hb, vsse8_v_u8_below _ _ _ _ _ ha]

/-- One iteration of the column loop in a build with four samples per pixel
stores lane `j` of `alpha_v` in the alpha sample of pixel `j` of the chunk. -/
theorem ycc_rgb_cols_body_alpha (lay : Layout) (c : Consts) (VLMAX : Nat)
    (in0 in1 in2 : Nat → Int) (alpha_v : Vec) (s : ColState) (hps : lay.RGB_PIXELSIZE = 4)
    {j : Nat} (hj : j < vsetvl_e16m4 VLMAX (s.num_cols / lay.RGB_PIXELSIZE)) :
    (ycc_rgb_cols_body lay c VLMAX in0 in1 in2 alpha_v s).row
        (s.outptr + lay.RGB_ALPHA + j * 4) = alpha_v j := by
  simp only [ycc_rgb_cols_body, hps, ↓reduceIte, Nat.mul_one]
  rw [hps] at hj
  exact vsse8_v_u8_at _ _ _ _ _ (by decide) hj


/-- The column loop on a state with `num_cols = 0` returns the state. -/
theorem ycc_rgb_cols_idle (lay : Layout) (c : Consts) (VLMAX : Nat) (in0 in1 in2 : Nat → Int)
    (alpha_v : Vec) (fuel : Nat) (s : ColState) (hz : s.num_cols = 0) :
    ycc_rgb_cols lay c VLMAX in0 in1 in2 alpha_v (fuel + 1) s = some s := by
  simp only [ycc_rgb_cols, hz, gt_iff_lt, Nat.lt_irrefl, ↓reduceIte]

/-- The row loop entered with `num_cols = 0` leaves `output_buf` as it is. -/
theorem ycc_rgb_rows_idle (lay : Layout) (c : Consts) (VLMAX fuel : Nat)
    (input_buf : Nat → Nat → Nat → Int) (alpha_v : Vec) :
    ∀ (n k input_row : Nat) (output_buf : Nat → Nat → Int),
      ycc_rgb_rows lay c VLMAX (fuel + 1) input_buf alpha_v n k input_row 0 output_buf =
        some output_buf := by
  intro n
  induction n with
  | zero => intro k r ob; rfl
  | succ n ih =>
    intro k r ob
    simp only [ycc_rgb_rows]
    rw [ycc_rgb_cols_idle _ _ _ _ _ _ _ _ _ rfl]
    simp only []
    have e : (fun row => if row = k then ob k else ob row) = ob := by
      funext row
      by_cases hr : row = k
      · subst hr; simp
      · simp [hr]
    rw [e]
    exact ih _ _ _

/-- The inverse kernel called for at least one row of `n` pixels (the pitch
`out_width * RGB_PIXELSIZE`, reduced to 32 bits, is `n * RGB_PIXELSIZE`): the
call returns, and a property of the output row that every iteration of the
column loop carries forward holds for row 0 of `output_buf` on return; every
other row is as before the call. -/
theorem ycc_rgb_convert_induct (lay : Layout) (c : Consts) (VLMAX fuel out_width : Nat)
    (input_buf : Nat → Nat → Nat → Int) (input_row : Nat) (output_buf : Nat → Nat → Int)
    (num_rows : Int) (hps : 0 < lay.RGB_PIXELSIZE) (hv : 0 < VLMAX) (n : Nat)
    (hpitch : out_width * lay.RGB_PIXELSIZE % 2 ^ 32 = n * lay.RGB_PIXELSIZE)
    (hf : n < fuel) (hn : 1 ≤ num_rows) (P : Nat → (Nat → Int) → Prop)
    (h0 : P 0 (output_buf 0))
    (hstep : ∀ (s : ColState) (d : Nat), d < n → at_pixel lay n d s → P d s.row →
      P (d + vsetvl_e16m4 VLMAX (n - d))
        (ycc_rgb_cols_body lay c VLMAX (input_buf 0 input_row) (input_buf 1 input_row)
          (input_buf 2 input_row)
          (vlse8_v_u8 (fun _ => 0xFF) 0 (vsetvl_e16m4 VLMAX (n * lay.RGB_PIXELSIZE))) s).row) :
    ∃ out, jsimd_ycc_rgb_convert_rvv lay c VLMAX fuel out_width input_buf input_row output_buf
        num_rows = some out ∧
      P n (out 0) ∧ ∀ row, row ≠ 0 → out row = output_buf row := by
  obtain ⟨m, hm⟩ : ∃ m, num_rows.toNat = m + 1 := ⟨num_rows.toNat - 1, by omega⟩
  obtain ⟨f, rfl⟩ : ∃ f, fuel = f + 1 := ⟨fuel - 1, by omega⟩
  obtain ⟨s2, hs2, hz2, hP2⟩ := ycc_rgb_cols_induct lay c VLMAX (input_buf 0 input_row)
    (input_buf 1 input_row) (input_buf 2 input_row)
    (vlse8_v_u8 (fun _ => 0xFF) 0 (vsetvl_e16m4 VLMAX (n * lay.RGB_PIXELSIZE))) hps hv n P hstep
    (f + 1) 0
    { outptr := 0, inptr0 := 0, inptr1 := 0, inptr2 := 0, num_cols := n * lay.RGB_PIXELSIZE,
      row := output_buf 0 }
    (by omega) (Nat.zero_le _) ⟨by simp, rfl, rfl, rfl, rfl⟩ h0
  refine ⟨fun row => if row = 0 then s2.row else output_buf row, ?_, ?_, ?_⟩
  · simp only [jsimd_ycc_rgb_convert_rvv, hm, hpitch, ycc_rgb_rows, hs2, hz2]
    exact ycc_rgb_rows_idle _ _ _ _ _ _ _ _ _ _
  · simpa using hP2
  · intro row hrow
    simp only [hrow, ↓reduceIte]

/-- The inverse kernel writes output row 0 only: every other row of
`output_buf` is as before the call, whatever `num_rows`. -/
theorem ycc_rgb_convert_rows_beyond_first (lay : Layout) (c : Consts)
    (VLMAX fuel out_width : Nat) (input_buf : Nat → Nat → Nat → Int) (input_row : Nat)
    (output_buf : Nat → Nat → Int) (num_rows : Int) (hps : 0 < lay.RGB_PIXELSIZE)
    (hv : 0 < VLMAX) (hw : out_width * lay.RGB_PIXELSIZE < 2 ^ 32) (hf : out_width < fuel)
    (hn : 1 ≤ num_rows) :
    ∃ out, jsimd_ycc_rgb_convert_rvv lay c VLMAX fuel out_width input_buf input_row output_buf
        num_rows = some out ∧ ∀ row, row ≠ 0 → out row = output_buf row := by
  obtain ⟨out, hout, _, h⟩ := ycc_rgb_convert_induct lay c VLMAX fuel out_width input_buf
    input_row output_buf num_rows hps hv out_width (Nat.mod_eq_of_lt hw) hf hn
    (fun _ _ => True) trivial (fun _ _ _ _ _ => trivial)
  exact ⟨out, hout, h⟩

/-- Alpha fill of the inverse kernel in a build with four samples per pixel:
the call returns, and every pixel below the pitch has its alpha sample 255. -/
theorem ycc_rgb_convert_alpha (lay : Layout) (c : Consts) (VLMAX fuel out_width : Nat)
    (input_buf : Nat → Nat → Nat → Int) (input_row : Nat) (output_buf : Nat → Nat → Int)
    (num_rows : Int) (hps : lay.RGB_PIXELSIZE = 4) (ha : lay.RGB_ALPHA < 4) (hv : 0 < VLMAX)
    (hf : out_width < fuel) (hn : 1 ≤ num_rows) :
    ∃ out, jsimd_ycc_rgb_convert_rvv lay c VLMAX fuel out_width input_buf input_row output_buf
        num_rows = some out ∧
      ∀ i, 4 * i < out_width * 4 % 2 ^ 32 → out 0 (4 * i + lay.RGB_ALPHA) = 255 := by
  obtain ⟨n, hn4⟩ : ∃ n, out_width * 4 % 2 ^ 32 = n * 4 :=
    ⟨out_width * 4 % 2 ^ 32 / 4, by omega⟩
  have hnw : n ≤ out_width := by omega
  obtain ⟨out, hout, hP, _⟩ := ycc_rgb_convert_induct lay c VLMAX fuel out_width input_buf input_row
    output_buf num_rows (by omega) hv n (by rw [hps]; exact hn4) (by omega) hn
    (fun d row => ∀ i, i < d → row (4 * i + lay.RGB_ALPHA) = 255)
    (by intro i hi; omega)
    (by
      intro s d hd hs hP i hi
      obtain ⟨e0, _, _, _, enc⟩ := hs
      rw [hps] at e0 enc
      have hdiv : s.num_cols / lay.RGB_PIXELSIZE = n - d := by
        rw [hps, enc]; omega
      by_cases hid : i < d
      · rw [ycc_rgb_cols_body_below _ _ _ _ _ _ _ _ (by omega)]
        exact hP i hid
      · obtain ⟨j, rfl⟩ : ∃ j, i = d + j := ⟨i - d, by omega⟩
        have hj : j < vsetvl_e16m4 VLMAX (s.num_cols / lay.RGB_PIXELSIZE) := by
          rw [hdiv]; omega
        have e : 4 * (d + j) + lay.RGB_ALPHA = s.outptr + lay.RGB_ALPHA + j * 4 := by omega
        rw [e, ycc_rgb_cols_body_alpha _ _ _ _ _ _ _ _ hps hj]
        have hj0 : j < vsetvl_e16m4 VLMAX (n * lay.RGB_PIXELSIZE) := by
          rw [hdiv] at hj
          rw [hps]
          unfold vsetvl_e16m4 at hj ⊢
          omega
        rw [vlse8_v_u8_lane _ _ _ hj0])
  exact ⟨out, hout, fun i hi => hP i (by omega)⟩

end DColExt

/-- A strided store based at offset `a` of a group of `bstride` samples leaves
the samples at another offset `b` of every group. -/
theorem vsse8_v_u8_other (mem : Nat → Int) (base a b bstride : Nat) (v : Vec) (vl j : Nat)
    (ha : a < bstride) (hb : b < bstride) (hab : a ≠ b) :
    vsse8_v_u8 mem (base + a) bstride v vl (base + b + j * bstride) =
      mem (base + b + j * bstride) := by
  by_cases hle : base + a ≤ base + b + j * bstride
  · apply vsse8_v_u8_skip
    intro hmod
    have hdm := Nat.div_add_mod (base + b + j * bstride - (base + a)) bstride
    rw [hmod] at hdm
    generalize (base + b + j * bstride - (base + a)) / bstride = k at hdm
    have e : b + j * bstride = a + bstride * k := by omega
    have e2 := congrArg (fun x => x % bstride) e
    simp only [Nat.add_mul_mod_self_right, Nat.add_mul_mod_self_left, Nat.mod_eq_of_lt ha,
      Nat.mod_eq_of_lt hb] at e2
    exact hab e2.symm
  · exact vsse8_v_u8_below _ _ _ _ _ (by omega)

/-- A strided store of `vl` groups of `bstride` samples, based at offset
`a < bstride` of the first group, leaves every sample beyond the last group. -/
theorem vsse8_v_u8_past (mem : Nat → Int) (base a bstride : Nat) (v : Vec) (vl : Nat) {p : Nat}
    (ha : a < bstride) (hp : base + vl * bstride ≤ p) :
    vsse8_v_u8 mem (base + a) bstride v vl p = mem p := by
  have hs : 0 < bstride := by omega
  by_cases hle : base + a ≤ p
  · by_cases hmod : (p - (base + a)) % bstride = 0
    · have hdm := Nat.div_add_mod (p - (base + a)) bstride
      rw [hmod] at hdm
      have h1 : ¬ (p - (base + a)) / bstride < vl := by
        intro hlt
        generalize (p - (base + a)) / bstride = k at hdm hlt
        have h2 : bstride * (k + 1) ≤ bstride * vl := Nat.mul_le_mul_left _ hlt
        have h3 : bstride * vl = vl * bstride := Nat.mul_comm _ _
        have h4 : bstride * (k + 1) = bstride * k + bstride := by ring
        omega
      simp only [vsse8_v_u8, h1, and_false, ↓reduceIte]
    · exact vsse8_v_u8_skip _ _ _ _ _ hmod
  · exact vsse8_v_u8_below _ _ _ _ _ (by omega)

/-! ## Merged kernel: the column loop -/

namespace DMrgExt

theorem vsetvl_e16m2_le_avl (VLMAX avl : Nat) : vsetvl_e16m2 VLMAX avl ≤ avl := by
  unfold vsetvl_e16m2; omega

theorem vsetvl_e16m2_pos {VLMAX avl : Nat} (h1 : 0 < VLMAX) (h2 : 0 < avl) :
    0 < vsetvl_e16m2 VLMAX avl := by
  unfold vsetvl_e16m2; omega

/-- The updated variables after one iteration of the column loop. -/
theorem h2v1_cols_body_vars (lay : Layout) (c : DColExt.Consts) (VLMAX : Nat)
    (in0 in1 in2 : Nat → Int) (alpha_v : Vec) (s : ColState) :
    (h2v1_cols_body lay c VLMAX in0 in1 in2 alpha_v s).outptr =
        s.outptr + 2 * (vsetvl_e16m2 VLMAX (s.num_cols / lay.RGB_PIXELSIZE / 2).toNat *
          lay.RGB_PIXELSIZE) ∧
    (h2v1_cols_body lay c VLMAX in0 in1 in2 alpha_v s).inptr0 =
        s.inptr0 + 2 * vsetvl_e16m2 VLMAX (s.num_cols / lay.RGB_PIXELSIZE / 2).toNat ∧
    (h2v1_cols_body lay c VLMAX in0 in1 in2 alpha_v s).inptr1 =
        s.inptr1 + vsetvl_e16m2 VLMAX (s.num_cols / lay.RGB_PIXELSIZE / 2).toNat ∧
    (h2v1_cols_body lay c VLMAX in0 in1 in2 alpha_v s).inptr2 =
        s.inptr2 + vsetvl_e16m2 VLMAX (s.num_cols / lay.RGB_PIXELSIZE / 2).toNat ∧
    (h2v1_cols_body lay c VLMAX in0 in1 in2 alpha_v s).num_cols =
        wrap32 (s.num_cols -
          2 * (vsetvl_e16m2 VLMAX (s.num_cols / lay.RGB_PIXELSIZE / 2).toNat *
            lay.RGB_PIXELSIZE : Nat)) := by
  refine ⟨rfl, rfl, rfl, rfl, ?_⟩
  simp only [h2v1_cols_body]

/-- The pair count the loop computes from `num_cols` at pair `d` of `n`. -/
theorem at_pair_avl (lay : Layout) (hps : 0 < lay.RGB_PIXELSIZE) {n d : Nat} {s : ColState}
    (hs : at_pair lay n d s) : (s.num_cols / lay.RGB_PIXELSIZE / 2).toNat = n - d := by
  obtain ⟨_, _, _, _, hnc⟩ := hs
  rw [hnc]
  have e : (((n - d) * (2 * lay.RGB_PIXELSIZE) : Nat) : Int) =
      ((((n - d) * 2 : Nat) : Int)) * (lay.RGB_PIXELSIZE : Int) := by
    push_cast; ring
  rw [e, Int.mul_ediv_cancel _ (by exact_mod_cast (Nat.pos_iff_ne_zero.mp hps))]
  push_cast
  rw [Int.mul_ediv_cancel _ (by decide)]
  exact Int.toNat_natCast _

/-- Induction over the column loop of a row of `n` pixel pairs whose pitch fits
a positive `int`: a property of the output row that every iteration carries
from pair `d` to pair `d + vl` holds at pair `n` when the loop ends, and the
loop ends within `n + 1` tests of its condition. -/
theorem h2v1_cols_induct (lay : Layout) (c : DColExt.Consts) (VLMAX : Nat)
    (in0 in1 in2 : Nat → Int) (alpha_v : Vec) (hps : 0 < lay.RGB_PIXELSIZE) (hv : 0 < VLMAX)
    (n : Nat) (hfit : n * (2 * lay.RGB_PIXELSIZE) < 2 ^ 31) (P : Nat → (Nat → Int) → Prop)
    (hstep : ∀ (s : ColState) (d : Nat), d < n → at_pair lay n d s → P d s.row →
      P (d + vsetvl_e16m2 VLMAX (n - d)) (h2v1_cols_body lay c VLMAX in0 in1 in2 alpha_v s).row) :
    ∀ (fuel d : Nat) (s : ColState), n - d < fuel → d ≤ n → at_pair lay n d s → P d s.row →
      ∃ s2, h2v1_cols lay c VLMAX in0 in1 in2 alpha_v fuel s = some s2 ∧ P n s2.row := by
  intro fuel
  induction fuel with
  | zero => intro d s h; omega
  | succ fuel ih =>
    intro d s hf hd hs hP
    have havl := at_pair_avl lay hps hs
    obtain ⟨h0, h1, h2, h3, hnc⟩ := hs
    rcases Nat.eq_or_lt_of_le hd with hdn | hdn
    · subst hdn
      have hz : s.num_cols = 0 := by rw [hnc]; simp
      refine ⟨s, ?_, hP⟩
      simp only [h2v1_cols, hz, gt_iff_lt, lt_self_iff_false, ↓reduceIte]
    · have hmpos : 0 < n - d := by omega
      have hpos : 0 < s.num_cols := by
        rw [hnc]
        exact_mod_cast Nat.mul_pos hmpos (by omega)
      obtain ⟨e1, e2, e3, e4, e5⟩ := h2v1_cols_body_vars lay c VLMAX in0 in1 in2 alpha_v s
      have hP1 := hstep s d hdn ⟨h0, h1, h2, h3, hnc⟩ hP
      rw [havl] at e1 e2 e3 e4 e5
      generalize hvl : vsetvl_e16m2 VLMAX (n - d) = vl at e1 e2 e3 e4 e5 hP1
      have hvl1 : 0 < vl := by rw [← hvl]; exact vsetvl_e16m2_pos hv hmpos
      have hvl2 : vl ≤ n - d := by rw [← hvl]; exact vsetvl_e16m2_le_avl _ _
      generalize hs1 : h2v1_cols_body lay c VLMAX in0 in1 in2 alpha_v s = s1
        at e1 e2 e3 e4 e5 hP1
      have hsplit : (n - d) * (2 * lay.RGB_PIXELSIZE) =
          (n - (d + vl)) * (2 * lay.RGB_PIXELSIZE) + 2 * (vl * lay.RGB_PIXELSIZE) := by
        have : n - d = (n - (d + vl)) + vl := by omega
        rw [this]; ring
      have hle : (n - d) * (2 * lay.RGB_PIXELSIZE) ≤ n * (2 * lay.RGB_PIXELSIZE) :=
        Nat.mul_le_mul_right _ (Nat.sub_le _ _)
      have hnc1 : s1.num_cols = (((n - (d + vl)) * (2 * lay.RGB_PIXELSIZE) : Nat) : Int) := by
        rw [e5, hnc, hsplit]
        push_cast
        rw [add_sub_cancel_right]
        have hb : ((n - (d + vl) : Nat) : Int) * (2 * (lay.RGB_PIXELSIZE : Int)) < 2147483648 := by
          have : (n - (d + vl)) * (2 * lay.RGB_PIXELSIZE) < 2147483648 := by omega
          exact_mod_cast this
        have hb0 : (0 : Int) ≤ ((n - (d + vl) : Nat) : Int) * (2 * (lay.RGB_PIXELSIZE : Int)) := by
          positivity
        generalize ((n - (d + vl) : Nat) : Int) * (2 * (lay.RGB_PIXELSIZE : Int)) = x at hb hb0 ⊢
        unfold wrap32
        omega
      obtain ⟨s2, hs2, hP2⟩ := ih (d + vl) s1 (by omega) (by omega)
        ⟨by rw [e1, h0]; ring, by rw [e2, h1]; ring, by rw [e3, h2], by rw [e4, h3], hnc1⟩ hP1
      refine ⟨s2, ?_, hP2⟩
      simp only [h2v1_cols, gt_iff_lt, hpos, ↓reduceIte, hs1]
      exact hs2

end DMrgExt

/-- A strided store at a sample it does not cover. -/
theorem vsse8_v_u8_miss (mem : Nat → Int) (off bstride : Nat) (a : Vec) (vl : Nat) {p : Nat}
    (h : ¬ (off ≤ p ∧ (p - off) % bstride = 0 ∧ (p - off) / bstride < vl)) :
    vsse8_v_u8 mem off bstride a vl p = mem p := by
  simp only [vsse8_v_u8, h, ↓reduceIte]

/-- A strided store at a sample it covers. -/
theorem vsse8_v_u8_hit (mem : Nat → Int) (off bstride : Nat) (a : Vec) (vl : Nat) {p : Nat}
    (h : off ≤ p ∧ (p - off) % bstride = 0 ∧ (p - off) / bstride < vl) :
    vsse8_v_u8 mem off bstride a vl p = a ((p - off) / bstride) := by
  simp only [vsse8_v_u8, h, and_self, ↓reduceIte]

namespace DMrgExt

/-- One iteration of the column loop leaves every sample below `outptr`. -/
theorem h2v1_cols_body_below (lay : Layout) (c : DColExt.Consts) (VLMAX : Nat)
    (in0 in1 in2 : Nat → Int) (alpha_v : Vec) (s : ColState) {p : Nat} (hp : p < s.outptr) :
    (h2v1_cols_body lay c VLMAX in0 in1 in2 alpha_v s).row p = s.row p := by
  have h : ∀ x, p < s.outptr + x := fun x => by omega
  have h2 : ∀ x y, p < s.outptr + x + y := fun x y => by omega
  simp only [h2v1_cols_body]
  split_ifs <;>
    simp only [vsse8_v_u8_below _ _ _ _ _ (h _), vsse8_v_u8_below _ _ _ _ _ (h2 _ _)]

/-- One iteration of the column loop in a build with four samples per pixel,
every channel offset inside the pixel: lane `j` of `alpha_v` is stored in the
alpha samples of both pixels of pair `j` of the chunk. -/
theorem h2v1_cols_body_alpha (lay : Layout) (c : DColExt.Consts) (VLMAX : Nat)
    (in0 in1 in2 : Nat → Int) (alpha_v : Vec) (s : ColState) (hps : lay.RGB_PIXELSIZE = 4)
    (hr : lay.RGB_RED < 4) (hg : lay.RGB_GREEN < 4) (hb : lay.RGB_BLUE < 4)
    (ha : lay.RGB_ALPHA < 4)
    {j : Nat} (hj : j < vsetvl_e16m2 VLMAX (s.num_cols / lay.RGB_PIXELSIZE / 2).toNat) :
    (h2v1_cols_body lay c VLMAX in0 in1 in2 alpha_v s).row
        (s.outptr + lay.RGB_ALPHA + j * 8) = alpha_v j ∧
    (h2v1_cols_body lay c VLMAX in0 in1 in2 alpha_v s).row
        (s.outptr + 4 + lay.RGB_ALPHA + j * 8) = alpha_v j := by
  simp only [h2v1_cols_body]
  generalize vsetvl_e16m2 VLMAX (s.num_cols / lay.RGB_PIXELSIZE / 2).toNat = vl at hj ⊢
  simp only [hps, ↓reduceIte, Nat.mul_one, Nat.reduceMul]
  constructor
  · simp (disch := omega) only [vsse8_v_u8_miss]
    exact vsse8_v_u8_at _ _ _ _ _ (by decide) hj
  · exact vsse8_v_u8_at _ _ _ _ _ (by decide) hj

/-- The merged kernel on a row of `n` pixel pairs whose pitch fits a positive
`int`: the call returns, and a property of the output row that every iteration
of the column loop carries forward holds on return. -/
theorem h2v1_merged_induct (lay : Layout) (c : DColExt.Consts) (VLMAX fuel output_width : Nat)
    (input_buf : Nat → Nat → Nat → Int) (in_row_group_ctr : Nat) (output_buf : Nat → Nat → Int)
    (hps : 0 < lay.RGB_PIXELSIZE) (hv : 0 < VLMAX) (n : Nat)
    (hfit : n * (2 * lay.RGB_PIXELSIZE) < 2 ^ 31)
    (hpitch : output_width * lay.RGB_PIXELSIZE % 2 ^ 32 = n * (2 * lay.RGB_PIXELSIZE))
    (hf : n < fuel) (P : Nat → (Nat → Int) → Prop) (h0 : P 0 (output_buf 0))
    (hstep : ∀ (s : ColState) (d : Nat), d < n → at_pair lay n d s → P d s.row →
      P (d + vsetvl_e16m2 VLMAX (n - d))
        (h2v1_cols_body lay c VLMAX (input_buf 0 in_row_group_ctr) (input_buf 1 in_row_group_ctr)
          (input_buf 2 in_row_group_ctr)
          (vlse8_v_u8 (fun _ => 0xFF) 0 (vsetvl_e16m2 VLMAX (output_width / 2))) s).row) :
    ∃ row, jsimd_h2v1_merged_upsample_rvv lay c VLMAX fuel output_width input_buf in_row_group_ctr
        output_buf = some row ∧ P n row := by
  have hw : wrap32 ((output_width * lay.RGB_PIXELSIZE % 2 ^ 32 : Nat) : Int) =
      ((n * (2 * lay.RGB_PIXELSIZE) : Nat) : Int) := by
    rw [hpitch]
    have h1 : ((n * (2 * lay.RGB_PIXELSIZE) : Nat) : Int) < 2147483648 := by
      exact_mod_cast hfit
    have h2 : (0 : Int) ≤ ((n * (2 * lay.RGB_PIXELSIZE) : Nat) : Int) := Int.natCast_nonneg _
    generalize ((n * (2 * lay.RGB_PIXELSIZE) : Nat) : Int) = x at h1 h2 ⊢
    unfold wrap32
    omega
  obtain ⟨s2, hs2, hP2⟩ := h2v1_cols_induct lay c VLMAX (input_buf 0 in_row_group_ctr)
    (input_buf 1 in_row_group_ctr) (input_buf 2 in_row_group_ctr)
    (vlse8_v_u8 (fun _ => 0xFF) 0 (vsetvl_e16m2 VLMAX (output_width / 2))) hps hv n hfit P hstep
    fuel 0
    { outptr := 0, inptr0 := 0, inptr1 := 0, inptr2 := 0,
      num_cols := ((n * (2 * lay.RGB_PIXELSIZE) : Nat) : Int), row := output_buf 0 }
    (by omega) (Nat.zero_le _) ⟨by simp, rfl, rfl, rfl, rfl⟩ h0
  refine ⟨s2.row, ?_, hP2⟩
  simp only [jsimd_h2v1_merged_upsample_rvv, hw, hs2, Option.map_some']

/-- Alpha fill of the merged kernel in a build with four samples per pixel, for
an even `output_width`: the call returns, and every pixel below the pitch has
its alpha sample 255. -/
theorem h2v1_merged_alpha (lay : Layout) (c : DColExt.Consts) (VLMAX fuel output_width : Nat)
    (input_buf : Nat → Nat → Nat → Int) (in_row_group_ctr : Nat) (output_buf : Nat → Nat → Int)
    (hps : lay.RGB_PIXELSIZE = 4) (hr : lay.RGB_RED < 4) (hg : lay.RGB_GREEN < 4)
    (hb : lay.RGB_BLUE < 4) (ha : lay.RGB_ALPHA < 4) (hv : 0 < VLMAX)
    (heven : output_width % 2 = 0) (hf : output_width < fuel) :
    ∃ row, jsimd_h2v1_merged_upsample_rvv lay c VLMAX fuel output_width input_buf in_row_group_ctr
        output_buf = some row ∧
      ∀ i, ((4 * i : Nat) : Int) < wrap32 ((output_width * 4 % 2 ^ 32 : Nat) : Int) →
        row (4 * i + lay.RGB_ALPHA) = 255 := by
  by_cases hpos : 0 < wrap32 ((output_width * 4 % 2 ^ 32 : Nat) : Int)
  · obtain ⟨n, hn8⟩ : ∃ n, output_width * 4 % 2 ^ 32 = n * 8 :=
      ⟨output_width * 4 % 2 ^ 32 / 8, by omega⟩
    have hfit : n * 8 < 2 ^ 31 := by
      rw [hn8] at hpos
      unfold wrap32 at hpos
      omega
    have hnw : 2 * n ≤ output_width := by omega
    have hwrap : wrap32 ((output_width * 4 % 2 ^ 32 : Nat) : Int) = ((n * 8 : Nat) : Int) := by
      rw [hn8]
      unfold wrap32
      omega
    obtain ⟨row, hrow, hP⟩ := h2v1_merged_induct lay c VLMAX fuel output_width input_buf
      in_row_group_ctr output_buf (by omega) hv n (by rw [hps]; exact hfit)
      (by rw [hps]; exact hn8) (by omega)
      (fun d row => ∀ i, i < 2 * d → row (4 * i + lay.RGB_ALPHA) = 255)
      (by intro i hi; omega)
      (by
        intro s d hd hs hP i hi
        have havl := at_pair_avl lay (by omega) hs
        obtain ⟨e0, _, _, _, _⟩ := hs
        rw [hps] at e0
        by_cases hid : i < 2 * d
        · rw [h2v1_cols_body_below _ _ _ _ _ _ _ _ (by omega)]
          exact hP i hid
        · obtain ⟨j, hj⟩ : ∃ j, i = 2 * (d + j) ∨ i = 2 * (d + j) + 1 :=
            ⟨i / 2 - d, by omega⟩
          have hjv : j < vsetvl_e16m2 VLMAX (s.num_cols / lay.RGB_PIXELSIZE / 2).toNat := by
            rw [havl]; omega
          obtain ⟨a0, a1⟩ := h2v1_cols_body_alpha lay c VLMAX (input_buf 0 in_row_group_ctr)
            (input_buf 1 in_row_group_ctr) (input_buf 2 in_row_group_ctr)
            (vlse8_v_u8 (fun _ => 0xFF) 0 (vsetvl_e16m2 VLMAX (output_width / 2))) s
            hps hr hg hb ha hjv
          have hj0 : j < vsetvl_e16m2 VLMAX (output_width / 2) := by
            rw [havl] at hjv
            unfold vsetvl_e16m2 at hjv ⊢
            omega
          rw [vlse8_v_u8_lane _ _ _ hj0] at a0 a1
          rcases hj with hj | hj
          · have e : 4 * i + lay.RGB_ALPHA = s.outptr + lay.RGB_ALPHA + j * 8 := by omega
            rw [e]; exact a0
          · have e : 4 * i + lay.RGB_ALPHA = s.outptr + 4 + lay.RGB_ALPHA + j * 8 := by omega
            rw [e]; exact a1)
    refine ⟨row, hrow, fun i hi => hP i ?_⟩
    rw [hwrap] at hi
    have : 4 * i < n * 8 := by exact_mod_cast hi
    omega
  · obtain ⟨f, rfl⟩ : ∃ f, fuel = f + 1 := ⟨fuel - 1, by omega⟩
    refine ⟨output_buf 0, ?_, fun i hi => ?_⟩
    · have hneg : ¬ wrap32 ((output_width * 4 % 2 ^ 32 : Nat) : Int) > 0 := by omega
      simp only [jsimd_h2v1_merged_upsample_rvv, hps, h2v1_cols, hneg, ↓reduceIte,
        Option.map_some']
    · have : (0 : Int) ≤ ((4 * i : Nat) : Int) := Int.natCast_nonneg _
      omega

end DMrgExt

/-! ## Forward colour conversion: sample values -/

namespace CColExt

/-- The samples the forward kernel computes with the constants of the
specification, for 8-bit `r`, `g`, `b`: each product is truncated to its high
half before the sum, and no 16-bit operation wraps. -/
theorem samples_bt601 {r g b : Int} (hr : 0 ≤ r ∧ r ≤ 255) (hg : 0 ≤ g ∧ g ≤ 255)
    (hb : 0 ≤ b ∧ b ≤ 255) :
    y_sample bt601_forward r g b = r * 19595 / 65536 + g * 38470 / 65536 + b * 7471 / 65536 ∧
    cb_sample bt601_forward r g b =
      b * 32768 / 65536 + 128 - g * 21709 / 65536 - r * 11059 / 65536 ∧
    cr_sample bt601_forward r g b =
      r * 32768 / 65536 + 128 - g * 27439 / 65536 - b * 5329 / 65536 := by
  have er : (r + 0 % 256) % 65536 = r := by omega
  have eg : (g + 0 % 256) % 65536 = g := by omega
  have eb : (b + 0 % 256) % 65536 = b := by omega
  simp only [y_sample, cb_sample, cr_sample, bt601_forward, addu16, subu16, mulhu16, nsrl8,
    CENTERJSAMPLE, Nat.zero_mod, pow_zero, Int.ediv_one, er, eg, eb]
  norm_num
  have h1 : 0 ≤ r * 19595 / 65536 ∧ r * 19595 / 65536 ≤ 76 := by omega
  have h2 : 0 ≤ g * 38470 / 65536 ∧ g * 38470 / 65536 ≤ 149 := by omega
  have h3 : 0 ≤ b * 7471 / 65536 ∧ b * 7471 / 65536 ≤ 29 := by omega
  have h4 : 0 ≤ b * 32768 / 65536 ∧ b * 32768 / 65536 ≤ 127 := by omega
  have h5 : 0 ≤ g * 21709 / 65536 ∧ g * 21709 / 65536 ≤ 84 := by omega
  have h6 : 0 ≤ r * 11059 / 65536 ∧ r * 11059 / 65536 ≤ 43 := by omega
  have h7 : 0 ≤ r * 32768 / 65536 ∧ r * 32768 / 65536 ≤ 127 := by omega
  have h8 : 0 ≤ g * 27439 / 65536 ∧ g * 27439 / 65536 ≤ 106 := by omega
  have h9 : 0 ≤ b * 5329 / 65536 ∧ b * 5329 / 65536 ≤ 20 := by omega
  generalize r * 19595 / 65536 = a1 at *
  generalize g * 38470 / 65536 = a2 at *
  generalize b * 7471 / 65536 = a3 at *
  generalize b * 32768 / 65536 = a4 at *
  generalize g * 21709 / 65536 = a5 at *
  generalize r * 11059 / 65536 = a6 at *
  generalize r * 32768 / 65536 = a7 at *
  generalize g * 27439 / 65536 = a8 at *
  generalize b * 5329 / 65536 = a9 at *
  refine ⟨?_, ?_, ?_⟩ <;> omega

/-- Distance of the kernel samples from the scalar reference: luma is up to 3
below, chroma up to 2 above. -/
theorem samples_bt601_near_ref {r g b : Int} (hr : 0 ≤ r ∧ r ≤ 255) (hg : 0 ≤ g ∧ g ≤ 255)
    (hb : 0 ≤ b ∧ b ≤ 255) :
    (Ref.rgb_ycc_y r g b - 3 ≤ y_sample bt601_forward r g b ∧
      y_sample bt601_forward r g b ≤ Ref.rgb_ycc_y r g b) ∧
    (Ref.rgb_ycc_cb r g b ≤ cb_sample bt601_forward r g b ∧
      cb_sample bt601_forward r g b ≤ Ref.rgb_ycc_cb r g b + 2) ∧
    (Ref.rgb_ycc_cr r g b ≤ cr_sample bt601_forward r g b ∧
      cr_sample bt601_forward r g b ≤ Ref.rgb_ycc_cr r g b + 2) := by
  obtain ⟨e1, e2, e3⟩ := samples_bt601 hr hg hb
  rw [e1, e2, e3]
  unfold Ref.rgb_ycc_y Ref.rgb_ycc_cb Ref.rgb_ycc_cr
  refine ⟨⟨?_, ?_⟩, ⟨?_, ?_⟩, ⟨?_, ?_⟩⟩ <;> omega

/-- The samples of pure red, with the three constants that act on it. -/
theorem samples_pure_red (c : Consts) (h299 : c.F_0_299 = 19595) (h168 : c.F_0_168 = 11059)
    (h500 : c.F_0_500 = 32768) :
    y_sample c 255 0 0 = 76 ∧ cb_sample c 255 0 0 = 85 ∧ cr_sample c 255 0 0 = 255 := by
  simp only [y_sample, cb_sample, cr_sample, addu16, subu16, mulhu16, nsrl8, CENTERJSAMPLE,
    h299, h168, h500]
  norm_num

/-- The samples of black, whatever the constants. -/
theorem samples_black (c : Consts) :
    y_sample c 0 0 0 = 0 ∧ cb_sample c 0 0 0 = CENTERJSAMPLE ∧
      cr_sample c 0 0 0 = CENTERJSAMPLE := by
  simp only [y_sample, cb_sample, cr_sample, addu16, subu16, mulhu16, nsrl8, CENTERJSAMPLE]
  norm_num

end CColExt

/-! ## Colour conversion: scenarios, alpha fill and row coverage -/

/-- C13, code defect at a concrete input. Pure red `(255, 0, 0)` is converted
forward to `(76, 85, 255)`; the inverse kernel turns that triple into
`(254, 231, 161)`, so the round trip misses green by 231 and blue by 161: the
centred chroma `85 - 128` wraps to 65493 in its unsigned 16-bit lane and the
unsigned high-half products add the constants to the result. -/
theorem C13_round_trip_pure_red_diverges :
    (CColExt.jsimd_rgb_ycc_convert_rvv ext_rgb bt601_forward 8 2 1 (solid_rows ext_rgb 255 0 0)
        blank_planes 0 1).map (fun o => (o 0 0 0, o 1 0 0, o 2 0 0)) = some (76, 85, 255) ∧
    round_trip_pixel ext_rgb bt601_forward bt601_inverse 8 255 0 0 = some (254, 231, 161) ∧
    round_trip_pixel ext_rgbx bt601_forward bt601_inverse 8 255 0 0 = some (254, 231, 161) := by
  refine ⟨by decide!, by decide!, by decide!⟩

/-- C14, as stated, fails: for white `(255, 255, 255)` the forward kernel
stores Y = 254 and Cr = 129, where the scalar formulas give 255 and 128. -/
theorem C14_forward_white_luma_254 :
    (CColExt.jsimd_rgb_ycc_convert_rvv ext_rgb bt601_forward 8 2 1 (solid_rows ext_rgb 255 255 255)
        blank_planes 0 1).map (fun o => (o 0 0 0, o 1 0 0, o 2 0 0)) = some (254, 128, 129) ∧
    Ref.rgb_ycc_y 255 255 255 = 255 ∧ Ref.rgb_ycc_cb 255 255 255 = 128 ∧
    Ref.rgb_ycc_cr 255 255 255 = 128 := by
  refine ⟨by decide!, by decide!, by decide!, by decide!⟩

/-- C14, amended. With the constants of the specification, for every pixel
`(R, G, B)` in `[0, 255]^3` of input row 0 the forward kernel stores the sums of
the truncated products, `Y = (19595 R >> 16) + (38470 G >> 16) + (7471 B >> 16)`,
`Cb = (32768 B >> 16) + 128 - (21709 G >> 16) - (11059 R >> 16)` and
`Cr = (32768 R >> 16) + 128 - (27439 G >> 16) - (5329 B >> 16)`; Y lies between
the scalar value minus 3 and the scalar value, Cb and Cr between the scalar
value and the scalar value plus 2. -/
theorem C14_forward_sums_truncated_products (lay : Layout) (VLMAX fuel img_width : Nat)
    (input_buf : Nat → Nat → Int) (output_buf : Nat → Nat → Nat → Int) (output_row : Nat)
    (num_rows : Int) (i : Nat) (r g b : Int)
    (hps : 0 < lay.RGB_PIXELSIZE) (hv : 1 ≤ VLMAX)
    (hw : img_width * lay.RGB_PIXELSIZE < 2 ^ 32) (hf : img_width < fuel) (hn : 1 ≤ num_rows)
    (hi : i < img_width)
    (hr : input_buf 0 (i * lay.RGB_PIXELSIZE + lay.RGB_RED) = r)
    (hg : input_buf 0 (i * lay.RGB_PIXELSIZE + lay.RGB_GREEN) = g)
    (hb : input_buf 0 (i * lay.RGB_PIXELSIZE + lay.RGB_BLUE) = b)
    (hr8 : 0 ≤ r ∧ r ≤ 255) (hg8 : 0 ≤ g ∧ g ≤ 255) (hb8 : 0 ≤ b ∧ b ≤ 255) :
    ∃ out, CColExt.jsimd_rgb_ycc_convert_rvv lay bt601_forward VLMAX fuel img_width input_buf
        output_buf output_row num_rows = some out ∧
      out 0 output_row i = r * 19595 / 65536 + g * 38470 / 65536 + b * 7471 / 65536 ∧
      out 1 output_row i = b * 32768 / 65536 + 128 - g * 21709 / 65536 - r * 11059 / 65536 ∧
      out 2 output_row i = r * 32768 / 65536 + 128 - g * 27439 / 65536 - b * 5329 / 65536 ∧
      (Ref.rgb_ycc_y r g b - 3 ≤ out 0 output_row i ∧ out 0 output_row i ≤ Ref.rgb_ycc_y r g b) ∧
      (Ref.rgb_ycc_cb r g b ≤ out 1 output_row i ∧
        out 1 output_row i ≤ Ref.rgb_ycc_cb r g b + 2) ∧
      (Ref.rgb_ycc_cr r g b ≤ out 2 output_row i ∧
        out 2 output_row i ≤ Ref.rgb_ycc_cr r g b + 2) := by
  obtain ⟨out, hout, hin, _⟩ := CColExt.rgb_ycc_convert_spec lay bt601_forward VLMAX fuel img_width
    input_buf output_buf output_row num_rows hps hv hw hf hn
  obtain ⟨a0, a1, a2⟩ := hin i hi
  obtain ⟨e0, e1, e2⟩ := CColExt.samples_bt601 hr8 hg8 hb8
  obtain ⟨n0, n1, n2⟩ := CColExt.samples_bt601_near_ref hr8 hg8 hb8
  rw [hr, hg, hb] at a0 a1 a2
  refine ⟨out, hout, ?_, ?_, ?_, ?_, ?_, ?_⟩
  · rw [a0, e0]
  · rw [a1, e1]
  · rw [a2, e2]
  · rw [a0]; exact n0
  · rw [a1]; exact n1
  · rw [a2]; exact n2

/-- Witness: the theorem above on a three-pixel white row in the R, G, B layout,
at its last pixel, with two lanes per iteration. -/
theorem C14_forward_sums_truncated_products_witness :
    0 < ext_rgb.RGB_PIXELSIZE ∧ 1 ≤ 2 ∧ 3 * ext_rgb.RGB_PIXELSIZE < 2 ^ 32 ∧ 3 < 4 ∧
    (1 : Int) ≤ 1 ∧ 2 < 3 ∧
    solid_rows ext_rgb 255 255 255 0 (2 * ext_rgb.RGB_PIXELSIZE + ext_rgb.RGB_RED) = 255 ∧
    solid_rows ext_rgb 255 255 255 0 (2 * ext_rgb.RGB_PIXELSIZE + ext_rgb.RGB_GREEN) = 255 ∧
    solid_rows ext_rgb 255 255 255 0 (2 * ext_rgb.RGB_PIXELSIZE + ext_rgb.RGB_BLUE) = 255 ∧
    ((0 : Int) ≤ 255 ∧ (255 : Int) ≤ 255) ∧
    ∃ out, CColExt.jsimd_rgb_ycc_convert_rvv ext_rgb bt601_forward 2 4 3
        (solid_rows ext_rgb 255 255 255) blank_planes 0 1 = some out ∧
      out 0 0 2 = 255 * 19595 / 65536 + 255 * 38470 / 65536 + 255 * 7471 / 65536 ∧
      out 1 0 2 = 255 * 32768 / 65536 + 128 - 255 * 21709 / 65536 - 255 * 11059 / 65536 ∧
      out 2 0 2 = 255 * 32768 / 65536 + 128 - 255 * 27439 / 65536 - 255 * 5329 / 65536 ∧
      (Ref.rgb_ycc_y 255 255 255 - 3 ≤ out 0 0 2 ∧ out 0 0 2 ≤ Ref.rgb_ycc_y 255 255 255) ∧
      (Ref.rgb_ycc_cb 255 255 255 ≤ out 1 0 2 ∧ out 1 0 2 ≤ Ref.rgb_ycc_cb 255 255 255 + 2) ∧
      (Ref.rgb_ycc_cr 255 255 255 ≤ out 2 0 2 ∧ out 2 0 2 ≤ Ref.rgb_ycc_cr 255 255 255 + 2) :=
  ⟨by decide, by decide, by decide, by decide, by decide, by decide, by decide, by decide,
    by decide, by decide,
    C14_forward_sums_truncated_products ext_rgb 2 4 3 (solid_rows ext_rgb 255 255 255)
      blank_planes 0 1 2 255 255 255 (by decide) (by decide) (by decide) (by decide) (by decide)
      (by decide) (by decide) (by decide) (by decide) (by decide) (by decide) (by decide)⟩

/-- C15. Pure red, forward direction: with `F_0_299 = 19595`, `F_0_168 = 11059`
and `F_0_500 = 32768`, whatever the layout, the other constants, the hardware
vector length and the width of the image, a pixel `(255, 0, 0)` of input row 0
is stored as Y = 76, Cb = 85, Cr = 255. -/
theorem C15_pure_red_forward (lay : Layout) (c : CColExt.Consts) (VLMAX fuel img_width : Nat)
    (input_buf : Nat → Nat → Int) (output_buf : Nat → Nat → Nat → Int) (output_row : Nat)
    (num_rows : Int) (i : Nat)
    (h299 : c.F_0_299 = 19595) (h168 : c.F_0_168 = 11059) (h500 : c.F_0_500 = 32768)
    (hps : 0 < lay.RGB_PIXELSIZE) (hv : 1 ≤ VLMAX)
    (hw : img_width * lay.RGB_PIXELSIZE < 2 ^ 32) (hf : img_width < fuel) (hn : 1 ≤ num_rows)
    (hi : i < img_width)
    (hr : input_buf 0 (i * lay.RGB_PIXELSIZE + lay.RGB_RED) = 255)
    (hg : input_buf 0 (i * lay.RGB_PIXELSIZE + lay.RGB_GREEN) = 0)
    (hb : input_buf 0 (i * lay.RGB_PIXELSIZE + lay.RGB_BLUE) = 0) :
    ∃ out, CColExt.jsimd_rgb_ycc_convert_rvv lay c VLMAX fuel img_width input_buf output_buf
        output_row num_rows = some out ∧
      out 0 output_row i = 76 ∧ out 1 output_row i = 85 ∧ out 2 output_row i = 255 := by
  obtain ⟨out, hout, hin, _⟩ := CColExt.rgb_ycc_convert_spec lay c VLMAX fuel img_width
    input_buf output_buf output_row num_rows hps hv hw hf hn
  obtain ⟨a0, a1, a2⟩ := hin i hi
  obtain ⟨e0, e1, e2⟩ := CColExt.samples_pure_red c h299 h168 h500
  rw [hr, hg, hb] at a0 a1 a2
  exact ⟨out, hout, a0.trans e0, a1.trans e1, a2.trans e2⟩

/-- Witness: the theorem above on a three-pixel red row in the R, G, B layout,
at its last pixel, with two lanes per iteration. -/
theorem C15_pure_red_forward_witness :
    bt601_forward.F_0_299 = 19595 ∧ bt601_forward.F_0_168 = 11059 ∧
    bt601_forward.F_0_500 = 32768 ∧
    0 < ext_rgb.RGB_PIXELSIZE ∧ 1 ≤ 2 ∧ 3 * ext_rgb.RGB_PIXELSIZE < 2 ^ 32 ∧ 3 < 4 ∧
    (1 : Int) ≤ 1 ∧ 2 < 3 ∧
    solid_rows ext_rgb 255 0 0 0 (2 * ext_rgb.RGB_PIXELSIZE + ext_rgb.RGB_RED) = 255 ∧
    solid_rows ext_rgb 255 0 0 0 (2 * ext_rgb.RGB_PIXELSIZE + ext_rgb.RGB_GREEN) = 0 ∧
    solid_rows ext_rgb 255 0 0 0 (2 * ext_rgb.RGB_PIXELSIZE + ext_rgb.RGB_BLUE) = 0 ∧
    ∃ out, CColExt.jsimd_rgb_ycc_convert_rvv ext_rgb bt601_forward 2 4 3
        (solid_rows ext_rgb 255 0 0) blank_planes 0 1 = some out ∧
      out 0 0 2 = 76 ∧ out 1 0 2 = 85 ∧ out 2 0 2 = 255 :=
  ⟨rfl, rfl, rfl, by decide, by decide, by decide, by decide, by decide, by decide, by decide,
    by decide, by decide,
    C15_pure_red_forward ext_rgb bt601_forward 2 4 3 (solid_rows ext_rgb 255 0 0) blank_planes
      0 1 2 rfl rfl rfl (by decide) (by decide) (by decide) (by decide) (by decide) (by decide)
      (by decide) (by decide) (by decide)⟩

/-- C16, code defect at a concrete input. With the inverse constants of the
specification the inverse kernel maps `(Y, Cb, Cr) = (76, 85, 255)` to
`(R, G, B) = (254, 231, 161)`, in the three-sample and in the four-sample
layout: red is within 1 of 255, green and blue are not within 1 of 0. -/
theorem C16_pure_red_inverse_diverges :
    (DColExt.jsimd_ycc_rgb_convert_rvv ext_rgb bt601_inverse 8 2 1 (solid_planes 76 85 255) 0
        blank_rows 1).map (fun o => (o 0 0, o 0 1, o 0 2)) = some (254, 231, 161) ∧
    (DColExt.jsimd_ycc_rgb_convert_rvv ext_rgbx bt601_inverse 8 2 1 (solid_planes 76 85 255) 0
        blank_rows 1).map (fun o => (o 0 0, o 0 1, o 0 2, o 0 3)) = some (254, 231, 161, 255) ∧
    DColExt.g_sample bt601_inverse 76 85 255 = 231 ∧
    DColExt.b_sample bt601_inverse 76 85 = 161 := by
  refine ⟨by decide!, by decide!, by decide!, by decide!⟩

/-- C17. Level shift goes to chroma only: for every choice of the multiplier
constants, a black pixel `(0, 0, 0)` of input row 0 is stored as Y = 0 and
Cb = Cr = `CENTERJSAMPLE`. -/
theorem C17_black_forward (lay : Layout) (c : CColExt.Consts) (VLMAX fuel img_width : Nat)
    (input_buf : Nat → Nat → Int) (output_buf : Nat → Nat → Nat → Int) (output_row : Nat)
    (num_rows : Int) (i : Nat)
    (hps : 0 < lay.RGB_PIXELSIZE) (hv : 1 ≤ VLMAX)
    (hw : img_width * lay.RGB_PIXELSIZE < 2 ^ 32) (hf : img_width < fuel) (hn : 1 ≤ num_rows)
    (hi : i < img_width)
    (hr : input_buf 0 (i * lay.RGB_PIXELSIZE + lay.RGB_RED) = 0)
    (hg : input_buf 0 (i * lay.RGB_PIXELSIZE + lay.RGB_GREEN) = 0)
    (hb : input_buf 0 (i * lay.RGB_PIXELSIZE + lay.RGB_BLUE) = 0) :
    ∃ out, CColExt.jsimd_rgb_ycc_convert_rvv lay c VLMAX fuel img_width input_buf output_buf
        output_row num_rows = some out ∧
      out 0 output_row i = 0 ∧ out 1 output_row i = CENTERJSAMPLE ∧
      out 2 output_row i = CENTERJSAMPLE := by
  obtain ⟨out, hout, hin, _⟩ := CColExt.rgb_ycc_convert_spec lay c VLMAX fuel img_width
    input_buf output_buf output_row num_rows hps hv hw hf hn
  obtain ⟨a0, a1, a2⟩ := hin i hi
  obtain ⟨e0, e1, e2⟩ := CColExt.samples_black c
  rw [hr, hg, hb] at a0 a1 a2
  exact ⟨out, hout, a0.trans e0, a1.trans e1, a2.trans e2⟩

/-- Witness: the theorem above on a three-pixel black row in the four-sample
layout, at its last pixel, with two lanes per iteration. -/
theorem C17_black_forward_witness :
    0 < ext_rgbx.RGB_PIXELSIZE ∧ 1 ≤ 2 ∧ 3 * ext_rgbx.RGB_PIXELSIZE < 2 ^ 32 ∧ 3 < 4 ∧
    (1 : Int) ≤ 1 ∧ 2 < 3 ∧
    solid_rows ext_rgbx 0 0 0 0 (2 * ext_rgbx.RGB_PIXELSIZE + ext_rgbx.RGB_RED) = 0 ∧
    solid_rows ext_rgbx 0 0 0 0 (2 * ext_rgbx.RGB_PIXELSIZE + ext_rgbx.RGB_GREEN) = 0 ∧
    solid_rows ext_rgbx 0 0 0 0 (2 * ext_rgbx.RGB_PIXELSIZE + ext_rgbx.RGB_BLUE) = 0 ∧
    ∃ out, CColExt.jsimd_rgb_ycc_convert_rvv ext_rgbx bt601_forward 2 4 3
        (solid_rows ext_rgbx 0 0 0) blank_planes 0 1 = some out ∧
      out 0 0 2 = 0 ∧ out 1 0 2 = CENTERJSAMPLE ∧ out 2 0 2 = CENTERJSAMPLE :=
  ⟨by decide, by decide, by decide, by decide, by decide, by decide, by decide, by decide,
    by decide,
    C17_black_forward ext_rgbx bt601_forward 2 4 3 (solid_rows ext_rgbx 0 0 0) blank_planes 0 1 2
      (by decide) (by decide) (by decide) (by decide) (by decide) (by decide)
      (by decide) (by decide) (by decide)⟩

/-- C18. Alpha fill in a build with four samples per pixel, offsets inside the
pixel, for every width and every hardware vector length `VLMAX >= 1`: a call of
`jsimd_ycc_rgb_convert_rvv` for one row returns, and so does a call of
`jsimd_h2v1_merged_upsample_rvv` for an even `output_width`; in both, every
pixel below the 32-bit pitch (every pixel `i < width` when `4 * width` fits the
type of the pitch) has its alpha sample 255. -/
theorem C18_alpha_fill (lay : Layout) (c : DColExt.Consts) (VLMAX fuel width : Nat)
    (input_buf : Nat → Nat → Nat → Int) (input_row : Nat) (output_buf : Nat → Nat → Int)
    (hps : lay.RGB_PIXELSIZE = 4) (hr : lay.RGB_RED < 4) (hg : lay.RGB_GREEN < 4)
    (hb : lay.RGB_BLUE < 4) (ha : lay.RGB_ALPHA < 4) (hv : 1 ≤ VLMAX) (hf : width < fuel) :
    (∃ out, DColExt.jsimd_ycc_rgb_convert_rvv lay c VLMAX fuel width input_buf input_row
        output_buf 1 = some out ∧
      (∀ i, 4 * i < width * 4 % 2 ^ 32 → out 0 (4 * i + lay.RGB_ALPHA) = 255) ∧
      (width * 4 < 2 ^ 32 → ∀ i, i < width → out 0 (4 * i + lay.RGB_ALPHA) = 255)) ∧
    (width % 2 = 0 →
      ∃ row, DMrgExt.jsimd_h2v1_merged_upsample_rvv lay c VLMAX fuel width input_buf input_row
          output_buf = some row ∧
        (∀ i, ((4 * i : Nat) : Int) < wrap32 ((width * 4 % 2 ^ 32 : Nat) : Int) →
          row (4 * i + lay.RGB_ALPHA) = 255) ∧
        (width * 4 < 2 ^ 31 → ∀ i, i < width → row (4 * i + lay.RGB_ALPHA) = 255)) := by
  constructor
  · obtain ⟨out, hout, h⟩ := DColExt.ycc_rgb_convert_alpha lay c VLMAX fuel width input_buf
      input_row output_buf 1 hps ha hv hf (by decide)
    refine ⟨out, hout, h, fun hw i hi => h i ?_⟩
    rw [Nat.mod_eq_of_lt hw]; omega
  · intro heven
    obtain ⟨row, hrow, h⟩ := DMrgExt.h2v1_merged_alpha lay c VLMAX fuel width input_buf
      input_row output_buf hps hr hg hb ha hv heven hf
    refine ⟨row, hrow, h, fun hw i hi => h i ?_⟩
    have e : width * 4 % 2 ^ 32 = width * 4 := Nat.mod_eq_of_lt (by omega)
    rw [e]
    unfold wrap32
    omega

/-- Witness: the theorem above for a row of six pixels in the R, G, B, alpha
layout with four lanes per iteration. -/
theorem C18_alpha_fill_witness :
    ext_rgbx.RGB_PIXELSIZE = 4 ∧ ext_rgbx.RGB_RED < 4 ∧ ext_rgbx.RGB_GREEN < 4 ∧
    ext_rgbx.RGB_BLUE < 4 ∧ ext_rgbx.RGB_ALPHA < 4 ∧ 1 ≤ 4 ∧ 6 < 7 ∧
    (∃ out, DColExt.jsimd_ycc_rgb_convert_rvv ext_rgbx bt601_inverse 4 7 6
        (solid_planes 76 85 255) 0 blank_rows 1 = some out ∧
      (∀ i, 4 * i < 6 * 4 % 2 ^ 32 → out 0 (4 * i + ext_rgbx.RGB_ALPHA) = 255) ∧
      (6 * 4 < 2 ^ 32 → ∀ i, i < 6 → out 0 (4 * i + ext_rgbx.RGB_ALPHA) = 255)) ∧
    (6 % 2 = 0 →
      ∃ row, DMrgExt.jsimd_h2v1_merged_upsample_rvv ext_rgbx bt601_inverse 4 7 6
          (solid_planes 76 85 255) 0 blank_rows = some row ∧
        (∀ i, ((4 * i : Nat) : Int) < wrap32 ((6 * 4 % 2 ^ 32 : Nat) : Int) →
          row (4 * i + ext_rgbx.RGB_ALPHA) = 255) ∧
        (6 * 4 < 2 ^ 31 → ∀ i, i < 6 → row (4 * i + ext_rgbx.RGB_ALPHA) = 255)) :=
  ⟨rfl, by decide, by decide, by decide, by decide, by decide, by decide,
    C18_alpha_fill ext_rgbx bt601_inverse 4 7 6 (solid_planes 76 85 255) 0 blank_rows
      rfl (by decide) (by decide) (by decide) (by decide) (by decide) (by decide)⟩

/-- C19, code defect at a concrete input. Two white rows of two pixels,
`num_rows = 2`, output memory 0: row `output_row` receives the conversion
`(254, 128, 129)`, row `output_row + 1` keeps its three zeros, where the
conversion of input row 1 is `(254, 128, 129)` as well: `num_cols` is set
before the row loop and is 0 from the second row on. -/
theorem C19_forward_second_row_not_written :
    (CColExt.jsimd_rgb_ycc_convert_rvv ext_rgb bt601_forward 8 3 2 (solid_rows ext_rgb 255 255 255)
        blank_planes 0 2).map
      (fun o => ((o 0 0 0, o 1 0 0, o 2 0 0), (o 0 0 1, o 1 0 1, o 2 0 1),
        (o 0 1 0, o 1 1 0, o 2 1 0), (o 0 1 1, o 1 1 1, o 2 1 1))) =
      some ((254, 128, 129), (254, 128, 129), (0, 0, 0), (0, 0, 0)) ∧
    CColExt.y_sample bt601_forward 255 255 255 = 254 ∧
    CColExt.cb_sample bt601_forward 255 255 255 = 128 ∧
    CColExt.cr_sample bt601_forward 255 255 255 = 129 := by
  refine ⟨by decide!, by decide!, by decide!, by decide!⟩

/-- C20, code defect at a concrete input. Two rows of two grey samples
`(200, 128, 128)`, `num_rows = 2`, output memory 0: output row 0 receives the
pixels `(200, 200, 200)`, output row 1 keeps its zeros, where the conversion of
input row `input_row + 1` is `(200, 200, 200)` as well: `num_cols` is set
before the row loop and is 0 from the second row on. -/
theorem C20_inverse_second_row_not_written :
    (DColExt.jsimd_ycc_rgb_convert_rvv ext_rgb bt601_inverse 8 3 2 (solid_planes 200 128 128) 0
        blank_rows 2).map
      (fun o => ((o 0 0, o 0 1, o 0 2), (o 0 3, o 0 4, o 0 5),
        (o 1 0, o 1 1, o 1 2), (o 1 3, o 1 4, o 1 5))) =
      some ((200, 200, 200), (200, 200, 200), (0, 0, 0), (0, 0, 0)) ∧
    DColExt.r_sample bt601_inverse 200 128 = 200 ∧
    DColExt.g_sample bt601_inverse 200 128 128 = 200 ∧
    DColExt.b_sample bt601_inverse 200 128 = 200 := by
  refine ⟨by decide!, by decide!, by decide!, by decide!⟩

/-! ## Output pairs of the generic accurate kernel -/

namespace RvvInt

theorem islow_pass1_workspace_by_terms (dct_table coef_block : Nat → Int) :
    islow_pass1_workspace dct_table coef_block =
      (let vl := vsetvl_e16m2 DCTSIZE
       let out := islow_outputs (islow_pass1_terms dct_table coef_block) (CONST_BITS - PASS1_BITS) vl
       let workspace : Nat → Int := fun _ => 0
       let workspace := vse16_v_i16 workspace (DCTSIZE * 0) (out 0) vl
       let workspace := vse16_v_i16 workspace (DCTSIZE * 1) (out 1) vl
       let workspace := vse16_v_i16 workspace (DCTSIZE * 2) (out 2) vl
       let workspace := vse16_v_i16 workspace (DCTSIZE * 3) (out 3) vl
       let workspace := vse16_v_i16 workspace (DCTSIZE * 4) (out 4) vl
       let workspace := vse16_v_i16 workspace (DCTSIZE * 5) (out 5) vl
       let workspace := vse16_v_i16 workspace (DCTSIZE * 6) (out 6) vl
       let workspace := vse16_v_i16 workspace (DCTSIZE * 7) (out 7) vl
       workspace) := rfl

theorem islow_pass2_descaled_by_terms (dct_table coef_block : Nat → Int) :
    islow_pass2_descaled dct_table coef_block =
      (let workspace := islow_pass1_workspace dct_table coef_block
       let vl := vsetvl_e16m2 DCTSIZE
       let col_stride := DCTSIZE
       let out := islow_outputs (islow_pass2_terms dct_table coef_block)
         (CONST_BITS + PASS1_BITS + 3) vl
       let workspace := vsse16_v_i16 workspace 0 col_stride (out 0) vl
       let workspace := vsse16_v_i16 workspace 1 col_stride (out 1) vl
       let workspace := vsse16_v_i16 workspace 2 col_stride (out 2) vl
       let workspace := vsse16_v_i16 workspace 3 col_stride (out 3) vl
       let workspace := vsse16_v_i16 workspace 4 col_stride (out 4) vl
       let workspace := vsse16_v_i16 workspace 5 col_stride (out 5) vl
       let workspace := vsse16_v_i16 workspace 6 col_stride (out 6) vl
       let workspace := vsse16_v_i16 workspace 7 col_stride (out 7) vl
       fun k => vle16_v_i16 workspace (DCTSIZE * k) vl) := rfl

/-- Outputs 0..3 and 5..7 of the kernel are the mirrored pairs. -/
theorem islow_outputs_mirrored_except_4 (t : CommonIdct) (n vl : Nat) :
    islow_outputs t n vl 0 = mirrored_outputs t n vl 0 ∧
    islow_outputs t n vl 1 = mirrored_outputs t n vl 1 ∧
    islow_outputs t n vl 2 = mirrored_outputs t n vl 2 ∧
    islow_outputs t n vl 3 = mirrored_outputs t n vl 3 ∧
    islow_outputs t n vl 5 = mirrored_outputs t n vl 5 ∧
    islow_outputs t n vl 6 = mirrored_outputs t n vl 6 ∧
    islow_outputs t n vl 7 = mirrored_outputs t n vl 7 :=
  ⟨rfl, rfl, rfl, rfl, rfl, rfl, rfl⟩

/-- Output 4 of the kernel is the descale of `tmp13 + tmp0`, the same vector as
output 3 (lines 164-169 and 213-218). -/
theorem islow_outputs_4_eq_3 (t : CommonIdct) (n vl : Nat) :
    islow_outputs t n vl 4 = islow_descale (vadd_vv_i32 t.tmp13 t.tmp0 vl) n vl ∧
    islow_outputs t n vl 4 = islow_outputs t n vl 3 :=
  ⟨rfl, rfl⟩

end RvvInt

/-- C29, code defect. In both passes of the generic accurate kernel the lines
of output 4 repeat the `vadd` of output 3 (lines 167 and 216): for all terms,
shift and vector length, output 4 is the descale of `tmp13 + tmp0` and equals
output 3, while outputs 0..3 and 5..7 are the mirrored pairs of the specification.
Block with 64 at row 1, column 1 and all quantizers 1: in pass 1 output 4 is
71 in lane 1 where the descale of `tmp13 - tmp0` is -71; in pass 2 output 4
is 3 in lane 0 where the descale of `tmp13 - tmp0` is -3. -/
theorem C29_generic_islow_output4_is_sum :
    (∀ (t : RvvInt.CommonIdct) (n vl : Nat),
      RvvInt.islow_outputs t n vl 4 =
        RvvInt.islow_descale (vadd_vv_i32 t.tmp13 t.tmp0 vl) n vl ∧
      RvvInt.islow_outputs t n vl 4 = RvvInt.islow_outputs t n vl 3 ∧
      RvvInt.islow_outputs t n vl 0 = RvvInt.mirrored_outputs t n vl 0 ∧
      RvvInt.islow_outputs t n vl 1 = RvvInt.mirrored_outputs t n vl 1 ∧
      RvvInt.islow_outputs t n vl 2 = RvvInt.mirrored_outputs t n vl 2 ∧
      RvvInt.islow_outputs t n vl 3 = RvvInt.mirrored_outputs t n vl 3 ∧
      RvvInt.islow_outputs t n vl 5 = RvvInt.mirrored_outputs t n vl 5 ∧
      RvvInt.islow_outputs t n vl 6 = RvvInt.mirrored_outputs t n vl 6 ∧
      RvvInt.islow_outputs t n vl 7 = RvvInt.mirrored_outputs t n vl 7) ∧
    RvvInt.islow_outputs (RvvInt.islow_pass1_terms flat_table_1 impulse_r1c1_64)
      (RvvInt.CONST_BITS - RvvInt.PASS1_BITS) 8 4 1 = 71 ∧
    RvvInt.mirrored_outputs (RvvInt.islow_pass1_terms flat_table_1 impulse_r1c1_64)
      (RvvInt.CONST_BITS - RvvInt.PASS1_BITS) 8 4 1 = -71 ∧
    RvvInt.islow_outputs (RvvInt.islow_pass2_terms flat_table_1 impulse_r1c1_64)
      (RvvInt.CONST_BITS + RvvInt.PASS1_BITS + 3) 8 4 0 = 3 ∧
    RvvInt.mirrored_outputs (RvvInt.islow_pass2_terms flat_table_1 impulse_r1c1_64)
      (RvvInt.CONST_BITS + RvvInt.PASS1_BITS + 3) 8 4 0 = -3 := by
  refine ⟨fun t n vl => ⟨rfl, rfl, rfl, rfl, rfl, rfl, rfl, rfl, rfl⟩, by decide!, by decide!,
    by decide!, by decide!⟩

/-! ## Block assembly of the fast kernel -/

namespace AndesFst

theorem ifast_rows_all_full_by_stages (vxrm : Vxrm) (quantptr : Nat → Int)
    (row0 row1 row2 row3 row4 row5 row6 row7 : Vec) :
    ifast_rows_all_full vxrm quantptr row0 row1 row2 row3 row4 row5 row6 row7 =
      ifast_combine (ifast_pass1_rows vxrm quantptr row0 row1 row2 row3 row4 row5 row6 row7) :=
  rfl

/-- The second part of the kernel reads the combined vector through the work
array `ifast_workspace` only. -/
theorem ifast_pass2_by_workspace (vxrm : Vxrm) (rows_all_i16m8 : Vec) :
    ifast_pass2 vxrm rows_all_i16m8 =
      ifast_pass2 vxrm (fun j => ifast_workspace rows_all_i16m8 (8 * (j % 8) + j / 8)) := by
  have hg : vrgather_vv rows_all_i16m8
        (vzext_vf2 (vle8_v_u8 trans_index8x8_u8 DCTSIZE2) DCTSIZE2) DCTSIZE2 =
      vrgather_vv (fun j => ifast_workspace rows_all_i16m8 (8 * (j % 8) + j / 8))
        (vzext_vf2 (vle8_v_u8 trans_index8x8_u8 DCTSIZE2) DCTSIZE2) DCTSIZE2 := by
    funext j
    by_cases hj : j < 64
    · interval_cases j <;> rfl
    · simp only [vrgather_vv, DCTSIZE2, hj, ↓reduceIte]
  simp only [ifast_pass2, hg]

/-- Block `k` of the combined vector is `row k`, except block 3, which is
`row 2` again (line 203). -/
theorem ifast_combine_lane (row : Nat → Vec) {k i : Nat} (hk : k < 8) (hi : i < 8) :
    ifast_combine row (8 * k + i) = row (if k = 3 then 2 else k) i := by
  interval_cases k <;>
    simp (disch := omega) only [ifast_combine, vslideup_vx_lo, vslideup_vx_hi, vlmul_ext_lane,
      Nat.reduceMul, Nat.zero_add, Nat.add_sub_cancel_left, Nat.reduceEqDiff, ↓reduceIte] <;>
    (congr 1; omega)

/-- After the transpose, element `8 i + k` of the work array is element `i` of
block `k` of the combined vector. -/
theorem ifast_workspace_lane (w : Vec) {i k : Nat} (hi : i < 8) (hk : k < 8) :
    ifast_workspace w (8 * i + k) = w (8 * k + i) := by
  interval_cases i <;> interval_cases k <;> rfl

end AndesFst

/-- C30, code defect. On the full-calculation branch of the fast kernel the
combined vector `rows_all_i16m8` holds `row2` in elements 16..23 and again in
elements 24..31 (line 203 slides `row2` up by 24 where `row3` belongs), for
all inputs and rounding modes; `row3` enters no element. Block with 128 at
row 2, column 0 and all quantizers 1 (the AC test sends it to the full
branch): pass 1 leaves -53 in lane 0 of `row2` and -128 in lane 0 of `row3`;
element 24 of the vector handed to the transpose is -53 and after the
transpose `workspace[3]` is -53, not `row3[0]`. -/
theorem C30_ifast_slot3_holds_row2 :
    (∀ (vxrm : Vxrm) (quantptr : Nat → Int) (row0 row1 row2 row3 row4 row5 row6 row7 : Vec),
      (List.range 8).map
          (fun i =>
            AndesFst.ifast_rows_all_full vxrm quantptr row0 row1 row2 row3 row4 row5 row6 row7
              (8 * 3 + i)) =
        (List.range 8).map
          (fun i =>
            AndesFst.ifast_pass1_rows vxrm quantptr row0 row1 row2 row3 row4 row5 row6 row7 2 i)) ∧
    AndesFst.ifast_rows_all Vxrm.rnu flat_table_1 impulse_row2_128 =
      AndesFst.ifast_rows_all_full Vxrm.rnu flat_table_1
        (AndesFst.ifast_loaded_row flat_table_1 impulse_row2_128 0)
        (AndesFst.ifast_loaded_row flat_table_1 impulse_row2_128 1)
        (AndesFst.ifast_loaded_row flat_table_1 impulse_row2_128 2)
        (AndesFst.ifast_loaded_row flat_table_1 impulse_row2_128 3)
        (AndesFst.ifast_loaded_row flat_table_1 impulse_row2_128 4)
        (AndesFst.ifast_loaded_row flat_table_1 impulse_row2_128 5)
        (AndesFst.ifast_loaded_row flat_table_1 impulse_row2_128 6)
        (AndesFst.ifast_loaded_row flat_table_1 impulse_row2_128 7) ∧
    AndesFst.ifast_pass1_rows_of Vxrm.rnu flat_table_1 impulse_row2_128 2 0 = -53 ∧
    AndesFst.ifast_pass1_rows_of Vxrm.rnu flat_table_1 impulse_row2_128 3 0 = -128 ∧
    AndesFst.ifast_rows_all Vxrm.rnu flat_table_1 impulse_row2_128 (8 * 3 + 0) = -53 ∧
    AndesFst.ifast_workspace (AndesFst.ifast_rows_all Vxrm.rnu flat_table_1 impulse_row2_128)
      (8 * 0 + 3) = -53 := by
  refine ⟨?_, ?_, by decide!, by decide!, by decide!, by decide!⟩
  · intro vxrm quantptr row0 row1 row2 row3 row4 row5 row6 row7
    have h := fun (i : Nat) (hi : i < 8) =>
      AndesFst.ifast_combine_lane
        (AndesFst.ifast_pass1_rows vxrm quantptr row0 row1 row2 row3 row4 row5 row6 row7)
        (show 3 < 8 by omega) hi
    simp only [↓reduceIte] at h
    simp only [AndesFst.ifast_rows_all_full_by_stages, List.range, List.range.loop, List.map,
      h 0 (by omega), h 1 (by omega), h 2 (by omega), h 3 (by omega), h 4 (by omega),
      h 5 (by omega), h 6 (by omega), h 7 (by omega)]
  · unfold AndesFst.ifast_rows_all
    simp only []
    rw [if_neg (by decide!)]
    rfl

/-! ## Input footprint of the 2x2 kernel -/

namespace AndesRed

/-- Lanes `j` and `8 + j` of the pass-1 vector of the 2x2 kernel, for a column
`j` among 0, 1, 3, 5, 7, are determined by the entries of column `j` in rows
0, 1, 3, 5, 7. -/
theorem idct_2x2_rows_footprint {q q1 coef coef1 : Nat → Int} (hq : agree_on_2x2 q q1)
    (hc : agree_on_2x2 coef coef1) {b j : Nat} (hb : b < 2) (hj : j < 8) (hu : used_2x2 j) :
    idct_2x2_rows q coef (j + 8 * b) = idct_2x2_rows q1 coef1 (j + 8 * b) := by
  have c0 := hc 0 (by omega) j hj (by decide) hu
  have c1 := hc 1 (by omega) j hj (by decide) hu
  have c3 := hc 3 (by omega) j hj (by decide) hu
  have c5 := hc 5 (by omega) j hj (by decide) hu
  have c7 := hc 7 (by omega) j hj (by decide) hu
  have q0 := hq 0 (by omega) j hj (by decide) hu
  have q1 := hq 1 (by omega) j hj (by decide) hu
  have q3 := hq 3 (by omega) j hj (by decide) hu
  have q5 := hq 5 (by omega) j hj (by decide) hu
  have q7 := hq 7 (by omega) j hj (by decide) hu
  simp only [Nat.reduceMul, Nat.zero_add] at c0 c1 c3 c5 c7 q0 q1 q3 q5 q7
  interval_cases b <;>
  simp (disch := omega) only [idct_2x2_rows, vslideup_vx_lo, vslideup_vx_hi, vlmul_ext_lane,
    vnsra_wx_i16_lane, vadd_vx_i32_lane, vadd_vv_i32_lane, vsub_vv_i32_lane, vwmacc_vx_i32_lane,
    vwmul_vx_i32_lane, vsll_vx_i32_lane, vmul_vv_i16_lane, vle16_v_i16_lane,
    Nat.reduceSubDiff, Nat.add_sub_cancel, Nat.reduceMul, Nat.add_zero, Nat.zero_add, DCTSIZE,
    c0, c1, c3, c5, c7, q0, q1, q3, q5, q7]

/-- The second half of the 2x2 kernel reads its argument through the gather of
ten lanes only. -/
theorem idct_2x2_pass2_congr (vxrm : Vxrm) {w w1 : Vec}
    (h : ∀ b < 2, ∀ j < 8, used_2x2 j → w (j + 8 * b) = w1 (j + 8 * b)) :
    idct_2x2_pass2 vxrm w = idct_2x2_pass2 vxrm w1 := by
  have hg : vrgather_vv w (vzext_vf2 (vle8_v_u8 trans_index_tab_u8 16) 10) 10 =
      vrgather_vv w1 (vzext_vf2 (vle8_v_u8 trans_index_tab_u8 16) 10) 10 := by
    funext i
    by_cases hi : i < 10
    · interval_cases i
      · exact h 0 (by omega) 0 (by omega) (by decide)
      · exact h 1 (by omega) 0 (by omega) (by decide)
      · exact h 0 (by omega) 1 (by omega) (by decide)
      · exact h 1 (by omega) 1 (by omega) (by decide)
      · exact h 0 (by omega) 3 (by omega) (by decide)
      · exact h 1 (by omega) 3 (by omega) (by decide)
      · exact h 0 (by omega) 5 (by omega) (by decide)
      · exact h 1 (by omega) 5 (by omega) (by decide)
      · exact h 0 (by omega) 7 (by omega) (by decide)
      · exact h 1 (by omega) 7 (by omega) (by decide)
    · simp only [vrgather_vv, hi, ↓reduceIte]
  simp only [idct_2x2_pass2, hg]

theorem jsimd_idct_2x2_rvv_footprint (vxrm : Vxrm) {q q1 coef coef1 : Nat → Int}
    (hq : agree_on_2x2 q q1) (hc : agree_on_2x2 coef coef1) :
    jsimd_idct_2x2_rvv vxrm q coef = jsimd_idct_2x2_rvv vxrm q1 coef1 := by
  unfold jsimd_idct_2x2_rvv
  exact idct_2x2_pass2_congr vxrm
    (fun b hb j hj hu => idct_2x2_rows_footprint hq hc hb hj hu)

end AndesRed

/-- C27. Input footprint of the 2x2 IDCT: two inputs (coefficient block,
quantization table) that agree at every position whose row and column are
both among 0, 1, 3, 5, 7 give the same result of `jsimd_idct_2x2_rvv`, under
every rounding mode: the same four stored samples (output rows 0 and 1, two
samples each). -/
theorem C27_idct_2x2_input_footprint (vxrm : Vxrm) (dct_table dct_table1 : Nat → Int)
    (coef_block coef_block1 : Nat → Int) (hq : agree_on_2x2 dct_table dct_table1)
    (hc : agree_on_2x2 coef_block coef_block1) :
    AndesRed.jsimd_idct_2x2_rvv vxrm dct_table coef_block =
      AndesRed.jsimd_idct_2x2_rvv vxrm dct_table1 coef_block1 ∧
    ∀ r < 2, ∀ c < 2,
      AndesRed.jsimd_idct_2x2_rvv vxrm dct_table coef_block r c =
        AndesRed.jsimd_idct_2x2_rvv vxrm dct_table1 coef_block1 r c := by
  have h := AndesRed.jsimd_idct_2x2_rvv_footprint vxrm hq hc
  exact ⟨h, fun r _ c _ => by rw [h]⟩

/-- Witness: the test block and the flat table against copies whose rows and
columns 2, 4, 6 are overwritten. -/
theorem C27_idct_2x2_input_footprint_witness :
    agree_on_2x2 flat_table_16 flat_table_16_off_2x2 ∧
    agree_on_2x2 sample_block sample_block_off_2x2 ∧
    (AndesRed.jsimd_idct_2x2_rvv Vxrm.rnu flat_table_16 sample_block =
      AndesRed.jsimd_idct_2x2_rvv Vxrm.rnu flat_table_16_off_2x2 sample_block_off_2x2 ∧
    ∀ r < 2, ∀ c < 2,
      AndesRed.jsimd_idct_2x2_rvv Vxrm.rnu flat_table_16 sample_block r c =
        AndesRed.jsimd_idct_2x2_rvv Vxrm.rnu flat_table_16_off_2x2 sample_block_off_2x2 r c) :=
  ⟨by decide!, by decide!,
    C27_idct_2x2_input_footprint Vxrm.rnu flat_table_16 flat_table_16_off_2x2 sample_block
      sample_block_off_2x2 (by decide!) (by decide!)⟩

/-! ## Input footprint of the 4x4 kernel -/

/-- A coefficient whose 16-bit pattern is zero dequantizes to zero. -/
theorem wrap16_mul_of_bits_zero {x : Int} (h : toBits16 x = 0) (y : Int) :
    wrap16 (x * y) = 0 := by
  have hx : x % 65536 = 0 := by unfold toBits16 at h; omega
  obtain ⟨k, rfl⟩ := Int.dvd_of_emod_eq_zero hx
  rw [mul_assoc]
  generalize k * y = m
  unfold wrap16; omega

namespace AndesRed

/-- The shortcut branch is taken exactly when the 16-bit patterns of rows
1, 2, 3, 5, 6, 7 are all zero. -/
theorem idct_4x4_rows_of_bits_zero (q coef : Nat → Int) (hz : ac_bits_zero_4x4 coef) :
    idct_4x4_rows q coef =
      idct_4x4_rows_shortcut
        (vmul_vv_i16 (vle16_v_i16 coef (0 * DCTSIZE) 8) (vle16_v_i16 q (0 * DCTSIZE) 8) 8) := by
  unfold idct_4x4_rows
  simp only []
  rw [if_pos]
  rw [vredor_zero_iff]
  intro k hk
  have e := fun r h8 h1 h4 => hz r h8 k hk h1 h4
  simp only [Nat.reduceMul] at e
  simp (disch := omega) only [toBits16_vor, vle16_v_i16_lane, DCTSIZE, Nat.reduceMul,
    e 1 (by omega) (by omega) (by omega), e 2 (by omega) (by omega) (by omega),
    e 3 (by omega) (by omega) (by omega), e 5 (by omega) (by omega) (by omega),
    e 6 (by omega) (by omega) (by omega), e 7 (by omega) (by omega) (by omega)]
  decide

theorem idct_4x4_rows_of_bits_nonzero (q coef : Nat → Int) (hnz : ¬ ac_bits_zero_4x4 coef) :
    idct_4x4_rows q coef =
      idct_4x4_rows_full q
        (vmul_vv_i16 (vle16_v_i16 coef (0 * DCTSIZE) 8) (vle16_v_i16 q (0 * DCTSIZE) 8) 8)
        (vle16_v_i16 coef (1 * DCTSIZE) 8) (vle16_v_i16 coef (2 * DCTSIZE) 8)
        (vle16_v_i16 coef (3 * DCTSIZE) 8) (vle16_v_i16 coef (5 * DCTSIZE) 8)
        (vle16_v_i16 coef (6 * DCTSIZE) 8) (vle16_v_i16 coef (7 * DCTSIZE) 8) := by
  unfold idct_4x4_rows
  simp only []
  rw [if_neg]
  intro hcond
  apply hnz
  rw [vredor_zero_iff] at hcond
  intro r hr8 c hc hr1 hr4
  have h := hcond c hc
  simp (disch := omega) only [toBits16_vor, vle16_v_i16_lane, DCTSIZE, Nat.reduceMul,
    nat_or_eq_zero] at h
  obtain ⟨⟨⟨⟨⟨h7, h6⟩, h5⟩, h3⟩, h2⟩, h1⟩ := h
  have hr : r = 1 ∨ r = 2 ∨ r = 3 ∨ r = 5 ∨ r = 6 ∨ r = 7 := by omega
  rcases hr with rfl | rfl | rfl | rfl | rfl | rfl
  · exact h1
  · exact h2
  · exact h3
  · exact h5
  · exact h6
  · exact h7

/-- In a column whose entries in rows 1, 2, 3, 5, 6, 7 have zero bit patterns
the full pass-1 branch produces the shifted row 0 in each of its four blocks,
whatever the other columns hold. -/
theorem idct_4x4_rows_full_zero_col_lane (q coef : Nat → Int) (row0 : Vec) {b j : Nat}
    (hb : b < 4) (hj : j < 8)
    (hz : ∀ r < 8, 1 ≤ r → r ≠ 4 → toBits16 (coef (8 * r + j)) = 0) :
    idct_4x4_rows_full q row0 (vle16_v_i16 coef (1 * DCTSIZE) 8)
      (vle16_v_i16 coef (2 * DCTSIZE) 8) (vle16_v_i16 coef (3 * DCTSIZE) 8)
      (vle16_v_i16 coef (5 * DCTSIZE) 8) (vle16_v_i16 coef (6 * DCTSIZE) 8)
      (vle16_v_i16 coef (7 * DCTSIZE) 8) (j + 8 * b) = wrap16 (row0 j * 4) := by
  have z1 := wrap16_mul_of_bits_zero (hz 1 (by omega) (by omega) (by omega)) (q (8 + j))
  have z2 := wrap16_mul_of_bits_zero (hz 2 (by omega) (by omega) (by omega)) (q (16 + j))
  have z3 := wrap16_mul_of_bits_zero (hz 3 (by omega) (by omega) (by omega)) (q (24 + j))
  have z5 := wrap16_mul_of_bits_zero (hz 5 (by omega) (by omega) (by omega)) (q (40 + j))
  have z6 := wrap16_mul_of_bits_zero (hz 6 (by omega) (by omega) (by omega)) (q (48 + j))
  have z7 := wrap16_mul_of_bits_zero (hz 7 (by omega) (by omega) (by omega)) (q (56 + j))
  simp only [Nat.reduceMul] at z1 z2 z3 z5 z6 z7
  interval_cases b <;>
  simp (disch := omega) only [idct_4x4_rows_full, vslideup_vx_lo, vslideup_vx_hi, vlmul_ext_lane,
    vnsra_wx_i16_lane, vadd_vx_i32_lane, vadd_vv_i32_lane, vsub_vv_i32_lane, vwmacc_vx_i32_lane,
    vwmul_vx_i32_lane, vmul_vv_i16_lane, vle16_v_i16_lane,
    Nat.reduceSubDiff, Nat.add_sub_cancel, Nat.reduceMul, Nat.add_zero, Nat.zero_add, DCTSIZE,
    CONST_BITS, PASS1_BITS, Nat.reduceSub, Nat.reduceAdd, Nat.reduceMod,
    z1, z2, z3, z5, z6, z7, zero_mul, mul_zero, wrap16_zero, add_zero, sub_zero,
    wrap32_add_left, wrap32_add_right, wrap32_sub_left, wrap32_sub_right, Int.reducePow] <;>
  (generalize row0 j = d
   unfold wrap16 wrap32
   omega)

/-- Lane `j` of each block of the full pass-1 branch is determined by the
entries of column `j` in the rows other than 4. -/
theorem idct_4x4_rows_full_footprint {q q1 coef coef1 : Nat → Int} {b j : Nat}
    (hb : b < 4) (hj : j < 8)
    (hq : ∀ r < 8, r ≠ 4 → q (8 * r + j) = q1 (8 * r + j))
    (hc : ∀ r < 8, r ≠ 4 → coef (8 * r + j) = coef1 (8 * r + j)) :
    idct_4x4_rows_full q
        (vmul_vv_i16 (vle16_v_i16 coef (0 * DCTSIZE) 8) (vle16_v_i16 q (0 * DCTSIZE) 8) 8)
        (vle16_v_i16 coef (1 * DCTSIZE) 8) (vle16_v_i16 coef (2 * DCTSIZE) 8)
        (vle16_v_i16 coef (3 * DCTSIZE) 8) (vle16_v_i16 coef (5 * DCTSIZE) 8)
        (vle16_v_i16 coef (6 * DCTSIZE) 8) (vle16_v_i16 coef (7 * DCTSIZE) 8) (j + 8 * b) =
      idct_4x4_rows_full q1
        (vmul_vv_i16 (vle16_v_i16 coef1 (0 * DCTSIZE) 8) (vle16_v_i16 q1 (0 * DCTSIZE) 8) 8)
        (vle16_v_i16 coef1 (1 * DCTSIZE) 8) (vle16_v_i16 coef1 (2 * DCTSIZE) 8)
        (vle16_v_i16 coef1 (3 * DCTSIZE) 8) (vle16_v_i16 coef1 (5 * DCTSIZE) 8)
        (vle16_v_i16 coef1 (6 * DCTSIZE) 8) (vle16_v_i16 coef1 (7 * DCTSIZE) 8) (j + 8 * b) := by
  have c0 := hc 0 (by omega) (by omega)
  have c1 := hc 1 (by omega) (by omega)
  have c2 := hc 2 (by omega) (by omega)
  have c3 := hc 3 (by omega) (by omega)
  have c5 := hc 5 (by omega) (by omega)
  have c6 := hc 6 (by omega) (by omega)
  have c7 := hc 7 (by omega) (by omega)
  have q0 := hq 0 (by omega) (by omega)
  have q1 := hq 1 (by omega) (by omega)
  have q2 := hq 2 (by omega) (by omega)
  have q3 := hq 3 (by omega) (by omega)
  have q5 := hq 5 (by omega) (by omega)
  have q6 := hq 6 (by omega) (by omega)
  have q7 := hq 7 (by omega) (by omega)
  simp only [Nat.reduceMul, Nat.zero_add] at c0 c1 c2 c3 c5 c6 c7 q0 q1 q2 q3 q5 q6 q7
  interval_cases b <;>
  simp (disch := omega) only [idct_4x4_rows_full, vslideup_vx_lo, vslideup_vx_hi, vlmul_ext_lane,
    vnsra_wx_i16_lane, vadd_vx_i32_lane, vadd_vv_i32_lane, vsub_vv_i32_lane, vwmacc_vx_i32_lane,
    vwmul_vx_i32_lane, vmul_vv_i16_lane, vle16_v_i16_lane,
    Nat.reduceSubDiff, Nat.add_sub_cancel, Nat.reduceMul, Nat.add_zero, Nat.zero_add, DCTSIZE,
    c0, c1, c2, c3, c5, c6, c7, q0, q1, q2, q3, q5, q6, q7]

/-- Lane `j` of each block of the vector handed to the second pass, for a
column `j` other than 4, is the same for two inputs that agree outside row 4
and column 4, whichever branches the two inputs take. -/
theorem idct_4x4_rows_footprint {q q1 coef coef1 : Nat → Int} (hq : agree_on_4x4 q q1)
    (hc : agree_on_4x4 coef coef1) {b j : Nat} (hb : b < 4) (hj : j < 8) (hu : used_4x4 j) :
    idct_4x4_rows q coef (j + 8 * b) = idct_4x4_rows q1 coef1 (j + 8 * b) := by
  have hqj : ∀ r < 8, r ≠ 4 → q (8 * r + j) = q1 (8 * r + j) :=
    fun r hr h4 => hq r hr j hj h4 hu
  have hcj : ∀ r < 8, r ≠ 4 → coef (8 * r + j) = coef1 (8 * r + j) :=
    fun r hr h4 => hc r hr j hj h4 hu
  have hrow0 : vmul_vv_i16 (vle16_v_i16 coef (0 * DCTSIZE) 8) (vle16_v_i16 q (0 * DCTSIZE) 8) 8 j =
      vmul_vv_i16 (vle16_v_i16 coef1 (0 * DCTSIZE) 8) (vle16_v_i16 q1 (0 * DCTSIZE) 8) 8 j := by
    have c0 := hcj 0 (by omega) (by omega)
    have q0 := hqj 0 (by omega) (by omega)
    simp only [Nat.reduceMul, Nat.zero_add] at c0 q0
    simp (disch := omega) only [vmul_vv_i16_lane, vle16_v_i16_lane, DCTSIZE, Nat.reduceMul,
      Nat.zero_add, c0, q0]
  by_cases hz : ac_bits_zero_4x4 coef <;> by_cases hz1 : ac_bits_zero_4x4 coef1
  · rw [idct_4x4_rows_of_bits_zero q coef hz, idct_4x4_rows_of_bits_zero q1 coef1 hz1,
      idct_4x4_rows_shortcut_lane _ hb hj, idct_4x4_rows_shortcut_lane _ hb hj, hrow0]
  · rw [idct_4x4_rows_of_bits_zero q coef hz, idct_4x4_rows_of_bits_nonzero q1 coef1 hz1,
      idct_4x4_rows_shortcut_lane _ hb hj,
      idct_4x4_rows_full_zero_col_lane q1 coef1 _ hb hj
        (fun r hr h1 h4 => by rw [← hcj r hr h4]; exact hz r hr j hj h1 h4), hrow0]
  · rw [idct_4x4_rows_of_bits_nonzero q coef hz, idct_4x4_rows_of_bits_zero q1 coef1 hz1,
      idct_4x4_rows_shortcut_lane _ hb hj,
      idct_4x4_rows_full_zero_col_lane q coef _ hb hj
        (fun r hr h1 h4 => by rw [hcj r hr h4]; exact hz1 r hr j hj h1 h4), hrow0]
  · rw [idct_4x4_rows_of_bits_nonzero q coef hz, idct_4x4_rows_of_bits_nonzero q1 coef1 hz1]
    exact idct_4x4_rows_full_footprint hb hj hqj hcj

/-- The second half of the 4x4 kernel reads its argument through the gather of
28 lanes only: columns 0, 1, 2, 3, 5, 6, 7 of the four blocks. -/
theorem idct_4x4_pass2_congr (vxrm : Vxrm) {w w1 : Vec}
    (h : ∀ b < 4, ∀ j < 8, used_4x4 j → w (j + 8 * b) = w1 (j + 8 * b)) :
    idct_4x4_pass2 vxrm w = idct_4x4_pass2 vxrm w1 := by
  have hg : vrgather_vv w (vzext_vf2 (vle8_v_u8 trans_index_4x4_u8 TRANS_TABLE_U8_SIZE) 28) 28 =
      vrgather_vv w1 (vzext_vf2 (vle8_v_u8 trans_index_4x4_u8 TRANS_TABLE_U8_SIZE) 28) 28 := by
    funext i
    by_cases hi : i < 28
    · have hl : vrgather_vv w (vzext_vf2 (vle8_v_u8 trans_index_4x4_u8 TRANS_TABLE_U8_SIZE) 28) 28 i
          = w ((trans_index_4x4_u8 i).toNat) := by
        interval_cases i <;> rfl
      have hr : vrgather_vv w1 (vzext_vf2 (vle8_v_u8 trans_index_4x4_u8 TRANS_TABLE_U8_SIZE) 28) 28 i
          = w1 ((trans_index_4x4_u8 i).toNat) := by
        interval_cases i <;> rfl
      rw [hl, hr]
      have hidx : (trans_index_4x4_u8 i).toNat / 8 < 4 ∧
          used_4x4 ((trans_index_4x4_u8 i).toNat % 8) := by
        interval_cases i <;> decide
      generalize (trans_index_4x4_u8 i).toNat = n at hidx ⊢
      have e : n = n % 8 + 8 * (n / 8) := by omega
      rw [e]
      exact h _ hidx.1 _ (Nat.mod_lt _ (by omega)) hidx.2
    · simp only [vrgather_vv, hi, ↓reduceIte]
  simp only [idct_4x4_pass2, hg]

theorem jsimd_idct_4x4_rvv_footprint (vxrm : Vxrm) {q q1 coef coef1 : Nat → Int}
    (hq : agree_on_4x4 q q1) (hc : agree_on_4x4 coef coef1) :
    jsimd_idct_4x4_rvv vxrm q coef = jsimd_idct_4x4_rvv vxrm q1 coef1 := by
  unfold jsimd_idct_4x4_rvv
  exact idct_4x4_pass2_congr vxrm
    (fun b hb j hj hu => idct_4x4_rows_footprint hq hc hb hj hu)

/-- The two inputs of the example below take different branches of the AC
test, and the vectors handed to the second pass differ in column 4. -/
theorem idct_4x4_branches_differ_example :
    ac_bits_zero_4x4 dc_block_100 ∧ ¬ ac_bits_zero_4x4 dc_block_100_col4 ∧
    idct_4x4_rows flat_table_16 dc_block_100 4 = 0 ∧
    idct_4x4_rows flat_table_16_off_4x4 dc_block_100_col4 4 ≠ 0 := by
  refine ⟨by decide!, by decide!, by decide!, by decide!⟩

end AndesRed

/-- C28. Input footprint of the 4x4 IDCT: two inputs (coefficient block,
quantization table) that agree at every position whose row and column both
differ from 4 give the same result of `jsimd_idct_4x4_rvv`, under every
rounding mode: the same sixteen stored samples. No assumption is made on the
branch of the all-AC-zero test either input takes. -/
theorem C28_idct_4x4_input_footprint (vxrm : Vxrm) (dct_table dct_table1 : Nat → Int)
    (coef_block coef_block1 : Nat → Int) (hq : agree_on_4x4 dct_table dct_table1)
    (hc : agree_on_4x4 coef_block coef_block1) :
    AndesRed.jsimd_idct_4x4_rvv vxrm dct_table coef_block =
      AndesRed.jsimd_idct_4x4_rvv vxrm dct_table1 coef_block1 ∧
    ∀ r < 4, ∀ c < 4,
      AndesRed.jsimd_idct_4x4_rvv vxrm dct_table coef_block r c =
        AndesRed.jsimd_idct_4x4_rvv vxrm dct_table1 coef_block1 r c := by
  have h := AndesRed.jsimd_idct_4x4_rvv_footprint vxrm hq hc
  exact ⟨h, fun r _ c _ => by rw [h]⟩

/-- Witness: a DC-only block (shortcut branch) against the same block with a
coefficient in column 4 of row 1 (full branch), and the flat table against a
copy whose row 4 and column 4 are overwritten. -/
theorem C28_idct_4x4_input_footprint_witness :
    agree_on_4x4 flat_table_16 flat_table_16_off_4x4 ∧
    agree_on_4x4 dc_block_100 dc_block_100_col4 ∧
    (AndesRed.jsimd_idct_4x4_rvv Vxrm.rnu flat_table_16 dc_block_100 =
      AndesRed.jsimd_idct_4x4_rvv Vxrm.rnu flat_table_16_off_4x4 dc_block_100_col4 ∧
    ∀ r < 4, ∀ c < 4,
      AndesRed.jsimd_idct_4x4_rvv Vxrm.rnu flat_table_16 dc_block_100 r c =
        AndesRed.jsimd_idct_4x4_rvv Vxrm.rnu flat_table_16_off_4x4 dc_block_100_col4 r c) :=
  ⟨by decide!, by decide!,
    C28_idct_4x4_input_footprint Vxrm.rnu flat_table_16 flat_table_16_off_4x4 dc_block_100
      dc_block_100_col4 (by decide!) (by decide!)⟩

/-! ## The merged kernel on an odd width -/

namespace DMrgExt

/-- The pair count the loop computes when an odd number of pixels is left:
`m` pairs and one pixel give `m`. -/
theorem odd_rest_avl (lay : Layout) (hps : 0 < lay.RGB_PIXELSIZE) (m : Nat) :
    ((((m * (2 * lay.RGB_PIXELSIZE) + lay.RGB_PIXELSIZE : Nat) : Int)) / lay.RGB_PIXELSIZE /
      2).toNat = m := by
  have e : (((m * (2 * lay.RGB_PIXELSIZE) + lay.RGB_PIXELSIZE : Nat) : Int)) =
      (((2 * m + 1 : Nat) : Int)) * (lay.RGB_PIXELSIZE : Int) := by
    push_cast; ring
  rw [e, Int.mul_ediv_cancel _ (by exact_mod_cast (Nat.pos_iff_ne_zero.mp hps))]
  have e2 : (((2 * m + 1 : Nat) : Int)) / 2 = (m : Int) := by
    push_cast; omega
  rw [e2]
  exact Int.toNat_natCast _

/-- With `m` pixel pairs and one further pixel left, the loop never ends: each
iteration leaves an odd number of pixels, and once `m` reaches 0 the granted
vector length is 0 and `num_cols` stays at `RGB_PIXELSIZE`. -/
theorem h2v1_cols_odd_never_ends (lay : Layout) (c : DColExt.Consts) (VLMAX : Nat)
    (in0 in1 in2 : Nat → Int) (alpha_v : Vec) (hps : 0 < lay.RGB_PIXELSIZE) :
    ∀ (fuel : Nat) (s : ColState) (m : Nat),
      s.num_cols = ((m * (2 * lay.RGB_PIXELSIZE) + lay.RGB_PIXELSIZE : Nat) : Int) →
      m * (2 * lay.RGB_PIXELSIZE) + lay.RGB_PIXELSIZE < 2 ^ 31 →
      h2v1_cols lay c VLMAX in0 in1 in2 alpha_v fuel s = none := by
  intro fuel
  induction fuel with
  | zero => intro s m _ _; rfl
  | succ fuel ih =>
    intro s m hnc hfit
    have hpos : 0 < s.num_cols := by
      rw [hnc]
      exact_mod_cast (by omega : 0 < m * (2 * lay.RGB_PIXELSIZE) + lay.RGB_PIXELSIZE)
    obtain ⟨_, _, _, _, e5⟩ := h2v1_cols_body_vars lay c VLMAX in0 in1 in2 alpha_v s
    rw [hnc, odd_rest_avl lay hps m] at e5
    generalize hvl : vsetvl_e16m2 VLMAX m = vl at e5
    have hvl2 : vl ≤ m := by rw [← hvl]; exact vsetvl_e16m2_le_avl _ _
    generalize hs1 : h2v1_cols_body lay c VLMAX in0 in1 in2 alpha_v s = s1 at e5
    have hsplit : m * (2 * lay.RGB_PIXELSIZE) + lay.RGB_PIXELSIZE =
        ((m - vl) * (2 * lay.RGB_PIXELSIZE) + lay.RGB_PIXELSIZE) +
          2 * (vl * lay.RGB_PIXELSIZE) := by
      have : m = (m - vl) + vl := by omega
      nth_rewrite 1 [this]; ring
    have hle : (m - vl) * (2 * lay.RGB_PIXELSIZE) ≤ m * (2 * lay.RGB_PIXELSIZE) :=
      Nat.mul_le_mul_right _ (Nat.sub_le _ _)
    have hnc1 : s1.num_cols =
        (((m - vl) * (2 * lay.RGB_PIXELSIZE) + lay.RGB_PIXELSIZE : Nat) : Int) := by
      rw [e5, hsplit]
      push_cast
      rw [add_sub_cancel_right]
      have hb : ((m - vl : Nat) : Int) * (2 * (lay.RGB_PIXELSIZE : Int)) +
          (lay.RGB_PIXELSIZE : Int) < 2147483648 := by
        have : (m - vl) * (2 * lay.RGB_PIXELSIZE) + lay.RGB_PIXELSIZE < 2147483648 := by omega
        exact_mod_cast this
      have hb0 : (0 : Int) ≤ ((m - vl : Nat) : Int) * (2 * (lay.RGB_PIXELSIZE : Int)) +
          (lay.RGB_PIXELSIZE : Int) := by
        positivity
      generalize ((m - vl : Nat) : Int) * (2 * (lay.RGB_PIXELSIZE : Int)) +
        (lay.RGB_PIXELSIZE : Int) = x at hb hb0 ⊢
      unfold wrap32
      omega
    simp only [h2v1_cols, gt_iff_lt, hpos, ↓reduceIte, hs1]
    exact ih s1 (m - vl) hnc1 (by omega)

/-- For every odd `output_width` whose pitch fits a positive `int`, every
layout, every `VLMAX` and every input, `jsimd_h2v1_merged_upsample_rvv` does
not return, however many tests of the loop condition are allowed. -/
theorem h2v1_merged_odd_never_returns (lay : Layout) (c : DColExt.Consts) (VLMAX fuel : Nat)
    (output_width : Nat) (input_buf : Nat → Nat → Nat → Int) (in_row_group_ctr : Nat)
    (output_buf : Nat → Nat → Int) (hps : 0 < lay.RGB_PIXELSIZE)
    (hodd : output_width % 2 = 1) (hfit : output_width * lay.RGB_PIXELSIZE < 2 ^ 31) :
    jsimd_h2v1_merged_upsample_rvv lay c VLMAX fuel output_width input_buf in_row_group_ctr
      output_buf = none := by
  have hw : output_width * lay.RGB_PIXELSIZE =
      (output_width / 2) * (2 * lay.RGB_PIXELSIZE) + lay.RGB_PIXELSIZE := by
    have : output_width = 2 * (output_width / 2) + 1 := by omega
    nth_rewrite 1 [this]; ring
  have hpitch : wrap32 ((output_width * lay.RGB_PIXELSIZE % 2 ^ 32 : Nat) : Int) =
      (((output_width / 2) * (2 * lay.RGB_PIXELSIZE) + lay.RGB_PIXELSIZE : Nat) : Int) := by
    have hm : output_width * lay.RGB_PIXELSIZE % 2 ^ 32 = output_width * lay.RGB_PIXELSIZE :=
      Nat.mod_eq_of_lt (by omega)
    rw [hm, ← hw]
    have hb : ((output_width * lay.RGB_PIXELSIZE : Nat) : Int) < 2147483648 := by
      exact_mod_cast hfit
    have hb0 : (0 : Int) ≤ ((output_width * lay.RGB_PIXELSIZE : Nat) : Int) := by positivity
    generalize ((output_width * lay.RGB_PIXELSIZE : Nat) : Int) = x at hb hb0 ⊢
    unfold wrap32
    omega
  have hfit2 : (output_width / 2) * (2 * lay.RGB_PIXELSIZE) + lay.RGB_PIXELSIZE < 2 ^ 31 := by
    rw [← hw]; exact hfit
  have hnone := h2v1_cols_odd_never_ends lay c VLMAX (input_buf 0 in_row_group_ctr)
    (input_buf 1 in_row_group_ctr) (input_buf 2 in_row_group_ctr)
    (vlse8_v_u8 (fun _ => 0xFF) 0 (vsetvl_e16m2 VLMAX (output_width / 2))) hps fuel
    { outptr := 0, inptr0 := 0, inptr1 := 0, inptr2 := 0,
      num_cols := wrap32 ((output_width * lay.RGB_PIXELSIZE % 2 ^ 32 : Nat) : Int),
      row := output_buf 0 } (output_width / 2) hpitch hfit2
  unfold jsimd_h2v1_merged_upsample_rvv
  simp only [hnone, Option.map_none']

end DMrgExt

/-- C23, code defect. On an odd `output_width` the column loop of
`jsimd_h2v1_merged_upsample_rvv` does not end: when one pixel is left,
`num_cols / RGB_PIXELSIZE / 2` is 0, the granted vector length is 0 and
`num_cols -= 2 * cols` subtracts 0 (the source marks the odd width as a TODO).
Widths 1 and 5 with three samples per pixel: no number of loop tests gives a
result, for every `VLMAX`, all constants and all inputs; width 4 returns after
two tests with `VLMAX = 8`. -/
theorem C23_merged_odd_width_never_ends :
    (∀ (c : DColExt.Consts) (VLMAX fuel : Nat) (input_buf : Nat → Nat → Nat → Int)
        (in_row_group_ctr : Nat) (output_buf : Nat → Nat → Int),
      DMrgExt.jsimd_h2v1_merged_upsample_rvv ext_rgb c VLMAX fuel 1 input_buf in_row_group_ctr
          output_buf = none ∧
      DMrgExt.jsimd_h2v1_merged_upsample_rvv ext_rgb c VLMAX fuel 5 input_buf in_row_group_ctr
          output_buf = none) ∧
    (DMrgExt.jsimd_h2v1_merged_upsample_rvv ext_rgb bt601_inverse 8 2 4 (solid_planes 200 128 128)
      0 blank_rows).isSome = true := by
  refine ⟨fun c VLMAX fuel input_buf ctr output_buf => ⟨?_, ?_⟩, by decide!⟩
  · exact DMrgExt.h2v1_merged_odd_never_returns ext_rgb c VLMAX fuel 1 input_buf ctr output_buf
      (by decide) (by decide) (by norm_num [ext_rgb])
  · exact DMrgExt.h2v1_merged_odd_never_returns ext_rgb c VLMAX fuel 5 input_buf ctr output_buf
      (by decide) (by decide) (by norm_num [ext_rgb])

/-! ## Access counts of the forward conversion -/

theorem count_vse8_in (n : Nat → Nat) (off vl : Nat) {p : Nat} (h1 : off ≤ p) (h2 : p < off + vl) :
    count_vse8 n off vl p = n p + 1 := by
  simp only [count_vse8, h1, h2, and_self, ↓reduceIte]

theorem count_vse8_out (n : Nat → Nat) (off vl : Nat) {p : Nat} (h : p < off ∨ off + vl ≤ p) :
    count_vse8 n off vl p = n p := by
  have : ¬ (off ≤ p ∧ p < off + vl) := by omega
  simp only [count_vse8, this, ↓reduceIte]

/-- A strided load of `vl` lanes from `off + x` with `x < bstride` touches no
sample at or beyond `off + vl * bstride`. -/
theorem count_vlse8_beyond (n : Nat → Nat) (off x bstride vl : Nat) (hx : x < bstride) {p : Nat}
    (hp : off + vl * bstride ≤ p) : count_vlse8 n (off + x) bstride vl p = n p := by
  have : ¬ (off + x ≤ p ∧ (p - (off + x)) % bstride = 0 ∧ (p - (off + x)) / bstride < vl) := by
    rintro ⟨h1, h2, h3⟩
    have hq := Nat.div_add_mod (p - (off + x)) bstride
    rw [h2, Nat.add_zero] at hq
    have h7 : ((p - (off + x)) / bstride + 1) * bstride ≤ vl * bstride :=
      Nat.mul_le_mul_right _ h3
    generalize (p - (off + x)) / bstride = i at hq h7
    have h8 : (i + 1) * bstride = bstride * i + bstride := by ring
    omega
  simp only [count_vlse8, this, ↓reduceIte]

namespace CColExt

/-- The state component of the traced loop is the loop itself. -/
theorem rgb_ycc_cols_traced_state (lay : Layout) (c : Consts) (VLMAX : Nat) (inrow : Nat → Int) :
    ∀ (fuel : Nat) (s : ColState) (f : Footprint),
      (rgb_ycc_cols_traced lay c VLMAX inrow fuel s f).map Prod.fst =
        rgb_ycc_cols lay c VLMAX inrow fuel s := by
  intro fuel
  induction fuel with
  | zero => intro s f; rfl
  | succ fuel ih =>
    intro s f
    by_cases h : s.num_cols > 0
    · simp only [rgb_ycc_cols_traced, rgb_ycc_cols, h, ↓reduceIte]
      exact ih _ _
    · simp only [rgb_ycc_cols_traced, rgb_ycc_cols, h, ↓reduceIte, Option.map_some']

/-- The traced column loop from a state `d` pixels into a row with `m` whole
pixels left, entered with every column below `d` written once in each output
row, no column from `d` on written and no input sample from `d * RGB_PIXELSIZE`
on read: with more fuel than pixels it ends, every column below `d + m` has
been written once, no column from `d + m` on has been written and no input
sample from `(d + m) * RGB_PIXELSIZE` on has been read. -/
theorem rgb_ycc_cols_traced_spec (lay : Layout) (c : Consts) (VLMAX : Nat) (inrow : Nat → Int)
    (hps : 0 < lay.RGB_PIXELSIZE) (hv : 0 < VLMAX) (hr : lay.RGB_RED < lay.RGB_PIXELSIZE)
    (hg : lay.RGB_GREEN < lay.RGB_PIXELSIZE) (hb : lay.RGB_BLUE < lay.RGB_PIXELSIZE) :
    ∀ (fuel m d : Nat) (s : ColState) (f : Footprint), m < fuel →
      s.inptr = d * lay.RGB_PIXELSIZE → s.outptr0 = d → s.outptr1 = d → s.outptr2 = d →
      s.num_cols = m * lay.RGB_PIXELSIZE →
      (∀ p, p < d → f.writes0 p = 1 ∧ f.writes1 p = 1 ∧ f.writes2 p = 1) →
      (∀ p, d ≤ p → f.writes0 p = 0 ∧ f.writes1 p = 0 ∧ f.writes2 p = 0) →
      (∀ p, d * lay.RGB_PIXELSIZE ≤ p → f.reads p = 0) →
      ∃ s2 f2, rgb_ycc_cols_traced lay c VLMAX inrow fuel s f = some (s2, f2) ∧
        (∀ p, p < d + m → f2.writes0 p = 1 ∧ f2.writes1 p = 1 ∧ f2.writes2 p = 1) ∧
        (∀ p, d + m ≤ p → f2.writes0 p = 0 ∧ f2.writes1 p = 0 ∧ f2.writes2 p = 0) ∧
        (∀ p, (d + m) * lay.RGB_PIXELSIZE ≤ p → f2.reads p = 0) := by
  intro fuel
  induction fuel with
  | zero => intro m d s f h; omega
  | succ fuel ih =>
    intro m d s f hm hin h0 h1 h2 hnc hw1 hw0 hrd
    rcases Nat.eq_zero_or_pos m with hm0 | hmpos
    · subst hm0
      have hz : s.num_cols = 0 := by rw [hnc]; simp
      refine ⟨s, f, ?_, ?_, ?_, ?_⟩
      · simp only [rgb_ycc_cols_traced, hz, gt_iff_lt, Nat.lt_irrefl, ↓reduceIte]
      · intro p hp; exact hw1 p (by omega)
      · intro p hp; exact hw0 p (by omega)
      · intro p hp; exact hrd p (by simpa using hp)
    · have hpos : 0 < s.num_cols := by rw [hnc]; exact Nat.mul_pos hmpos hps
      have hdiv : s.num_cols / lay.RGB_PIXELSIZE = m := by
        rw [hnc]; exact Nat.mul_div_cancel _ hps
      obtain ⟨e1, e2, e3, e4, e5⟩ := rgb_ycc_cols_body_vars lay c VLMAX inrow s
      have ea : rgb_ycc_cols_accesses lay VLMAX s f =
          { reads := count_vlse8 (count_vlse8 (count_vlse8 f.reads
              (d * lay.RGB_PIXELSIZE + lay.RGB_RED) lay.RGB_PIXELSIZE (vsetvl_e16m4 VLMAX m))
              (d * lay.RGB_PIXELSIZE + lay.RGB_GREEN) lay.RGB_PIXELSIZE (vsetvl_e16m4 VLMAX m))
              (d * lay.RGB_PIXELSIZE + lay.RGB_BLUE) lay.RGB_PIXELSIZE (vsetvl_e16m4 VLMAX m),
            writes0 := count_vse8 f.writes0 d (vsetvl_e16m4 VLMAX m),
            writes1 := count_vse8 f.writes1 d (vsetvl_e16m4 VLMAX m),
            writes2 := count_vse8 f.writes2 d (vsetvl_e16m4 VLMAX m) } := by
        simp only [rgb_ycc_cols_accesses, hdiv, hin, h0, h1, h2, Nat.mul_one]
      rw [hdiv] at e1 e2 e3 e4 e5
      generalize hvl : vsetvl_e16m4 VLMAX m = vl at e1 e2 e3 e4 e5 ea
      have hvl1 : 0 < vl := by rw [← hvl]; exact vsetvl_e16m4_pos hv hmpos
      have hvl2 : vl ≤ m := by rw [← hvl]; exact vsetvl_e16m4_le_avl _ _
      generalize hs1 : rgb_ycc_cols_body lay c VLMAX inrow s = s1 at e1 e2 e3 e4 e5
      generalize hf1 : rgb_ycc_cols_accesses lay VLMAX s f = f1 at ea
      obtain ⟨s2, f2, hs2, hw12, hw02, hrd2⟩ := ih (m - vl) (d + vl) s1 f1 (by omega)
        (by rw [e1, hin, Nat.add_mul]) (by rw [e2, h0]) (by rw [e3, h1]) (by rw [e4, h2])
        (by rw [e5, hnc, Nat.sub_mul])
        (fun p hp => by
          rw [ea]
          show count_vse8 f.writes0 d vl p = 1 ∧ count_vse8 f.writes1 d vl p = 1 ∧
            count_vse8 f.writes2 d vl p = 1
          by_cases hpd : p < d
          · rw [count_vse8_out _ _ _ (Or.inl hpd), count_vse8_out _ _ _ (Or.inl hpd),
              count_vse8_out _ _ _ (Or.inl hpd)]
            exact hw1 p hpd
          · rw [count_vse8_in _ _ _ (by omega) hp, count_vse8_in _ _ _ (by omega) hp,
              count_vse8_in _ _ _ (by omega) hp]
            obtain ⟨a0, a1, a2⟩ := hw0 p (by omega)
            rw [a0, a1, a2]
            exact ⟨rfl, rfl, rfl⟩)
        (fun p hp => by
          rw [ea]
          show count_vse8 f.writes0 d vl p = 0 ∧ count_vse8 f.writes1 d vl p = 0 ∧
            count_vse8 f.writes2 d vl p = 0
          rw [count_vse8_out _ _ _ (Or.inr hp), count_vse8_out _ _ _ (Or.inr hp),
            count_vse8_out _ _ _ (Or.inr hp)]
          exact hw0 p (by omega))
        (fun p hp => by
          rw [ea]
          show count_vlse8 (count_vlse8 (count_vlse8 f.reads
              (d * lay.RGB_PIXELSIZE + lay.RGB_RED) lay.RGB_PIXELSIZE vl)
              (d * lay.RGB_PIXELSIZE + lay.RGB_GREEN) lay.RGB_PIXELSIZE vl)
              (d * lay.RGB_PIXELSIZE + lay.RGB_BLUE) lay.RGB_PIXELSIZE vl p = 0
          have hp2 : d * lay.RGB_PIXELSIZE + vl * lay.RGB_PIXELSIZE ≤ p := by
            rw [← Nat.add_mul]; exact hp
          rw [count_vlse8_beyond _ _ _ _ _ hb hp2, count_vlse8_beyond _ _ _ _ _ hg hp2,
            count_vlse8_beyond _ _ _ _ _ hr hp2]
          exact hrd p (by omega))
      have hdm : d + vl + (m - vl) = d + m := by omega
      rw [hdm] at hw12 hw02 hrd2
      refine ⟨s2, f2, ?_, hw12, hw02, hrd2⟩
      simp only [rgb_ycc_cols_traced, gt_iff_lt, hpos, ↓reduceIte, hs1, hf1]
      exact hs2


/-- The record of accesses exists exactly when the kernel called with
`num_rows = 1` returns. -/
theorem rgb_ycc_convert_footprint_isSome (lay : Layout) (c : Consts) (VLMAX fuel : Nat)
    (img_width : Nat) (input_buf : Nat → Nat → Int) (output_buf : Nat → Nat → Nat → Int)
    (output_row : Nat) :
    (rgb_ycc_convert_footprint lay c VLMAX fuel img_width input_buf output_buf output_row).isSome =
      (jsimd_rgb_ycc_convert_rvv lay c VLMAX fuel img_width input_buf output_buf output_row
        1).isSome := by
  have h := rgb_ycc_cols_traced_state lay c VLMAX (input_buf 0) fuel
    { inptr := 0, outptr0 := 0, outptr1 := 0, outptr2 := 0,
      num_cols := img_width * lay.RGB_PIXELSIZE % 2 ^ 32,
      row0 := output_buf 0 output_row, row1 := output_buf 1 output_row,
      row2 := output_buf 2 output_row }
    { reads := fun _ => 0, writes0 := fun _ => 0, writes1 := fun _ => 0, writes2 := fun _ => 0 }
  have h1 : (1 : Int).toNat = 0 + 1 := rfl
  simp only [rgb_ycc_convert_footprint, jsimd_rgb_ycc_convert_rvv, h1, rgb_ycc_rows, ← h]
  cases rgb_ycc_cols_traced lay c VLMAX (input_buf 0) fuel _ _ <;> rfl

/-- The accesses of the kernel on one row of `img_width` pixels whose pitch
fits 32 bits. -/
theorem rgb_ycc_convert_footprint_spec (lay : Layout) (c : Consts) (VLMAX fuel img_width : Nat)
    (input_buf : Nat → Nat → Int) (output_buf : Nat → Nat → Nat → Int) (output_row : Nat)
    (hps : 0 < lay.RGB_PIXELSIZE) (hr : lay.RGB_RED < lay.RGB_PIXELSIZE)
    (hg : lay.RGB_GREEN < lay.RGB_PIXELSIZE) (hb : lay.RGB_BLUE < lay.RGB_PIXELSIZE)
    (hv : 0 < VLMAX) (hw : img_width * lay.RGB_PIXELSIZE < 2 ^ 32) (hf : img_width < fuel) :
    ∃ f, rgb_ycc_convert_footprint lay c VLMAX fuel img_width input_buf output_buf output_row =
        some f ∧
      (∀ p, p < img_width → f.writes0 p = 1 ∧ f.writes1 p = 1 ∧ f.writes2 p = 1) ∧
      (∀ p, img_width ≤ p → f.writes0 p = 0 ∧ f.writes1 p = 0 ∧ f.writes2 p = 0) ∧
      (∀ p, img_width * lay.RGB_PIXELSIZE ≤ p → f.reads p = 0) := by
  have hp : img_width * lay.RGB_PIXELSIZE % 2 ^ 32 = img_width * lay.RGB_PIXELSIZE :=
    Nat.mod_eq_of_lt hw
  obtain ⟨s2, f2, hs2, h1, h0, hrd⟩ := rgb_ycc_cols_traced_spec lay c VLMAX (input_buf 0) hps hv
    hr hg hb fuel img_width 0
    { inptr := 0, outptr0 := 0, outptr1 := 0, outptr2 := 0,
      num_cols := img_width * lay.RGB_PIXELSIZE,
      row0 := output_buf 0 output_row, row1 := output_buf 1 output_row,
      row2 := output_buf 2 output_row }
    { reads := fun _ => 0, writes0 := fun _ => 0, writes1 := fun _ => 0, writes2 := fun _ => 0 }
    hf (by simp) rfl rfl rfl rfl (fun p hp => by omega) (fun p _ => ⟨rfl, rfl, rfl⟩)
    (fun p _ => rfl)
  rw [Nat.zero_add] at h1 h0 hrd
  refine ⟨f2, ?_, h1, h0, hrd⟩
  simp only [rgb_ycc_convert_footprint, hp, hs2, Option.map_some']

end CColExt

/-- C21. Striding loop of the forward conversion, one row: for every layout
whose colour offsets lie below `RGB_PIXELSIZE`, every `VLMAX >= 1` with
`vsetvl(n) = min(n, VLMAX)` and every `img_width` whose pitch
`img_width * RGB_PIXELSIZE` fits the 32-bit product the source forms,
`jsimd_rgb_ycc_convert_rvv` called with `num_rows = 1` returns within
`img_width + 1` tests of the loop condition; the column loop writes each of
the indices `0 .. img_width - 1` of the Y, Cb and Cr rows exactly once, writes
no index from `img_width` on, and reads no input sample at an offset from
`img_width * RGB_PIXELSIZE` on. -/
theorem C21_forward_striding_loop (lay : Layout) (c : CColExt.Consts)
    (VLMAX fuel img_width : Nat) (input_buf : Nat → Nat → Int)
    (output_buf : Nat → Nat → Nat → Int) (output_row : Nat)
    (hps : 0 < lay.RGB_PIXELSIZE) (hr : lay.RGB_RED < lay.RGB_PIXELSIZE)
    (hg : lay.RGB_GREEN < lay.RGB_PIXELSIZE) (hb : lay.RGB_BLUE < lay.RGB_PIXELSIZE)
    (hv : 1 ≤ VLMAX) (hw : img_width * lay.RGB_PIXELSIZE < 2 ^ 32) (hf : img_width < fuel) :
    (CColExt.jsimd_rgb_ycc_convert_rvv lay c VLMAX fuel img_width input_buf output_buf output_row
      1).isSome = true ∧
    ∃ f, CColExt.rgb_ycc_convert_footprint lay c VLMAX fuel img_width input_buf output_buf
        output_row = some f ∧
      (∀ p, p < img_width → f.writes0 p = 1 ∧ f.writes1 p = 1 ∧ f.writes2 p = 1) ∧
      (∀ p, img_width ≤ p → f.writes0 p = 0 ∧ f.writes1 p = 0 ∧ f.writes2 p = 0) ∧
      (∀ p, img_width * lay.RGB_PIXELSIZE ≤ p → f.reads p = 0) := by
  have h := CColExt.rgb_ycc_convert_footprint_spec lay c VLMAX fuel img_width input_buf output_buf
    output_row hps hr hg hb hv hw hf
  refine ⟨?_, h⟩
  obtain ⟨f, hf1, _⟩ := h
  rw [← CColExt.rgb_ycc_convert_footprint_isSome, hf1]
  rfl

/-- Witness: five pixels of three samples, vector length at most 2 (chunks of
2, 2 and 1 pixels). -/
theorem C21_forward_striding_loop_witness :
    0 < ext_rgb.RGB_PIXELSIZE ∧ ext_rgb.RGB_RED < ext_rgb.RGB_PIXELSIZE ∧
    ext_rgb.RGB_GREEN < ext_rgb.RGB_PIXELSIZE ∧ ext_rgb.RGB_BLUE < ext_rgb.RGB_PIXELSIZE ∧
    1 ≤ 2 ∧ 5 * ext_rgb.RGB_PIXELSIZE < 2 ^ 32 ∧ 5 < 6 ∧
    ((CColExt.jsimd_rgb_ycc_convert_rvv ext_rgb bt601_forward 2 6 5 (solid_rows ext_rgb 255 0 0)
      blank_planes 0 1).isSome = true ∧
    ∃ f, CColExt.rgb_ycc_convert_footprint ext_rgb bt601_forward 2 6 5
        (solid_rows ext_rgb 255 0 0) blank_planes 0 = some f ∧
      (∀ p, p < 5 → f.writes0 p = 1 ∧ f.writes1 p = 1 ∧ f.writes2 p = 1) ∧
      (∀ p, 5 ≤ p → f.writes0 p = 0 ∧ f.writes1 p = 0 ∧ f.writes2 p = 0) ∧
      (∀ p, 5 * ext_rgb.RGB_PIXELSIZE ≤ p → f.reads p = 0)) :=
  ⟨by decide, by decide, by decide, by decide, by decide, by norm_num [ext_rgb], by decide,
    C21_forward_striding_loop ext_rgb bt601_forward 2 6 5 (solid_rows ext_rgb 255 0 0)
      blank_planes 0 (by decide) (by decide) (by decide) (by decide) (by decide)
      (by norm_num [ext_rgb]) (by decide)⟩

/-! ## The inverse conversion, sample by sample -/

/-- A strided store whose base lies `x` samples into a cell of `bstride`
samples, at sample `r` of cell `j` in range: lane `j` if `r = x`, the old
sample otherwise. -/
theorem vsse8_v_u8_cell (mem : Nat → Int) (base x bstride : Nat) (v : Vec) (vl : Nat) {j r : Nat}
    (hx : x < bstride) (hr : r < bstride) (hj : j < vl) :
    vsse8_v_u8 mem (base + x) bstride v vl (base + r + j * bstride) =
      if r = x then v j else mem (base + r + j * bstride) := by
  by_cases h : r = x
  · subst h
    rw [if_pos rfl]
    exact vsse8_v_u8_at _ _ _ _ _ (by omega) hj
  · rw [if_neg h]
    exact vsse8_v_u8_other mem base x r bstride v vl j hx hr (Ne.symm h)

namespace DColExt

/-- One iteration of the column loop leaves every sample at or beyond the end
of its chunk. -/
theorem ycc_rgb_cols_body_past (lay : Layout) (c : Consts) (VLMAX : Nat)
    (in0 in1 in2 : Nat → Int) (alpha_v : Vec) (s : ColState) (hin : lay.inside) {p : Nat}
    (hp : s.outptr + vsetvl_e16m4 VLMAX (s.num_cols / lay.RGB_PIXELSIZE) * lay.RGB_PIXELSIZE ≤ p) :
    (ycc_rgb_cols_body lay c VLMAX in0 in1 in2 alpha_v s).row p = s.row p := by
  obtain ⟨_, hr, hg, hb, ha⟩ := hin
  simp only [ycc_rgb_cols_body, Nat.mul_one]
  split_ifs with h4
  · rw [vsse8_v_u8_past _ _ _ _ _ _ (ha h4) hp, vsse8_v_u8_past _ _ _ _ _ _ hb hp,
      vsse8_v_u8_past _ _ _ _ _ _ hg hp, vsse8_v_u8_past _ _ _ _ _ _ hr hp]
  · rw [vsse8_v_u8_past _ _ _ _ _ _ hb hp,
      vsse8_v_u8_past _ _ _ _ _ _ hg hp, vsse8_v_u8_past _ _ _ _ _ _ hr hp]

/-- One iteration of the column loop at sample `r` of pixel `j` of its chunk. -/
theorem ycc_rgb_cols_body_cell (lay : Layout) (c : Consts) (VLMAX : Nat)
    (in0 in1 in2 : Nat → Int) (alpha_v : Vec) (s : ColState) (hin : lay.inside) {j r : Nat}
    (hj : j < vsetvl_e16m4 VLMAX (s.num_cols / lay.RGB_PIXELSIZE)) (hr : r < lay.RGB_PIXELSIZE) :
    (ycc_rgb_cols_body lay c VLMAX in0 in1 in2 alpha_v s).row
        (s.outptr + r + j * lay.RGB_PIXELSIZE) =
      stored_sample lay c (in0 (s.inptr0 + j)) (in1 (s.inptr1 + j)) (in2 (s.inptr2 + j))
        (alpha_v j) (s.row (s.outptr + r + j * lay.RGB_PIXELSIZE)) r := by
  obtain ⟨_, hr1, hg, hb, ha⟩ := hin
  simp only [ycc_rgb_cols_body, Nat.mul_one, stored_sample]
  generalize vsetvl_e16m4 VLMAX (s.num_cols / lay.RGB_PIXELSIZE) = vl at hj ⊢
  by_cases h4 : lay.RGB_PIXELSIZE = 4
  · have e : (lay.RGB_PIXELSIZE = 4 ∧ r = lay.RGB_ALPHA) ↔ r = lay.RGB_ALPHA := and_iff_right h4
    rw [if_pos h4]
    simp only [e, vsse8_v_u8_cell _ _ _ _ _ _ (ha h4) hr hj,
      vsse8_v_u8_cell _ _ _ _ _ _ hr1 hr hj, vsse8_v_u8_cell _ _ _ _ _ _ hg hr hj,
      vsse8_v_u8_cell _ _ _ _ _ _ hb hr hj, vnsrl_wx_u8_lane _ _ _ hj,
      vadd_vv_u16_lane _ _ _ hj, vsub_vv_u16_lane _ _ _ hj, vsub_vx_u16_lane _ _ _ hj,
      vmulhu_vx_u16_lane _ _ _ hj, vwaddu_vx_u16_lane _ _ _ hj, vle8_v_u8_lane _ _ hj,
      ptr_add, r_sample, g_sample, b_sample]
  · have e : ¬ (lay.RGB_PIXELSIZE = 4 ∧ r = lay.RGB_ALPHA) := fun h => h4 h.1
    rw [if_neg h4, if_neg e]
    simp only [vsse8_v_u8_cell _ _ _ _ _ _ hr1 hr hj, vsse8_v_u8_cell _ _ _ _ _ _ hg hr hj,
      vsse8_v_u8_cell _ _ _ _ _ _ hb hr hj, vnsrl_wx_u8_lane _ _ _ hj,
      vadd_vv_u16_lane _ _ _ hj, vsub_vv_u16_lane _ _ _ hj, vsub_vx_u16_lane _ _ _ hj,
      vmulhu_vx_u16_lane _ _ _ hj, vwaddu_vx_u16_lane _ _ _ hj, vle8_v_u8_lane _ _ hj,
      ptr_add, r_sample, g_sample, b_sample]

/-- Position `p` inside the chunk of `vl` pixels that starts at pixel `d`, as a
sample of a pixel of the chunk. -/
theorem chunk_split {ps d vl p : Nat} (hps : 0 < ps) (h1 : d * ps ≤ p) (h2 : p < (d + vl) * ps) :
    (p - d * ps) / ps < vl ∧ (p - d * ps) % ps < ps ∧
      p = d * ps + (p - d * ps) % ps + (p - d * ps) / ps * ps ∧
      p / ps = d + (p - d * ps) / ps ∧ p % ps = (p - d * ps) % ps := by
  have hdm := Nat.div_add_mod (p - d * ps) ps
  have hm := Nat.mod_lt (p - d * ps) hps
  have hc : ps * ((p - d * ps) / ps) = (p - d * ps) / ps * ps := Nat.mul_comm _ _
  have hlt : (p - d * ps) / ps < vl := by
    rw [Nat.div_lt_iff_lt_mul hps]
    rw [Nat.add_mul] at h2
    omega
  generalize (p - d * ps) / ps = q at hdm hc hlt ⊢
  generalize (p - d * ps) % ps = r at hdm hm ⊢
  have hp : p = r + (d + q) * ps := by
    rw [Nat.add_mul]; omega
  refine ⟨hlt, hm, by omega, ?_, ?_⟩
  · rw [hp, Nat.add_mul_div_right _ _ hps, Nat.div_eq_of_lt hm, Nat.zero_add]
  · rw [hp, Nat.add_mul_mod_self_right, Nat.mod_eq_of_lt hm]

/-- One iteration of the column loop carries the sample-by-sample description
of the output row from pixel `d` to pixel `d + vl`. -/
theorem ycc_rgb_cols_body_row (lay : Layout) (c : Consts) (VLMAX : Nat)
    (in0 in1 in2 : Nat → Int) (alpha_v : Vec) (old : Nat → Int) (hin : lay.inside) (n : Nat)
    (s : ColState) (d : Nat) (hs : at_pixel lay n d s)
    (halpha : ∀ j, j < vsetvl_e16m4 VLMAX (n - d) → alpha_v j = 0xFF)
    (hrow : s.row = converted_row lay c in0 in1 in2 old d) :
    (ycc_rgb_cols_body lay c VLMAX in0 in1 in2 alpha_v s).row =
      converted_row lay c in0 in1 in2 old (d + vsetvl_e16m4 VLMAX (n - d)) := by
  have hps := hin.1
  obtain ⟨h0, h1, h2, h3, hnc⟩ := hs
  have hdiv : s.num_cols / lay.RGB_PIXELSIZE = n - d := by
    rw [hnc]; exact Nat.mul_div_cancel _ hps
  funext p
  by_cases hlo : p < d * lay.RGB_PIXELSIZE
  · rw [ycc_rgb_cols_body_below _ _ _ _ _ _ _ _ (by rw [h0]; exact hlo), hrow]
    have hlo2 : p < (d + vsetvl_e16m4 VLMAX (n - d)) * lay.RGB_PIXELSIZE := by
      rw [Nat.add_mul]; omega
    simp only [converted_row, hlo, hlo2, ↓reduceIte]
  · by_cases hhi : p < (d + vsetvl_e16m4 VLMAX (n - d)) * lay.RGB_PIXELSIZE
    · obtain ⟨hj, hr, hp, hq, hm⟩ := chunk_split hps (by omega) hhi
      have hcell := ycc_rgb_cols_body_cell lay c VLMAX in0 in1 in2 alpha_v s hin
        (j := (p - d * lay.RGB_PIXELSIZE) / lay.RGB_PIXELSIZE)
        (r := (p - d * lay.RGB_PIXELSIZE) % lay.RGB_PIXELSIZE) (by rw [hdiv]; exact hj) hr
      rw [h0, h1, h2, h3, ← hp, halpha _ hj, hrow] at hcell
      rw [hcell]
      simp only [converted_row, hlo, hhi, ↓reduceIte, hq, hm]
    · have hpast : s.outptr +
          vsetvl_e16m4 VLMAX (s.num_cols / lay.RGB_PIXELSIZE) * lay.RGB_PIXELSIZE ≤ p := by
        rw [h0, hdiv, ← Nat.add_mul]; omega
      rw [ycc_rgb_cols_body_past _ _ _ _ _ _ _ _ hin hpast, hrow]
      simp only [converted_row, hlo, hhi, ↓reduceIte]


/-- The inverse kernel called for at least one row of `out_width` pixels whose
pitch fits 32 bits, in a layout whose offsets lie inside the pixel: the call
returns within `out_width + 1` tests of the loop condition, row 0 of
`output_buf` is the sample-by-sample row `converted_row`, every other row is
as before the call. -/
theorem ycc_rgb_convert_row (lay : Layout) (c : Consts) (VLMAX fuel out_width : Nat)
    (input_buf : Nat → Nat → Nat → Int) (input_row : Nat) (output_buf : Nat → Nat → Int)
    (num_rows : Int) (hin : lay.inside) (hv : 0 < VLMAX)
    (hw : out_width * lay.RGB_PIXELSIZE < 2 ^ 32) (hf : out_width < fuel) (hn : 1 ≤ num_rows) :
    ∃ out, jsimd_ycc_rgb_convert_rvv lay c VLMAX fuel out_width input_buf input_row output_buf
        num_rows = some out ∧
      out 0 = converted_row lay c (input_buf 0 input_row) (input_buf 1 input_row)
        (input_buf 2 input_row) (output_buf 0) out_width ∧
      ∀ row, row ≠ 0 → out row = output_buf row := by
  have hps := hin.1
  refine ycc_rgb_convert_induct lay c VLMAX fuel out_width input_buf input_row output_buf num_rows
    hps hv out_width (Nat.mod_eq_of_lt hw) hf hn
    (fun d row => row = converted_row lay c (input_buf 0 input_row) (input_buf 1 input_row)
      (input_buf 2 input_row) (output_buf 0) d) ?_ ?_
  · funext p
    simp only [converted_row, Nat.zero_mul, Nat.not_lt_zero, ↓reduceIte]
  · intro s d hd hs hrow
    refine ycc_rgb_cols_body_row lay c VLMAX _ _ _ _ _ hin out_width s d hs ?_ hrow
    intro j hj
    have h1 : out_width - d ≤ out_width * lay.RGB_PIXELSIZE :=
      le_trans (Nat.sub_le _ _) (Nat.le_mul_of_pos_right _ hps)
    have h2 : j < vsetvl_e16m4 VLMAX (out_width * lay.RGB_PIXELSIZE) := by
      unfold vsetvl_e16m4 at hj ⊢
      omega
    rw [vlse8_v_u8_lane _ _ _ h2]

end DColExt

/-! ## The merged kernel, sample by sample -/

namespace DMrgExt

/-- One iteration of the column loop leaves every sample at or beyond the end
of its chunk. -/
theorem h2v1_cols_body_past (lay : Layout) (c : DColExt.Consts) (VLMAX : Nat)
    (in0 in1 in2 : Nat → Int) (alpha_v : Vec) (s : ColState) (hin : lay.inside) {p : Nat}
    (hp : s.outptr + vsetvl_e16m2 VLMAX (s.num_cols / lay.RGB_PIXELSIZE / 2).toNat *
      (2 * lay.RGB_PIXELSIZE) ≤ p) :
    (h2v1_cols_body lay c VLMAX in0 in1 in2 alpha_v s).row p = s.row p := by
  obtain ⟨_, hr, hg, hb, ha⟩ := hin
  simp only [h2v1_cols_body, Nat.mul_one, Nat.add_assoc]
  generalize vsetvl_e16m2 VLMAX (s.num_cols / lay.RGB_PIXELSIZE / 2).toNat = vl at hp ⊢
  have e : ∀ (mem : Nat → Int) (x : Nat) (v : Vec), x < 2 * lay.RGB_PIXELSIZE →
      vsse8_v_u8 mem (s.outptr + x) (2 * lay.RGB_PIXELSIZE) v vl p = mem p :=
    fun mem x v hx => vsse8_v_u8_past _ _ _ _ _ _ hx hp
  split_ifs with h4
  · rw [e _ _ _ (by have := ha h4; omega), e _ _ _ (by omega), e _ _ _ (by omega),
      e _ _ _ (by omega), e _ _ _ (by have := ha h4; omega), e _ _ _ (by omega),
      e _ _ _ (by omega), e _ _ _ (by omega)]
  · rw [e _ _ _ (by omega), e _ _ _ (by omega), e _ _ _ (by omega), e _ _ _ (by omega),
      e _ _ _ (by omega), e _ _ _ (by omega)]

/-- One iteration of the column loop at sample `r` of the even pixel of pair
`j` of its chunk. -/
theorem h2v1_cols_body_even (lay : Layout) (c : DColExt.Consts) (VLMAX : Nat)
    (in0 in1 in2 : Nat → Int) (alpha_v : Vec) (s : ColState) (hin : lay.inside) {j r : Nat}
    (hj : j < vsetvl_e16m2 VLMAX (s.num_cols / lay.RGB_PIXELSIZE / 2).toNat)
    (hr : r < lay.RGB_PIXELSIZE) :
    (h2v1_cols_body lay c VLMAX in0 in1 in2 alpha_v s).row
        (s.outptr + r + j * (2 * lay.RGB_PIXELSIZE)) =
      stored_sample lay c (in0 (s.inptr0 + j * 2)) (in1 (s.inptr1 + j)) (in2 (s.inptr2 + j))
        (alpha_v j) (s.row (s.outptr + r + j * (2 * lay.RGB_PIXELSIZE))) r := by
  obtain ⟨_, hr1, hg, hb, ha⟩ := hin
  simp only [h2v1_cols_body, Nat.mul_one, stored_sample]
  generalize vsetvl_e16m2 VLMAX (s.num_cols / lay.RGB_PIXELSIZE / 2).toNat = vl at hj ⊢
  have hr2 : r < 2 * lay.RGB_PIXELSIZE := by omega
  have cE : ∀ (mem : Nat → Int) (x : Nat) (v : Vec), x < lay.RGB_PIXELSIZE →
      vsse8_v_u8 mem (s.outptr + x) (2 * lay.RGB_PIXELSIZE) v vl
          (s.outptr + r + j * (2 * lay.RGB_PIXELSIZE)) =
        if r = x then v j else mem (s.outptr + r + j * (2 * lay.RGB_PIXELSIZE)) :=
    fun mem x v hx => vsse8_v_u8_cell mem s.outptr x _ v vl (by omega) hr2 hj
  have cO : ∀ (mem : Nat → Int) (x : Nat) (v : Vec), x < lay.RGB_PIXELSIZE →
      vsse8_v_u8 mem (s.outptr + lay.RGB_PIXELSIZE + x) (2 * lay.RGB_PIXELSIZE) v vl
          (s.outptr + r + j * (2 * lay.RGB_PIXELSIZE)) =
        mem (s.outptr + r + j * (2 * lay.RGB_PIXELSIZE)) := by
    intro mem x v hx
    rw [Nat.add_assoc, vsse8_v_u8_cell mem s.outptr _ _ v vl (by omega) hr2 hj,
      if_neg (by omega)]
  by_cases h4 : lay.RGB_PIXELSIZE = 4
  · have e : (lay.RGB_PIXELSIZE = 4 ∧ r = lay.RGB_ALPHA) ↔ r = lay.RGB_ALPHA := and_iff_right h4
    rw [if_pos h4, if_pos h4]
    simp only [e, cO _ _ _ (ha h4), cO _ _ _ hr1, cO _ _ _ hg, cO _ _ _ hb,
      cE _ _ _ (ha h4), cE _ _ _ hr1, cE _ _ _ hg, cE _ _ _ hb, vnsrl_wx_u8_lane _ _ _ hj,
      vadd_vv_u16_lane _ _ _ hj, vsub_vv_u16_lane _ _ _ hj, vsub_vx_u16_lane _ _ _ hj,
      vmulhu_vx_u16_lane _ _ _ hj, vwaddu_vx_u16_lane _ _ _ hj, vle8_v_u8_lane _ _ hj,
      vlse8_v_u8_lane _ _ _ hj, ptr_add, r_sample, g_sample, b_sample]
  · have e : ¬ (lay.RGB_PIXELSIZE = 4 ∧ r = lay.RGB_ALPHA) := fun h => h4 h.1
    rw [if_neg h4, if_neg h4, if_neg e]
    simp only [cO _ _ _ hr1, cO _ _ _ hg, cO _ _ _ hb,
      cE _ _ _ hr1, cE _ _ _ hg, cE _ _ _ hb, vnsrl_wx_u8_lane _ _ _ hj,
      vadd_vv_u16_lane _ _ _ hj, vsub_vv_u16_lane _ _ _ hj, vsub_vx_u16_lane _ _ _ hj,
      vmulhu_vx_u16_lane _ _ _ hj, vwaddu_vx_u16_lane _ _ _ hj, vle8_v_u8_lane _ _ hj,
      vlse8_v_u8_lane _ _ _ hj, ptr_add, r_sample, g_sample, b_sample]

/-- One iteration of the column loop at sample `r` of the odd pixel of pair
`j` of its chunk. -/
theorem h2v1_cols_body_odd (lay : Layout) (c : DColExt.Consts) (VLMAX : Nat)
    (in0 in1 in2 : Nat → Int) (alpha_v : Vec) (s : ColState) (hin : lay.inside) {j r : Nat}
    (hj : j < vsetvl_e16m2 VLMAX (s.num_cols / lay.RGB_PIXELSIZE / 2).toNat)
    (hr : r < lay.RGB_PIXELSIZE) :
    (h2v1_cols_body lay c VLMAX in0 in1 in2 alpha_v s).row
        (s.outptr + (lay.RGB_PIXELSIZE + r) + j * (2 * lay.RGB_PIXELSIZE)) =
      stored_sample lay c (in0 (s.inptr0 + 1 + j * 2)) (in1 (s.inptr1 + j)) (in2 (s.inptr2 + j))
        (alpha_v j)
        (s.row (s.outptr + (lay.RGB_PIXELSIZE + r) + j * (2 * lay.RGB_PIXELSIZE))) r := by
  obtain ⟨_, hr1, hg, hb, ha⟩ := hin
  simp only [h2v1_cols_body, Nat.mul_one, stored_sample]
  generalize vsetvl_e16m2 VLMAX (s.num_cols / lay.RGB_PIXELSIZE / 2).toNat = vl at hj ⊢
  have hr2 : lay.RGB_PIXELSIZE + r < 2 * lay.RGB_PIXELSIZE := by omega
  have cE : ∀ (mem : Nat → Int) (x : Nat) (v : Vec), x < lay.RGB_PIXELSIZE →
      vsse8_v_u8 mem (s.outptr + x) (2 * lay.RGB_PIXELSIZE) v vl
          (s.outptr + (lay.RGB_PIXELSIZE + r) + j * (2 * lay.RGB_PIXELSIZE)) =
        mem (s.outptr + (lay.RGB_PIXELSIZE + r) + j * (2 * lay.RGB_PIXELSIZE)) := by
    intro mem x v hx
    rw [vsse8_v_u8_cell mem s.outptr x _ v vl (by omega) hr2 hj, if_neg (by omega)]
  have cO : ∀ (mem : Nat → Int) (x : Nat) (v : Vec), x < lay.RGB_PIXELSIZE →
      vsse8_v_u8 mem (s.outptr + lay.RGB_PIXELSIZE + x) (2 * lay.RGB_PIXELSIZE) v vl
          (s.outptr + (lay.RGB_PIXELSIZE + r) + j * (2 * lay.RGB_PIXELSIZE)) =
        if r = x then v j
        else mem (s.outptr + (lay.RGB_PIXELSIZE + r) + j * (2 * lay.RGB_PIXELSIZE)) := by
    intro mem x v hx
    rw [Nat.add_assoc, vsse8_v_u8_cell mem s.outptr _ _ v vl (by omega) hr2 hj]
    simp only [Nat.add_left_cancel_iff]
  by_cases h4 : lay.RGB_PIXELSIZE = 4
  · have e : (lay.RGB_PIXELSIZE = 4 ∧ r = lay.RGB_ALPHA) ↔ r = lay.RGB_ALPHA := and_iff_right h4
    rw [if_pos h4, if_pos h4]
    simp only [e, cO _ _ _ (ha h4), cO _ _ _ hr1, cO _ _ _ hg, cO _ _ _ hb,
      cE _ _ _ (ha h4), cE _ _ _ hr1, cE _ _ _ hg, cE _ _ _ hb, vnsrl_wx_u8_lane _ _ _ hj,
      vadd_vv_u16_lane _ _ _ hj, vsub_vv_u16_lane _ _ _ hj, vsub_vx_u16_lane _ _ _ hj,
      vmulhu_vx_u16_lane _ _ _ hj, vwaddu_vx_u16_lane _ _ _ hj, vle8_v_u8_lane _ _ hj,
      vlse8_v_u8_lane _ _ _ hj, ptr_add, r_sample, g_sample, b_sample]
  · have e : ¬ (lay.RGB_PIXELSIZE = 4 ∧ r = lay.RGB_ALPHA) := fun h => h4 h.1
    rw [if_neg h4, if_neg h4, if_neg e]
    simp only [cO _ _ _ hr1, cO _ _ _ hg, cO _ _ _ hb,
      cE _ _ _ hr1, cE _ _ _ hg, cE _ _ _ hb, vnsrl_wx_u8_lane _ _ _ hj,
      vadd_vv_u16_lane _ _ _ hj, vsub_vv_u16_lane _ _ _ hj, vsub_vx_u16_lane _ _ _ hj,
      vmulhu_vx_u16_lane _ _ _ hj, vwaddu_vx_u16_lane _ _ _ hj, vle8_v_u8_lane _ _ hj,
      vlse8_v_u8_lane _ _ _ hj, ptr_add, r_sample, g_sample, b_sample]


/-- A sample `r` of pixel `k`: its pixel index, pair index and offset. -/
theorem pixel_split {ps k r : Nat} (hr : r < ps) :
    (r + k * ps) / ps = k ∧ (r + k * ps) % ps = r := by
  have hps : 0 < ps := by omega
  exact ⟨by rw [Nat.add_mul_div_right _ _ hps, Nat.div_eq_of_lt hr, Nat.zero_add],
    by rw [Nat.add_mul_mod_self_right, Nat.mod_eq_of_lt hr]⟩

/-- One iteration of the column loop carries the sample-by-sample description
of the output row from pair `d` to pair `d + vl`. -/
theorem h2v1_cols_body_row (lay : Layout) (c : DColExt.Consts) (VLMAX : Nat)
    (in0 in1 in2 : Nat → Int) (alpha_v : Vec) (old : Nat → Int) (hin : lay.inside) (n : Nat)
    (s : ColState) (d : Nat) (hs : at_pair lay n d s)
    (halpha : ∀ j, j < vsetvl_e16m2 VLMAX (n - d) → alpha_v j = 0xFF)
    (hrow : s.row = merged_row lay c in0 in1 in2 old d) :
    (h2v1_cols_body lay c VLMAX in0 in1 in2 alpha_v s).row =
      merged_row lay c in0 in1 in2 old (d + vsetvl_e16m2 VLMAX (n - d)) := by
  have hps := hin.1
  have hps2 : 0 < 2 * lay.RGB_PIXELSIZE := by omega
  have havl := at_pair_avl lay hps hs
  obtain ⟨h0, h1, h2, h3, hnc⟩ := hs
  funext p
  by_cases hlo : p < d * (2 * lay.RGB_PIXELSIZE)
  · rw [h2v1_cols_body_below _ _ _ _ _ _ _ _ (by rw [h0]; exact hlo), hrow]
    have hlo2 : p < (d + vsetvl_e16m2 VLMAX (n - d)) * (2 * lay.RGB_PIXELSIZE) := by
      rw [Nat.add_mul]; omega
    simp only [merged_row, hlo, hlo2, ↓reduceIte]
  · by_cases hhi : p < (d + vsetvl_e16m2 VLMAX (n - d)) * (2 * lay.RGB_PIXELSIZE)
    · obtain ⟨hj, hr, hp, _, _⟩ := DColExt.chunk_split hps2 (by omega) hhi
      generalize (p - d * (2 * lay.RGB_PIXELSIZE)) / (2 * lay.RGB_PIXELSIZE) = j at hj hp
      generalize (p - d * (2 * lay.RGB_PIXELSIZE)) % (2 * lay.RGB_PIXELSIZE) = r at hr hp
      by_cases hre : r < lay.RGB_PIXELSIZE
      · have hcell := h2v1_cols_body_even lay c VLMAX in0 in1 in2 alpha_v s hin (j := j) (r := r)
          (by rw [havl]; exact hj) hre
        rw [h0, h1, h2, h3, ← hp, halpha _ hj, hrow] at hcell
        rw [hcell]
        have hpk : p = r + (2 * d + j * 2) * lay.RGB_PIXELSIZE := by
          rw [hp]; ring
        obtain ⟨e1, e2⟩ := pixel_split (k := 2 * d + j * 2) hre
        rw [← hpk] at e1 e2
        have e3 : (2 * d + j * 2) / 2 = d + j := by omega
        simp only [merged_row, hlo, hhi, ↓reduceIte, e1, e2, e3]
      · obtain ⟨r1, rfl⟩ : ∃ r1, r = lay.RGB_PIXELSIZE + r1 := ⟨r - lay.RGB_PIXELSIZE, by omega⟩
        have hr1 : r1 < lay.RGB_PIXELSIZE := by omega
        have hcell := h2v1_cols_body_odd lay c VLMAX in0 in1 in2 alpha_v s hin (j := j) (r := r1)
          (by rw [havl]; exact hj) hr1
        rw [h0, h1, h2, h3, ← hp, halpha _ hj, hrow] at hcell
        rw [hcell]
        have hpk : p = r1 + (2 * d + 1 + j * 2) * lay.RGB_PIXELSIZE := by
          rw [hp]; ring
        obtain ⟨e1, e2⟩ := pixel_split (k := 2 * d + 1 + j * 2) hr1
        rw [← hpk] at e1 e2
        have e3 : (2 * d + 1 + j * 2) / 2 = d + j := by omega
        simp only [merged_row, hlo, hhi, ↓reduceIte, e1, e2, e3]
    · have hpast : s.outptr +
          vsetvl_e16m2 VLMAX (s.num_cols / lay.RGB_PIXELSIZE / 2).toNat *
            (2 * lay.RGB_PIXELSIZE) ≤ p := by
        rw [h0, havl, ← Nat.add_mul]; omega
      rw [h2v1_cols_body_past _ _ _ _ _ _ _ _ hin hpast, hrow]
      simp only [merged_row, hlo, hhi, ↓reduceIte]

/-- The merged kernel on an even `output_width` whose pitch fits a positive
`int`, in a layout whose offsets lie inside the pixel: the call returns within
`output_width / 2 + 1` tests of the loop condition with the sample-by-sample
row `merged_row`. -/
theorem h2v1_merged_row (lay : Layout) (c : DColExt.Consts) (VLMAX fuel output_width : Nat)
    (input_buf : Nat → Nat → Nat → Int) (in_row_group_ctr : Nat) (output_buf : Nat → Nat → Int)
    (hin : lay.inside) (hv : 0 < VLMAX) (heven : output_width % 2 = 0)
    (hw : output_width * lay.RGB_PIXELSIZE < 2 ^ 31) (hf : output_width / 2 < fuel) :
    jsimd_h2v1_merged_upsample_rvv lay c VLMAX fuel output_width input_buf in_row_group_ctr
        output_buf =
      some (merged_row lay c (input_buf 0 in_row_group_ctr) (input_buf 1 in_row_group_ctr)
        (input_buf 2 in_row_group_ctr) (output_buf 0) (output_width / 2)) := by
  have hps := hin.1
  have hwn : output_width * lay.RGB_PIXELSIZE = output_width / 2 * (2 * lay.RGB_PIXELSIZE) := by
    have : output_width = output_width / 2 * 2 := by omega
    nth_rewrite 1 [this]; ring
  have hpitch : output_width * lay.RGB_PIXELSIZE % 2 ^ 32 =
      output_width / 2 * (2 * lay.RGB_PIXELSIZE) := by
    rw [← hwn]; exact Nat.mod_eq_of_lt (by omega)
  obtain ⟨row, hrow, hP⟩ := h2v1_merged_induct lay c VLMAX fuel output_width input_buf
    in_row_group_ctr output_buf hps hv (output_width / 2) (by rw [← hwn]; exact hw) hpitch hf
    (fun d row => row = merged_row lay c (input_buf 0 in_row_group_ctr)
      (input_buf 1 in_row_group_ctr) (input_buf 2 in_row_group_ctr) (output_buf 0) d)
    (by
      funext p
      simp only [merged_row, Nat.zero_mul, Nat.not_lt_zero, ↓reduceIte])
    (by
      intro s d hd hs hr
      refine h2v1_cols_body_row lay c VLMAX _ _ _ _ _ hin (output_width / 2) s d hs ?_ hr
      intro j hj
      have h2 : j < vsetvl_e16m2 VLMAX (output_width / 2) := by
        unfold vsetvl_e16m2 at hj ⊢
        omega
      rw [vlse8_v_u8_lane _ _ _ h2])
  rw [hrow, hP]

end DMrgExt

/-! ## Merged kernel against upsampling followed by conversion -/

namespace DMrgExt

theorem r_sample_eq (c : DColExt.Consts) (y cr : Int) :
    r_sample c y cr = DColExt.r_sample c y cr := by
  simp only [r_sample, DColExt.r_sample]
  generalize mulhu16 (subu16 (addu16 cr (0 % 256)) CENTERJSAMPLE) c.F_0_402 = m
  generalize subu16 (addu16 cr (0 % 256)) CENTERJSAMPLE = a
  generalize addu16 y (0 % 256) = b
  congr 1
  unfold addu16
  omega

theorem g_sample_eq (c : DColExt.Consts) (y cb cr : Int) :
    g_sample c y cb cr = DColExt.g_sample c y cb cr := by
  simp only [g_sample, DColExt.g_sample]
  generalize mulhu16 (subu16 (addu16 cr (0 % 256)) CENTERJSAMPLE) c.F_0_714 = m
  generalize mulhu16 (subu16 (addu16 cb (0 % 256)) CENTERJSAMPLE) c.F_0_344 = n
  generalize addu16 y (0 % 256) = b
  congr 1
  unfold addu16 subu16
  omega

theorem b_sample_eq (c : DColExt.Consts) (y cb : Int) :
    b_sample c y cb = DColExt.b_sample c y cb := by
  simp only [b_sample, DColExt.b_sample]
  generalize mulhu16 (subu16 (addu16 cb (0 % 256)) CENTERJSAMPLE) c.F_0_772 = m
  generalize subu16 (addu16 cb (0 % 256)) CENTERJSAMPLE = a
  generalize addu16 y (0 % 256) = b
  congr 1
  unfold addu16
  omega

theorem stored_sample_eq (lay : Layout) (c : DColExt.Consts) (y cb cr alpha old : Int) (r : Nat) :
    stored_sample lay c y cb cr alpha old r = DColExt.stored_sample lay c y cb cr alpha old r := by
  simp only [stored_sample, DColExt.stored_sample, r_sample_eq, g_sample_eq, b_sample_eq]

/-- The row of the merged kernel is the row of the inverse conversion on the
planes with replicated chroma. -/
theorem merged_row_eq_converted_row (lay : Layout) (c : DColExt.Consts)
    (input_buf : Nat → Nat → Nat → Int) (ctr input_row : Nat) (old : Nat → Int) (n : Nat) :
    merged_row lay c (input_buf 0 ctr) (input_buf 1 ctr) (input_buf 2 ctr) old n =
      DColExt.converted_row lay c (upsampled_planes input_buf ctr 0 input_row)
        (upsampled_planes input_buf ctr 1 input_row) (upsampled_planes input_buf ctr 2 input_row)
        old (2 * n) := by
  funext p
  have e : 2 * n * lay.RGB_PIXELSIZE = n * (2 * lay.RGB_PIXELSIZE) := by ring
  simp only [merged_row, DColExt.converted_row, upsampled_planes, stored_sample_eq, e,
    ↓reduceIte, Nat.one_ne_zero, (by decide : (2 : Nat) ≠ 0)]

end DMrgExt

namespace DColExt

theorem stored_sample_red (lay : Layout) (c : Consts) (y cb cr alpha old : Int)
    (hd : lay.distinct) : stored_sample lay c y cb cr alpha old lay.RGB_RED = r_sample c y cr := by
  obtain ⟨h1, h2, _, h4⟩ := hd
  have e : ¬ (lay.RGB_PIXELSIZE = 4 ∧ lay.RGB_RED = lay.RGB_ALPHA) :=
    fun h => (h4 h.1).1 h.2.symm
  simp only [stored_sample, e, h1, h2, ↓reduceIte]

theorem stored_sample_green (lay : Layout) (c : Consts) (y cb cr alpha old : Int)
    (hd : lay.distinct) :
    stored_sample lay c y cb cr alpha old lay.RGB_GREEN = g_sample c y cb cr := by
  obtain ⟨_, _, h3, h4⟩ := hd
  have e : ¬ (lay.RGB_PIXELSIZE = 4 ∧ lay.RGB_GREEN = lay.RGB_ALPHA) :=
    fun h => (h4 h.1).2.1 h.2.symm
  simp only [stored_sample, e, h3, ↓reduceIte]

theorem stored_sample_blue (lay : Layout) (c : Consts) (y cb cr alpha old : Int)
    (hd : lay.distinct) :
    stored_sample lay c y cb cr alpha old lay.RGB_BLUE = b_sample c y cb := by
  obtain ⟨_, _, _, h4⟩ := hd
  have e : ¬ (lay.RGB_PIXELSIZE = 4 ∧ lay.RGB_BLUE = lay.RGB_ALPHA) :=
    fun h => (h4 h.1).2.2 h.2.symm
  simp only [stored_sample, e, ↓reduceIte]

theorem stored_sample_alpha (lay : Layout) (c : Consts) (y cb cr alpha old : Int)
    (h4 : lay.RGB_PIXELSIZE = 4) :
    stored_sample lay c y cb cr alpha old lay.RGB_ALPHA = alpha := by
  simp only [stored_sample, h4, and_self, ↓reduceIte]

/-- Sample `x` of pixel `k` of the sample-by-sample row. -/
theorem converted_row_pixel (lay : Layout) (c : Consts) (in0 in1 in2 old : Nat → Int) {n k x : Nat}
    (hk : k < n) (hx : x < lay.RGB_PIXELSIZE) :
    converted_row lay c in0 in1 in2 old n (k * lay.RGB_PIXELSIZE + x) =
      stored_sample lay c (in0 k) (in1 k) (in2 k) 0xFF (old (k * lay.RGB_PIXELSIZE + x)) x := by
  obtain ⟨e1, e2⟩ := DMrgExt.pixel_split (k := k) hx
  rw [Nat.add_comm] at e1 e2
  have hlt : k * lay.RGB_PIXELSIZE + x < n * lay.RGB_PIXELSIZE := by
    have : (k + 1) * lay.RGB_PIXELSIZE ≤ n * lay.RGB_PIXELSIZE := Nat.mul_le_mul_right _ hk
    rw [Nat.add_mul] at this
    omega
  simp only [converted_row, hlt, ↓reduceIte, e1, e2]

theorem converted_row_past (lay : Layout) (c : Consts) (in0 in1 in2 old : Nat → Int) {n p : Nat}
    (hp : n * lay.RGB_PIXELSIZE ≤ p) : converted_row lay c in0 in1 in2 old n p = old p := by
  have : ¬ p < n * lay.RGB_PIXELSIZE := by omega
  simp only [converted_row, this, ↓reduceIte]

end DColExt

namespace DMrgExt

/-- Sample `x` of pixel `k` of the sample-by-sample row of the merged kernel. -/
theorem merged_row_pixel (lay : Layout) (c : DColExt.Consts) (in0 in1 in2 old : Nat → Int)
    {n k x : Nat} (hk : k < 2 * n) (hx : x < lay.RGB_PIXELSIZE) :
    merged_row lay c in0 in1 in2 old n (k * lay.RGB_PIXELSIZE + x) =
      stored_sample lay c (in0 k) (in1 (k / 2)) (in2 (k / 2)) 0xFF
        (old (k * lay.RGB_PIXELSIZE + x)) x := by
  obtain ⟨e1, e2⟩ := pixel_split (k := k) hx
  rw [Nat.add_comm] at e1 e2
  have hlt : k * lay.RGB_PIXELSIZE + x < n * (2 * lay.RGB_PIXELSIZE) := by
    have : (k + 1) * lay.RGB_PIXELSIZE ≤ 2 * n * lay.RGB_PIXELSIZE := Nat.mul_le_mul_right _ hk
    have e : 2 * n * lay.RGB_PIXELSIZE = n * (2 * lay.RGB_PIXELSIZE) := by ring
    rw [Nat.add_mul] at this
    omega
  simp only [merged_row, hlt, ↓reduceIte, e1, e2]

theorem merged_row_past (lay : Layout) (c : DColExt.Consts) (in0 in1 in2 old : Nat → Int)
    {n p : Nat} (hp : n * (2 * lay.RGB_PIXELSIZE) ≤ p) :
    merged_row lay c in0 in1 in2 old n p = old p := by
  have : ¬ p < n * (2 * lay.RGB_PIXELSIZE) := by omega
  simp only [merged_row, this, ↓reduceIte]

/-- The colour samples of a pixel in a layout with pairwise different
offsets. -/
theorem stored_sample_channels (lay : Layout) (c : DColExt.Consts) (y cb cr alpha : Int)
    (hd : lay.distinct) :
    (∀ old, stored_sample lay c y cb cr alpha old lay.RGB_RED = r_sample c y cr) ∧
    (∀ old, stored_sample lay c y cb cr alpha old lay.RGB_GREEN = g_sample c y cb cr) ∧
    (∀ old, stored_sample lay c y cb cr alpha old lay.RGB_BLUE = b_sample c y cb) ∧
    (lay.RGB_PIXELSIZE = 4 → ∀ old, stored_sample lay c y cb cr alpha old lay.RGB_ALPHA = alpha) := by
  refine ⟨fun old => ?_, fun old => ?_, fun old => ?_, fun h4 old => ?_⟩
  · rw [stored_sample_eq, DColExt.stored_sample_red _ _ _ _ _ _ _ hd, r_sample_eq]
  · rw [stored_sample_eq, DColExt.stored_sample_green _ _ _ _ _ _ _ hd, g_sample_eq]
  · rw [stored_sample_eq, DColExt.stored_sample_blue _ _ _ _ _ _ _ hd, b_sample_eq]
  · rw [stored_sample_eq, DColExt.stored_sample_alpha _ _ _ _ _ _ _ h4]

/-- The output row of the merged kernel on an even width, channel by channel,
for every `VLMAX`. -/
theorem h2v1_merged_channels (lay : Layout) (c : DColExt.Consts) (VLMAX fuel output_width : Nat)
    (input_buf : Nat → Nat → Nat → Int) (in_row_group_ctr : Nat) (output_buf : Nat → Nat → Int)
    (hin : lay.inside) (hd : lay.distinct) (hv : 0 < VLMAX) (heven : output_width % 2 = 0)
    (hw : output_width * lay.RGB_PIXELSIZE < 2 ^ 31) (hf : output_width / 2 < fuel) :
    ∃ row, jsimd_h2v1_merged_upsample_rvv lay c VLMAX fuel output_width input_buf in_row_group_ctr
        output_buf = some row ∧
      row = merged_row lay c (input_buf 0 in_row_group_ctr) (input_buf 1 in_row_group_ctr)
        (input_buf 2 in_row_group_ctr) (output_buf 0) (output_width / 2) ∧
      (∀ k, k < output_width →
        row (k * lay.RGB_PIXELSIZE + lay.RGB_RED) =
          r_sample c (input_buf 0 in_row_group_ctr k) (input_buf 2 in_row_group_ctr (k / 2)) ∧
        row (k * lay.RGB_PIXELSIZE + lay.RGB_GREEN) =
          g_sample c (input_buf 0 in_row_group_ctr k) (input_buf 1 in_row_group_ctr (k / 2))
            (input_buf 2 in_row_group_ctr (k / 2)) ∧
        row (k * lay.RGB_PIXELSIZE + lay.RGB_BLUE) =
          b_sample c (input_buf 0 in_row_group_ctr k) (input_buf 1 in_row_group_ctr (k / 2)) ∧
        (lay.RGB_PIXELSIZE = 4 → row (k * lay.RGB_PIXELSIZE + lay.RGB_ALPHA) = 0xFF)) ∧
      (∀ p, output_width * lay.RGB_PIXELSIZE ≤ p → row p = output_buf 0 p) := by
  have hrow := h2v1_merged_row lay c VLMAX fuel output_width input_buf in_row_group_ctr output_buf
    hin hv heven hw hf
  refine ⟨_, hrow, rfl, ?_, ?_⟩
  · intro k hk
    have hk2 : k < 2 * (output_width / 2) := by omega
    obtain ⟨_, hr, hg, hb, ha⟩ := hin
    obtain ⟨s1, s2, s3, s4⟩ := stored_sample_channels lay c (input_buf 0 in_row_group_ctr k)
      (input_buf 1 in_row_group_ctr (k / 2)) (input_buf 2 in_row_group_ctr (k / 2)) 0xFF hd
    refine ⟨?_, ?_, ?_, fun h4 => ?_⟩
    · rw [merged_row_pixel _ _ _ _ _ _ hk2 hr, s1]
    · rw [merged_row_pixel _ _ _ _ _ _ hk2 hg, s2]
    · rw [merged_row_pixel _ _ _ _ _ _ hk2 hb, s3]
    · rw [merged_row_pixel _ _ _ _ _ _ hk2 (ha h4), s4 h4]
  · intro p hp
    apply merged_row_past
    have e : output_width / 2 * (2 * lay.RGB_PIXELSIZE) = output_width * lay.RGB_PIXELSIZE := by
      have : output_width = output_width / 2 * 2 := by omega
      nth_rewrite 2 [this]; ring
    omega

end DMrgExt

/-- C22. Partial trailing tiles in the merged kernel: for every even
`output_width` whose pitch fits a positive `int`, every layout whose offsets
are pairwise different and lie inside the pixel, and any two hardware maxima
`VLMAX1, VLMAX2 >= 1`, `jsimd_h2v1_merged_upsample_rvv` returns under both
maxima with the same output row; in that row the red, green and blue samples
(and the alpha sample in a build with four samples per pixel) of every pixel
`k < output_width` hold the values computed from luma sample `k` and chroma
samples `k / 2`, and every sample at or beyond `output_width * RGB_PIXELSIZE`
is as before the call. -/
theorem C22_merged_trailing_tiles (lay : Layout) (c : DColExt.Consts)
    (VLMAX1 VLMAX2 fuel output_width : Nat) (input_buf : Nat → Nat → Nat → Int)
    (in_row_group_ctr : Nat) (output_buf : Nat → Nat → Int)
    (hin : lay.inside) (hd : lay.distinct) (h1 : 1 ≤ VLMAX1) (h2 : 1 ≤ VLMAX2)
    (heven : output_width % 2 = 0) (hw : output_width * lay.RGB_PIXELSIZE < 2 ^ 31)
    (hf : output_width / 2 < fuel) :
    ∃ row,
      DMrgExt.jsimd_h2v1_merged_upsample_rvv lay c VLMAX1 fuel output_width input_buf
        in_row_group_ctr output_buf = some row ∧
      DMrgExt.jsimd_h2v1_merged_upsample_rvv lay c VLMAX2 fuel output_width input_buf
        in_row_group_ctr output_buf = some row ∧
      (∀ k, k < output_width →
        row (k * lay.RGB_PIXELSIZE + lay.RGB_RED) =
          DMrgExt.r_sample c (input_buf 0 in_row_group_ctr k)
            (input_buf 2 in_row_group_ctr (k / 2)) ∧
        row (k * lay.RGB_PIXELSIZE + lay.RGB_GREEN) =
          DMrgExt.g_sample c (input_buf 0 in_row_group_ctr k)
            (input_buf 1 in_row_group_ctr (k / 2)) (input_buf 2 in_row_group_ctr (k / 2)) ∧
        row (k * lay.RGB_PIXELSIZE + lay.RGB_BLUE) =
          DMrgExt.b_sample c (input_buf 0 in_row_group_ctr k)
            (input_buf 1 in_row_group_ctr (k / 2)) ∧
        (lay.RGB_PIXELSIZE = 4 → row (k * lay.RGB_PIXELSIZE + lay.RGB_ALPHA) = 0xFF)) ∧
      (∀ p, output_width * lay.RGB_PIXELSIZE ≤ p → row p = output_buf 0 p) := by
  obtain ⟨row, hr1, hrow, hch, hpast⟩ := DMrgExt.h2v1_merged_channels lay c VLMAX1 fuel
    output_width input_buf in_row_group_ctr output_buf hin hd h1 heven hw hf
  refine ⟨row, hr1, ?_, hch, hpast⟩
  rw [hrow]
  exact DMrgExt.h2v1_merged_row lay c VLMAX2 fuel output_width input_buf in_row_group_ctr
    output_buf hin h2 heven hw hf

/-- Witness: six pixels of four samples (three pairs), vector lengths at most
2 (chunks of 2 and 1 pairs) and at most 8 (one chunk). -/
theorem C22_merged_trailing_tiles_witness :
    ext_rgbx.inside ∧ ext_rgbx.distinct ∧ 1 ≤ 2 ∧ 1 ≤ 8 ∧ 6 % 2 = 0 ∧
    6 * ext_rgbx.RGB_PIXELSIZE < 2 ^ 31 ∧ 6 / 2 < 4 ∧
    ∃ row,
      DMrgExt.jsimd_h2v1_merged_upsample_rvv ext_rgbx bt601_inverse 2 4 6 ramp_planes 0
        blank_rows = some row ∧
      DMrgExt.jsimd_h2v1_merged_upsample_rvv ext_rgbx bt601_inverse 8 4 6 ramp_planes 0
        blank_rows = some row ∧
      (∀ k, k < 6 →
        row (k * ext_rgbx.RGB_PIXELSIZE + ext_rgbx.RGB_RED) =
          DMrgExt.r_sample bt601_inverse (ramp_planes 0 0 k) (ramp_planes 2 0 (k / 2)) ∧
        row (k * ext_rgbx.RGB_PIXELSIZE + ext_rgbx.RGB_GREEN) =
          DMrgExt.g_sample bt601_inverse (ramp_planes 0 0 k) (ramp_planes 1 0 (k / 2))
            (ramp_planes 2 0 (k / 2)) ∧
        row (k * ext_rgbx.RGB_PIXELSIZE + ext_rgbx.RGB_BLUE) =
          DMrgExt.b_sample bt601_inverse (ramp_planes 0 0 k) (ramp_planes 1 0 (k / 2)) ∧
        (ext_rgbx.RGB_PIXELSIZE = 4 →
          row (k * ext_rgbx.RGB_PIXELSIZE + ext_rgbx.RGB_ALPHA) = 0xFF)) ∧
      (∀ p, 6 * ext_rgbx.RGB_PIXELSIZE ≤ p → row p = blank_rows 0 p) :=
  ⟨by decide, by decide, by decide, by decide, by decide, by norm_num [ext_rgbx], by decide,
    C22_merged_trailing_tiles ext_rgbx bt601_inverse 2 8 4 6 ramp_planes 0 blank_rows
      (by decide) (by decide) (by decide) (by decide) (by decide) (by norm_num [ext_rgbx])
      (by decide)⟩

namespace DColExt

/-- The inverse kernel on a one-pixel image `(y, cb, cr)` whose output row
starts with the samples of `row` from offset `off` on: sample `x` of the pixel
it writes. -/
theorem ycc_rgb_convert_one_pixel (lay : Layout) (c : Consts) (VLMAX : Nat) (y cb cr : Int)
    (row : Nat → Int) (off : Nat) (hin : lay.inside) (hv : 0 < VLMAX)
    (hw : lay.RGB_PIXELSIZE < 2 ^ 32) {x : Nat} (hx : x < lay.RGB_PIXELSIZE) :
    (jsimd_ycc_rgb_convert_rvv lay c VLMAX 2 1 (solid_planes y cb cr) 0 (rows_from row off)
        1).map (fun out => out 0 x) =
      some (stored_sample lay c y cb cr 0xFF (row (off + x)) x) := by
  obtain ⟨out, hout, h0, _⟩ := ycc_rgb_convert_row lay c VLMAX 2 1 (solid_planes y cb cr) 0
    (rows_from row off) 1 hin hv (by rw [Nat.one_mul]; exact hw) (by decide) (le_refl _)
  have hp := converted_row_pixel lay c (solid_planes y cb cr 0 0) (solid_planes y cb cr 1 0)
    (solid_planes y cb cr 2 0) (rows_from row off 0) (n := 1) (k := 0) (by decide) hx
  rw [Nat.zero_mul, Nat.zero_add] at hp
  rw [hout, Option.map_some', h0, hp]
  simp only [solid_planes, rows_from, ↓reduceIte, Nat.one_ne_zero, (by decide : (2 : Nat) ≠ 0),
    (by decide : (2 : Nat) ≠ 1)]

end DColExt

namespace DMrgExt

/-- The merged kernel against the inverse kernel, on the planes with
replicated chroma and pixel by pixel. -/
theorem h2v1_merged_eq_convert (lay : Layout) (c : DColExt.Consts)
    (VLMAX1 VLMAX2 fuel1 fuel2 output_width : Nat) (input_buf : Nat → Nat → Nat → Int)
    (in_row_group_ctr : Nat) (output_buf : Nat → Nat → Int)
    (hin : lay.inside) (h1 : 0 < VLMAX1) (h2 : 0 < VLMAX2)
    (heven : output_width % 2 = 0) (hw : output_width * lay.RGB_PIXELSIZE < 2 ^ 31)
    (hf1 : output_width / 2 < fuel1) (hf2 : output_width < fuel2) :
    ∃ row,
      jsimd_h2v1_merged_upsample_rvv lay c VLMAX1 fuel1 output_width input_buf in_row_group_ctr
        output_buf = some row ∧
      (DColExt.jsimd_ycc_rgb_convert_rvv lay c VLMAX2 fuel2 output_width
        (upsampled_planes input_buf in_row_group_ctr) 0 output_buf 1).map (fun out => out 0) =
          some row ∧
      ∀ i, i < output_width / 2 → ∀ x, x < lay.RGB_PIXELSIZE →
        (DColExt.jsimd_ycc_rgb_convert_rvv lay c VLMAX2 2 1
          (solid_planes (input_buf 0 in_row_group_ctr (2 * i)) (input_buf 1 in_row_group_ctr i)
            (input_buf 2 in_row_group_ctr i)) 0
          (rows_from (output_buf 0) (2 * i * lay.RGB_PIXELSIZE)) 1).map (fun out => out 0 x) =
            some (row (2 * i * lay.RGB_PIXELSIZE + x)) ∧
        (DColExt.jsimd_ycc_rgb_convert_rvv lay c VLMAX2 2 1
          (solid_planes (input_buf 0 in_row_group_ctr (2 * i + 1))
            (input_buf 1 in_row_group_ctr i) (input_buf 2 in_row_group_ctr i)) 0
          (rows_from (output_buf 0) ((2 * i + 1) * lay.RGB_PIXELSIZE)) 1).map
            (fun out => out 0 x) =
            some (row ((2 * i + 1) * lay.RGB_PIXELSIZE + x)) := by
  have hrow := h2v1_merged_row lay c VLMAX1 fuel1 output_width input_buf in_row_group_ctr
    output_buf hin h1 heven hw hf1
  obtain ⟨out, hout, h0, _⟩ := DColExt.ycc_rgb_convert_row lay c VLMAX2 fuel2 output_width
    (upsampled_planes input_buf in_row_group_ctr) 0 output_buf 1 hin h2 (by omega) hf2
    (le_refl _)
  have hn : 2 * (output_width / 2) = output_width := by omega
  refine ⟨_, hrow, ?_, ?_⟩
  · rw [hout, Option.map_some', h0, merged_row_eq_converted_row lay c input_buf in_row_group_ctr 0,
      hn]
  · intro i hi x hx
    have hps : lay.RGB_PIXELSIZE < 2 ^ 32 := by
      have : 2 * lay.RGB_PIXELSIZE ≤ output_width * lay.RGB_PIXELSIZE :=
        Nat.mul_le_mul_right _ (by omega)
      omega
    have e1 : (2 * i) / 2 = i := by omega
    have e2 : (2 * i + 1) / 2 = i := by omega
    constructor
    · rw [DColExt.ycc_rgb_convert_one_pixel lay c VLMAX2 _ _ _ _ _ hin h2 hps hx,
        merged_row_pixel _ _ _ _ _ _ (by omega) hx, stored_sample_eq, e1]
    · rw [DColExt.ycc_rgb_convert_one_pixel lay c VLMAX2 _ _ _ _ _ hin h2 hps hx,
        merged_row_pixel _ _ _ _ _ _ (by omega) hx, stored_sample_eq, e2]

end DMrgExt

/-- C24. Merged kernel equals upsample-then-convert: for every even
`output_width` whose pitch fits a positive `int`, every layout whose offsets
lie inside the pixel, all input rows and the same constants in both kernels
(their hardware maxima may differ), the output row of
`jsimd_h2v1_merged_upsample_rvv` is row 0 of `jsimd_ycc_rgb_convert_rvv` on
the planes with each chroma sample repeated twice; and for every
`i < output_width / 2`, every sample of output pixel `2 i` is the sample
`jsimd_ycc_rgb_convert_rvv` produces from the one-pixel image
`(Y[2 i], Cb[i], Cr[i])`, every sample of output pixel `2 i + 1` the one it
produces from `(Y[2 i + 1], Cb[i], Cr[i])`. -/
theorem C24_merged_equals_upsample_then_convert (lay : Layout) (c : DColExt.Consts)
    (VLMAX1 VLMAX2 fuel1 fuel2 output_width : Nat) (input_buf : Nat → Nat → Nat → Int)
    (in_row_group_ctr : Nat) (output_buf : Nat → Nat → Int)
    (hin : lay.inside) (h1 : 1 ≤ VLMAX1) (h2 : 1 ≤ VLMAX2)
    (heven : output_width % 2 = 0) (hw : output_width * lay.RGB_PIXELSIZE < 2 ^ 31)
    (hf1 : output_width / 2 < fuel1) (hf2 : output_width < fuel2) :
    ∃ row,
      DMrgExt.jsimd_h2v1_merged_upsample_rvv lay c VLMAX1 fuel1 output_width input_buf
        in_row_group_ctr output_buf = some row ∧
      (DColExt.jsimd_ycc_rgb_convert_rvv lay c VLMAX2 fuel2 output_width
        (upsampled_planes input_buf in_row_group_ctr) 0 output_buf 1).map (fun out => out 0) =
          some row ∧
      ∀ i, i < output_width / 2 → ∀ x, x < lay.RGB_PIXELSIZE →
        (DColExt.jsimd_ycc_rgb_convert_rvv lay c VLMAX2 2 1
          (solid_planes (input_buf 0 in_row_group_ctr (2 * i)) (input_buf 1 in_row_group_ctr i)
            (input_buf 2 in_row_group_ctr i)) 0
          (rows_from (output_buf 0) (2 * i * lay.RGB_PIXELSIZE)) 1).map (fun out => out 0 x) =
            some (row (2 * i * lay.RGB_PIXELSIZE + x)) ∧
        (DColExt.jsimd_ycc_rgb_convert_rvv lay c VLMAX2 2 1
          (solid_planes (input_buf 0 in_row_group_ctr (2 * i + 1))
            (input_buf 1 in_row_group_ctr i) (input_buf 2 in_row_group_ctr i)) 0
          (rows_from (output_buf 0) ((2 * i + 1) * lay.RGB_PIXELSIZE)) 1).map
            (fun out => out 0 x) =
            some (row ((2 * i + 1) * lay.RGB_PIXELSIZE + x)) :=
  DMrgExt.h2v1_merged_eq_convert lay c VLMAX1 VLMAX2 fuel1 fuel2 output_width input_buf
    in_row_group_ctr output_buf hin h1 h2 heven hw hf1 hf2

/-- Witness: six pixels of three samples, the merged kernel with vector length
at most 2, the inverse kernel with vector length at most 4. -/
theorem C24_merged_equals_upsample_then_convert_witness :
    ext_rgb.inside ∧ 1 ≤ 2 ∧ 1 ≤ 4 ∧ 6 % 2 = 0 ∧ 6 * ext_rgb.RGB_PIXELSIZE < 2 ^ 31 ∧
    6 / 2 < 4 ∧ 6 < 7 ∧
    ∃ row,
      DMrgExt.jsimd_h2v1_merged_upsample_rvv ext_rgb bt601_inverse 2 4 6 ramp_planes 0
        blank_rows = some row ∧
      (DColExt.jsimd_ycc_rgb_convert_rvv ext_rgb bt601_inverse 4 7 6
        (upsampled_planes ramp_planes 0) 0 blank_rows 1).map (fun out => out 0) = some row ∧
      ∀ i, i < 6 / 2 → ∀ x, x < ext_rgb.RGB_PIXELSIZE →
        (DColExt.jsimd_ycc_rgb_convert_rvv ext_rgb bt601_inverse 4 2 1
          (solid_planes (ramp_planes 0 0 (2 * i)) (ramp_planes 1 0 i) (ramp_planes 2 0 i)) 0
          (rows_from (blank_rows 0) (2 * i * ext_rgb.RGB_PIXELSIZE)) 1).map
            (fun out => out 0 x) =
            some (row (2 * i * ext_rgb.RGB_PIXELSIZE + x)) ∧
        (DColExt.jsimd_ycc_rgb_convert_rvv ext_rgb bt601_inverse 4 2 1
          (solid_planes (ramp_planes 0 0 (2 * i + 1)) (ramp_planes 1 0 i) (ramp_planes 2 0 i)) 0
          (rows_from (blank_rows 0) ((2 * i + 1) * ext_rgb.RGB_PIXELSIZE)) 1).map
            (fun out => out 0 x) =
            some (row ((2 * i + 1) * ext_rgb.RGB_PIXELSIZE + x)) :=
  ⟨by decide, by decide, by decide, by decide, by norm_num [ext_rgb], by decide, by decide,
    C24_merged_equals_upsample_then_convert ext_rgb bt601_inverse 2 4 4 7 6 ramp_planes 0
      blank_rows (by decide) (by decide) (by decide) (by decide) (by norm_num [ext_rgb])
      (by decide) (by decide)⟩

/-! ## Vertical merged upsampling -/

namespace DMrgExt

/-- The merged kernel reads `input_buf` in the three rows of index
`in_row_group_ctr` and `output_buf` in row 0 only. -/
theorem jsimd_h2v1_merged_upsample_rvv_congr (lay : Layout) (c : DColExt.Consts)
    (VLMAX fuel output_width : Nat) {input_buf input_buf1 : Nat → Nat → Nat → Int}
    {ctr ctr1 : Nat} {output_buf output_buf1 : Nat → Nat → Int}
    (h0 : input_buf 0 ctr = input_buf1 0 ctr1) (h1 : input_buf 1 ctr = input_buf1 1 ctr1)
    (h2 : input_buf 2 ctr = input_buf1 2 ctr1) (ho : output_buf 0 = output_buf1 0) :
    jsimd_h2v1_merged_upsample_rvv lay c VLMAX fuel output_width input_buf ctr output_buf =
      jsimd_h2v1_merged_upsample_rvv lay c VLMAX fuel output_width input_buf1 ctr1 output_buf1 := by
  simp only [jsimd_h2v1_merged_upsample_rvv, h0, h1, h2, ho]

/-- The merged kernel returns on every even width whose pitch fits a positive
`int`, within `output_width / 2 + 1` tests of the loop condition. -/
theorem jsimd_h2v1_merged_upsample_rvv_returns (lay : Layout) (c : DColExt.Consts)
    (VLMAX fuel output_width : Nat) (input_buf : Nat → Nat → Nat → Int) (ctr : Nat)
    (output_buf : Nat → Nat → Int) (hps : 0 < lay.RGB_PIXELSIZE) (hv : 0 < VLMAX)
    (heven : output_width % 2 = 0) (hw : output_width * lay.RGB_PIXELSIZE < 2 ^ 31)
    (hf : output_width / 2 < fuel) :
    ∃ row, jsimd_h2v1_merged_upsample_rvv lay c VLMAX fuel output_width input_buf ctr
      output_buf = some row := by
  have hwn : output_width * lay.RGB_PIXELSIZE = output_width / 2 * (2 * lay.RGB_PIXELSIZE) := by
    have : output_width = output_width / 2 * 2 := by omega
    nth_rewrite 1 [this]; ring
  have hpitch : output_width * lay.RGB_PIXELSIZE % 2 ^ 32 =
      output_width / 2 * (2 * lay.RGB_PIXELSIZE) := by
    rw [← hwn]; exact Nat.mod_eq_of_lt (by omega)
  obtain ⟨row, hrow, _⟩ := h2v1_merged_induct lay c VLMAX fuel output_width input_buf ctr
    output_buf hps hv (output_width / 2) (by rw [← hwn]; exact hw) hpitch hf
    (fun _ _ => True) trivial (fun _ _ _ _ _ => trivial)
  exact ⟨row, hrow⟩

/-- A call of the merged kernel on a memory that returns: the pointer tables
are untouched and the row at `output_buf[0]` is the row the kernel leaves. -/
theorem h2v1_merged_upsample_call_some (lay : Layout) (c : DColExt.Consts) (VLMAX fuel : Nat)
    (output_width : Nat) (m m1 : Mem) (ctr : Nat)
    (h : h2v1_merged_upsample_call lay c VLMAX fuel output_width m ctr = some m1) :
    m1.input_buf = m.input_buf ∧ m1.output_buf = m.output_buf ∧
    ∃ row, jsimd_h2v1_merged_upsample_rvv lay c VLMAX fuel output_width
        (fun ci row => m.rows (m.input_buf ci row)) ctr (fun row => m.rows (m.output_buf row)) =
          some row ∧
      m1.rows = fun q => if q = m.output_buf 0 then row else m.rows q := by
  unfold h2v1_merged_upsample_call at h
  cases hr : jsimd_h2v1_merged_upsample_rvv lay c VLMAX fuel output_width
      (fun ci row => m.rows (m.input_buf ci row)) ctr (fun row => m.rows (m.output_buf row)) with
  | none => rw [hr] at h; cases h
  | some row =>
    rw [hr, Option.map_some'] at h
    injection h with h
    subst h
    exact ⟨rfl, rfl, row, rfl, rfl⟩

/-- Whenever `jsimd_h2v2_merged_upsample_rvv` returns, both pointer tables are
as on entry. -/
theorem jsimd_h2v2_tables_restored (lay : Layout) (c : DColExt.Consts) (VLMAX fuel : Nat)
    (output_width : Nat) (m m2 : Mem) (ctr : Nat)
    (h : jsimd_h2v2_merged_upsample_rvv lay c VLMAX fuel output_width m ctr = some m2) :
    m2.input_buf = m.input_buf ∧ m2.output_buf = m.output_buf := by
  unfold jsimd_h2v2_merged_upsample_rvv at h
  simp only [] at h
  split at h
  · cases h
  · rename_i ma hma
    split at h
    · cases h
    · rename_i mb hmb
      obtain ⟨a1, a2, _⟩ := h2v1_merged_upsample_call_some _ _ _ _ _ _ _ _ hma
      obtain ⟨b1, b2, _⟩ := h2v1_merged_upsample_call_some _ _ _ _ _ _ _ _ hmb
      injection h with h
      subst h
      simp only [a1, a2, b1, b2]
      constructor
      · funext ci row
        by_cases hc : ci = 0 ∧ row = ctr
        · obtain ⟨rfl, rfl⟩ := hc
          simp only [and_self, ↓reduceIte]
        · simp only [hc, ↓reduceIte]
      · funext row
        by_cases hr : row = 0
        · subst hr
          simp only [↓reduceIte]
        · simp only [hr, ↓reduceIte]

/-- The vertical kernel is two calls of the horizontal kernel: when the output
rows are separate from each other and from the input rows of the row group,
and the row indices `2 c`, `2 c + 1` fit 32 bits, the memory after
`jsimd_h2v2_merged_upsample_rvv` has at `output_buf[0]` the row the horizontal
kernel leaves for luma row `2 c`, at `output_buf[1]` the row it leaves for luma
row `2 c + 1`, both with chroma rows `c`; every other row and both pointer
tables are as on entry. -/
theorem jsimd_h2v2_two_calls (lay : Layout) (c : DColExt.Consts) (VLMAX fuel : Nat)
    (output_width : Nat) (m : Mem) (ctr : Nat) (row0 row1 : Nat → Int)
    (hidx : 2 * ctr + 1 < 2 ^ 32) (hsep : m.separate ctr)
    (h0 : jsimd_h2v1_merged_upsample_rvv lay c VLMAX fuel output_width
      (planes_of (m.rows (m.input_buf 0 (2 * ctr))) (m.rows (m.input_buf 1 ctr))
        (m.rows (m.input_buf 2 ctr))) ctr (fun _ => m.rows (m.output_buf 0)) = some row0)
    (h1 : jsimd_h2v1_merged_upsample_rvv lay c VLMAX fuel output_width
      (planes_of (m.rows (m.input_buf 0 (2 * ctr + 1))) (m.rows (m.input_buf 1 ctr))
        (m.rows (m.input_buf 2 ctr))) ctr (fun _ => m.rows (m.output_buf 1)) = some row1) :
    jsimd_h2v2_merged_upsample_rvv lay c VLMAX fuel output_width m ctr =
      some { input_buf := m.input_buf, output_buf := m.output_buf,
             rows := fun q =>
               if q = m.output_buf 1 then row1 else if q = m.output_buf 0 then row0
               else m.rows q } := by
  obtain ⟨hne, ⟨_, s2, s3, s4⟩, _⟩ := hsep
  have e1 : ctr * 2 % 2 ^ 32 = 2 * ctr := by omega
  have e2 : (ctr * 2 + 1) % 2 ^ 32 = 2 * ctr + 1 := by omega
  have e3 : ¬ (2 * ctr + 1 = ctr) := by omega
  have hcall1 : h2v1_merged_upsample_call lay c VLMAX fuel output_width
      { m with input_buf := fun ci row =>
          if ci = 0 ∧ row = ctr then m.input_buf 0 (2 * ctr) else m.input_buf ci row } ctr =
      some { input_buf := fun ci row =>
               if ci = 0 ∧ row = ctr then m.input_buf 0 (2 * ctr) else m.input_buf ci row,
             output_buf := m.output_buf,
             rows := fun q => if q = m.output_buf 0 then row0 else m.rows q } := by
    unfold h2v1_merged_upsample_call
    rw [@jsimd_h2v1_merged_upsample_rvv_congr lay c VLMAX fuel output_width _
      (planes_of (m.rows (m.input_buf 0 (2 * ctr))) (m.rows (m.input_buf 1 ctr))
        (m.rows (m.input_buf 2 ctr))) _ ctr _ (fun _ => m.rows (m.output_buf 0))
      (by simp [planes_of]) (by simp [planes_of]) (by simp [planes_of]) rfl, h0]
    rfl
  have hcall2 : h2v1_merged_upsample_call lay c VLMAX fuel output_width
      { input_buf := fun ci row =>
          if ci = 0 ∧ row = ctr then m.input_buf 0 (2 * ctr + 1)
          else if ci = 0 ∧ row = ctr then m.input_buf 0 (2 * ctr) else m.input_buf ci row,
        output_buf := fun row => if row = 0 then m.output_buf 1 else m.output_buf row,
        rows := fun q => if q = m.output_buf 0 then row0 else m.rows q } ctr =
      some { input_buf := fun ci row =>
               if ci = 0 ∧ row = ctr then m.input_buf 0 (2 * ctr + 1)
               else if ci = 0 ∧ row = ctr then m.input_buf 0 (2 * ctr) else m.input_buf ci row,
             output_buf := fun row => if row = 0 then m.output_buf 1 else m.output_buf row,
             rows := fun q =>
               if q = m.output_buf 1 then row1 else if q = m.output_buf 0 then row0
               else m.rows q } := by
    unfold h2v1_merged_upsample_call
    rw [@jsimd_h2v1_merged_upsample_rvv_congr lay c VLMAX fuel output_width _
      (planes_of (m.rows (m.input_buf 0 (2 * ctr + 1)))
        (m.rows (m.input_buf 1 ctr)) (m.rows (m.input_buf 2 ctr))) _ ctr _
      (fun _ => m.rows (m.output_buf 1))
      (by simp [planes_of, Ne.symm s2]) (by simp [planes_of, Ne.symm s3])
      (by simp [planes_of, Ne.symm s4]) (by simp [Ne.symm hne]), h1]
    rfl
  unfold jsimd_h2v2_merged_upsample_rvv
  simp only [e1, e2, hcall1, e3, and_false, ↓reduceIte, hcall2]
  congr 1
  have t1 : (fun ci row =>
      if ci = 0 ∧ row = ctr then m.input_buf 0 ctr
      else if ci = 0 ∧ row = ctr then m.input_buf 0 (2 * ctr + 1)
      else if ci = 0 ∧ row = ctr then m.input_buf 0 (2 * ctr) else m.input_buf ci row) =
      m.input_buf := by
    funext ci row
    by_cases hc : ci = 0 ∧ row = ctr
    · obtain ⟨rfl, rfl⟩ := hc
      simp only [and_self, ↓reduceIte]
    · simp only [hc, ↓reduceIte]
  have t2 : (fun row =>
      if row = 0 then m.output_buf 0 else if row = 0 then m.output_buf 1 else m.output_buf row) =
      m.output_buf := by
    funext row
    by_cases hr : row = 0
    · subst hr
      simp only [↓reduceIte]
    · simp only [hr, ↓reduceIte]
  rw [t1, t2]

/-- A call of the merged kernel on a memory returns on every even width whose
pitch fits a positive `int`. -/
theorem h2v1_merged_upsample_call_ne_none (lay : Layout) (c : DColExt.Consts)
    (VLMAX fuel output_width : Nat) (m : Mem) (ctr : Nat) (hps : 0 < lay.RGB_PIXELSIZE)
    (hv : 0 < VLMAX) (heven : output_width % 2 = 0)
    (hw : output_width * lay.RGB_PIXELSIZE < 2 ^ 31) (hf : output_width / 2 < fuel) :
    h2v1_merged_upsample_call lay c VLMAX fuel output_width m ctr ≠ none := by
  obtain ⟨row, hrow⟩ := jsimd_h2v1_merged_upsample_rvv_returns lay c VLMAX fuel output_width
    (fun ci row => m.rows (m.input_buf ci row)) ctr (fun row => m.rows (m.output_buf row))
    hps hv heven hw hf
  unfold h2v1_merged_upsample_call
  rw [hrow]
  simp

/-- The vertical kernel returns on every even width whose pitch fits a
positive `int`, with both pointer tables as on entry. -/
theorem jsimd_h2v2_returns_restored (lay : Layout) (c : DColExt.Consts)
    (VLMAX fuel output_width : Nat) (m : Mem) (ctr : Nat) (hps : 0 < lay.RGB_PIXELSIZE)
    (hv : 0 < VLMAX) (heven : output_width % 2 = 0)
    (hw : output_width * lay.RGB_PIXELSIZE < 2 ^ 31) (hf : output_width / 2 < fuel) :
    ∃ m2, jsimd_h2v2_merged_upsample_rvv lay c VLMAX fuel output_width m ctr = some m2 ∧
      m2.input_buf = m.input_buf ∧ m2.output_buf = m.output_buf := by
  have hret : ∃ m2, jsimd_h2v2_merged_upsample_rvv lay c VLMAX fuel output_width m ctr =
      some m2 := by
    unfold jsimd_h2v2_merged_upsample_rvv
    simp only []
    split
    · rename_i h
      exact absurd h (h2v1_merged_upsample_call_ne_none _ _ _ _ _ _ _ hps hv heven hw hf)
    · split
      · rename_i h
        exact absurd h (h2v1_merged_upsample_call_ne_none _ _ _ _ _ _ _ hps hv heven hw hf)
      · exact ⟨_, rfl⟩
  obtain ⟨m2, hm2⟩ := hret
  exact ⟨m2, hm2, jsimd_h2v2_tables_restored _ _ _ _ _ _ _ _ hm2⟩

end DMrgExt

/-- C25. Vertical merged upsampling is two horizontal calls: for every even
`output_width` whose pitch fits a positive `int` and every row-group index `c`
with `2 c + 1` below `2 ^ 32`, on a memory whose two output rows are separate
from each other and from the input rows of the group,
`jsimd_h2v2_merged_upsample_rvv` returns; the row at `output_buf[0]` is then
the row `jsimd_h2v1_merged_upsample_rvv` computes from luma row `2 c` with
chroma rows `c`, the row at `output_buf[1]` the row it computes from luma row
`2 c + 1` with the same chroma rows, and every other row is as on entry. -/
theorem C25_h2v2_is_two_h2v1_calls (lay : Layout) (c : DColExt.Consts)
    (VLMAX fuel output_width : Nat) (m : DMrgExt.Mem) (ctr : Nat)
    (hps : 0 < lay.RGB_PIXELSIZE) (hv : 1 ≤ VLMAX) (heven : output_width % 2 = 0)
    (hw : output_width * lay.RGB_PIXELSIZE < 2 ^ 31) (hf : output_width / 2 < fuel)
    (hidx : 2 * ctr + 1 < 2 ^ 32) (hsep : m.separate ctr) :
    ∃ row0 row1 m2,
      DMrgExt.jsimd_h2v1_merged_upsample_rvv lay c VLMAX fuel output_width
        (DMrgExt.planes_of (m.rows (m.input_buf 0 (2 * ctr))) (m.rows (m.input_buf 1 ctr))
          (m.rows (m.input_buf 2 ctr))) ctr (fun _ => m.rows (m.output_buf 0)) = some row0 ∧
      DMrgExt.jsimd_h2v1_merged_upsample_rvv lay c VLMAX fuel output_width
        (DMrgExt.planes_of (m.rows (m.input_buf 0 (2 * ctr + 1))) (m.rows (m.input_buf 1 ctr))
          (m.rows (m.input_buf 2 ctr))) ctr (fun _ => m.rows (m.output_buf 1)) = some row1 ∧
      DMrgExt.jsimd_h2v2_merged_upsample_rvv lay c VLMAX fuel output_width m ctr = some m2 ∧
      m2.rows (m.output_buf 0) = row0 ∧ m2.rows (m.output_buf 1) = row1 ∧
      (∀ q, q ≠ m.output_buf 0 → q ≠ m.output_buf 1 → m2.rows q = m.rows q) := by
  obtain ⟨row0, h0⟩ := DMrgExt.jsimd_h2v1_merged_upsample_rvv_returns lay c VLMAX fuel
    output_width (DMrgExt.planes_of (m.rows (m.input_buf 0 (2 * ctr)))
      (m.rows (m.input_buf 1 ctr)) (m.rows (m.input_buf 2 ctr))) ctr
    (fun _ => m.rows (m.output_buf 0)) hps hv heven hw hf
  obtain ⟨row1, h1⟩ := DMrgExt.jsimd_h2v1_merged_upsample_rvv_returns lay c VLMAX fuel
    output_width (DMrgExt.planes_of (m.rows (m.input_buf 0 (2 * ctr + 1)))
      (m.rows (m.input_buf 1 ctr)) (m.rows (m.input_buf 2 ctr))) ctr
    (fun _ => m.rows (m.output_buf 1)) hps hv heven hw hf
  have hne := hsep.1
  refine ⟨row0, row1, _, h0, h1,
    DMrgExt.jsimd_h2v2_two_calls lay c VLMAX fuel output_width m ctr row0 row1 hidx hsep h0 h1,
    ?_, ?_, ?_⟩
  · simp only [hne, ↓reduceIte]
  · simp only [↓reduceIte]
  · intro q hq0 hq1
    simp only [hq0, hq1, ↓reduceIte]

/-- Witness: row group 1 of the example memory, four pixels of three
samples. -/
theorem C25_h2v2_is_two_h2v1_calls_witness :
    0 < ext_rgb.RGB_PIXELSIZE ∧ 1 ≤ 8 ∧ 4 % 2 = 0 ∧ 4 * ext_rgb.RGB_PIXELSIZE < 2 ^ 31 ∧
    4 / 2 < 3 ∧ 2 * 1 + 1 < 2 ^ 32 ∧ DMrgExt.ramp_mem.separate 1 ∧
    ∃ row0 row1 m2,
      DMrgExt.jsimd_h2v1_merged_upsample_rvv ext_rgb bt601_inverse 8 3 4
        (DMrgExt.planes_of (DMrgExt.ramp_mem.rows (DMrgExt.ramp_mem.input_buf 0 (2 * 1)))
          (DMrgExt.ramp_mem.rows (DMrgExt.ramp_mem.input_buf 1 1))
          (DMrgExt.ramp_mem.rows (DMrgExt.ramp_mem.input_buf 2 1))) 1
        (fun _ => DMrgExt.ramp_mem.rows (DMrgExt.ramp_mem.output_buf 0)) = some row0 ∧
      DMrgExt.jsimd_h2v1_merged_upsample_rvv ext_rgb bt601_inverse 8 3 4
        (DMrgExt.planes_of (DMrgExt.ramp_mem.rows (DMrgExt.ramp_mem.input_buf 0 (2 * 1 + 1)))
          (DMrgExt.ramp_mem.rows (DMrgExt.ramp_mem.input_buf 1 1))
          (DMrgExt.ramp_mem.rows (DMrgExt.ramp_mem.input_buf 2 1))) 1
        (fun _ => DMrgExt.ramp_mem.rows (DMrgExt.ramp_mem.output_buf 1)) = some row1 ∧
      DMrgExt.jsimd_h2v2_merged_upsample_rvv ext_rgb bt601_inverse 8 3 4 DMrgExt.ramp_mem 1 =
        some m2 ∧
      m2.rows (DMrgExt.ramp_mem.output_buf 0) = row0 ∧
      m2.rows (DMrgExt.ramp_mem.output_buf 1) = row1 ∧
      (∀ q, q ≠ DMrgExt.ramp_mem.output_buf 0 → q ≠ DMrgExt.ramp_mem.output_buf 1 →
        m2.rows q = DMrgExt.ramp_mem.rows q) :=
  ⟨by decide, by decide, by decide, by norm_num [ext_rgb], by decide, by norm_num, by decide,
    C25_h2v2_is_two_h2v1_calls ext_rgb bt601_inverse 8 3 4 DMrgExt.ramp_mem 1 (by decide)
      (by decide) (by decide) (by norm_num [ext_rgb]) (by decide) (by norm_num) (by decide)⟩

/-- C26. Pointer tables are restored by the vertical merged kernel: for every
row-group index `c` (0 included, where `2 c = c`) and every even
`output_width` whose pitch fits a positive `int`,
`jsimd_h2v2_merged_upsample_rvv` returns with `input_buf` and `output_buf`
equal to the tables on entry, entry by entry: `input_buf[0][c]` and
`output_buf[0]` are back at their values, and no other entry (chroma entries,
`output_buf[1]`) has changed. -/
theorem C26_h2v2_pointer_tables_restored (lay : Layout) (c : DColExt.Consts)
    (VLMAX fuel output_width : Nat) (m : DMrgExt.Mem) (ctr : Nat)
    (hps : 0 < lay.RGB_PIXELSIZE) (hv : 1 ≤ VLMAX) (heven : output_width % 2 = 0)
    (hw : output_width * lay.RGB_PIXELSIZE < 2 ^ 31) (hf : output_width / 2 < fuel) :
    ∃ m2, DMrgExt.jsimd_h2v2_merged_upsample_rvv lay c VLMAX fuel output_width m ctr = some m2 ∧
      (∀ ci row, m2.input_buf ci row = m.input_buf ci row) ∧
      (∀ row, m2.output_buf row = m.output_buf row) := by
  obtain ⟨m2, hm2, hi, ho⟩ := DMrgExt.jsimd_h2v2_returns_restored lay c VLMAX fuel output_width
    m ctr hps hv heven hw hf
  exact ⟨m2, hm2, fun ci row => by rw [hi], fun row => by rw [ho]⟩

/-- Witness: row group 0 of the example memory, four pixels of four samples. -/
theorem C26_h2v2_pointer_tables_restored_witness :
    0 < ext_rgbx.RGB_PIXELSIZE ∧ 1 ≤ 8 ∧ 4 % 2 = 0 ∧ 4 * ext_rgbx.RGB_PIXELSIZE < 2 ^ 31 ∧
    4 / 2 < 3 ∧
    ∃ m2, DMrgExt.jsimd_h2v2_merged_upsample_rvv ext_rgbx bt601_inverse 8 3 4 DMrgExt.ramp_mem
        0 = some m2 ∧
      (∀ ci row, m2.input_buf ci row = DMrgExt.ramp_mem.input_buf ci row) ∧
      (∀ row, m2.output_buf row = DMrgExt.ramp_mem.output_buf row) :=
  ⟨by decide, by decide, by decide, by norm_num [ext_rgbx], by decide,
    C26_h2v2_pointer_tables_restored ext_rgbx bt601_inverse 8 3 4 DMrgExt.ramp_mem 0 (by decide)
      (by decide) (by decide) (by norm_num [ext_rgbx]) (by decide)⟩

/-! ## Forward conversion: the running values stay in the sample range -/

namespace CColExt

/-- The stored samples are the last running values, narrowed. -/
theorem samples_of_running (c : Consts) (r g b : Int) :
    y_sample c r g b = nsrl8 ((y_running c r g b).getD 4 0) 0 ∧
    cb_sample c r g b = nsrl8 ((cb_running c r g b).getD 5 0) 0 ∧
    cr_sample c r g b = nsrl8 ((cr_running c r g b).getD 5 0) 0 :=
  ⟨rfl, rfl, rfl⟩

/-- With the constants of the specification and 8-bit `r`, `g`, `b`, the
running values are the exact sums and differences of the truncated products. -/
theorem running_bt601 {r g b : Int} (hr : 0 ≤ r ∧ r ≤ 255) (hg : 0 ≤ g ∧ g ≤ 255)
    (hb : 0 ≤ b ∧ b ≤ 255) :
    y_running bt601_forward r g b =
      [r * 19595 / 65536, g * 38470 / 65536, r * 19595 / 65536 + g * 38470 / 65536,
        b * 7471 / 65536, r * 19595 / 65536 + g * 38470 / 65536 + b * 7471 / 65536] ∧
    cb_running bt601_forward r g b =
      [b * 32768 / 65536, b * 32768 / 65536 + 128, g * 21709 / 65536,
        b * 32768 / 65536 + 128 - g * 21709 / 65536, r * 11059 / 65536,
        b * 32768 / 65536 + 128 - g * 21709 / 65536 - r * 11059 / 65536] ∧
    cr_running bt601_forward r g b =
      [r * 32768 / 65536, r * 32768 / 65536 + 128, g * 27439 / 65536,
        r * 32768 / 65536 + 128 - g * 27439 / 65536, b * 5329 / 65536,
        r * 32768 / 65536 + 128 - g * 27439 / 65536 - b * 5329 / 65536] := by
  have er : (r + 0 % 256) % 65536 = r := by omega
  have eg : (g + 0 % 256) % 65536 = g := by omega
  have eb : (b + 0 % 256) % 65536 = b := by omega
  simp only [y_running, cb_running, cr_running, bt601_forward, addu16, subu16, mulhu16,
    CENTERJSAMPLE, er, eg, eb]
  norm_num
  have h1 : 0 ≤ r * 19595 / 65536 ∧ r * 19595 / 65536 ≤ 76 := by omega
  have h2 : 0 ≤ g * 38470 / 65536 ∧ g * 38470 / 65536 ≤ 149 := by omega
  have h3 : 0 ≤ b * 7471 / 65536 ∧ b * 7471 / 65536 ≤ 29 := by omega
  have h4 : 0 ≤ b * 32768 / 65536 ∧ b * 32768 / 65536 ≤ 127 := by omega
  have h5 : 0 ≤ g * 21709 / 65536 ∧ g * 21709 / 65536 ≤ 84 := by omega
  have h6 : 0 ≤ r * 11059 / 65536 ∧ r * 11059 / 65536 ≤ 43 := by omega
  have h7 : 0 ≤ r * 32768 / 65536 ∧ r * 32768 / 65536 ≤ 127 := by omega
  have h8 : 0 ≤ g * 27439 / 65536 ∧ g * 27439 / 65536 ≤ 106 := by omega
  have h9 : 0 ≤ b * 5329 / 65536 ∧ b * 5329 / 65536 ≤ 20 := by omega
  generalize r * 19595 / 65536 = a1 at *
  generalize g * 38470 / 65536 = a2 at *
  generalize b * 7471 / 65536 = a3 at *
  generalize b * 32768 / 65536 = a4 at *
  generalize g * 21709 / 65536 = a5 at *
  generalize r * 11059 / 65536 = a6 at *
  generalize r * 32768 / 65536 = a7 at *
  generalize g * 27439 / 65536 = a8 at *
  generalize b * 5329 / 65536 = a9 at *
  refine ⟨⟨?_, ?_⟩, ⟨?_, ?_, ?_⟩, ⟨?_, ?_, ?_⟩⟩ <;> omega


/-- With the constants of the specification and 8-bit `r`, `g`, `b`, every
running value lies in `[0, 255]`. -/
theorem running_bt601_range {r g b : Int} (hr : 0 ≤ r ∧ r ≤ 255) (hg : 0 ≤ g ∧ g ≤ 255)
    (hb : 0 ≤ b ∧ b ≤ 255) :
    ∀ v, v ∈ y_running bt601_forward r g b ++ cb_running bt601_forward r g b ++
      cr_running bt601_forward r g b → 0 ≤ v ∧ v ≤ 255 := by
  obtain ⟨e1, e2, e3⟩ := running_bt601 hr hg hb
  rw [e1, e2, e3]
  intro v hv
  simp only [List.cons_append, List.nil_append, List.mem_cons, List.mem_singleton,
    List.not_mem_nil, or_false] at hv
  rcases hv with h | h | h | h | h | h | h | h | h | h | h | h | h | h | h | h | h <;>
    (subst h; omega)

/-- With the constants of the specification and 8-bit `r`, `g`, `b`, the
narrowing keeps the last running value. -/
theorem samples_bt601_last_running {r g b : Int} (hr : 0 ≤ r ∧ r ≤ 255) (hg : 0 ≤ g ∧ g ≤ 255)
    (hb : 0 ≤ b ∧ b ≤ 255) :
    y_sample bt601_forward r g b = (y_running bt601_forward r g b).getD 4 0 ∧
    cb_sample bt601_forward r g b = (cb_running bt601_forward r g b).getD 5 0 ∧
    cr_sample bt601_forward r g b = (cr_running bt601_forward r g b).getD 5 0 := by
  obtain ⟨s1, s2, s3⟩ := samples_bt601 hr hg hb
  obtain ⟨e1, e2, e3⟩ := running_bt601 hr hg hb
  rw [s1, s2, s3, e1, e2, e3]
  exact ⟨rfl, rfl, rfl⟩

end CColExt

/-- C37. Forward conversion with the constants 19595, 38470, 7471, 11059,
21709, 32768, 27439, 5329: for every pixel `(R, G, B)` in `[0, 255]^3` of input
row 0 the kernel returns, and on the lane of that pixel every unsigned 16-bit
running value of the Y, Cb and Cr computations lies in `[0, 255]`; the running
values are the exact sums and differences of the truncated products, so no
subtraction wraps below zero, and the stored samples are the last running
values, so the narrowing to 8 bits loses nothing. -/
theorem C37_forward_running_values_in_range (lay : Layout) (VLMAX fuel img_width : Nat)
    (input_buf : Nat → Nat → Int) (output_buf : Nat → Nat → Nat → Int) (output_row : Nat)
    (num_rows : Int) (i : Nat) (r g b : Int)
    (hps : 0 < lay.RGB_PIXELSIZE) (hv : 1 ≤ VLMAX)
    (hw : img_width * lay.RGB_PIXELSIZE < 2 ^ 32) (hf : img_width < fuel) (hn : 1 ≤ num_rows)
    (hi : i < img_width)
    (hr : input_buf 0 (i * lay.RGB_PIXELSIZE + lay.RGB_RED) = r)
    (hg : input_buf 0 (i * lay.RGB_PIXELSIZE + lay.RGB_GREEN) = g)
    (hb : input_buf 0 (i * lay.RGB_PIXELSIZE + lay.RGB_BLUE) = b)
    (hr8 : 0 ≤ r ∧ r ≤ 255) (hg8 : 0 ≤ g ∧ g ≤ 255) (hb8 : 0 ≤ b ∧ b ≤ 255) :
    (∀ v, v ∈ CColExt.y_running bt601_forward r g b ++ CColExt.cb_running bt601_forward r g b ++
      CColExt.cr_running bt601_forward r g b → 0 ≤ v ∧ v ≤ 255) ∧
    CColExt.y_running bt601_forward r g b =
      [r * 19595 / 65536, g * 38470 / 65536, r * 19595 / 65536 + g * 38470 / 65536,
        b * 7471 / 65536, r * 19595 / 65536 + g * 38470 / 65536 + b * 7471 / 65536] ∧
    CColExt.cb_running bt601_forward r g b =
      [b * 32768 / 65536, b * 32768 / 65536 + 128, g * 21709 / 65536,
        b * 32768 / 65536 + 128 - g * 21709 / 65536, r * 11059 / 65536,
        b * 32768 / 65536 + 128 - g * 21709 / 65536 - r * 11059 / 65536] ∧
    CColExt.cr_running bt601_forward r g b =
      [r * 32768 / 65536, r * 32768 / 65536 + 128, g * 27439 / 65536,
        r * 32768 / 65536 + 128 - g * 27439 / 65536, b * 5329 / 65536,
        r * 32768 / 65536 + 128 - g * 27439 / 65536 - b * 5329 / 65536] ∧
    ∃ out, CColExt.jsimd_rgb_ycc_convert_rvv lay bt601_forward VLMAX fuel img_width input_buf
        output_buf output_row num_rows = some out ∧
      out 0 output_row i = (CColExt.y_running bt601_forward r g b).getD 4 0 ∧
      out 1 output_row i = (CColExt.cb_running bt601_forward r g b).getD 5 0 ∧
      out 2 output_row i = (CColExt.cr_running bt601_forward r g b).getD 5 0 := by
  obtain ⟨out, hout, hin, _⟩ := CColExt.rgb_ycc_convert_spec lay bt601_forward VLMAX fuel img_width
    input_buf output_buf output_row num_rows hps hv hw hf hn
  obtain ⟨a0, a1, a2⟩ := hin i hi
  obtain ⟨e1, e2, e3⟩ := CColExt.running_bt601 hr8 hg8 hb8
  obtain ⟨s1, s2, s3⟩ := CColExt.samples_bt601_last_running hr8 hg8 hb8
  rw [hr, hg, hb] at a0 a1 a2
  exact ⟨CColExt.running_bt601_range hr8 hg8 hb8, e1, e2, e3, out, hout, a0.trans s1,
    a1.trans s2, a2.trans s3⟩

/-- Witness: the theorem above on a three-pixel white row in the R, G, B layout,
at its last pixel, with two lanes per iteration. -/
theorem C37_forward_running_values_in_range_witness :
    (∀ v, v ∈ CColExt.y_running bt601_forward 255 255 255 ++
      CColExt.cb_running bt601_forward 255 255 255 ++
      CColExt.cr_running bt601_forward 255 255 255 → 0 ≤ v ∧ v ≤ 255) ∧
    CColExt.y_running bt601_forward 255 255 255 = [76, 149, 225, 29, 254] ∧
    CColExt.cb_running bt601_forward 255 255 255 = [127, 255, 84, 171, 43, 128] ∧
    CColExt.cr_running bt601_forward 255 255 255 = [127, 255, 106, 149, 20, 129] ∧
    ∃ out, CColExt.jsimd_rgb_ycc_convert_rvv ext_rgb bt601_forward 2 4 3
        (solid_rows ext_rgb 255 255 255) blank_planes 0 1 = some out ∧
      out 0 0 2 = (CColExt.y_running bt601_forward 255 255 255).getD 4 0 ∧
      out 1 0 2 = (CColExt.cb_running bt601_forward 255 255 255).getD 5 0 ∧
      out 2 0 2 = (CColExt.cr_running bt601_forward 255 255 255).getD 5 0 :=
  C37_forward_running_values_in_range ext_rgb 2 4 3 (solid_rows ext_rgb 255 255 255)
    blank_planes 0 1 2 255 255 255 (by decide) (by decide) (by decide) (by decide) (by decide)
    (by decide) (by decide) (by decide) (by decide) (by decide) (by decide) (by decide)

/-! ## Neutral chroma -/

namespace DColExt

/-- Chroma 128 centres to 0, every product with 0 is 0: the three samples of
the standalone kernel are the luma sample, whatever the constants. -/
theorem convert_samples_neutral (c : Consts) {y : Int} (hy : 0 ≤ y ∧ y ≤ 255) :
    r_sample c y 128 = y ∧ g_sample c y 128 128 = y ∧ b_sample c y 128 = y := by
  have ey : (y + 0 % 256) % 65536 = y := by omega
  simp only [r_sample, g_sample, b_sample, addu16, subu16, mulhu16, nsrl8, CENTERJSAMPLE, ey]
  norm_num
  omega

end DColExt

namespace DMrgExt

/-- Chroma 128 centres to 0, every product with 0 is 0: the three samples of
the merged kernel are the luma sample, whatever the constants. -/
theorem merged_samples_neutral (c : DColExt.Consts) {y : Int} (hy : 0 ≤ y ∧ y ≤ 255) :
    r_sample c y 128 = y ∧ g_sample c y 128 128 = y ∧ b_sample c y 128 = y := by
  have ey : (y + 0 % 256) % 65536 = y := by omega
  simp only [r_sample, g_sample, b_sample, addu16, subu16, mulhu16, nsrl8, CENTERJSAMPLE, ey]
  norm_num
  omega

end DMrgExt


/-- C38. Neutral chroma is the identity on luma, whatever the multiplier
constants, the layout (offsets inside the pixel and pairwise different), the
hardware vector length and the width: the standalone kernel stores
`R = G = B = Y` at every pixel of the first row whose chroma samples are
`(128, 128)`, and the merged kernel stores the grey pixels `(Y0, Y0, Y0)` and
`(Y1, Y1, Y1)` for every chroma pair `(128, 128)`; the luma samples are 8-bit
values. -/
theorem C38_neutral_chroma_is_grey (lay : Layout) (c : DColExt.Consts)
    (VLMAX fuel out_width output_width : Nat) (input_buf : Nat → Nat → Nat → Int)
    (input_row : Nat) (output_buf : Nat → Nat → Int)
    (hin : lay.inside) (hd : lay.distinct) (hv : 1 ≤ VLMAX)
    (hw1 : out_width * lay.RGB_PIXELSIZE < 2 ^ 32) (hf1 : out_width < fuel)
    (heven : output_width % 2 = 0) (hw2 : output_width * lay.RGB_PIXELSIZE < 2 ^ 31)
    (hf2 : output_width / 2 < fuel)
    (hy : ∀ k, 0 ≤ input_buf 0 input_row k ∧ input_buf 0 input_row k ≤ 255) :
    (∃ out, DColExt.jsimd_ycc_rgb_convert_rvv lay c VLMAX fuel out_width input_buf input_row
        output_buf 1 = some out ∧
      ∀ k, k < out_width → input_buf 1 input_row k = 128 → input_buf 2 input_row k = 128 →
        out 0 (k * lay.RGB_PIXELSIZE + lay.RGB_RED) = input_buf 0 input_row k ∧
        out 0 (k * lay.RGB_PIXELSIZE + lay.RGB_GREEN) = input_buf 0 input_row k ∧
        out 0 (k * lay.RGB_PIXELSIZE + lay.RGB_BLUE) = input_buf 0 input_row k) ∧
    (∃ row, DMrgExt.jsimd_h2v1_merged_upsample_rvv lay c VLMAX fuel output_width input_buf
        input_row output_buf = some row ∧
      ∀ i, i < output_width / 2 → input_buf 1 input_row i = 128 →
        input_buf 2 input_row i = 128 →
        (row (2 * i * lay.RGB_PIXELSIZE + lay.RGB_RED) = input_buf 0 input_row (2 * i) ∧
          row (2 * i * lay.RGB_PIXELSIZE + lay.RGB_GREEN) = input_buf 0 input_row (2 * i) ∧
          row (2 * i * lay.RGB_PIXELSIZE + lay.RGB_BLUE) = input_buf 0 input_row (2 * i)) ∧
        (row ((2 * i + 1) * lay.RGB_PIXELSIZE + lay.RGB_RED) = input_buf 0 input_row (2 * i + 1) ∧
          row ((2 * i + 1) * lay.RGB_PIXELSIZE + lay.RGB_GREEN) =
            input_buf 0 input_row (2 * i + 1) ∧
          row ((2 * i + 1) * lay.RGB_PIXELSIZE + lay.RGB_BLUE) =
            input_buf 0 input_row (2 * i + 1))) := by
  constructor
  · obtain ⟨out, hout, hrow, _⟩ := DColExt.ycc_rgb_convert_row lay c VLMAX fuel out_width
      input_buf input_row output_buf 1 hin hv hw1 hf1 (le_refl _)
    refine ⟨out, hout, ?_⟩
    intro k hk hcb hcr
    obtain ⟨n1, n2, n3⟩ := DColExt.convert_samples_neutral c (hy k)
    obtain ⟨_, i1, i2, i3, _⟩ := hin
    rw [hrow, DColExt.converted_row_pixel lay c _ _ _ _ hk i1,
      DColExt.converted_row_pixel lay c _ _ _ _ hk i2,
      DColExt.converted_row_pixel lay c _ _ _ _ hk i3,
      DColExt.stored_sample_red lay c _ _ _ _ _ hd, DColExt.stored_sample_green lay c _ _ _ _ _ hd,
      DColExt.stored_sample_blue lay c _ _ _ _ _ hd, hcb, hcr]
    exact ⟨n1, n2, n3⟩
  · obtain ⟨row, hrow, _, hch, _⟩ := DMrgExt.h2v1_merged_channels lay c VLMAX fuel output_width
      input_buf input_row output_buf hin hd hv heven hw2 hf2
    refine ⟨row, hrow, ?_⟩
    intro i hi hcb hcr
    obtain ⟨a1, a2, a3, _⟩ := hch (2 * i) (by omega)
    obtain ⟨b1, b2, b3, _⟩ := hch (2 * i + 1) (by omega)
    have e0 : 2 * i / 2 = i := by omega
    have e1 : (2 * i + 1) / 2 = i := by omega
    simp only [e0, hcb, hcr] at a1 a2 a3
    simp only [e1, hcb, hcr] at b1 b2 b3
    obtain ⟨n1, n2, n3⟩ := DMrgExt.merged_samples_neutral c (hy (2 * i))
    obtain ⟨m1, m2, m3⟩ := DMrgExt.merged_samples_neutral c (hy (2 * i + 1))
    exact ⟨⟨a1.trans n1, a2.trans n2, a3.trans n3⟩, ⟨b1.trans m1, b2.trans m2, b3.trans m3⟩⟩

/-- Witness: the theorem above on solid planes `(100, 128, 128)`, two pixels
wide, in the R, G, B layout with the constants of the specification. -/
theorem C38_neutral_chroma_is_grey_witness :
    (∃ out, DColExt.jsimd_ycc_rgb_convert_rvv ext_rgb bt601_inverse 8 4 2
        (solid_planes 100 128 128) 0 blank_rows 1 = some out ∧
      ∀ k, k < 2 → solid_planes 100 128 128 1 0 k = 128 → solid_planes 100 128 128 2 0 k = 128 →
        out 0 (k * ext_rgb.RGB_PIXELSIZE + ext_rgb.RGB_RED) = solid_planes 100 128 128 0 0 k ∧
        out 0 (k * ext_rgb.RGB_PIXELSIZE + ext_rgb.RGB_GREEN) = solid_planes 100 128 128 0 0 k ∧
        out 0 (k * ext_rgb.RGB_PIXELSIZE + ext_rgb.RGB_BLUE) = solid_planes 100 128 128 0 0 k) ∧
    (∃ row, DMrgExt.jsimd_h2v1_merged_upsample_rvv ext_rgb bt601_inverse 8 4 2
        (solid_planes 100 128 128) 0 blank_rows = some row ∧
      ∀ i, i < 2 / 2 → solid_planes 100 128 128 1 0 i = 128 →
        solid_planes 100 128 128 2 0 i = 128 →
        (row (2 * i * ext_rgb.RGB_PIXELSIZE + ext_rgb.RGB_RED) =
            solid_planes 100 128 128 0 0 (2 * i) ∧
          row (2 * i * ext_rgb.RGB_PIXELSIZE + ext_rgb.RGB_GREEN) =
            solid_planes 100 128 128 0 0 (2 * i) ∧
          row (2 * i * ext_rgb.RGB_PIXELSIZE + ext_rgb.RGB_BLUE) =
            solid_planes 100 128 128 0 0 (2 * i)) ∧
        (row ((2 * i + 1) * ext_rgb.RGB_PIXELSIZE + ext_rgb.RGB_RED) =
            solid_planes 100 128 128 0 0 (2 * i + 1) ∧
          row ((2 * i + 1) * ext_rgb.RGB_PIXELSIZE + ext_rgb.RGB_GREEN) =
            solid_planes 100 128 128 0 0 (2 * i + 1) ∧
          row ((2 * i + 1) * ext_rgb.RGB_PIXELSIZE + ext_rgb.RGB_BLUE) =
            solid_planes 100 128 128 0 0 (2 * i + 1))) :=
  C38_neutral_chroma_is_grey ext_rgb bt601_inverse 8 4 2 2 (solid_planes 100 128 128) 0
    blank_rows (by decide) (by decide) (by decide) (by norm_num [ext_rgb]) (by decide)
    (by decide) (by norm_num [ext_rgb]) (by decide)
    (fun _ => by simp only [solid_planes, ↓reduceIte]; omega)

/-! ## Inverse conversion against the documented formulas -/

namespace DColExt

/-- With the constants of the specification, chroma samples of 128 and above
give the documented values: the centred chroma is not negative, and the
unsigned high-half multiply is the floor of the product. -/
theorem samples_documented_of_ge {y cb cr : Int} (hy : 0 ≤ y ∧ y ≤ 255)
    (hcb : 128 ≤ cb ∧ cb ≤ 255) (hcr : 128 ≤ cr ∧ cr ≤ 255) :
    r_sample bt601_inverse y cr = Ref.ycc_rgb_r bt601_inverse y cr ∧
    g_sample bt601_inverse y cb cr = Ref.ycc_rgb_g bt601_inverse y cb cr ∧
    b_sample bt601_inverse y cb = Ref.ycc_rgb_b bt601_inverse y cb := by
  have ey : (y + 0 % 256) % 65536 = y := by omega
  have eb : (cb + 0 % 256) % 65536 = cb := by omega
  have er : (cr + 0 % 256) % 65536 = cr := by omega
  have eb1 : (cb - 128) % 65536 = cb - 128 := by omega
  have er1 : (cr - 128) % 65536 = cr - 128 := by omega
  simp only [r_sample, g_sample, b_sample, Ref.ycc_rgb_r, Ref.ycc_rgb_g, Ref.ycc_rgb_b,
    bt601_inverse, addu16, subu16, mulhu16, nsrl8, CENTERJSAMPLE, ey, eb, er, eb1, er1]
  norm_num
  have m1 : (cr - 128) * 26345 / 65536 = 26345 * (cr - 128) / 65536 := by rw [mul_comm]
  have m2 : (cb - 128) * 22554 / 65536 = 22554 * (cb - 128) / 65536 := by rw [mul_comm]
  have m3 : (cr - 128) * 46802 / 65536 = 46802 * (cr - 128) / 65536 := by rw [mul_comm]
  have m4 : (cb - 128) * 50594 / 65536 = 50594 * (cb - 128) / 65536 := by rw [mul_comm]
  rw [m1, m2, m3, m4]
  have h1 : 0 ≤ 26345 * (cr - 128) / 65536 ∧ 26345 * (cr - 128) / 65536 ≤ 51 := by omega
  have h2 : 0 ≤ 22554 * (cb - 128) / 65536 ∧ 22554 * (cb - 128) / 65536 ≤ 43 := by omega
  have h3 : 0 ≤ 46802 * (cr - 128) / 65536 ∧ 46802 * (cr - 128) / 65536 ≤ 90 := by omega
  have h4 : 0 ≤ 50594 * (cb - 128) / 65536 ∧ 50594 * (cb - 128) / 65536 ≤ 98 := by omega
  generalize 26345 * (cr - 128) / 65536 = p1 at *
  generalize 22554 * (cb - 128) / 65536 = p2 at *
  generalize 46802 * (cr - 128) / 65536 = p3 at *
  generalize 50594 * (cb - 128) / 65536 = p4 at *
  refine ⟨?_, ?_, ?_⟩ <;> omega

/-- With the constants of the specification, a Cr sample below 128 puts R off
the documented value by `F_0_402` (modulo 256), and a Cb sample below 128 puts
B off by `F_0_772`: the centred chroma wraps to `65536 + (C - 128)` in its
unsigned lane, and the high half of the unsigned product carries one more
constant. -/
theorem samples_off_documented_of_lt {y cb cr : Int} (hy : 0 ≤ y ∧ y ≤ 255)
    (hcb : 0 ≤ cb ∧ cb < 128) (hcr : 0 ≤ cr ∧ cr < 128) :
    r_sample bt601_inverse y cr = (Ref.ycc_rgb_r bt601_inverse y cr + 26345) % 256 ∧
    g_sample bt601_inverse y cb cr =
      (Ref.ycc_rgb_g bt601_inverse y cb cr - 22554 - 46802) % 256 ∧
    b_sample bt601_inverse y cb = (Ref.ycc_rgb_b bt601_inverse y cb + 50594) % 256 := by
  have ey : (y + 0 % 256) % 65536 = y := by omega
  have eb : (cb + 0 % 256) % 65536 = cb := by omega
  have er : (cr + 0 % 256) % 65536 = cr := by omega
  have eb1 : (cb - 128) % 65536 = cb - 128 + 65536 := by omega
  have er1 : (cr - 128) % 65536 = cr - 128 + 65536 := by omega
  simp only [r_sample, g_sample, b_sample, Ref.ycc_rgb_r, Ref.ycc_rgb_g, Ref.ycc_rgb_b,
    bt601_inverse, addu16, subu16, mulhu16, nsrl8, CENTERJSAMPLE, ey, eb, er, eb1, er1]
  norm_num
  have m1 : (cr - 128 + 65536) * 26345 / 65536 = 26345 * (cr - 128) / 65536 + 26345 := by omega
  have m2 : (cb - 128 + 65536) * 22554 / 65536 = 22554 * (cb - 128) / 65536 + 22554 := by omega
  have m3 : (cr - 128 + 65536) * 46802 / 65536 = 46802 * (cr - 128) / 65536 + 46802 := by omega
  have m4 : (cb - 128 + 65536) * 50594 / 65536 = 50594 * (cb - 128) / 65536 + 50594 := by omega
  rw [m1, m2, m3, m4]
  have h1 : -52 ≤ 26345 * (cr - 128) / 65536 ∧ 26345 * (cr - 128) / 65536 ≤ -1 := by omega
  have h2 : -45 ≤ 22554 * (cb - 128) / 65536 ∧ 22554 * (cb - 128) / 65536 ≤ -1 := by omega
  have h3 : -92 ≤ 46802 * (cr - 128) / 65536 ∧ 46802 * (cr - 128) / 65536 ≤ -1 := by omega
  have h4 : -99 ≤ 50594 * (cb - 128) / 65536 ∧ 50594 * (cb - 128) / 65536 ≤ -1 := by omega
  generalize 26345 * (cr - 128) / 65536 = p1 at *
  generalize 22554 * (cb - 128) / 65536 = p2 at *
  generalize 46802 * (cr - 128) / 65536 = p3 at *
  generalize 50594 * (cb - 128) / 65536 = p4 at *
  refine ⟨?_, ?_, ?_⟩ <;> omega

end DColExt

/-- C31, divergence. The triple `(Y, Cb, Cr) = (128, 64, 64)` has both chroma
samples below 128. The documented formulas with the signed centred chroma
`cb = cr = -64` give `(R, G, B) = (38, 197, 14)`; the kernel stores
`(15, 217, 176)`, in the layout of three and of four samples per pixel. -/
theorem C31_inverse_low_chroma_diverges :
    (DColExt.jsimd_ycc_rgb_convert_rvv ext_rgb bt601_inverse 8 2 1 (solid_planes 128 64 64) 0
        blank_rows 1).map (fun o => (o 0 0, o 0 1, o 0 2)) = some (15, 217, 176) ∧
    (DColExt.jsimd_ycc_rgb_convert_rvv ext_rgbx bt601_inverse 8 2 1 (solid_planes 128 64 64) 0
        blank_rows 1).map (fun o => (o 0 0, o 0 1, o 0 2, o 0 3)) = some (15, 217, 176, 255) ∧
    (DColExt.r_sample bt601_inverse 128 64, DColExt.g_sample bt601_inverse 128 64 64,
      DColExt.b_sample bt601_inverse 128 64) = (15, 217, 176) ∧
    (Ref.ycc_rgb_r bt601_inverse 128 64, Ref.ycc_rgb_g bt601_inverse 128 64 64,
      Ref.ycc_rgb_b bt601_inverse 128 64) = (38, 197, 14) := by
  refine ⟨by decide!, by decide!, by decide!, by decide!⟩

/-! ## Merged kernel: the products are truncated -/

namespace DMrgExt

/-- The samples of the merged kernel are built from the four products of
`products`. -/
theorem samples_of_products (c : DColExt.Consts) (y cb cr : Int) :
    r_sample c y cr =
      nsrl8 (addu16 (addu16 (products c cb cr).1
        (subu16 (addu16 cr (0 % 256)) CENTERJSAMPLE)) (addu16 y (0 % 256))) 0 ∧
    g_sample c y cb cr =
      nsrl8 (subu16 (addu16 y (0 % 256))
        (addu16 (products c cb cr).2.1 (products c cb cr).2.2.1)) 0 ∧
    b_sample c y cb =
      nsrl8 (addu16 (addu16 (products c cb cr).2.2.2
        (subu16 (addu16 cb (0 % 256)) CENTERJSAMPLE)) (addu16 y (0 % 256))) 0 :=
  ⟨rfl, rfl, rfl⟩

/-- For chroma samples of 128 and above and constants below `2^16`, each
product is the floor of `x * F / 2^16` with `x` the centred chroma: no rounding
term is added before the shift. -/
theorem products_truncate (c : DColExt.Consts) {cb cr : Int}
    (hcb : 128 ≤ cb ∧ cb ≤ 255) (hcr : 128 ≤ cr ∧ cr ≤ 255)
    (h1 : 0 ≤ c.F_0_402 ∧ c.F_0_402 < 65536) (h2 : 0 ≤ c.F_0_344 ∧ c.F_0_344 < 65536)
    (h3 : 0 ≤ c.F_0_714 ∧ c.F_0_714 < 65536) (h4 : 0 ≤ c.F_0_772 ∧ c.F_0_772 < 65536) :
    products c cb cr =
      ((cr - 128) * c.F_0_402 / 65536, (cb - 128) * c.F_0_344 / 65536,
        (cr - 128) * c.F_0_714 / 65536, (cb - 128) * c.F_0_772 / 65536) := by
  have eb : (cb + 0 % 256) % 65536 = cb := by omega
  have er : (cr + 0 % 256) % 65536 = cr := by omega
  have eb1 : (cb - 128) % 65536 = cb - 128 := by omega
  have er1 : (cr - 128) % 65536 = cr - 128 := by omega
  have f1 : c.F_0_402 % 65536 = c.F_0_402 := by omega
  have f2 : c.F_0_344 % 65536 = c.F_0_344 := by omega
  have f3 : c.F_0_714 % 65536 = c.F_0_714 := by omega
  have f4 : c.F_0_772 % 65536 = c.F_0_772 := by omega
  simp only [products, addu16, subu16, mulhu16, CENTERJSAMPLE, eb, er, eb1, er1, f1, f2, f3, f4]

end DMrgExt

/-- C32, divergence. With the chroma pair `(Cb, Cr) = (142, 142)` the centred
chroma is 14; the four products of the merged kernel are the truncated values
`(5, 4, 9, 10)`, where the round-to-nearest descale
`floor((14 * F + 2^15) / 2^16)` gives `(6, 5, 10, 11)`. With luma 100 the kernel
stores `(R, G, B) = (119, 87, 124)` at both pixels of the pair; the rounded
products would give `(120, 85, 125)`. -/
theorem C32_merged_products_truncate :
    DMrgExt.products bt601_inverse 142 142 = (5, 4, 9, 10) ∧
    (Ref.descale_rounded 14 bt601_inverse.F_0_402, Ref.descale_rounded 14 bt601_inverse.F_0_344,
      Ref.descale_rounded 14 bt601_inverse.F_0_714, Ref.descale_rounded 14 bt601_inverse.F_0_772) =
        (6, 5, 10, 11) ∧
    (DMrgExt.jsimd_h2v1_merged_upsample_rvv ext_rgb bt601_inverse 8 2 2 (solid_planes 100 142 142)
        0 blank_rows).map (fun row => (row 0, row 1, row 2, row 3, row 4, row 5)) =
      some (119, 87, 124, 119, 87, 124) ∧
    (DMrgExt.r_sample bt601_inverse 100 142, DMrgExt.g_sample bt601_inverse 100 142 142,
      DMrgExt.b_sample bt601_inverse 100 142) = (119, 87, 124) ∧
    ((100 + 14 + Ref.descale_rounded 14 bt601_inverse.F_0_402) % 256,
      (100 - (Ref.descale_rounded 14 bt601_inverse.F_0_344 +
        Ref.descale_rounded 14 bt601_inverse.F_0_714)) % 256,
      (100 + 14 + Ref.descale_rounded 14 bt601_inverse.F_0_772) % 256) = (120, 85, 125) := by
  refine ⟨by decide!, by decide!, by decide!, by decide!, by decide!⟩

/-! ## Andes accurate kernel: the passes by stages -/

namespace AndesInt

/-- The first pass is the butterfly on the dequantized rows, the two 32-lane
vectors of sums and differences, their descale, and the combination of the two
results. -/
theorem islow_pass1_by_stages (row0 row1 row2 row3 row4 row5 row6 row7
    quant_row0 quant_row1 quant_row2 quant_row3 quant_row4 quant_row5 quant_row6
    quant_row7 : Vec) :
    jsimd_idct_islow_pass1_regular row0 row1 row2 row3 row4 row5 row6 row7
        quant_row0 quant_row1 quant_row2 quant_row3 quant_row4 quant_row5 quant_row6 quant_row7 =
      let t := islow_butterfly (vmul_vv_i16 row0 quant_row0 8) (vmul_vv_i16 row1 quant_row1 8)
        (vmul_vv_i16 row2 quant_row2 8) (vmul_vv_i16 row3 quant_row3 8)
        (vmul_vv_i16 row4 quant_row4 8) (vmul_vv_i16 row5 quant_row5 8)
        (vmul_vv_i16 row6 quant_row6 8) (vmul_vv_i16 row7 quant_row7 8)
      vslideup_vx (vlmul_ext (islow_pass1_descale (islow_sums t)))
        (vlmul_ext (islow_pass1_descale (islow_diffs t))) 32 64 :=
  rfl

/-- The second pass is the gather through the table, the butterfly on the rows
of the workspace, the final output stage on the sums and on the differences,
the combination of the two results and the second gather. -/
theorem islow_pass2_by_stages (vxrm : Vxrm) (cols_all_i16m8 : Vec) (k : Nat) :
    jsimd_idct_islow_pass2_regular vxrm cols_all_i16m8 k =
      let vg_reg8 := vle8_v_u8 trans_index8x8_u8 TRANS_TABLE_U8_SIZE
      let workspace := vse_v (vrgather_vv cols_all_i16m8
        (vzext_vf2 vg_reg8 TRANS_TABLE_U8_SIZE) TRANS_TABLE_U8_SIZE) DCTSIZE2
      let t := islow_butterfly (vle16_v_i16 workspace (0 * DCTSIZE) 8)
        (vle16_v_i16 workspace (1 * DCTSIZE) 8) (vle16_v_i16 workspace (2 * DCTSIZE) 8)
        (vle16_v_i16 workspace (3 * DCTSIZE) 8) (vle16_v_i16 workspace (4 * DCTSIZE) 8)
        (vle16_v_i16 workspace (5 * DCTSIZE) 8) (vle16_v_i16 workspace (6 * DCTSIZE) 8)
        (vle16_v_i16 workspace (7 * DCTSIZE) 8)
      let cols_all_u8m4 := vslideup_vx (vlmul_ext (islow_final_stage vxrm (islow_sums t)))
        (vlmul_ext (islow_final_stage vxrm (islow_diffs t))) 32 64
      vse_v (vlmul_trunc (vslidedown_vx
        (vrgather_vv cols_all_u8m4 vg_reg8 TRANS_TABLE_U8_SIZE) (8 * k) 8)) 8 :=
  rfl

/-- One lane of the final output stage under round-to-nearest-up, for a value
that is a signed 32-bit integer: the rounded descale by 18, level shift and
clamp. -/
theorem islow_final_stage_lane (x : Vec) {i : Nat} (hi : i < 32) (hx : in32 (x i)) :
    islow_final_stage Vxrm.rnu x i = Ref.range_limit (Ref.DESCALE (x i) 18) := by
  simp only [islow_final_stage, vadd_vx_u8, vreinterpret_v_i8_u8, vnclip_wx_i8, vnsra_wx_i16,
    lane_of_lt hi, DESCALE_P2, CONST_BITS, PASS1_BITS, CENTERJSAMPLE, Nat.reduceAdd,
    Nat.reduceSub, Nat.reduceMod, Int.reducePow]
  have h := final_descale_18 (rfl : x i = x i) hx
  rw [wrap32_of_in32 hx] at h
  exact h

end AndesInt


theorem wrap32_in32 (x : Int) : in32 (wrap32 x) := by
  unfold in32 wrap32; omega

namespace AndesInt

/-- Every lane of the vector of sums is a signed 32-bit value. -/
theorem islow_sums_in32 (t : Butterfly) (i : Nat) : in32 (islow_sums t i) := by
  unfold islow_sums vadd_vv_i32
  split_ifs
  · exact wrap32_in32 _
  · decide

/-- Every lane of the vector of differences is a signed 32-bit value. -/
theorem islow_diffs_in32 (t : Butterfly) (i : Nat) : in32 (islow_diffs t i) := by
  unfold islow_diffs vsub_vv_i32
  split_ifs
  · exact wrap32_in32 _
  · decide

/-- The stored sample at row `r`, column `c` is the final output stage of lane
`r` of block `c` of the sums for `c < 4`, and of lane `r` of block `7 - c` of
the differences for `c ≥ 4`. -/
theorem islow_pass2_sample_by_final_stage (vxrm : Vxrm) (cols_all_i16m8 : Vec) {r c : Nat}
    (hr : r < 8) (hc : c < 8) :
    jsimd_idct_islow_pass2_regular vxrm cols_all_i16m8 r c =
      let vg_reg8 := vle8_v_u8 trans_index8x8_u8 TRANS_TABLE_U8_SIZE
      let workspace := vse_v (vrgather_vv cols_all_i16m8
        (vzext_vf2 vg_reg8 TRANS_TABLE_U8_SIZE) TRANS_TABLE_U8_SIZE) DCTSIZE2
      let t := islow_butterfly (vle16_v_i16 workspace (0 * DCTSIZE) 8)
        (vle16_v_i16 workspace (1 * DCTSIZE) 8) (vle16_v_i16 workspace (2 * DCTSIZE) 8)
        (vle16_v_i16 workspace (3 * DCTSIZE) 8) (vle16_v_i16 workspace (4 * DCTSIZE) 8)
        (vle16_v_i16 workspace (5 * DCTSIZE) 8) (vle16_v_i16 workspace (6 * DCTSIZE) 8)
        (vle16_v_i16 workspace (7 * DCTSIZE) 8)
      if c < 4 then islow_final_stage vxrm (islow_sums t) (r + 8 * c)
      else islow_final_stage vxrm (islow_diffs t) (r + 8 * (7 - c)) := by
  rw [islow_pass2_by_stages]
  simp (disch := omega) only [vse_v_lane, vlmul_trunc_lane, vslidedown_vx_lane, hc]
  rw [gather_trans_lane _ hr hc]
  interval_cases c <;>
  simp (disch := omega) only [order8_0, order8_1, order8_2, order8_3, order8_4, order8_5,
    order8_6, order8_7, vslideup_vx_lo, vslideup_vx_hi, vlmul_ext_lane, Nat.reduceLT,
    ↓reduceIte, Nat.reduceMul, Nat.reduceSub, Nat.add_zero, Nat.mul_zero] <;>
  congr 1

end AndesInt


/-- C33. Two-step final descale of the Andes accurate IDCT under
round-to-nearest-up: on every lane that holds a signed 32-bit value `x`, the
final output stage of `jsimd_idct_islow_pass2_regular` (shift right by 16,
rounding saturating narrow by `DESCALE_P2 - 16 = 2`, reinterpretation as
unsigned 8-bit, wrapping addition of 128) yields
`clamp(floor((x + 2^17) / 2^18) + 128, 0, 255)`, the rounded descale by 18
followed by level shift and clamp; and every sample the second pass stores is
this value of a lane of the sums (columns 0..3) or of the differences
(columns 4..7). -/
theorem C33_two_step_final_descale (x : Vec) (i : Nat) (hi : i < 32) (hx : in32 (x i)) :
    AndesInt.DESCALE_P2 - 16 = 2 ∧
    AndesInt.islow_final_stage Vxrm.rnu x i =
      (sat8 (roundoff Vxrm.rnu (wrap16 (x i / 2 ^ 16)) 2) % 256 + 128) % 256 ∧
    AndesInt.islow_final_stage Vxrm.rnu x i = max 0 (min 255 ((x i + 2 ^ 17) / 2 ^ 18 + 128)) ∧
    AndesInt.islow_final_stage Vxrm.rnu x i = Ref.range_limit (Ref.DESCALE (x i) 18) ∧
    ∀ (cols_all_i16m8 : Vec) (r c : Nat), r < 8 → c < 8 →
      AndesInt.jsimd_idct_islow_pass2_regular Vxrm.rnu cols_all_i16m8 r c =
        (let vg_reg8 := vle8_v_u8 AndesInt.trans_index8x8_u8 AndesInt.TRANS_TABLE_U8_SIZE
        let workspace := vse_v (vrgather_vv cols_all_i16m8
          (vzext_vf2 vg_reg8 AndesInt.TRANS_TABLE_U8_SIZE) AndesInt.TRANS_TABLE_U8_SIZE) DCTSIZE2
        let t := AndesInt.islow_butterfly (vle16_v_i16 workspace (0 * DCTSIZE) 8)
          (vle16_v_i16 workspace (1 * DCTSIZE) 8) (vle16_v_i16 workspace (2 * DCTSIZE) 8)
          (vle16_v_i16 workspace (3 * DCTSIZE) 8) (vle16_v_i16 workspace (4 * DCTSIZE) 8)
          (vle16_v_i16 workspace (5 * DCTSIZE) 8) (vle16_v_i16 workspace (6 * DCTSIZE) 8)
          (vle16_v_i16 workspace (7 * DCTSIZE) 8)
        if c < 4 then
          max 0 (min 255 ((AndesInt.islow_sums t (r + 8 * c) + 2 ^ 17) / 2 ^ 18 + 128))
        else max 0 (min 255 ((AndesInt.islow_diffs t (r + 8 * (7 - c)) + 2 ^ 17) / 2 ^ 18 + 128))) := by
  have hclamp : ∀ v : Int, Ref.range_limit (Ref.DESCALE v 18) =
      max 0 (min 255 ((v + 2 ^ 17) / 2 ^ 18 + 128)) := by
    intro v
    unfold Ref.range_limit Ref.DESCALE
    simp only [Nat.reduceSub, Int.reducePow]
    omega
  have hlane := AndesInt.islow_final_stage_lane x hi hx
  refine ⟨rfl, ?_, ?_, hlane, ?_⟩
  · simp only [AndesInt.islow_final_stage, vadd_vx_u8, vreinterpret_v_i8_u8, vnclip_wx_i8,
      vnsra_wx_i16, lane_of_lt hi, AndesInt.DESCALE_P2, AndesInt.CONST_BITS, AndesInt.PASS1_BITS,
      CENTERJSAMPLE, Nat.reduceAdd, Nat.reduceSub, Nat.reduceMod]
  · rw [hlane, hclamp]
  · intro cols r c hr hc
    rw [AndesInt.islow_pass2_sample_by_final_stage Vxrm.rnu cols hr hc]
    simp only []
    split_ifs with h4
    · rw [AndesInt.islow_final_stage_lane _ (by omega) (AndesInt.islow_sums_in32 _ _), hclamp]
    · rw [AndesInt.islow_final_stage_lane _ (by omega) (AndesInt.islow_diffs_in32 _ _), hclamp]

/-- Witness: the theorem above on the lane value `3 * 2^17`, which the two
steps turn into `2 + 128`. -/
theorem C33_two_step_final_descale_witness :
    AndesInt.islow_final_stage Vxrm.rnu (fun _ => 393216) 5 = 130 ∧
    max (0 : Int) (min 255 (((393216 : Int) + 2 ^ 17) / 2 ^ 18 + 128)) = 130 ∧
    AndesInt.islow_final_stage Vxrm.rnu (fun _ => 393216) 5 =
      max 0 (min 255 (((393216 : Int) + 2 ^ 17) / 2 ^ 18 + 128)) :=
  ⟨by decide, by decide,
    (C33_two_step_final_descale (fun _ => 393216) 5 (by decide) (by decide)).2.2.1⟩

/-! ## Andes accurate kernel: the transposition table -/

namespace AndesInt

/-- Entry `m + 8 k` of the table is `k + 8 * order8 m`. -/
theorem trans_index8x8_u8_entry {k m : Nat} (hk : k < 8) (hm : m < 8) :
    trans_index8x8_u8 (m + 8 * k) = ((k + 8 * order8 m : Nat) : Int) := by
  interval_cases k <;> interval_cases m <;> rfl

/-- The table maps `0 .. 63` into `0 .. 63`. -/
theorem trans_index8x8_u8_range {p : Nat} (hp : p < 64) :
    0 ≤ trans_index8x8_u8 p ∧ trans_index8x8_u8 p < 64 := by
  obtain ⟨k, m, hk, hm, rfl⟩ := lane_split hp
  rw [trans_index8x8_u8_entry hk hm]
  have := order8_lt hm
  omega

/-- The table is one-to-one on `0 .. 63`. -/
theorem trans_index8x8_u8_injective {p q : Nat} (hp : p < 64) (hq : q < 64)
    (h : trans_index8x8_u8 p = trans_index8x8_u8 q) : p = q := by
  obtain ⟨k, m, hk, hm, rfl⟩ := lane_split hp
  obtain ⟨k1, m1, hk1, hm1, rfl⟩ := lane_split hq
  rw [trans_index8x8_u8_entry hk hm, trans_index8x8_u8_entry hk1 hm1] at h
  have h1 := order8_lt hm
  have h2 := order8_lt hm1
  have h3 : k + 8 * order8 m = k1 + 8 * order8 m1 := by exact_mod_cast h
  have h4 : order8 m = order8 m1 := by omega
  have h5 : m = m1 := by
    rw [← order8_order8 hm, ← order8_order8 hm1, h4]
  omega

/-- Every index `0 .. 63` is an entry of the table. -/
theorem trans_index8x8_u8_surjective {n : Nat} (hn : n < 64) :
    ∃ p, p < 64 ∧ trans_index8x8_u8 p = (n : Int) := by
  obtain ⟨b, k, hb, hk, rfl⟩ := lane_split hn
  have hb1 := order8_lt hb
  refine ⟨order8 b + 8 * k, by omega, ?_⟩
  rw [trans_index8x8_u8_entry hk hb1, order8_order8 hb]

/-- Lane `i` of vector `j` in a block that stores the vectors in the order
0 1 2 3 7 6 5 4. -/
theorem block_0123_7654_lane (v : Nat → Vec) {i j : Nat} (hi : i < 8) (hj : j < 8) :
    block_0123_7654 v (i + 8 * order8 j) = v j i := by
  have h1 := order8_lt hj
  have e1 : (i + 8 * order8 j) / 8 = order8 j := by omega
  have e2 : (i + 8 * order8 j) % 8 = i := by omega
  have e3 : i + 8 * order8 j < 64 := by omega
  simp only [block_0123_7654, e1, e2, e3, ↓reduceIte, order8_order8 hj]

/-- The 16-bit gather of the second pass on a block in the order
0 1 2 3 7 6 5 4 is the transpose in natural order. -/
theorem gather16_block_transposes (v : Nat → Vec) {i j : Nat} (hi : i < 8) (hj : j < 8) :
    vrgather_vv (block_0123_7654 v)
      (vzext_vf2 (vle8_v_u8 trans_index8x8_u8 TRANS_TABLE_U8_SIZE) TRANS_TABLE_U8_SIZE)
      TRANS_TABLE_U8_SIZE (8 * i + j) = v j i := by
  have e : 8 * i + j = i * 8 + j := by omega
  rw [e, gather_trans_lane16 _ hi hj, block_0123_7654_lane v hi hj]

/-- The 8-bit gather of the output stage on a block in the order
0 1 2 3 7 6 5 4 is the transpose in natural order. -/
theorem gather8_block_transposes (v : Nat → Vec) {i j : Nat} (hi : i < 8) (hj : j < 8) :
    vrgather_vv (block_0123_7654 v) (vle8_v_u8 trans_index8x8_u8 TRANS_TABLE_U8_SIZE)
      TRANS_TABLE_U8_SIZE (8 * i + j) = v j i := by
  have e : 8 * i + j = j + 8 * i := by omega
  rw [e, gather_trans_lane _ hi hj, block_0123_7654_lane v hi hj]

/-- Combining the 32-lane result for outputs 0, 1, 2, 3 with the one for
outputs 7, 6, 5, 4 gives a block in the order 0 1 2 3 7 6 5 4. -/
theorem combined_is_block (cols_0123 cols_7654 : Vec) :
    vslideup_vx (vlmul_ext cols_0123) (vlmul_ext cols_7654) 32 64 =
      block_0123_7654 (islow_output_vector cols_0123 cols_7654) := by
  funext p
  by_cases hp : p < 64
  · obtain ⟨b, j, hb, hj, rfl⟩ := lane_split hp
    have e1 : (j + 8 * b) / 8 = b := by omega
    have e2 : (j + 8 * b) % 8 = j := by omega
    simp only [block_0123_7654, islow_output_vector, hp, e1, e2, hj, ↓reduceIte]
    interval_cases b <;>
    simp (disch := omega) only [order8_0, order8_1, order8_2, order8_3, order8_4, order8_5,
      order8_6, order8_7, vslideup_vx_lo, vslideup_vx_hi, vlmul_ext_lane, Nat.reduceLT,
      ↓reduceIte, Nat.reduceMul, Nat.reduceSub, Nat.add_zero, Nat.mul_zero] <;>
    congr 1
  · rw [vslideup_vx_tail (by omega)]
    simp only [block_0123_7654, hp, ↓reduceIte]

/-- The block the first pass produces stores its eight output vectors in the
order 0 1 2 3 7 6 5 4. -/
theorem islow_pass1_is_block (row0 row1 row2 row3 row4 row5 row6 row7
    quant_row0 quant_row1 quant_row2 quant_row3 quant_row4 quant_row5 quant_row6
    quant_row7 : Vec) :
    jsimd_idct_islow_pass1_regular row0 row1 row2 row3 row4 row5 row6 row7
        quant_row0 quant_row1 quant_row2 quant_row3 quant_row4 quant_row5 quant_row6 quant_row7 =
      let t := islow_butterfly (vmul_vv_i16 row0 quant_row0 8) (vmul_vv_i16 row1 quant_row1 8)
        (vmul_vv_i16 row2 quant_row2 8) (vmul_vv_i16 row3 quant_row3 8)
        (vmul_vv_i16 row4 quant_row4 8) (vmul_vv_i16 row5 quant_row5 8)
        (vmul_vv_i16 row6 quant_row6 8) (vmul_vv_i16 row7 quant_row7 8)
      block_0123_7654 (islow_output_vector (islow_pass1_descale (islow_sums t))
        (islow_pass1_descale (islow_diffs t))) := by
  rw [islow_pass1_by_stages]
  exact combined_is_block _ _

end AndesInt


/-- C34. The table `trans_index8x8_u8` is a permutation of `0 .. 63` (it maps
the range into itself, one-to-one and onto), and gathering through it a
64-element block that stores the 8-lane vectors `v 0, v 1, v 2, v 3, v 7, v 6,
v 5, v 4` in that order gives the transpose in natural order,
`result[8 i + j] = v j [i]`, with the 16-bit gather that opens the second pass
and with the 8-bit gather of its output stage. The first pass produces a block
of this layout, and the sample the second pass stores at row `i`, column `j`
is lane `i` of its output vector `j`. -/
theorem C34_transpose_table_transposes (v : Nat → Vec) (i j : Nat) (hi : i < 8) (hj : j < 8) :
    (∀ p, p < 64 → 0 ≤ AndesInt.trans_index8x8_u8 p ∧ AndesInt.trans_index8x8_u8 p < 64) ∧
    (∀ p q, p < 64 → q < 64 →
      AndesInt.trans_index8x8_u8 p = AndesInt.trans_index8x8_u8 q → p = q) ∧
    (∀ n : Nat, n < 64 → ∃ p, p < 64 ∧ AndesInt.trans_index8x8_u8 p = (n : Int)) ∧
    vrgather_vv (AndesInt.block_0123_7654 v)
      (vzext_vf2 (vle8_v_u8 AndesInt.trans_index8x8_u8 AndesInt.TRANS_TABLE_U8_SIZE)
        AndesInt.TRANS_TABLE_U8_SIZE) AndesInt.TRANS_TABLE_U8_SIZE (8 * i + j) = v j i ∧
    vrgather_vv (AndesInt.block_0123_7654 v)
      (vle8_v_u8 AndesInt.trans_index8x8_u8 AndesInt.TRANS_TABLE_U8_SIZE)
      AndesInt.TRANS_TABLE_U8_SIZE (8 * i + j) = v j i ∧
    (∀ row0 row1 row2 row3 row4 row5 row6 row7 quant_row0 quant_row1 quant_row2 quant_row3
        quant_row4 quant_row5 quant_row6 quant_row7 : Vec,
      AndesInt.jsimd_idct_islow_pass1_regular row0 row1 row2 row3 row4 row5 row6 row7
          quant_row0 quant_row1 quant_row2 quant_row3 quant_row4 quant_row5 quant_row6
          quant_row7 =
        (let t := AndesInt.islow_butterfly (vmul_vv_i16 row0 quant_row0 8)
          (vmul_vv_i16 row1 quant_row1 8) (vmul_vv_i16 row2 quant_row2 8)
          (vmul_vv_i16 row3 quant_row3 8) (vmul_vv_i16 row4 quant_row4 8)
          (vmul_vv_i16 row5 quant_row5 8) (vmul_vv_i16 row6 quant_row6 8)
          (vmul_vv_i16 row7 quant_row7 8)
        AndesInt.block_0123_7654
          (AndesInt.islow_output_vector (AndesInt.islow_pass1_descale (AndesInt.islow_sums t))
            (AndesInt.islow_pass1_descale (AndesInt.islow_diffs t))))) ∧
    (∀ (vxrm : Vxrm) (cols_all_i16m8 : Vec),
      AndesInt.jsimd_idct_islow_pass2_regular vxrm cols_all_i16m8 i j =
        (let vg_reg8 := vle8_v_u8 AndesInt.trans_index8x8_u8 AndesInt.TRANS_TABLE_U8_SIZE
        let workspace := vse_v (vrgather_vv cols_all_i16m8
          (vzext_vf2 vg_reg8 AndesInt.TRANS_TABLE_U8_SIZE) AndesInt.TRANS_TABLE_U8_SIZE) DCTSIZE2
        let t := AndesInt.islow_butterfly (vle16_v_i16 workspace (0 * DCTSIZE) 8)
          (vle16_v_i16 workspace (1 * DCTSIZE) 8) (vle16_v_i16 workspace (2 * DCTSIZE) 8)
          (vle16_v_i16 workspace (3 * DCTSIZE) 8) (vle16_v_i16 workspace (4 * DCTSIZE) 8)
          (vle16_v_i16 workspace (5 * DCTSIZE) 8) (vle16_v_i16 workspace (6 * DCTSIZE) 8)
          (vle16_v_i16 workspace (7 * DCTSIZE) 8)
        AndesInt.islow_output_vector (AndesInt.islow_final_stage vxrm (AndesInt.islow_sums t))
          (AndesInt.islow_final_stage vxrm (AndesInt.islow_diffs t)) j i)) := by
  refine ⟨fun p hp => AndesInt.trans_index8x8_u8_range hp,
    fun p q hp hq h => AndesInt.trans_index8x8_u8_injective hp hq h,
    fun n hn => AndesInt.trans_index8x8_u8_surjective hn,
    AndesInt.gather16_block_transposes v hi hj, AndesInt.gather8_block_transposes v hi hj,
    fun r0 r1 r2 r3 r4 r5 r6 r7 q0 q1 q2 q3 q4 q5 q6 q7 =>
      AndesInt.islow_pass1_is_block r0 r1 r2 r3 r4 r5 r6 r7 q0 q1 q2 q3 q4 q5 q6 q7, ?_⟩
  intro vxrm cols
  rw [AndesInt.islow_pass2_sample_by_final_stage vxrm cols hi hj]
  simp only [AndesInt.islow_output_vector, hi, ↓reduceIte]

/-- Witness: the theorem above on the vectors `v k = (10 k, 10 k + 1, ...)`, at
`i = 2`, `j = 5`: element 21 of the gathered block is lane 2 of `v 5`. -/
theorem C34_transpose_table_transposes_witness :
    vrgather_vv (AndesInt.block_0123_7654 (fun k l => ((10 * k + l : Nat) : Int)))
      (vzext_vf2 (vle8_v_u8 AndesInt.trans_index8x8_u8 AndesInt.TRANS_TABLE_U8_SIZE)
        AndesInt.TRANS_TABLE_U8_SIZE) AndesInt.TRANS_TABLE_U8_SIZE (8 * 2 + 5) = 52 ∧
    vrgather_vv (AndesInt.block_0123_7654 (fun k l => ((10 * k + l : Nat) : Int)))
      (vle8_v_u8 AndesInt.trans_index8x8_u8 AndesInt.TRANS_TABLE_U8_SIZE)
      AndesInt.TRANS_TABLE_U8_SIZE (8 * 2 + 5) = 52 :=
  ⟨(C34_transpose_table_transposes (fun k l => ((10 * k + l : Nat) : Int)) 2 5 (by decide)
      (by decide)).2.2.2.1,
    (C34_transpose_table_transposes (fun k l => ((10 * k + l : Nat) : Int)) 2 5 (by decide)
      (by decide)).2.2.2.2.1⟩

/-! ## The butterfly with combined constants against `DO_COMMON_IDCT` -/

namespace AndesInt

/-- On a lane whose eight inputs lie in `[-8191, 8191]`, the sums and the
differences of the Andes butterfly are those of the results of
`DO_COMMON_IDCT`. -/
theorem islow_presums_eq_common (in0 in1 in2 in3 in4 in5 in6 in7 : Vec) {j : Nat} (hj : j < 8)
    (h0 : -8191 ≤ in0 j ∧ in0 j ≤ 8191) (h1 : -8191 ≤ in1 j ∧ in1 j ≤ 8191)
    (h2 : -8191 ≤ in2 j ∧ in2 j ≤ 8191) (h3 : -8191 ≤ in3 j ∧ in3 j ≤ 8191)
    (h4 : -8191 ≤ in4 j ∧ in4 j ≤ 8191) (h5 : -8191 ≤ in5 j ∧ in5 j ≤ 8191)
    (h6 : -8191 ≤ in6 j ∧ in6 j ≤ 8191) (h7 : -8191 ≤ in7 j ∧ in7 j ≤ 8191) :
    (islow_sums (islow_butterfly in0 in1 in2 in3 in4 in5 in6 in7) j =
        vadd_vv_i32 (RvvInt.DO_COMMON_IDCT in0 in1 in2 in3 in4 in5 in6 in7 8).tmp10
          (RvvInt.DO_COMMON_IDCT in0 in1 in2 in3 in4 in5 in6 in7 8).tmp3 8 j ∧
      islow_sums (islow_butterfly in0 in1 in2 in3 in4 in5 in6 in7) (j + 8) =
        vadd_vv_i32 (RvvInt.DO_COMMON_IDCT in0 in1 in2 in3 in4 in5 in6 in7 8).tmp11
          (RvvInt.DO_COMMON_IDCT in0 in1 in2 in3 in4 in5 in6 in7 8).tmp2 8 j ∧
      islow_sums (islow_butterfly in0 in1 in2 in3 in4 in5 in6 in7) (j + 16) =
        vadd_vv_i32 (RvvInt.DO_COMMON_IDCT in0 in1 in2 in3 in4 in5 in6 in7 8).tmp12
          (RvvInt.DO_COMMON_IDCT in0 in1 in2 in3 in4 in5 in6 in7 8).tmp1 8 j ∧
      islow_sums (islow_butterfly in0 in1 in2 in3 in4 in5 in6 in7) (j + 24) =
        vadd_vv_i32 (RvvInt.DO_COMMON_IDCT in0 in1 in2 in3 in4 in5 in6 in7 8).tmp13
          (RvvInt.DO_COMMON_IDCT in0 in1 in2 in3 in4 in5 in6 in7 8).tmp0 8 j) ∧
    (islow_diffs (islow_butterfly in0 in1 in2 in3 in4 in5 in6 in7) j =
        vsub_vv_i32 (RvvInt.DO_COMMON_IDCT in0 in1 in2 in3 in4 in5 in6 in7 8).tmp10
          (RvvInt.DO_COMMON_IDCT in0 in1 in2 in3 in4 in5 in6 in7 8).tmp3 8 j ∧
      islow_diffs (islow_butterfly in0 in1 in2 in3 in4 in5 in6 in7) (j + 8) =
        vsub_vv_i32 (RvvInt.DO_COMMON_IDCT in0 in1 in2 in3 in4 in5 in6 in7 8).tmp11
          (RvvInt.DO_COMMON_IDCT in0 in1 in2 in3 in4 in5 in6 in7 8).tmp2 8 j ∧
      islow_diffs (islow_butterfly in0 in1 in2 in3 in4 in5 in6 in7) (j + 16) =
        vsub_vv_i32 (RvvInt.DO_COMMON_IDCT in0 in1 in2 in3 in4 in5 in6 in7 8).tmp12
          (RvvInt.DO_COMMON_IDCT in0 in1 in2 in3 in4 in5 in6 in7 8).tmp1 8 j ∧
      islow_diffs (islow_butterfly in0 in1 in2 in3 in4 in5 in6 in7) (j + 24) =
        vsub_vv_i32 (RvvInt.DO_COMMON_IDCT in0 in1 in2 in3 in4 in5 in6 in7 8).tmp13
          (RvvInt.DO_COMMON_IDCT in0 in1 in2 in3 in4 in5 in6 in7 8).tmp0 8 j) := by
  have s1 : in16 (in0 j + in4 j) := by unfold in16; omega
  have s2 : in16 (in0 j - in4 j) := by unfold in16; omega
  have s3 : in16 (in7 j + in3 j) := by unfold in16; omega
  have s4 : in16 (in5 j + in1 j) := by unfold in16; omega
  have g1 : in16 (in2 j + in6 j) := by unfold in16; omega
  have g2 : in16 (in7 j + in1 j) := by unfold in16; omega
  have g3 : in16 (in5 j + in3 j) := by unfold in16; omega
  have g5 : in16 (in7 j + in3 j + (in5 j + in1 j)) := by unfold in16; omega
  have w1 : in32 (in0 j + in4 j) := by unfold in32; omega
  have w2 : in32 (in0 j - in4 j) := by unfold in32; omega
  simp (disch := omega) only [islow_sums, islow_diffs, islow_tmps_10_11_12_13,
    islow_tmps_3_2_1_0, islow_butterfly, RvvInt.DO_COMMON_IDCT, vslideup_vx_lo, vslideup_vx_hi,
    vlmul_ext, vadd_vv_i32, vsub_vv_i32, vwmacc_vx_i32, vwmul_vx_i32, vadd_vv_i16, vsub_vv_i16,
    vwadd_vv_i32, vwsub_vv_i32, vsll_vx_i32, lane_of_lt,
    Nat.reduceSubDiff, Nat.add_sub_cancel, Nat.reduceMod, Nat.reduceLT, ↓reduceIte,
    wrap16_of_in16 s1, wrap16_of_in16 s2, wrap16_of_in16 s3, wrap16_of_in16 s4,
    wrap16_of_in16 g1, wrap16_of_in16 g2, wrap16_of_in16 g3, wrap16_of_in16 g5,
    wrap32_of_in32 w1, wrap32_of_in32 w2,
    wrap32_add_left, wrap32_add_right, wrap32_sub_left, wrap32_sub_right,
    idct_islow_consts, RvvInt.CONST_BITS,
    F_0_298, F_0_390, F_0_541, F_0_765, F_0_899, F_1_175, F_1_501, F_1_847, F_1_961, F_2_053,
    F_2_562, F_3_072, F_1_175_MINUS_1_961, F_1_175_MINUS_0_390, F_0_541_MINUS_1_847,
    F_3_072_MINUS_2_562, F_0_298_MINUS_0_899, F_1_501_MINUS_0_899, F_2_053_MINUS_2_562,
    F_0_541_PLUS_0_765, RvvInt.F_0_298, RvvInt.F_0_390, RvvInt.F_0_541, RvvInt.F_0_765,
    RvvInt.F_0_899, RvvInt.F_1_175, RvvInt.F_1_501, RvvInt.F_1_847, RvvInt.F_1_961,
    RvvInt.F_2_053, RvvInt.F_2_562, RvvInt.F_3_072, Int.reducePow, Int.reduceAdd,
    Int.reduceSub, Int.reduceNeg]
  refine ⟨⟨?_, ?_, ?_, ?_⟩, ⟨?_, ?_, ?_, ?_⟩⟩ <;> (congr 1; ring)

end AndesInt


/-- C35. Pre-combined constants do not change the butterfly: when the eight
16-bit inputs of every lane lie in `[-8191, 8191]`, the eight 32-bit pre-descale
values of the Andes network (`tmp10 ± tmp3`, `tmp11 ± tmp2`, `tmp12 ± tmp1`,
`tmp13 ± tmp0`, blocks 0..3 of the sums and of the differences) are equal, lane
by lane, to the sums and differences of the results of the 12-constant macro
`DO_COMMON_IDCT` of `simd/rvv/jidctint-rvv.c`. -/
theorem C35_combined_constants_same_butterfly (inp : Nat → Vec)
    (h : ∀ k, k < 8 → ∀ j, j < 8 → -8191 ≤ inp k j ∧ inp k j ≤ 8191) :
    ∀ j, j < 8 →
      (AndesInt.islow_sums (AndesInt.islow_butterfly (inp 0) (inp 1) (inp 2) (inp 3) (inp 4)
          (inp 5) (inp 6) (inp 7)) j =
        vadd_vv_i32
          (RvvInt.DO_COMMON_IDCT (inp 0) (inp 1) (inp 2) (inp 3) (inp 4) (inp 5) (inp 6) (inp 7)
            8).tmp10
          (RvvInt.DO_COMMON_IDCT (inp 0) (inp 1) (inp 2) (inp 3) (inp 4) (inp 5) (inp 6) (inp 7)
            8).tmp3 8 j ∧
      AndesInt.islow_sums (AndesInt.islow_butterfly (inp 0) (inp 1) (inp 2) (inp 3) (inp 4)
          (inp 5) (inp 6) (inp 7)) (j + 8) =
        vadd_vv_i32
          (RvvInt.DO_COMMON_IDCT (inp 0) (inp 1) (inp 2) (inp 3) (inp 4) (inp 5) (inp 6) (inp 7)
            8).tmp11
          (RvvInt.DO_COMMON_IDCT (inp 0) (inp 1) (inp 2) (inp 3) (inp 4) (inp 5) (inp 6) (inp 7)
            8).tmp2 8 j ∧
      AndesInt.islow_sums (AndesInt.islow_butterfly (inp 0) (inp 1) (inp 2) (inp 3) (inp 4)
          (inp 5) (inp 6) (inp 7)) (j + 16) =
        vadd_vv_i32
          (RvvInt.DO_COMMON_IDCT (inp 0) (inp 1) (inp 2) (inp 3) (inp 4) (inp 5) (inp 6) (inp 7)
            8).tmp12
          (RvvInt.DO_COMMON_IDCT (inp 0) (inp 1) (inp 2) (inp 3) (inp 4) (inp 5) (inp 6) (inp 7)
            8).tmp1 8 j ∧
      AndesInt.islow_sums (AndesInt.islow_butterfly (inp 0) (inp 1) (inp 2) (inp 3) (inp 4)
          (inp 5) (inp 6) (inp 7)) (j + 24) =
        vadd_vv_i32
          (RvvInt.DO_COMMON_IDCT (inp 0) (inp 1) (inp 2) (inp 3) (inp 4) (inp 5) (inp 6) (inp 7)
            8).tmp13
          (RvvInt.DO_COMMON_IDCT (inp 0) (inp 1) (inp 2) (inp 3) (inp 4) (inp 5) (inp 6) (inp 7)
            8).tmp0 8 j) ∧
      (AndesInt.islow_diffs (AndesInt.islow_butterfly (inp 0) (inp 1) (inp 2) (inp 3) (inp 4)
          (inp 5) (inp 6) (inp 7)) j =
        vsub_vv_i32
          (RvvInt.DO_COMMON_IDCT (inp 0) (inp 1) (inp 2) (inp 3) (inp 4) (inp 5) (inp 6) (inp 7)
            8).tmp10
          (RvvInt.DO_COMMON_IDCT (inp 0) (inp 1) (inp 2) (inp 3) (inp 4) (inp 5) (inp 6) (inp 7)
            8).tmp3 8 j ∧
      AndesInt.islow_diffs (AndesInt.islow_butterfly (inp 0) (inp 1) (inp 2) (inp 3) (inp 4)
          (inp 5) (inp 6) (inp 7)) (j + 8) =
        vsub_vv_i32
          (RvvInt.DO_COMMON_IDCT (inp 0) (inp 1) (inp 2) (inp 3) (inp 4) (inp 5) (inp 6) (inp 7)
            8).tmp11
          (RvvInt.DO_COMMON_IDCT (inp 0) (inp 1) (inp 2) (inp 3) (inp 4) (inp 5) (inp 6) (inp 7)
            8).tmp2 8 j ∧
      AndesInt.islow_diffs (AndesInt.islow_butterfly (inp 0) (inp 1) (inp 2) (inp 3) (inp 4)
          (inp 5) (inp 6) (inp 7)) (j + 16) =
        vsub_vv_i32
          (RvvInt.DO_COMMON_IDCT (inp 0) (inp 1) (inp 2) (inp 3) (inp 4) (inp 5) (inp 6) (inp 7)
            8).tmp12
          (RvvInt.DO_COMMON_IDCT (inp 0) (inp 1) (inp 2) (inp 3) (inp 4) (inp 5) (inp 6) (inp 7)
            8).tmp1 8 j ∧
      AndesInt.islow_diffs (AndesInt.islow_butterfly (inp 0) (inp 1) (inp 2) (inp 3) (inp 4)
          (inp 5) (inp 6) (inp 7)) (j + 24) =
        vsub_vv_i32
          (RvvInt.DO_COMMON_IDCT (inp 0) (inp 1) (inp 2) (inp 3) (inp 4) (inp 5) (inp 6) (inp 7)
            8).tmp13
          (RvvInt.DO_COMMON_IDCT (inp 0) (inp 1) (inp 2) (inp 3) (inp 4) (inp 5) (inp 6) (inp 7)
            8).tmp0 8 j) := by
  intro j hj
  exact AndesInt.islow_presums_eq_common (inp 0) (inp 1) (inp 2) (inp 3) (inp 4) (inp 5) (inp 6)
    (inp 7) hj (h 0 (by omega) j hj) (h 1 (by omega) j hj) (h 2 (by omega) j hj)
    (h 3 (by omega) j hj) (h 4 (by omega) j hj) (h 5 (by omega) j hj) (h 6 (by omega) j hj)
    (h 7 (by omega) j hj)

/-- Witness: the theorem above on the inputs `in_k[j] = 1000 k + j`, at lane 3:
the first sum and the last difference. -/
theorem C35_combined_constants_same_butterfly_witness :
    AndesInt.islow_sums (AndesInt.islow_butterfly (ramp_inputs 0) (ramp_inputs 1)
        (ramp_inputs 2) (ramp_inputs 3) (ramp_inputs 4) (ramp_inputs 5) (ramp_inputs 6)
        (ramp_inputs 7)) 3 =
      vadd_vv_i32
        (RvvInt.DO_COMMON_IDCT (ramp_inputs 0) (ramp_inputs 1) (ramp_inputs 2) (ramp_inputs 3)
          (ramp_inputs 4) (ramp_inputs 5) (ramp_inputs 6) (ramp_inputs 7) 8).tmp10
        (RvvInt.DO_COMMON_IDCT (ramp_inputs 0) (ramp_inputs 1) (ramp_inputs 2) (ramp_inputs 3)
          (ramp_inputs 4) (ramp_inputs 5) (ramp_inputs 6) (ramp_inputs 7) 8).tmp3 8 3 ∧
    AndesInt.islow_diffs (AndesInt.islow_butterfly (ramp_inputs 0) (ramp_inputs 1)
        (ramp_inputs 2) (ramp_inputs 3) (ramp_inputs 4) (ramp_inputs 5) (ramp_inputs 6)
        (ramp_inputs 7)) (3 + 24) =
      vsub_vv_i32
        (RvvInt.DO_COMMON_IDCT (ramp_inputs 0) (ramp_inputs 1) (ramp_inputs 2) (ramp_inputs 3)
          (ramp_inputs 4) (ramp_inputs 5) (ramp_inputs 6) (ramp_inputs 7) 8).tmp13
        (RvvInt.DO_COMMON_IDCT (ramp_inputs 0) (ramp_inputs 1) (ramp_inputs 2) (ramp_inputs 3)
          (ramp_inputs 4) (ramp_inputs 5) (ramp_inputs 6) (ramp_inputs 7) 8).tmp0 8 3 :=
  ⟨(C35_combined_constants_same_butterfly ramp_inputs (by decide) 3 (by decide)).1.1,
    (C35_combined_constants_same_butterfly ramp_inputs (by decide) 3 (by decide)).2.2.2.2⟩

/-! ## DC-only blocks through the three kernels of the accurate family -/

/-- The shifted DC product of the kernels is the 16-bit wrap of
`4 * DC * quant`. -/
theorem wrap16_dc_shift (a b : Int) : wrap16 (wrap16 (a * b) * 4) = wrap16 (4 * a * b) := by
  rw [mul_assoc]
  generalize a * b = d
  unfold wrap16
  omega

/-- The rounded descales of the three second passes on a DC-only row agree:
`(w << 13)` by 18, `(w << 14)` by 19 and `(w << 15)` by 20 are all
`floor((w + 16) / 32)`. -/
theorem dc_descales (w : Int) :
    Ref.DESCALE (w * 8192) 18 = (w + 16) / 32 ∧ Ref.DESCALE (w * 2 ^ 14) 19 = (w + 16) / 32 ∧
    Ref.DESCALE (w * 2 ^ 15) 20 = (w + 16) / 32 := by
  unfold Ref.DESCALE
  simp only [Nat.reduceSub, Int.reducePow]
  refine ⟨?_, ?_, ?_⟩ <;> omega

/-- Level shift and clamp, written with `max` and `min`. -/
theorem range_limit_eq_clamp (v : Int) : Ref.range_limit v = max 0 (min 255 (v + 128)) := by
  unfold Ref.range_limit
  omega

/-- The 4-point butterfly on a DC-only input: every output is `x0 << 14`. -/
theorem idct_4x4_1d_dc (x : Int) {c : Nat} (hc : c < 4) :
    Ref.idct_4x4_1d (fun k => if k = 0 then x else 0) c = x * 2 ^ 14 := by
  interval_cases c <;> simp [Ref.idct_4x4_1d]

/-- The 2-point butterfly on a DC-only input: every output is `x0 << 15`. -/
theorem idct_2x2_1d_dc (x : Int) {c : Nat} (hc : c < 2) :
    Ref.idct_2x2_1d (fun k => if k = 0 then x else 0) c = x * 2 ^ 15 := by
  interval_cases c <;> simp [Ref.idct_2x2_1d]

namespace AndesInt

/-- DC-only blocks through the Andes accurate kernel, for every DC coefficient
and quantizer: all 64 samples are the level-shifted, clamped descale of the
16-bit shifted DC product. -/
theorem andes_islow_dc_only_wrapped (q coef : Nat → Int)
    (hdc : ∀ i, 1 ≤ i → i < 64 → coef i = 0) {r c : Nat} (hr : r < 8) (hc : c < 8) :
    jsimd_idct_islow_rvv Vxrm.rnu q coef r c =
      Ref.range_limit ((wrap16 (wrap16 (coef 0 * q 0) * 4) + 16) / 32) := by
  have hz : ac_rows_zero coef := fun r' c' h1 h8 hc' => hdc _ (by omega) (by omega)
  have hW := wrap16_in16 (wrap16 (coef 0 * q 0) * 4)
  have hlane : ∀ k < 8, islow_cols_all q coef (k + 8 * order8 r) =
      (fun k => if k = 0 then wrap16 (wrap16 (coef 0 * q 0) * 4) else 0) k := by
    intro k hk
    rw [islow_cols_all_zero_ac_lane q coef hz (order8_lt hr) hk]
    by_cases h0 : k = 0
    · subst h0
      simp only [↓reduceIte]
    · rw [hdc k (by omega) (by omega)]
      simp only [h0, ↓reduceIte, zero_mul]
      rfl
  generalize wrap16 (wrap16 (coef 0 * q 0) * 4) = w at hW hlane ⊢
  unfold in16 at hW
  unfold jsimd_idct_islow_rvv
  rw [islow_pass2_sample _ hr hc]
  · rw [idct_islow_1d_congr hlane c, idct_islow_1d_dc _ hc, (dc_descales w).1]
  · intro k hk
    rw [hlane k hk]
    unfold in16
    by_cases h0 : k = 0
    · simp only [h0, ↓reduceIte]; omega
    · simp only [h0, ↓reduceIte]; omega
  · unfold islow_sums_fit16 in16
    simp only [hlane 0 (by omega), hlane 4 (by omega), hlane 7 (by omega), hlane 3 (by omega),
      hlane 5 (by omega), hlane 1 (by omega)]
    simp only [↓reduceIte, OfNat.ofNat_ne_zero, OfNat.zero_ne_ofNat]
    omega

end AndesInt

namespace AndesRed

/-- DC-only blocks through the 4x4 kernel, for every DC coefficient and
quantizer. -/
theorem idct_4x4_dc_only_wrapped (q coef : Nat → Int)
    (hdc : ∀ i, 1 ≤ i → i < 64 → coef i = 0) {r c : Nat} (hr : r < 4) (hc : c < 4) :
    jsimd_idct_4x4_rvv Vxrm.rnu q coef r c =
      Ref.range_limit ((wrap16 (wrap16 (coef 0 * q 0) * 4) + 16) / 32) := by
  have hz : ac_rows_zero_4x4 coef := fun r' c' h1 h8 _ hc' => hdc _ (by omega) (by omega)
  have hW := wrap16_in16 (wrap16 (coef 0 * q 0) * 4)
  have ho : order4 r < 4 := by unfold order4; split_ifs <;> omega
  have hlane : ∀ k < 8, used_4x4 k → idct_4x4_rows q coef (k + 8 * order4 r) =
      (fun k => if k = 0 then wrap16 (wrap16 (coef 0 * q 0) * 4) else 0) k := by
    intro k hk _
    rw [idct_4x4_ac_bitmap_of_zero q coef hz, idct_4x4_rows_shortcut_lane _ ho hk]
    simp only [vmul_vv_i16_lane _ _ _ hk, vle16_v_i16_lane _ _ _ hk, DCTSIZE, Nat.zero_mul,
      Nat.zero_add]
    by_cases h0 : k = 0
    · subst h0
      simp only [↓reduceIte]
    · rw [hdc k (by omega) (by omega)]
      simp only [h0, ↓reduceIte, zero_mul]
      rfl
  generalize wrap16 (wrap16 (coef 0 * q 0) * 4) = w at hW hlane ⊢
  unfold in16 at hW
  unfold jsimd_idct_4x4_rvv
  rw [idct_4x4_pass2_sample _ hr hc]
  · rw [idct_4x4_1d_congr hlane c, idct_4x4_1d_dc _ hc, (dc_descales w).2.1]
  · rw [idct_4x4_1d_congr hlane c, idct_4x4_1d_dc _ hc]
    unfold in32
    omega

/-- Lane `j` of both blocks of the pass-1 vector of the 2x2 kernel on a block
whose rows 1, 3, 5, 7 are zero at column `j`: the 16-bit product of row 0,
shifted left by 2. -/
theorem idct_2x2_rows_zero_ac_lane (q coef : Nat → Int) {b j : Nat} (hb : b < 2) (hj : j < 8)
    (z1 : coef (8 + j) = 0) (z3 : coef (24 + j) = 0) (z5 : coef (40 + j) = 0)
    (z7 : coef (56 + j) = 0) :
    idct_2x2_rows q coef (j + 8 * b) = wrap16 (wrap16 (coef j * q j) * 4) := by
  interval_cases b <;>
  simp (disch := omega) only [idct_2x2_rows, vslideup_vx_lo, vslideup_vx_hi, vlmul_ext_lane,
    vnsra_wx_i16_lane, vadd_vx_i32_lane, vadd_vv_i32_lane, vsub_vv_i32_lane, vwmacc_vx_i32_lane,
    vwmul_vx_i32_lane, vsll_vx_i32_lane, vmul_vv_i16_lane, vle16_v_i16_lane,
    Nat.reduceSubDiff, Nat.add_sub_cancel, Nat.reduceMul, Nat.add_zero, Nat.zero_add, DCTSIZE,
    CONST_BITS, PASS1_BITS, Nat.reduceSub, Nat.reduceAdd, Nat.reduceMod,
    z1, z3, z5, z7, zero_mul, mul_zero, wrap16_zero, add_zero, sub_zero,
    wrap32_add_left, wrap32_add_right, wrap32_sub_left, wrap32_sub_right, Int.reducePow] <;>
  (have hd := wrap16_in16 (coef j * q j)
   generalize wrap16 (coef j * q j) = d at hd ⊢
   unfold in16 at hd
   unfold wrap16 wrap32
   omega)

/-- DC-only blocks through the 2x2 kernel, for every DC coefficient and
quantizer. -/
theorem idct_2x2_dc_only_wrapped (q coef : Nat → Int)
    (hdc : ∀ i, 1 ≤ i → i < 64 → coef i = 0) {r c : Nat} (hr : r < 2) (hc : c < 2) :
    jsimd_idct_2x2_rvv Vxrm.rnu q coef r c =
      Ref.range_limit ((wrap16 (wrap16 (coef 0 * q 0) * 4) + 16) / 32) := by
  have hW := wrap16_in16 (wrap16 (coef 0 * q 0) * 4)
  have hlane : ∀ k < 8, used_2x2 k → idct_2x2_rows q coef (k + 8 * r) =
      (fun k => if k = 0 then wrap16 (wrap16 (coef 0 * q 0) * 4) else 0) k := by
    intro k hk _
    rw [idct_2x2_rows_zero_ac_lane q coef hr hk (hdc _ (by omega) (by omega))
      (hdc _ (by omega) (by omega)) (hdc _ (by omega) (by omega)) (hdc _ (by omega) (by omega))]
    by_cases h0 : k = 0
    · subst h0
      simp only [↓reduceIte]
    · rw [hdc k (by omega) (by omega)]
      simp only [h0, ↓reduceIte, zero_mul]
      rfl
  generalize wrap16 (wrap16 (coef 0 * q 0) * 4) = w at hW hlane ⊢
  unfold in16 at hW
  unfold jsimd_idct_2x2_rvv
  rw [idct_2x2_pass2_sample _ hr hc]
  · rw [idct_2x2_1d_congr hlane c, idct_2x2_1d_dc _ hc, (dc_descales w).2.2]
  · rw [idct_2x2_1d_congr hlane c, idct_2x2_1d_dc _ hc]
    unfold in32
    omega

end AndesRed


/-- C36. DC-only blocks agree across the three kernels of the accurate family
(round-to-nearest-up): for every block whose only non-zero coefficient is DC
and every DC quantizer, with `w` the 16-bit wrap of `4 * DC * quant`, every
sample of the 8x8 output of the Andes `jsimd_idct_islow_rvv`, of the 4x4 output
of `jsimd_idct_4x4_rvv` and of the 2x2 output of `jsimd_idct_2x2_rvv` is
`clamp(floor((w + 16) / 32) + 128, 0, 255)`; no bound on the product is
assumed. -/
theorem C36_dc_only_blocks_agree (dct_table coef_block : Nat → Int)
    (hdc : ∀ i, 1 ≤ i → i < 64 → coef_block i = 0) :
    (∀ r, r < 8 → ∀ c, c < 8 →
      AndesInt.jsimd_idct_islow_rvv Vxrm.rnu dct_table coef_block r c =
        max 0 (min 255 ((wrap16 (4 * coef_block 0 * dct_table 0) + 16) / 32 + 128))) ∧
    (∀ r, r < 4 → ∀ c, c < 4 →
      AndesRed.jsimd_idct_4x4_rvv Vxrm.rnu dct_table coef_block r c =
        max 0 (min 255 ((wrap16 (4 * coef_block 0 * dct_table 0) + 16) / 32 + 128))) ∧
    (∀ r, r < 2 → ∀ c, c < 2 →
      AndesRed.jsimd_idct_2x2_rvv Vxrm.rnu dct_table coef_block r c =
        max 0 (min 255 ((wrap16 (4 * coef_block 0 * dct_table 0) + 16) / 32 + 128))) := by
  refine ⟨fun r hr c hc => ?_, fun r hr c hc => ?_, fun r hr c hc => ?_⟩
  · rw [AndesInt.andes_islow_dc_only_wrapped dct_table coef_block hdc hr hc,
      range_limit_eq_clamp, wrap16_dc_shift]
  · rw [AndesRed.idct_4x4_dc_only_wrapped dct_table coef_block hdc hr hc,
      range_limit_eq_clamp, wrap16_dc_shift]
  · rw [AndesRed.idct_2x2_dc_only_wrapped dct_table coef_block hdc hr hc,
      range_limit_eq_clamp, wrap16_dc_shift]

/-- Witness: the theorem above on the DC term 1000 with quantizer 33, whose
product 33000 does not fit 16 bits: `w = 928` and every sample is 157. -/
theorem C36_dc_only_blocks_agree_witness :
    (∀ i, 1 ≤ i → i < 64 → dc_block_1000 i = 0) ∧
    wrap16 (4 * dc_block_1000 0 * flat_table_33 0) = 928 ∧
    max (0 : Int) (min 255 ((wrap16 (4 * dc_block_1000 0 * flat_table_33 0) + 16) / 32 + 128)) =
      157 ∧
    (∀ r, r < 8 → ∀ c, c < 8 →
      AndesInt.jsimd_idct_islow_rvv Vxrm.rnu flat_table_33 dc_block_1000 r c =
        max 0 (min 255 ((wrap16 (4 * dc_block_1000 0 * flat_table_33 0) + 16) / 32 + 128))) ∧
    (∀ r, r < 4 → ∀ c, c < 4 →
      AndesRed.jsimd_idct_4x4_rvv Vxrm.rnu flat_table_33 dc_block_1000 r c =
        max 0 (min 255 ((wrap16 (4 * dc_block_1000 0 * flat_table_33 0) + 16) / 32 + 128))) ∧
    (∀ r, r < 2 → ∀ c, c < 2 →
      AndesRed.jsimd_idct_2x2_rvv Vxrm.rnu flat_table_33 dc_block_1000 r c =
        max 0 (min 255 ((wrap16 (4 * dc_block_1000 0 * flat_table_33 0) + 16) / 32 + 128))) :=
  ⟨by intro i h1 h2; simp [dc_block_1000]; omega, by decide, by decide,
    C36_dc_only_blocks_agree flat_table_33 dc_block_1000
      (by intro i h1 h2; simp [dc_block_1000]; omega)⟩

/-! ## Andes accurate kernel: no overflow in the first pass on nominal input -/

namespace AndesInt

/-- The eight results of the butterfly are entries 6..9 and 22..25 of its
trace. -/
theorem islow_butterfly_of_trace (in0 in1 in2 in3 in4 in5 in6 in7 : Vec) :
    islow_butterfly in0 in1 in2 in3 in4 in5 in6 in7 =
      { tmp10 := (islow_butterfly_trace in0 in1 in2 in3 in4 in5 in6 in7).getD 6 (fun _ => 0),
        tmp13 := (islow_butterfly_trace in0 in1 in2 in3 in4 in5 in6 in7).getD 7 (fun _ => 0),
        tmp11 := (islow_butterfly_trace in0 in1 in2 in3 in4 in5 in6 in7).getD 8 (fun _ => 0),
        tmp12 := (islow_butterfly_trace in0 in1 in2 in3 in4 in5 in6 in7).getD 9 (fun _ => 0),
        tmp0 := (islow_butterfly_trace in0 in1 in2 in3 in4 in5 in6 in7).getD 22 (fun _ => 0),
        tmp1 := (islow_butterfly_trace in0 in1 in2 in3 in4 in5 in6 in7).getD 23 (fun _ => 0),
        tmp2 := (islow_butterfly_trace in0 in1 in2 in3 in4 in5 in6 in7).getD 24 (fun _ => 0),
        tmp3 := (islow_butterfly_trace in0 in1 in2 in3 in4 in5 in6 in7).getD 25 (fun _ => 0) } :=
  rfl

/-- The block of the regular first pass is the staged first pass on the
dequantized rows. -/
theorem islow_cols_regular_by_stages (q coef : Nat → Int) :
    islow_cols_regular q coef =
      vslideup_vx
        (vlmul_ext (islow_pass1_descale (islow_sums (islow_butterfly (islow_dequant q coef 0)
          (islow_dequant q coef 1) (islow_dequant q coef 2) (islow_dequant q coef 3)
          (islow_dequant q coef 4) (islow_dequant q coef 5) (islow_dequant q coef 6)
          (islow_dequant q coef 7)))))
        (vlmul_ext (islow_pass1_descale (islow_diffs (islow_butterfly (islow_dequant q coef 0)
          (islow_dequant q coef 1) (islow_dequant q coef 2) (islow_dequant q coef 3)
          (islow_dequant q coef 4) (islow_dequant q coef 5) (islow_dequant q coef 6)
          (islow_dequant q coef 7))))) 32 64 :=
  rfl

/-- On a lane whose eight inputs lie in `[-1024, 1024]`, every 16-bit sum and
every 32-bit value of the butterfly is the exact integer. -/
theorem islow_butterfly_trace_exact (inp : Nat → Vec) {j : Nat} (hj : j < 8)
    (h : ∀ k, k < 8 → -1024 ≤ inp k j ∧ inp k j ≤ 1024) :
    (islow_butterfly_sums16 (inp 0) (inp 1) (inp 3) (inp 4) (inp 5) (inp 7)).map (fun v => v j) =
      [inp 0 j + inp 4 j, inp 0 j - inp 4 j, inp 7 j + inp 3 j, inp 5 j + inp 1 j] ∧
    (islow_butterfly_trace (inp 0) (inp 1) (inp 2) (inp 3) (inp 4) (inp 5) (inp 6)
        (inp 7)).map (fun v => v j) = islow_butterfly_exact (fun k => inp k j) := by
  have h0 := h 0 (by omega)
  have h1 := h 1 (by omega)
  have h2 := h 2 (by omega)
  have h3 := h 3 (by omega)
  have h4 := h 4 (by omega)
  have h5 := h 5 (by omega)
  have h6 := h 6 (by omega)
  have h7 := h 7 (by omega)
  have s1 : in16 (inp 0 j + inp 4 j) := by unfold in16; omega
  have s2 : in16 (inp 0 j - inp 4 j) := by unfold in16; omega
  have s3 : in16 (inp 7 j + inp 3 j) := by unfold in16; omega
  have s4 : in16 (inp 5 j + inp 1 j) := by unfold in16; omega
  simp (disch := omega) only [islow_butterfly_sums16, islow_butterfly_trace,
    islow_butterfly_exact, List.map, vadd_vv_i32, vsub_vv_i32, vwmacc_vx_i32, vwmul_vx_i32,
    vadd_vv_i16, vsub_vv_i16, lane_of_lt,
    wrap16_of_in16 s1, wrap16_of_in16 s2, wrap16_of_in16 s3, wrap16_of_in16 s4,
    wrap32_add_left, wrap32_add_right, wrap32_sub_left, wrap32_sub_right,
    idct_islow_consts, F_0_298, F_0_390, F_0_541, F_0_765, F_0_899, F_1_175, F_1_501, F_1_847,
    F_1_961, F_2_053, F_2_562, F_3_072, F_1_175_MINUS_1_961, F_1_175_MINUS_0_390,
    F_0_541_MINUS_1_847, F_3_072_MINUS_2_562, F_0_298_MINUS_0_899, F_1_501_MINUS_0_899,
    F_2_053_MINUS_2_562, F_0_541_PLUS_0_765, Int.reducePow, Int.reduceAdd, Int.reduceSub,
    Int.reduceNeg, List.cons.injEq, and_true, true_and]
  split_ands <;> (apply wrap32_of_in32; unfold in32; omega)

/-- The exact values of the butterfly depend on the inputs 0..7 only. -/
theorem islow_butterfly_exact_congr {f g : Nat → Int} (h : ∀ k < 8, f k = g k) :
    islow_butterfly_exact f = islow_butterfly_exact g := by
  unfold islow_butterfly_exact
  rw [h 0 (by omega), h 1 (by omega), h 2 (by omega), h 3 (by omega), h 4 (by omega),
    h 5 (by omega), h 6 (by omega), h 7 (by omega)]

/-- On inputs in `[-1024, 1024]` every exact value of the butterfly is a signed
32-bit integer (below `2^26` in absolute value). -/
theorem islow_butterfly_exact_in32 (x : Nat → Int) (h : ∀ k, k < 8 → -1024 ≤ x k ∧ x k ≤ 1024) :
    ∀ v, v ∈ islow_butterfly_exact x → in32 v ∧ -67108864 ≤ v ∧ v ≤ 67108864 := by
  have h0 := h 0 (by omega)
  have h1 := h 1 (by omega)
  have h2 := h 2 (by omega)
  have h3 := h 3 (by omega)
  have h4 := h 4 (by omega)
  have h5 := h 5 (by omega)
  have h6 := h 6 (by omega)
  have h7 := h 7 (by omega)
  simp only [islow_butterfly_exact, List.forall_mem_cons, List.not_mem_nil, false_implies,
    implies_true, and_true, in32,
    idct_islow_consts, F_0_298, F_0_390, F_0_541, F_0_765, F_0_899, F_1_175, F_1_501, F_1_847,
    F_1_961, F_2_053, F_2_562, F_3_072, F_1_175_MINUS_1_961, F_1_175_MINUS_0_390,
    F_0_541_MINUS_1_847, F_3_072_MINUS_2_562, F_0_298_MINUS_0_899, F_1_501_MINUS_0_899,
    F_2_053_MINUS_2_562, F_0_541_PLUS_0_765, Int.reducePow, Int.reduceAdd, Int.reduceSub,
    Int.reduceNeg]
  generalize x 0 = x0 at *
  generalize x 1 = x1 at *
  generalize x 2 = x2 at *
  generalize x 3 = x3 at *
  generalize x 4 = x4 at *
  generalize x 5 = x5 at *
  generalize x 6 = x6 at *
  generalize x 7 = x7 at *
  split_ands <;> omega

/-- On inputs in `[-1024, 1024]` the eight outputs of the exact one-dimensional
transform, with and without the rounding term, are signed 32-bit integers, and
their descale by 11 is a signed 16-bit integer. -/
theorem idct_islow_1d_nominal (x : Nat → Int) (h : ∀ k, k < 8 → -1024 ≤ x k ∧ x k ≤ 1024)
    {k : Nat} (hk : k < 8) :
    in32 (Ref.idct_islow_1d x k) ∧ in32 (Ref.idct_islow_1d x k + 2 ^ 10) ∧
      in16 (Ref.DESCALE (Ref.idct_islow_1d x k) 11) := by
  have h0 := h 0 (by omega)
  have h1 := h 1 (by omega)
  have h2 := h 2 (by omega)
  have h3 := h 3 (by omega)
  have h4 := h 4 (by omega)
  have h5 := h 5 (by omega)
  have h6 := h 6 (by omega)
  have h7 := h 7 (by omega)
  interval_cases k <;>
  simp only [Ref.idct_islow_1d, Ref.DESCALE, in32, in16, Nat.reduceSub, Int.reducePow] <;>
  (refine ⟨⟨?_, ?_⟩, ⟨?_, ?_⟩, ⟨?_, ?_⟩⟩ <;> omega)

/-- On a lane whose eight inputs lie in `[-1024, 1024]`, the sums and the
differences of the first pass, before and after the rounding term is added,
are the exact outputs of the one-dimensional transform. -/
theorem islow_presums_exact (inp : Nat → Vec) {j : Nat} (hj : j < 8)
    (h : ∀ k, k < 8 → -1024 ≤ inp k j ∧ inp k j ≤ 1024) {b : Nat} (hb : b < 4) :
    islow_sums (islow_butterfly (inp 0) (inp 1) (inp 2) (inp 3) (inp 4) (inp 5) (inp 6)
        (inp 7)) (j + 8 * b) = Ref.idct_islow_1d (fun k => inp k j) b ∧
    vadd_vx_i32 (islow_sums (islow_butterfly (inp 0) (inp 1) (inp 2) (inp 3) (inp 4) (inp 5)
        (inp 6) (inp 7))) (2 ^ (DESCALE_P1 - 1)) 32 (j + 8 * b) =
      Ref.idct_islow_1d (fun k => inp k j) b + 2 ^ 10 ∧
    islow_diffs (islow_butterfly (inp 0) (inp 1) (inp 2) (inp 3) (inp 4) (inp 5) (inp 6)
        (inp 7)) (j + 8 * b) = Ref.idct_islow_1d (fun k => inp k j) (7 - b) ∧
    vadd_vx_i32 (islow_diffs (islow_butterfly (inp 0) (inp 1) (inp 2) (inp 3) (inp 4) (inp 5)
        (inp 6) (inp 7))) (2 ^ (DESCALE_P1 - 1)) 32 (j + 8 * b) =
      Ref.idct_islow_1d (fun k => inp k j) (7 - b) + 2 ^ 10 := by
  have h0 := h 0 (by omega)
  have h1 := h 1 (by omega)
  have h2 := h 2 (by omega)
  have h3 := h 3 (by omega)
  have h4 := h 4 (by omega)
  have h5 := h 5 (by omega)
  have h6 := h 6 (by omega)
  have h7 := h 7 (by omega)
  have s1 : in16 (inp 0 j + inp 4 j) := by unfold in16; omega
  have s2 : in16 (inp 0 j - inp 4 j) := by unfold in16; omega
  have s3 : in16 (inp 7 j + inp 3 j) := by unfold in16; omega
  have s4 : in16 (inp 5 j + inp 1 j) := by unfold in16; omega
  interval_cases b <;>
  simp (disch := omega) only [islow_sums, islow_diffs, islow_tmps_10_11_12_13,
    islow_tmps_3_2_1_0, islow_butterfly, vslideup_vx_lo, vslideup_vx_hi,
    vlmul_ext, vadd_vx_i32, vadd_vv_i32, vsub_vv_i32, vwmacc_vx_i32, vwmul_vx_i32, vadd_vv_i16,
    vsub_vv_i16, lane_of_lt, Nat.reduceSubDiff, Nat.add_sub_cancel, Nat.reduceMul, Nat.reduceMod,
    Nat.add_zero, Nat.mul_zero, Nat.reduceLT, Nat.reduceSub, ↓reduceIte,
    DESCALE_P1, CONST_BITS, PASS1_BITS,
    wrap16_of_in16 s1, wrap16_of_in16 s2, wrap16_of_in16 s3, wrap16_of_in16 s4,
    wrap32_add_left, wrap32_add_right, wrap32_sub_left, wrap32_sub_right,
    Ref.idct_islow_1d,
    idct_islow_consts, F_0_298, F_0_390, F_0_541, F_0_765, F_0_899, F_1_175, F_1_501, F_1_847,
    F_1_961, F_2_053, F_2_562, F_3_072, F_1_175_MINUS_1_961, F_1_175_MINUS_0_390,
    F_0_541_MINUS_1_847, F_3_072_MINUS_2_562, F_0_298_MINUS_0_899, F_1_501_MINUS_0_899,
    F_2_053_MINUS_2_562, F_0_541_PLUS_0_765, Int.reducePow, Int.reduceAdd, Int.reduceSub,
    Int.reduceNeg] <;>
  (refine ⟨?_, ?_, ?_, ?_⟩ <;> (rw [wrap32_of_in32]; ring; unfold in32; omega))

/-- Lane `j` of a dequantized row is the 16-bit product. -/
theorem islow_dequant_lane (q coef : Nat → Int) (k : Nat) {j : Nat} (hj : j < 8) :
    islow_dequant q coef k j = wrap16 (Ref.dequant q coef k j) := by
  have e : k * 8 + j = 8 * k + j := by omega
  simp only [islow_dequant, vmul_vv_i16_lane _ _ _ hj, vle16_v_i16_lane _ _ _ hj, DCTSIZE,
    Ref.dequant, e]

end AndesInt

/-- C39. Pass-1 narrowing is lossless on nominal input: when every
dequantized coefficient `coef * quant` has absolute value at most 1024, then in
every column `j` of `jsimd_idct_islow_pass1_regular` (Andes) the 16-bit products
are the exact products; the four 16-bit sums are the exact sums; every 32-bit
value of the butterfly equals its exact integer counterpart, which fits 32
bits; the sums and differences of the final stage, before and after the
rounding term `2^10` is added, are the exact outputs of the one-dimensional
transform; and every rounded descaled value `(x + 2^10) >> 11` lies in
`[-32768, 32767]`, so the narrowed value stored in the block is that value. -/
theorem C39_pass1_narrowing_lossless (dct_table coef_block : Nat → Int)
    (h : ∀ r, r < 8 → ∀ c, c < 8 →
      -1024 ≤ Ref.dequant dct_table coef_block r c ∧ Ref.dequant dct_table coef_block r c ≤ 1024) :
    AndesInt.islow_cols_regular dct_table coef_block =
      vslideup_vx
        (vlmul_ext (AndesInt.islow_pass1_descale (AndesInt.islow_sums (AndesInt.islow_butterfly
          (AndesInt.islow_dequant dct_table coef_block 0)
          (AndesInt.islow_dequant dct_table coef_block 1)
          (AndesInt.islow_dequant dct_table coef_block 2)
          (AndesInt.islow_dequant dct_table coef_block 3)
          (AndesInt.islow_dequant dct_table coef_block 4)
          (AndesInt.islow_dequant dct_table coef_block 5)
          (AndesInt.islow_dequant dct_table coef_block 6)
          (AndesInt.islow_dequant dct_table coef_block 7)))))
        (vlmul_ext (AndesInt.islow_pass1_descale (AndesInt.islow_diffs (AndesInt.islow_butterfly
          (AndesInt.islow_dequant dct_table coef_block 0)
          (AndesInt.islow_dequant dct_table coef_block 1)
          (AndesInt.islow_dequant dct_table coef_block 2)
          (AndesInt.islow_dequant dct_table coef_block 3)
          (AndesInt.islow_dequant dct_table coef_block 4)
          (AndesInt.islow_dequant dct_table coef_block 5)
          (AndesInt.islow_dequant dct_table coef_block 6)
          (AndesInt.islow_dequant dct_table coef_block 7))))) 32 64 ∧
    ∀ j, j < 8 →
      (∀ k, k < 8 →
        AndesInt.islow_dequant dct_table coef_block k j = Ref.dequant dct_table coef_block k j) ∧
      ((AndesInt.islow_butterfly_sums16 (AndesInt.islow_dequant dct_table coef_block 0)
          (AndesInt.islow_dequant dct_table coef_block 1)
          (AndesInt.islow_dequant dct_table coef_block 3)
          (AndesInt.islow_dequant dct_table coef_block 4)
          (AndesInt.islow_dequant dct_table coef_block 5)
          (AndesInt.islow_dequant dct_table coef_block 7)).map (fun v => v j) =
        [Ref.dequant dct_table coef_block 0 j + Ref.dequant dct_table coef_block 4 j,
          Ref.dequant dct_table coef_block 0 j - Ref.dequant dct_table coef_block 4 j,
          Ref.dequant dct_table coef_block 7 j + Ref.dequant dct_table coef_block 3 j,
          Ref.dequant dct_table coef_block 5 j + Ref.dequant dct_table coef_block 1 j]) ∧
      islow_sums_fit16 (fun k => Ref.dequant dct_table coef_block k j) ∧
      ((AndesInt.islow_butterfly_trace (AndesInt.islow_dequant dct_table coef_block 0)
          (AndesInt.islow_dequant dct_table coef_block 1)
          (AndesInt.islow_dequant dct_table coef_block 2)
          (AndesInt.islow_dequant dct_table coef_block 3)
          (AndesInt.islow_dequant dct_table coef_block 4)
          (AndesInt.islow_dequant dct_table coef_block 5)
          (AndesInt.islow_dequant dct_table coef_block 6)
          (AndesInt.islow_dequant dct_table coef_block 7)).map (fun v => v j) =
        AndesInt.islow_butterfly_exact (fun k => Ref.dequant dct_table coef_block k j)) ∧
      (∀ v, v ∈ AndesInt.islow_butterfly_exact (fun k => Ref.dequant dct_table coef_block k j) →
        in32 v) ∧
      (∀ b, b < 4 →
        AndesInt.islow_sums (AndesInt.islow_butterfly
            (AndesInt.islow_dequant dct_table coef_block 0)
            (AndesInt.islow_dequant dct_table coef_block 1)
            (AndesInt.islow_dequant dct_table coef_block 2)
            (AndesInt.islow_dequant dct_table coef_block 3)
            (AndesInt.islow_dequant dct_table coef_block 4)
            (AndesInt.islow_dequant dct_table coef_block 5)
            (AndesInt.islow_dequant dct_table coef_block 6)
            (AndesInt.islow_dequant dct_table coef_block 7)) (j + 8 * b) =
          Ref.idct_islow_1d (fun k => Ref.dequant dct_table coef_block k j) b ∧
        vadd_vx_i32 (AndesInt.islow_sums (AndesInt.islow_butterfly
            (AndesInt.islow_dequant dct_table coef_block 0)
            (AndesInt.islow_dequant dct_table coef_block 1)
            (AndesInt.islow_dequant dct_table coef_block 2)
            (AndesInt.islow_dequant dct_table coef_block 3)
            (AndesInt.islow_dequant dct_table coef_block 4)
            (AndesInt.islow_dequant dct_table coef_block 5)
            (AndesInt.islow_dequant dct_table coef_block 6)
            (AndesInt.islow_dequant dct_table coef_block 7)))
            (2 ^ (AndesInt.DESCALE_P1 - 1)) 32 (j + 8 * b) =
          Ref.idct_islow_1d (fun k => Ref.dequant dct_table coef_block k j) b + 2 ^ 10 ∧
        AndesInt.islow_diffs (AndesInt.islow_butterfly
            (AndesInt.islow_dequant dct_table coef_block 0)
            (AndesInt.islow_dequant dct_table coef_block 1)
            (AndesInt.islow_dequant dct_table coef_block 2)
            (AndesInt.islow_dequant dct_table coef_block 3)
            (AndesInt.islow_dequant dct_table coef_block 4)
            (AndesInt.islow_dequant dct_table coef_block 5)
            (AndesInt.islow_dequant dct_table coef_block 6)
            (AndesInt.islow_dequant dct_table coef_block 7)) (j + 8 * b) =
          Ref.idct_islow_1d (fun k => Ref.dequant dct_table coef_block k j) (7 - b) ∧
        vadd_vx_i32 (AndesInt.islow_diffs (AndesInt.islow_butterfly
            (AndesInt.islow_dequant dct_table coef_block 0)
            (AndesInt.islow_dequant dct_table coef_block 1)
            (AndesInt.islow_dequant dct_table coef_block 2)
            (AndesInt.islow_dequant dct_table coef_block 3)
            (AndesInt.islow_dequant dct_table coef_block 4)
            (AndesInt.islow_dequant dct_table coef_block 5)
            (AndesInt.islow_dequant dct_table coef_block 6)
            (AndesInt.islow_dequant dct_table coef_block 7)))
            (2 ^ (AndesInt.DESCALE_P1 - 1)) 32 (j + 8 * b) =
          Ref.idct_islow_1d (fun k => Ref.dequant dct_table coef_block k j) (7 - b) + 2 ^ 10) ∧
      (∀ k, k < 8 →
        in32 (Ref.idct_islow_1d (fun k => Ref.dequant dct_table coef_block k j) k) ∧
        in32 (Ref.idct_islow_1d (fun k => Ref.dequant dct_table coef_block k j) k + 2 ^ 10) ∧
        in16 ((Ref.idct_islow_1d (fun k => Ref.dequant dct_table coef_block k j) k + 2 ^ 10) /
          2 ^ 11)) ∧
      (∀ b, b < 8 →
        AndesInt.islow_cols_regular dct_table coef_block (j + 8 * b) =
          (Ref.idct_islow_1d (fun k => Ref.dequant dct_table coef_block k j)
            (AndesInt.order8 b) + 2 ^ 10) / 2 ^ 11) := by
  refine ⟨AndesInt.islow_cols_regular_by_stages dct_table coef_block, ?_⟩
  intro j hj
  have hx : ∀ k, k < 8 → -1024 ≤ (fun k => Ref.dequant dct_table coef_block k j) k ∧
      (fun k => Ref.dequant dct_table coef_block k j) k ≤ 1024 := fun k hk => h k hk j hj
  have hA : ∀ k, k < 8 →
      AndesInt.islow_dequant dct_table coef_block k j = Ref.dequant dct_table coef_block k j := by
    intro k hk
    rw [AndesInt.islow_dequant_lane _ _ _ hj]
    exact wrap16_of_in16 (by have := h k hk j hj; unfold in16; omega)
  have hD : ∀ k, k < 8 → -1024 ≤ AndesInt.islow_dequant dct_table coef_block k j ∧
      AndesInt.islow_dequant dct_table coef_block k j ≤ 1024 := by
    intro k hk
    rw [hA k hk]
    exact h k hk j hj
  obtain ⟨t1, t2⟩ := AndesInt.islow_butterfly_trace_exact
    (AndesInt.islow_dequant dct_table coef_block) hj hD
  have hsum : islow_sums_fit16 (fun k => Ref.dequant dct_table coef_block k j) := by
    have h0 := h 0 (by omega) j hj
    have h1 := h 1 (by omega) j hj
    have h3 := h 3 (by omega) j hj
    have h4 := h 4 (by omega) j hj
    have h5 := h 5 (by omega) j hj
    have h7 := h 7 (by omega) j hj
    unfold islow_sums_fit16 in16
    simp only []
    omega
  have hnom := fun k (hk : k < 8) => AndesInt.idct_islow_1d_nominal
    (fun k => Ref.dequant dct_table coef_block k j) hx hk
  have hcongr : ∀ c, Ref.idct_islow_1d (fun k => AndesInt.islow_dequant dct_table coef_block k j) c =
      Ref.idct_islow_1d (fun k => Ref.dequant dct_table coef_block k j) c :=
    fun c => idct_islow_1d_congr (fun k hk => hA k hk) c
  refine ⟨hA, ?_, hsum, ?_, ?_, ?_, ?_, ?_⟩
  · rw [t1, hA 0 (by omega), hA 1 (by omega), hA 3 (by omega), hA 4 (by omega), hA 5 (by omega),
      hA 7 (by omega)]
  · rw [t2]
    exact AndesInt.islow_butterfly_exact_congr (fun k hk => hA k hk)
  · intro v hv
    exact (AndesInt.islow_butterfly_exact_in32 _ hx v hv).1
  · intro b hb
    have hp := AndesInt.islow_presums_exact (AndesInt.islow_dequant dct_table coef_block) hj hD hb
    rw [hcongr, hcongr] at hp
    exact hp
  · intro k hk
    obtain ⟨n1, n2, n3⟩ := hnom k hk
    refine ⟨n1, n2, ?_⟩
    simpa only [Ref.DESCALE, Nat.reduceSub] using n3
  · intro b hb
    rw [AndesInt.islow_cols_regular_lane dct_table coef_block hb hj
      (fun r hr => by have := h r hr j hj; unfold in16; omega) hsum]
    have n3 := (hnom (AndesInt.order8 b) (AndesInt.order8_lt hb)).2.2
    rw [Ref.islow_workspace, wrap16_of_in16 n3]
    simp only [Ref.DESCALE, Nat.reduceSub]

/-- Witness: the theorem above on the block of alternating 64 and -64 with the
quantizer 16, where every dequantized coefficient is 1024 or -1024: in column 3
the first stored value is -30606 and no value of the butterfly leaves 32
bits. -/
theorem C39_pass1_narrowing_lossless_witness :
    (∀ r, r < 8 → ∀ c, c < 8 →
      -1024 ≤ Ref.dequant flat_table_16 alternating_block_64 r c ∧
        Ref.dequant flat_table_16 alternating_block_64 r c ≤ 1024) ∧
    (Ref.idct_islow_1d (fun k => Ref.dequant flat_table_16 alternating_block_64 k 3)
      (AndesInt.order8 0) + 2 ^ 10) / 2 ^ 11 = -30606 ∧
    AndesInt.islow_cols_regular flat_table_16 alternating_block_64 (3 + 8 * 0) =
      (Ref.idct_islow_1d (fun k => Ref.dequant flat_table_16 alternating_block_64 k 3)
        (AndesInt.order8 0) + 2 ^ 10) / 2 ^ 11 ∧
    (∀ v, v ∈ AndesInt.islow_butterfly_exact
      (fun k => Ref.dequant flat_table_16 alternating_block_64 k 3) → in32 v) :=
  ⟨by decide, by decide,
    ((C39_pass1_narrowing_lossless flat_table_16 alternating_block_64 (by decide)).2 3
      (by decide)).2.2.2.2.2.2.2 0 (by decide),
    ((C39_pass1_narrowing_lossless flat_table_16 alternating_block_64 (by decide)).2 3
      (by decide)).2.2.2.2.1⟩

end RVV
